import Mathlib

/-! Vacating a build area: `OVacateArea.cpp` / `OVacateArea.h`

A shallow embedding of the class `VacateArea` of Seven Kingdoms and of the two
static helpers `RingLength` and `RingIndexToXY`.

Conventions of the embedding:

* `int` values are `Int`; the values that occur (map coordinates, ring indices,
  footprint sizes) are far from the 32-bit limits, so signed overflow, which is
  undefined in C++, is not modelled.  `/` and `%` on `int` truncate toward zero
  and are `cdiv` / `cmod`.
* `loc_flag_t` (`unsigned int`) cell values are `Nat`.  The stages copy a cell
  through an `int` local (`int flag = _Area[..]; _Area[..] = flag;`); on 32-bit
  values that round trip is the identity and comparing the `int` with the
  unsigned enumerator `AREA_BLOCKED` compares the unsigned values, so the stages
  move the cell value itself.
* `_Area` is a block of memory: a map from the flat index `y * width + x` to the
  cell value.  A write replaces the value at one index.
* `misc.random`, `world`, `unit_array` and `Unit` are collaborators that live
  outside these two files; they are parameters of the embedding.
* `ERR(..)` logging and `assert(..)` (compiled out in release builds) have no
  effect on the state and are left out; a null pointer that the code would
  dereference is reported as a `Fault`.
* `unit->move_to(x, y)` is recorded as an event in the list of issued commands.
-/

set_option linter.unusedVariables false

namespace SevenKingdoms

/-! ## Integer helpers -/

/-- C++ `/` on `int`: the quotient truncated toward zero. -/
def cdiv (a b : Int) : Int := Int.tdiv a b

/-- C++ `%` on `int`: the remainder with the sign of the dividend. -/
def cmod (a b : Int) : Int := Int.tmod a b

/-- C++ conversion of `bool` to `int`. -/
def boolToInt (b : Bool) : Int := if b then 1 else 0

/-- The loop `for (int i = lo; i < lo + n; ++i) s = body(i, s);`. -/
def forLoop {σ : Type} (body : Int → σ → σ) : Nat → Int → σ → σ
  | 0, _, s => s
  | n + 1, i, s => forLoop body n (i + 1) (body i s)

/-- The loop `for (int i = lo; i < lo + n && guard(s); ++i) s = body(i, s);`. -/
def forLoopWhile {σ : Type} (guard : σ → Bool) (body : Int → σ → σ) : Nat → Int → σ → σ
  | 0, _, s => s
  | n + 1, i, s => if guard s then forLoopWhile guard body n (i + 1) (body i s) else s

/-! ## Collaborators -/

/-- The schematic buffer `_Area`, as memory: flat index to cell value. -/
abbrev Area := Int → Nat

/-- The assignment `_Area[k] = v`. -/
def Area.write (a : Area) (k : Int) (v : Nat) : Area := fun j => if j = k then v else a j

/-- Modelled from the spec: the random source behind `misc.random`, whose code is
not in these files ("Random source: `uniform_int(n) -> [0,n)`").  A source is the
stream of its raw draws. -/
abbrev RandSource := Nat → Nat

/-- Modelled from the spec: `misc.random(n)`, a value in `[0, n)`. -/
def RandSource.random (s : RandSource) (n : Int) : Int := (s 0 : Int) % n

/-- The random source after one draw. -/
def RandSource.next (s : RandSource) : RandSource := fun k => s (k + 1)

/-- The members of `Unit` that `OVacateArea.cpp` reads. -/
structure Unit where
  sprite_recno : Int
  nation_recno : Int
  mobile_type : Int
  cur_action : Int
  action_mode : Int
  action_mode2 : Int
  ai_unit : Int
  ai_action_id : Int
  cur_x_loc : Int
  cur_y_loc : Int
  go_x_loc : Int
  go_y_loc : Int
  next_x_loc : Int
  next_y_loc : Int
  deriving DecidableEq, Repr

/-- The map, the unit registry and the constants of `OWORLD.h` / `OUNIT.h` that
`OVacateArea.cpp` uses.  `is_accessible x y mobileType`, `has_unit x y mobileType`
and `unit_recno x y mobileType` are the queries on `world.get_loc(x, y)`;
`unit_array recno` is `unit_array[recno]`, `none` for a null pointer. -/
structure World where
  MAX_WORLD_X_LOC : Int
  MAX_WORLD_Y_LOC : Int
  SPRITE_MOVE : Int
  SPRITE_IDLE : Int
  ACTION_STOP : Int
  is_accessible : Int → Int → Int → Bool
  has_unit : Int → Int → Int → Bool
  unit_recno : Int → Int → Int → Int
  unit_array : Int → Option Unit

/-- One call `unit_array[recno]->move_to(x, y)`. -/
structure MoveCmd where
  recno : Int
  x : Int
  y : Int
  deriving DecidableEq, Repr

/-- What stops a run of the model short of a result. -/
inductive Fault where
  | nullDeref
  | outOfFuel
  deriving DecidableEq, Repr

/-! ## Ring geometry (static functions) -/

/-- Returns the length of ring R. -/
def RingLength (R0Width R0Height R : Int) : Int :=
  if R > 0 ∨ (R0Width > 1 ∧ R0Height > 1) then
    2 * (R0Width + 2 * R) + 2 * (R0Height - 2 + 2 * R)
  else
    max R0Width R0Height

/-- Walks through ring R: the cell `(x, y)` at position `Index` of the ring. -/
def RingIndexToXY (R0x R0y R0Width R0Height R Index : Int) : Int × Int :=
  if Index < R0Width + 2 * R then
    (R0x - R + Index, R0y - R)
  else
    let index1 := Index - (R0Width + 2 * R)
    if index1 < R0Height - 2 + 2 * R then
      (R0x + R0Width - 1 + R, R0y - R + 1 + index1)
    else
      let index2 := index1 - (R0Height - 2 + 2 * R)
      if index2 < R0Width + 2 * R then
        (R0x + R0Width - 1 + R - index2, R0y + R0Height - 1 + R)
      else
        let index3 := index2 - (R0Width + 2 * R)
        if index3 < R0Height - 2 + 2 * R then
          (R0x - R, R0y + R0Height - 1 - 1 + R - index3)
        else
          (R0x - R, R0y - R)

/-! ## The class `VacateArea` -/

/-- The data members of `VacateArea`; `_Area = none` is the null pointer. -/
structure VacateArea where
  _Width : Int
  _Height : Int
  _Area : Option Area

namespace VacateArea

/-- The enumerator `AREA_BLOCKED = (loc_flag_t)1 << (sizeof(loc_flag_t) * CHAR_BIT - 1)`
for a 32-bit `loc_flag_t`. -/
def AREA_BLOCKED : Nat := (1 <<< (4 * 8 - 1)) % 2 ^ 32

/-- The enumerator `SCAN_AREA_INCREASE`. -/
def SCAN_AREA_INCREASE : Int := 2

/-- The constant `INT_MAX` of a 32-bit `int`. -/
def INT_MAX : Int := 2 ^ 31 - 1

/-- The conversion `(loc_flag_t)h` of an `int` to the 32-bit unsigned cell type. -/
def toLocFlag (h : Int) : Nat := (h % 2 ^ 32).toNat

/-- The conversion `int flag = _Area[..]` of a cell value to a 32-bit `int`. -/
def flagToInt (v : Nat) : Int :=
  if v % 2 ^ 32 < 2 ^ 31 then ((v % 2 ^ 32 : Nat) : Int) else ((v % 2 ^ 32 : Nat) : Int) - 2 ^ 32


/-- The scan loop of `SearchFreeSpotAtIndex`, with `n` iterations left, loop
counter `i` and the current `direction`. -/
def SearchFreeSpotLoop (area : Area) (width R0x R0y R0Width R0Height R Index ringLength : Int) :
    Nat → Int → Int → Int
  | 0, _, _ => -1
  | n + 1, i, direction =>
    let signedIndex := direction * (cdiv i 2 + cmod i 2)
    let ringIndex := cmod (ringLength + Index + signedIndex) ringLength
    let p := RingIndexToXY R0x R0y R0Width R0Height R ringIndex
    if area (p.2 * width + p.1) = 0 then ringIndex
    else SearchFreeSpotLoop area width R0x R0y R0Width R0Height R Index ringLength n (i + 1) (-direction)

/-- Searches for a free spot in ring R, starting at Index and moving out max.
maxSearchDistance to the left and right.  Returns the index of the spot, or -1. -/
def SearchFreeSpotAtIndex (area : Area)
    (maxSearchDistance width height R0x R0y R0Width R0Height R Index : Int) : Int :=
  let ringLength := RingLength R0Width R0Height R
  SearchFreeSpotLoop area width R0x R0y R0Width R0Height R Index ringLength
    (2 * maxSearchDistance).toNat 0 1

/-- Returns the index into R+1 that is the best spot for the unit at Index in R to
move to, or -1, together with the random source after the draws made. -/
def FindPushedSpot (area : Area) (rnd : RandSource)
    (maxSearchDistance width height R0x R0y R0Width R0Height R Index : Int) : Int × RandSource :=
  let nextRingLength := RingLength R0Width R0Height (R + 1)
  if R = 0 ∧ (R0Width = 1 ∨ R0Height = 1) then
    if R0Width = 1 ∧ R0Height = 1 then
      let startRingIndex := rnd.random nextRingLength
      (SearchFreeSpotAtIndex area
        (cdiv (nextRingLength - 1) 2 + boolToInt (decide (cmod (nextRingLength - 1) 2 = 1)))
        width height R0x R0y R0Width R0Height (R + 1) startRingIndex, rnd.next)
    else if Index = 0 ∨ Index = RingLength R0Width R0Height R - 1 then
      let ringIndex :=
        if R0Width > 1 then (if Index = 0 then nextRingLength - 1 else R0Width + 3)
        else (if Index = 0 then 1 else R0Height + 5)
      (SearchFreeSpotAtIndex area (maxSearchDistance + 2)
        width height R0x R0y R0Width R0Height (R + 1) ringIndex, rnd)
    else
      let firstDirection := rnd.random 2
      let ringIndex :=
        if R0Width > 1 then
          (if firstDirection = 0 then 1 + Index else 1 + R0Width + 3 + (R0Width - 1 - Index))
        else (if firstDirection = 0 then nextRingLength - 1 - Index else 3 + Index)
      let nextIndex := SearchFreeSpotAtIndex area maxSearchDistance
        width height R0x R0y R0Width R0Height (R + 1) ringIndex
      if nextIndex ≥ 0 then (nextIndex, rnd.next)
      else
        let firstDirection2 := boolToInt (decide (firstDirection = 0))
        let ringIndex2 :=
          if R0Width > 1 then
            (if firstDirection2 = 0 then 1 + Index else 1 + R0Width + 3 + (R0Width - 1 - Index))
          else (if firstDirection2 = 0 then nextRingLength - 1 - Index else 3 + Index)
        (SearchFreeSpotAtIndex area maxSearchDistance
          width height R0x R0y R0Width R0Height (R + 1) ringIndex2, rnd.next)
  else
    let UpperLeft : Int := 0
    let UpperRight := R0Width + 2 * R - 1
    let LowerRight := R0Width + 2 * R + R0Height - 1 + 2 * R - 1
    let LowerLeft := RingLength R0Width R0Height R - (R0Height + 2 * R - 1)
    let ci : Bool × Int :=
      if Index ≤ UpperLeft then (decide (Index = UpperLeft), -1)
      else if Index ≤ UpperRight then (decide (Index = UpperRight), 1)
      else if Index ≤ LowerRight then (decide (Index = LowerRight), 3)
      else if Index ≤ LowerLeft then (decide (Index = LowerLeft), 5)
      else (false, 7)
    let isCorner := ci.1
    let indexShift := ci.2
    let ringIndex := Index + indexShift + boolToInt isCorner
    (SearchFreeSpotAtIndex area (maxSearchDistance + boolToInt isCorner)
      width height R0x R0y R0Width R0Height (R + 1) ringIndex, rnd)

/-- The running best of `FindNearestUnit`. -/
structure Nearest where
  bestUnit : Nat
  bestDistance : Int
  bestDistance2 : Int
  unitX : Int
  unitY : Int
  deriving DecidableEq, Repr

/-- The body of the inner loop of `FindNearestUnit` at the cell `(x, y)`. -/
def FindNearestUnitStep (area : Area) (locX locY width y x : Int) (b : Nearest) : Nearest :=
  let flag := area (y * width + x)
  let dist := max (Int.natAbs (x - locX) : Int) (Int.natAbs (y - locY) : Int)
  let dist2 := min (Int.natAbs (x - locX) : Int) (Int.natAbs (y - locY) : Int)
  if flag ≠ 0 ∧ flag ≠ AREA_BLOCKED ∧
      (dist < b.bestDistance ∨ (dist = b.bestDistance ∧ dist2 < b.bestDistance2)) then
    { bestUnit := flag, bestDistance := dist, bestDistance2 := dist2, unitX := x, unitY := y }
  else b

/-- Finds the movable unit nearest to `(locX, locY)` inside the search rectangle.
Returns the handle (0 if there is none) and the cell of that unit; the two
out-parameters are left as they were (here 0) when no unit is found. -/
def FindNearestUnit (area : Area)
    (locX locY searchX searchY searchWidth searchHeight width height : Int) : Nat × Int × Int :=
  let b := forLoop (fun y b =>
      forLoop (fun x b => FindNearestUnitStep area locX locY width y x b)
        searchWidth.toNat searchX b)
    searchHeight.toNat searchY
    { bestUnit := 0, bestDistance := INT_MAX, bestDistance2 := INT_MAX, unitX := 0, unitY := 0 }
  (b.bestUnit, b.unitX, b.unitY)

/-- The scan loop of `FindNextNonblockedInRing`, with `n` iterations left. -/
def FindNextNonblockedLoop (area : Area)
    (width R0x R0y R0Width R0Height R prevSearchIndex ringLength : Int) : Nat → Int → Int
  | 0, _ => -1
  | n + 1, i =>
    let index := cmod (prevSearchIndex + 1 + i) ringLength
    let p := RingIndexToXY R0x R0y R0Width R0Height R index
    let flag := area (p.2 * width + p.1)
    if flag ≠ 0 ∧ flag ≠ AREA_BLOCKED then index
    else FindNextNonblockedLoop area width R0x R0y R0Width R0Height R prevSearchIndex ringLength
      n (i + 1)

/-- Find the next non-blocked location on the given ring, starting search at
prevSearchIndex+1. -/
def FindNextNonblockedInRing (area : Area)
    (width height R0x R0y R0Width R0Height R prevSearchIndex : Int) : Int :=
  let ringLength := RingLength R0Width R0Height R
  FindNextNonblockedLoop area width R0x R0y R0Width R0Height R prevSearchIndex ringLength
    ringLength.toNat 0

/-! ### Stage 1: pushing -/

/-- The variables of `PushRings` that change while a cycle runs; `empty` is the
flag of the ring being scanned. -/
structure PushState where
  area : Area
  rnd : RandSource
  emptyRing : Int
  occupationCount : Int
  pushed : Bool
  empty : Bool

/-- The body of the loop `for (int i = 0; i < ringLength; ++i)` of `PushRings`. -/
def PushRingsCell (MAX_MOVE width height R0x R0y R0Width R0Height R ringLength startIndex : Int)
    (i : Int) (s : PushState) : PushState :=
  let ringIndex := cmod (startIndex + i) ringLength
  let p := RingIndexToXY R0x R0y R0Width R0Height R ringIndex
  let flag := s.area (p.2 * width + p.1)
  if flag ≠ AREA_BLOCKED ∧ flag ≠ 0 then
    let r := FindPushedSpot s.area s.rnd MAX_MOVE width height R0x R0y R0Width R0Height R ringIndex
    if r.1 ≠ -1 then
      let q := RingIndexToXY R0x R0y R0Width R0Height (R + 1) r.1
      { s with
        area := (s.area.write (q.2 * width + q.1) flag).write (p.2 * width + p.1) 0
        rnd := r.2
        pushed := true }
    else
      { s with rnd := r.2, empty := false, occupationCount := s.occupationCount + 1 }
  else s

/-- The body of the loop `for (int R = emptyRing + 1; R < outlineRing; ++R)` of
`PushRings`: one ring is scanned from a random start. -/
def PushRingsRing (MAX_MOVE width height R0x R0y R0Width R0Height : Int)
    (R : Int) (s : PushState) : PushState :=
  let ringLength := RingLength R0Width R0Height R
  let startIndex := s.rnd.random ringLength
  let s1 := forLoop
    (PushRingsCell MAX_MOVE width height R0x R0y R0Width R0Height R ringLength startIndex)
    ringLength.toNat 0 { s with rnd := s.rnd.next, empty := true }
  if s1.empty = true ∧ s1.emptyRing = R - 1 then { s1 with emptyRing := R } else s1

/-- One cycle (the body of the `do .. while`) of `PushRings`. -/
def PushRingsCycle (area : Area) (rnd : RandSource)
    (MAX_MOVE width height R0x R0y R0Width R0Height outlineRing emptyRing : Int) : PushState :=
  forLoop (PushRingsRing MAX_MOVE width height R0x R0y R0Width R0Height)
    (outlineRing - (emptyRing + 1)).toNat (emptyRing + 1)
    { area := area, rnd := rnd, emptyRing := emptyRing, occupationCount := 0,
      pushed := false, empty := true }

/-- The `do .. while (emptyRing + 1 < outlineRing && pushed)` loop of `PushRings`;
`fuel` bounds the number of cycles and `none` means that it did not suffice. -/
def PushRingsLoop (MAX_MOVE width height R0x R0y R0Width R0Height outlineRing : Int) :
    Nat → Area → RandSource → Int → Option (Int × Area × RandSource)
  | 0, _, _, _ => none
  | fuel + 1, area, rnd, emptyRing =>
    let s := PushRingsCycle area rnd MAX_MOVE width height R0x R0y R0Width R0Height
      outlineRing emptyRing
    if s.emptyRing + 1 < outlineRing ∧ s.pushed = true then
      PushRingsLoop MAX_MOVE width height R0x R0y R0Width R0Height outlineRing
        fuel s.area s.rnd s.emptyRing
    else some (s.occupationCount, s.area, s.rnd)

/-- Pushing method: push units from one ring outwards into the next ring.  Returns
the number of units still in the build zone after pushing, the buffer and the
random source. -/
def PushRings (fuel : Nat) (area : Area) (rnd : RandSource)
    (width height R0x R0y R0Width R0Height outlineRing : Int) :
    Option (Int × Area × RandSource) :=
  PushRingsLoop 3 width height R0x R0y R0Width R0Height outlineRing fuel area rnd (-1)

/-! ### Stage 2: outline filling -/

/-- The variables of `FillOutline` and `PushQueues` that change in their loops. -/
structure FillState where
  area : Area
  rnd : RandSource
  occupationCount : Int

/-- The body of the loop of `FillOutline`. -/
def FillOutlineCell (width height R0x R0y R0Width R0Height outlineRing
    buildX buildY buildWidth buildHeight outlineRingLength startIndex : Int)
    (i : Int) (s : FillState) : FillState :=
  let index := cmod (startIndex + i) outlineRingLength
  let p := RingIndexToXY R0x R0y R0Width R0Height outlineRing index
  if s.area (p.2 * width + p.1) = 0 then
    let u := FindNearestUnit s.area p.1 p.2 buildX buildY buildWidth buildHeight width height
    if u.1 ≠ 0 then
      { s with
        area := (s.area.write (p.2 * width + p.1) u.1).write (u.2.2 * width + u.2.1) 0
        occupationCount := s.occupationCount - 1 }
    else s
  else s

/-- Filling method: fill-up outline of build zone.  Returns the number of units
still in the build zone, the buffer and the random source. -/
def FillOutline (area : Area) (rnd : RandSource)
    (occupationCount width height R0x R0y R0Width R0Height outlineRing : Int) :
    Int × Area × RandSource :=
  let buildX := R0x - (outlineRing - 1)
  let buildY := R0y - (outlineRing - 1)
  let buildWidth := R0Width + 2 * (outlineRing - 1)
  let buildHeight := R0Height + 2 * (outlineRing - 1)
  let outlineRingLength := RingLength R0Width R0Height outlineRing
  let startIndex := rnd.random outlineRingLength
  let s := forLoopWhile (fun s => decide (s.occupationCount > 0))
    (FillOutlineCell width height R0x R0y R0Width R0Height outlineRing
      buildX buildY buildWidth buildHeight outlineRingLength startIndex)
    outlineRingLength.toNat 0
    { area := area, rnd := rnd.next, occupationCount := occupationCount }
  (s.occupationCount, s.area, s.rnd)

/-! ### Stage 3: filling queues -/

/-- The loop of `PushQueues`.  The body may hold the counter `i` back (`--i`), so
the loop is driven by `fuel`; `none` means that the fuel did not suffice. -/
def PushQueuesLoop (width height R0x R0y R0Width R0Height outlineRing
    buildX buildY buildWidth buildHeight outlineRingLength startIndex : Int) :
    Nat → Int → FillState → Option FillState
  | fuel, i, s =>
    if i < outlineRingLength ∧ s.occupationCount > 0 then
      match fuel with
      | 0 => none
      | fuel + 1 =>
        let index := cmod (startIndex + i) outlineRingLength
        let p := RingIndexToXY R0x R0y R0Width R0Height outlineRing index
        let flag := s.area (p.2 * width + p.1)
        if flag ≠ 0 ∧ flag ≠ AREA_BLOCKED then
          let r := FindPushedSpot s.area s.rnd 1 width height R0x R0y R0Width R0Height
            outlineRing index
          if r.1 ≠ -1 then
            let q := RingIndexToXY R0x R0y R0Width R0Height (outlineRing + 1) r.1
            let area1 := (s.area.write (q.2 * width + q.1) flag).write (p.2 * width + p.1) 0
            let u := FindNearestUnit area1 p.1 p.2 buildX buildY buildWidth buildHeight
              width height
            if u.1 ≠ 0 then
              PushQueuesLoop width height R0x R0y R0Width R0Height outlineRing
                buildX buildY buildWidth buildHeight outlineRingLength startIndex fuel
                (i - 1 + 1)
                { area := (area1.write (p.2 * width + p.1) u.1).write (u.2.2 * width + u.2.1) 0
                  rnd := r.2
                  occupationCount := s.occupationCount - 1 }
            else
              PushQueuesLoop width height R0x R0y R0Width R0Height outlineRing
                buildX buildY buildWidth buildHeight outlineRingLength startIndex fuel
                (i + 1) { s with area := area1, rnd := r.2 }
          else
            PushQueuesLoop width height R0x R0y R0Width R0Height outlineRing
              buildX buildY buildWidth buildHeight outlineRingLength startIndex fuel
              (i + 1) { s with rnd := r.2 }
        else
          PushQueuesLoop width height R0x R0y R0Width R0Height outlineRing
            buildX buildY buildWidth buildHeight outlineRingLength startIndex fuel (i + 1) s
    else some s

/-- Queueing method: selectively move as many units as needed from the outline
ring to one beyond to make room for the remaining units.  An iteration either
advances `i` or lowers `occupationCount`, which the loop guard keeps positive, so
`outlineRingLength + occupationCount` iterations are allowed. -/
def PushQueues (area : Area) (rnd : RandSource)
    (occupationCount width height R0x R0y R0Width R0Height outlineRing : Int) :
    Option (Int × Area × RandSource) :=
  let buildX := R0x - (outlineRing - 1)
  let buildY := R0y - (outlineRing - 1)
  let buildWidth := R0Width + 2 * (outlineRing - 1)
  let buildHeight := R0Height + 2 * (outlineRing - 1)
  let outlineRingLength := RingLength R0Width R0Height outlineRing
  let startIndex := rnd.random outlineRingLength
  (PushQueuesLoop width height R0x R0y R0Width R0Height outlineRing
    buildX buildY buildWidth buildHeight outlineRingLength startIndex
    (outlineRingLength.toNat + occupationCount.toNat) 0
    { area := area, rnd := rnd.next, occupationCount := occupationCount }).map
    (fun s => (s.occupationCount, s.area, s.rnd))

/-! ### Schematic construction -/

/-- The variables of `CreateAreaSchematic` that change in its loops; `fault`
records that a null `unitPtr` would have been dereferenced. -/
structure SchematicState where
  area : Area
  occupancy : Int
  fault : Bool

/-- The body of the inner loop of `CreateAreaSchematic` for the buffer cell
`(i, j)`, which is the map cell `(xLoc + i, yLoc + j)`. -/
def CreateAreaSchematicCell (w : World)
    (mobileType xLoc yLoc width nation_recno builder_recno buildX buildY buildWidth buildHeight : Int)
    (j i : Int) (s : SchematicState) : SchematicState :=
  let x := xLoc + i
  let y := yLoc + j
  let hasLoc : Bool := decide (x ≥ 0 ∧ x < w.MAX_WORLD_X_LOC ∧ y ≥ 0 ∧ y < w.MAX_WORLD_X_LOC)
  if hasLoc = false ∨ w.is_accessible x y mobileType = false then
    { s with area := s.area.write (j * width + i) AREA_BLOCKED }
  else if w.has_unit x y mobileType = true then
    match w.unit_array (w.unit_recno x y mobileType) with
    | none => { s with fault := true }
    | some unitPtr =>
      let obstacle : Bool :=
        if unitPtr.cur_action = w.SPRITE_MOVE ∧
            (unitPtr.cur_x_loc ≠ unitPtr.go_x_loc ∨ unitPtr.cur_y_loc ≠ unitPtr.go_y_loc) then
          false
        else if unitPtr.nation_recno = nation_recno ∧ unitPtr.cur_action = w.SPRITE_IDLE ∧
            unitPtr.action_mode = w.ACTION_STOP ∧ unitPtr.action_mode2 = w.ACTION_STOP ∧
            (unitPtr.ai_unit = 0 ∨ unitPtr.ai_action_id = 0) then
          false
        else true
      if unitPtr.sprite_recno = builder_recno then
        { s with area := s.area.write (j * width + i) AREA_BLOCKED }
      else if obstacle = true then
        { s with area := s.area.write (j * width + i) AREA_BLOCKED }
      else
        let unitRecno := unitPtr.sprite_recno
        if unitRecno ≤ 0 then
          { s with area := s.area.write (j * width + i) AREA_BLOCKED }
        else
          { s with
            area := s.area.write (j * width + i) (toLocFlag unitRecno)
            occupancy :=
              if x ≥ buildX ∧ x < buildX + buildWidth ∧ y ≥ buildY ∧ y < buildY + buildHeight then
                s.occupancy + 1
              else s.occupancy }
  else
    { s with area := s.area.write (j * width + i) 0 }

/-- Create a schematic of the given area for the given mobileType into the buffer.
Returns the number of occupants inside the build area and the buffer, or `none`
when a location names a unit that `unit_array` does not hold. -/
def CreateAreaSchematic (area : Area) (w : World)
    (mobileType xLoc yLoc width height nation_recno builder_recno
      buildX buildY buildWidth buildHeight : Int) : Option (Int × Area) :=
  let s := forLoop (fun j s =>
      forLoop (CreateAreaSchematicCell w mobileType xLoc yLoc width nation_recno builder_recno
          buildX buildY buildWidth buildHeight j)
        width.toNat 0 s)
    height.toNat 0 { area := area, occupancy := 0, fault := false }
  if s.fault = true then none else some (s.occupancy, s.area)

/-! ### Stage 4: executing the moves -/

/-- The variables of `MoveAccordingToSchematic` that change in its loops, and the
`move_to` commands issued so far (oldest first). -/
structure MoveState where
  desperationMoveIndex : Int
  rnd : RandSource
  commands : List MoveCmd

/-- The body of the inner loop of `MoveAccordingToSchematic` for the buffer cell
`(i, j)`, which is the map cell `(xLoc + i, yLoc + j)`. -/
def MoveAccordingToSchematicCell (area : Area) (w : World)
    (width height xLoc yLoc buildX buildY buildWith buildHeight
      R0x R0y R0Width R0Height outlineRing outlineRingLength : Int)
    (j i : Int) (s : MoveState) : MoveState :=
  let x := xLoc + i
  let y := yLoc + j
  let flag := area (j * width + i)
  if flag ≠ 0 ∧ flag ≠ AREA_BLOCKED then
    let unitRecno := flagToInt flag
    match w.unit_array unitRecno with
    | none => s
    | some unit =>
      if x ≥ buildX ∧ x < buildX + buildWith ∧ y ≥ buildY ∧ y < buildY + buildHeight then
        let desperationMoveIndex :=
          if s.desperationMoveIndex ≠ -1 then
            FindNextNonblockedInRing area width height R0x R0y R0Width R0Height outlineRing
              s.desperationMoveIndex
          else s.desperationMoveIndex
        let moveIndex :=
          if desperationMoveIndex ≠ -1 then desperationMoveIndex
          else s.rnd.random outlineRingLength
        let rnd := if desperationMoveIndex ≠ -1 then s.rnd else s.rnd.next
        let m := RingIndexToXY R0x R0y R0Width R0Height outlineRing moveIndex
        { desperationMoveIndex := desperationMoveIndex
          rnd := rnd
          commands :=
            if unit.next_x_loc ≠ m.1 ∨ unit.next_y_loc ≠ m.2 then
              s.commands ++ [{ recno := unitRecno, x := m.1, y := m.2 }]
            else s.commands }
      else
        { s with
          commands :=
            if unit.next_x_loc ≠ x ∨ unit.next_y_loc ≠ y then
              s.commands ++ [{ recno := unitRecno, x := x, y := y }]
            else s.commands }
  else s

/-- Move units according to the schematic in the buffer.  Returns the `move_to`
commands issued, in order, and the random source. -/
def MoveAccordingToSchematic (area : Area) (w : World) (rnd : RandSource)
    (width height xLoc yLoc buildX buildY buildWith buildHeight
      R0x R0y R0Width R0Height outlineRing : Int) : List MoveCmd × RandSource :=
  let outlineRingLength := RingLength R0Width R0Height outlineRing
  let s := forLoop (fun j s =>
      forLoop (MoveAccordingToSchematicCell area w width height xLoc yLoc
          buildX buildY buildWith buildHeight R0x R0y R0Width R0Height outlineRing
          outlineRingLength j)
        width.toNat 0 s)
    height.toNat 0
    { desperationMoveIndex := rnd.random outlineRingLength, rnd := rnd.next, commands := [] }
  (s.commands, s.rnd)

/-! ### Allocation and the public operation -/

/-- Allocate an area of the given size, setting width, height and area, and return
whether that succeeded.  `fresh` is what `new(std::nothrow) loc_flag_t[..]` yields
if it is called: `none` for a null pointer, else the new (uninitialised) block. -/
def AllocateArea (self : VacateArea) (fresh : Option Area) (width height : Int) :
    Bool × VacateArea :=
  if self._Width * self._Height ≥ width * height then (true, self)
  else
    match fresh with
    | some a => (true, { _Width := width, _Height := height, _Area := some a })
    | none => (false, { _Width := 0, _Height := 0, _Area := none })

/-- The values that `VacateIdleOfNation` derives from the footprint before it
touches the buffer. -/
structure Geometry where
  xLoc : Int
  yLoc : Int
  width : Int
  height : Int
  ringCount : Int
  R0Width : Int
  R0Height : Int
  R0x : Int
  R0y : Int
  outlineRing : Int
  deriving DecidableEq, Repr

/-- The scan area and its ring decomposition, as computed at the start of
`VacateIdleOfNation`. -/
def geometry (buildxLoc buildyLoc buildWidth buildHeight : Int) : Geometry :=
  let ringCount := cdiv (min (buildWidth + 1 + 2 * SCAN_AREA_INCREASE)
    (buildHeight + 1 + 2 * SCAN_AREA_INCREASE)) 2
  { xLoc := buildxLoc - SCAN_AREA_INCREASE
    yLoc := buildyLoc - SCAN_AREA_INCREASE
    width := buildWidth + 2 * SCAN_AREA_INCREASE
    height := buildHeight + 2 * SCAN_AREA_INCREASE
    ringCount := ringCount
    R0Width := buildWidth + 2 * SCAN_AREA_INCREASE - 2 * (ringCount - 1)
    R0Height := buildHeight + 2 * SCAN_AREA_INCREASE - 2 * (ringCount - 1)
    R0x := ringCount - 1
    R0y := ringCount - 1
    outlineRing := ringCount - SCAN_AREA_INCREASE }

/-- The argument test at the start of `VacateIdleOfNation`: true when the call is
rejected. -/
def badArguments (w : World)
    (buildxLoc buildyLoc buildWidth buildHeight nation_recno builder_recno : Int) : Bool :=
  decide (nation_recno = 0 ∨ builder_recno = 0 ∨
    buildxLoc < 0 ∨ buildyLoc < 0 ∨ buildWidth < 1 ∨ buildHeight < 1 ∨
    buildxLoc + buildWidth ≥ w.MAX_WORLD_X_LOC ∨ buildyLoc + buildHeight ≥ w.MAX_WORLD_Y_LOC)

/-- The place where `VacateIdleOfNation` returned; `completed` carries the value
of `occupationCount` left by the stages. -/
inductive Exit where
  | rejected
  | allocFailed
  | noOccupants
  | completed (occupationCount : Int)
  deriving DecidableEq, Repr

/-- The effect of one call of `VacateIdleOfNation`: the object afterwards, the
random source afterwards, the `move_to` commands issued and the return point. -/
structure Outcome where
  self : VacateArea
  rnd : RandSource
  commands : List MoveCmd
  exit : Exit

/-- Vacate all units of nation_recno that are idle inside the construction area,
but do not touch builder_recno.  `fresh` is the result of the allocation, should
one be made, and `fuel` bounds the number of push cycles. -/
def VacateIdleOfNation (self : VacateArea) (w : World) (fresh : Option Area) (rnd : RandSource)
    (fuel : Nat) (buildxLoc buildyLoc buildWidth buildHeight nation_recno builder_recno : Int) :
    Except Fault Outcome :=
  if badArguments w buildxLoc buildyLoc buildWidth buildHeight nation_recno builder_recno = true then
    .ok { self := self, rnd := rnd, commands := [], exit := .rejected }
  else
    let g := geometry buildxLoc buildyLoc buildWidth buildHeight
    let alloc := AllocateArea self fresh g.width g.height
    if alloc.1 = false then
      .ok { self := alloc.2, rnd := rnd, commands := [], exit := .allocFailed }
    else
      match w.unit_array builder_recno, alloc.2._Area with
      | none, _ => .error .nullDeref
      | some _, none => .error .nullDeref
      | some builder, some area0 =>
        let mobileType := builder.mobile_type
        match CreateAreaSchematic area0 w mobileType g.xLoc g.yLoc g.width g.height
            nation_recno builder_recno buildxLoc buildyLoc buildWidth buildHeight with
        | none => .error .nullDeref
        | some (occupationCount0, area1) =>
          if occupationCount0 = 0 then
            .ok { self := { alloc.2 with _Area := some area1 }, rnd := rnd, commands := [],
                  exit := .noOccupants }
          else
            match PushRings fuel area1 rnd g.width g.height g.R0x g.R0y g.R0Width g.R0Height
                g.outlineRing with
            | none => .error .outOfFuel
            | some (occupationCount1, area2, rnd2) =>
              let r3 : Int × Area × RandSource :=
                if occupationCount1 ≠ 0 then
                  FillOutline area2 rnd2 occupationCount1 g.width g.height g.R0x g.R0y
                    g.R0Width g.R0Height g.outlineRing
                else (occupationCount1, area2, rnd2)
              let r4 : Option (Int × Area × RandSource) :=
                if r3.1 ≠ 0 then
                  PushQueues r3.2.1 r3.2.2 r3.1 g.width g.height g.R0x g.R0y
                    g.R0Width g.R0Height g.outlineRing
                else some r3
              match r4 with
              | none => .error .outOfFuel
              | some (occupationCount, area4, rnd4) =>
                let m := MoveAccordingToSchematic area4 w rnd4 g.width g.height g.xLoc g.yLoc
                  buildxLoc buildyLoc buildWidth buildHeight g.R0x g.R0y g.R0Width g.R0Height
                  g.outlineRing
                .ok { self := { alloc.2 with _Area := some area4 }, rnd := m.2, commands := m.1,
                      exit := .completed occupationCount }

/-! ## Notions used to state the properties -/

/-- A ring decomposition as `VacateIdleOfNation` sets it up: the innermost ring is
a strip or has a side of 2, it sits `ringCount - 1` cells inside the scan area,
and ring `ringCount - 1` is the border of the scan area. -/
structure ValidRings (width height R0x R0y R0Width R0Height ringCount : Int) : Prop where
  hW : 1 ≤ R0Width
  hH : 1 ≤ R0Height
  hmin : R0Width ≤ 2 ∨ R0Height ≤ 2
  hx : R0x = ringCount - 1
  hy : R0y = ringCount - 1
  hN : 1 ≤ ringCount
  hwidth : width = R0Width + 2 * (ringCount - 1)
  hheight : height = R0Height + 2 * (ringCount - 1)

/-- The position in ring R of a cell on the border of the rectangle of ring R
(the inverse of `RingIndexToXY` on that ring). -/
def ringPos (R0x R0y R0Width R0Height R x y : Int) : Int :=
  if y = R0y - R then x - (R0x - R)
  else if x = R0x + R0Width - 1 + R then R0Width + 2 * R + (y - (R0y - R) - 1)
  else if y = R0y + R0Height - 1 + R then
    R0Width + 2 * R + (R0Height - 2 + 2 * R) + (R0x + R0Width - 1 + R - x)
  else
    R0Width + 2 * R + (R0Height - 2 + 2 * R) + (R0Width + 2 * R) +
      (R0y + R0Height - 1 + R - 1 - y)

/-- The ring that holds the cell `(x, y)` of the scan area: the innermost ring
index plus the distance of the cell to the border, counted from the border. -/
def ringOf (width height R0x : Int) (x y : Int) : Int :=
  R0x - min (min x (width - 1 - x)) (min y (height - 1 - y))

/-! ## Sample inputs -/

/-- An idle unit of the given nation standing on `(x, y)`. -/
def idleUnit (recno nation x y : Int) : Unit :=
  { sprite_recno := recno, nation_recno := nation, mobile_type := 1, cur_action := 1,
    action_mode := 0, action_mode2 := 0, ai_unit := 0, ai_action_id := 0,
    cur_x_loc := x, cur_y_loc := y, go_x_loc := x, go_y_loc := y,
    next_x_loc := x, next_y_loc := y }

/-- A 200 x 200 map, accessible everywhere, whose only unit is the builder
(unit 1 of nation 1) on `(9, 10)`. -/
def builderOnlyWorld : World :=
  { MAX_WORLD_X_LOC := 200, MAX_WORLD_Y_LOC := 200, SPRITE_MOVE := 3, SPRITE_IDLE := 1,
    ACTION_STOP := 0,
    is_accessible := fun _ _ _ => true,
    has_unit := fun x y _ => decide (x = 9 ∧ y = 10),
    unit_recno := fun _ _ _ => 1,
    unit_array := fun k => if k = 1 then some (idleUnit 1 1 9 10) else none }

/-- An object whose buffer has room for 8 x 8 cells, all 0. -/
def roomyArea : VacateArea := { _Width := 8, _Height := 8, _Area := some (fun _ => 0) }

/-- A unit of nation 1 on `(2, 2)` that is walking to `(1, 1)`. -/
def walkingUnit : Unit :=
  { sprite_recno := 2, nation_recno := 1, mobile_type := 1, cur_action := 3,
    action_mode := 0, action_mode2 := 0, ai_unit := 0, ai_action_id := 0,
    cur_x_loc := 2, cur_y_loc := 2, go_x_loc := 1, go_y_loc := 1,
    next_x_loc := 1, next_y_loc := 1 }

/-- A 200 x 200 map on which only `(2, 2)` and `(1, 2)` are accessible: the
builder (unit 1) stands on `(1, 2)` and `walkingUnit` (unit 2) on `(2, 2)`. -/
def walledInWorld : World :=
  { MAX_WORLD_X_LOC := 200, MAX_WORLD_Y_LOC := 200, SPRITE_MOVE := 3, SPRITE_IDLE := 1,
    ACTION_STOP := 0,
    is_accessible := fun x y _ => decide ((x = 2 ∨ x = 1) ∧ y = 2),
    has_unit := fun x y _ => decide ((x = 2 ∨ x = 1) ∧ y = 2),
    unit_recno := fun x _ _ => if x = 1 then 1 else 2,
    unit_array := fun k =>
      if k = 1 then some (idleUnit 1 1 1 2) else if k = 2 then some walkingUnit else none }

/-- A 200 x 200 map, accessible everywhere, with the builder (unit 1) on
`(50, 50)` and an idle unit of the same nation (unit 2) on `(10, 10)`. -/
def loneUnitWorld : World :=
  { MAX_WORLD_X_LOC := 200, MAX_WORLD_Y_LOC := 200, SPRITE_MOVE := 3, SPRITE_IDLE := 1,
    ACTION_STOP := 0,
    is_accessible := fun _ _ _ => true,
    has_unit := fun x y _ => decide ((x = 50 ∧ y = 50) ∨ (x = 10 ∧ y = 10)),
    unit_recno := fun x _ _ => if x = 50 then 1 else 2,
    unit_array := fun k =>
      if k = 1 then some (idleUnit 1 1 50 50) else if k = 2 then some (idleUnit 2 1 10 10)
      else none }

/-- The schematic of the 1 x 1 footprint `(10, 10)` in `loneUnitWorld`. -/
def loneUnitSchematic : Area :=
  match CreateAreaSchematic (fun _ => 0) loneUnitWorld 1 8 8 5 5 1 1 10 10 1 1 with
  | some r => r.2
  | none => fun _ => 0

/-- The movable handles (values other than 0 and AREA_BLOCKED) held by the first
`n` cells of the buffer, cell by cell; as a list up to permutation it is the
multiset of movable handles. -/
def handles (area : Area) (n : Nat) : List Nat :=
  ((List.range n).map (fun k : Nat => area (k : Int))).filter
    (fun v => decide (v ≠ 0 ∧ v ≠ AREA_BLOCKED))

/-- One relocation inside the first `n` cells of the buffer: the movable handle of
cell `a` is written to cell `b`, which holds 0, and cell `a` is cleared. -/
def MoveStep (n : Int) (area area' : Area) : Prop :=
  ∃ a b : Int, 0 ≤ a ∧ a < n ∧ 0 ≤ b ∧ b < n ∧ area b = 0 ∧
    area a ≠ 0 ∧ area a ≠ AREA_BLOCKED ∧ area' = (area.write b (area a)).write a 0

/-- The buffer `area'` is reached from `area` by relocations inside the first `n`
cells. -/
def Moves (n : Int) (area area' : Area) : Prop :=
  Relation.ReflTransGen (MoveStep n) area area'

/-- What a stage does to the first `n` cells: it only relocates handles, so the
list of handles is the same up to permutation, and handles that were pairwise
distinct stay so. -/
def KeepsHandles (n : Int) (area area' : Area) : Prop :=
  Moves n area area' ∧ (handles area' n.toNat).Perm (handles area n.toNat) ∧
    ((handles area n.toNat).Nodup → (handles area' n.toNat).Nodup)

/-- A 5 x 5 buffer (1 x 1 footprint) with the single handle 7 in the footprint
cell `(2, 2)`. -/
def loneHandleArea : Area := fun k => if k = 2 * 5 + 2 then 7 else 0

/-- A 5 x 5 buffer (1 x 1 footprint) in which every cell holds a handle, except
the builder's cell `(1, 2)`, which is blocked. -/
def packedArea : Area := fun k => if k = 2 * 5 + 1 then AREA_BLOCKED else (k + 1).toNat

/-- The buffer holds the handle `h` at position `k` of ring `ρ` and 0 at every
other valid ring position of the scan area. -/
def SingleAt (area : Area) (h : Nat) (width R0x R0y R0Width R0Height ringCount ρ k : Int) : Prop :=
  0 ≤ ρ ∧ ρ < ringCount ∧ 0 ≤ k ∧ k < RingLength R0Width R0Height ρ ∧
  area ((RingIndexToXY R0x R0y R0Width R0Height ρ k).2 * width +
    (RingIndexToXY R0x R0y R0Width R0Height ρ k).1) = h ∧
  ∀ ρ' k', 0 ≤ ρ' → ρ' < ringCount → 0 ≤ k' → k' < RingLength R0Width R0Height ρ' →
    (ρ', k') ≠ (ρ, k) →
    area ((RingIndexToXY R0x R0y R0Width R0Height ρ' k').2 * width +
      (RingIndexToXY R0x R0y R0Width R0Height ρ' k').1) = 0

/-- The state of the cell loop of `PushRings` on ring R, `i` cells into the scan,
when the buffer holds a single handle `h`: nothing was counted as stuck, and the
handle sits in ring R at a position not yet visited or further out, up to the
outline ring. -/
def SingleScan (h : Nat) (width R0x R0y R0Width R0Height ringCount outlineRing R startIndex
    e : Int) (i : Int) (s : PushState) : Prop :=
  s.emptyRing = e ∧ s.occupationCount = 0 ∧ s.empty = true ∧
  ∃ ρ k, SingleAt s.area h width R0x R0y R0Width R0Height ringCount ρ k ∧ R ≤ ρ ∧
    ρ ≤ outlineRing ∧
    (ρ = R → ∀ j, 0 ≤ j → j < i → cmod (startIndex + j) (RingLength R0Width R0Height R) ≠ k)

/-- The ring that holds the cell with flat index `k`. -/
def cellRing (width height R0x : Int) (k : Int) : Int :=
  ringOf width height R0x (k % width) (k / width)

/-- The sum, over the cells of the scan area that hold a movable handle, of the
ring of the cell: every push raises it by one. -/
def pushPotential (area : Area) (width height R0x : Int) : Int :=
  ∑ k in Finset.range (width * height).toNat,
    (if area (k : Int) ≠ 0 ∧ area (k : Int) ≠ AREA_BLOCKED then cellRing width height R0x (k : Int)
      else 0)


/-! ## Blocked cells and the occupancy count -/

/-- The two buffers have the same blocked cells: a cell holds AREA_BLOCKED in the
one exactly when it does in the other. -/
def SameBlocked (area area' : Area) : Prop :=
  ∀ k : Int, area' k = AREA_BLOCKED ↔ area k = AREA_BLOCKED

/-- What the body of the loops of `CreateAreaSchematic` does at the buffer cell
`(i, j)`, seen on a state in which nothing has been written or counted yet: the
value it writes is `(schematicProbe ..).area (j * width + i)`, its `occupancy` is
what the cell adds to the count, and `fault` tells whether the cell names a unit
that `unit_array` does not hold. -/
def schematicProbe (w : World)
    (mobileType xLoc yLoc width nation_recno builder_recno buildX buildY buildWidth buildHeight : Int)
    (j i : Int) : SchematicState :=
  CreateAreaSchematicCell w mobileType xLoc yLoc width nation_recno builder_recno
    buildX buildY buildWidth buildHeight j i
    { area := fun _ => 0, occupancy := 0, fault := false }

/-- The number of cells `(i, j)` of the `width x height` buffer that hold a movable
handle (neither 0 nor AREA_BLOCKED) and whose map cell `(xLoc + i, yLoc + j)` lies
in the footprint rectangle. -/
def footprintHandleCount (area : Area)
    (xLoc yLoc width height buildX buildY buildWidth buildHeight : Int) : Int :=
  ∑ j in Finset.range height.toNat, ∑ i in Finset.range width.toNat,
    (if (area ((j : Int) * width + (i : Int)) ≠ 0 ∧
          area ((j : Int) * width + (i : Int)) ≠ AREA_BLOCKED) ∧
        (xLoc + (i : Int) ≥ buildX ∧ xLoc + (i : Int) < buildX + buildWidth ∧
          yLoc + (j : Int) ≥ buildY ∧ yLoc + (j : Int) < buildY + buildHeight) then (1 : Int)
      else 0)

/-! ## Further sample inputs -/

/-- A 100 x 200 map (100 columns, 200 rows), accessible everywhere, with the
builder (unit 1 of nation 1) on `(50, 50)` and an idle unit of the same nation
(unit 2) on `(10, 150)`. -/
def tallWorld : World :=
  { MAX_WORLD_X_LOC := 100, MAX_WORLD_Y_LOC := 200, SPRITE_MOVE := 3, SPRITE_IDLE := 1,
    ACTION_STOP := 0,
    is_accessible := fun _ _ _ => true,
    has_unit := fun x y _ => decide ((x = 50 ∧ y = 50) ∨ (x = 10 ∧ y = 150)),
    unit_recno := fun x _ _ => if x = 50 then 1 else 2,
    unit_array := fun k =>
      if k = 1 then some (idleUnit 1 1 50 50) else if k = 2 then some (idleUnit 2 1 10 150)
      else none }

/-- A 200 x 100 map (200 columns, 100 rows) whose only unit is the builder (unit 1
of nation 1) on `(50, 50)`; the map queries answer "accessible, no unit" for every
location they are asked about. -/
def wideWorld : World :=
  { MAX_WORLD_X_LOC := 200, MAX_WORLD_Y_LOC := 100, SPRITE_MOVE := 3, SPRITE_IDLE := 1,
    ACTION_STOP := 0,
    is_accessible := fun _ _ _ => true,
    has_unit := fun x y _ => decide (x = 50 ∧ y = 50),
    unit_recno := fun _ _ _ => 1,
    unit_array := fun k => if k = 1 then some (idleUnit 1 1 50 50) else none }

/-- A 200 x 200 map, accessible everywhere, with the builder (unit 1 of nation 1)
on `(50, 50)` and an idle unit of nation 2 (unit 2) on `(10, 10)`. -/
def foreignIdleWorld : World :=
  { MAX_WORLD_X_LOC := 200, MAX_WORLD_Y_LOC := 200, SPRITE_MOVE := 3, SPRITE_IDLE := 1,
    ACTION_STOP := 0,
    is_accessible := fun _ _ _ => true,
    has_unit := fun x y _ => decide ((x = 50 ∧ y = 50) ∨ (x = 10 ∧ y = 10)),
    unit_recno := fun x _ _ => if x = 50 then 1 else 2,
    unit_array := fun k =>
      if k = 1 then some (idleUnit 1 1 50 50) else if k = 2 then some (idleUnit 2 2 10 10)
      else none }

/-- A 200 x 200 map on which only `(10, 10)` and `(9, 10)` are accessible: the
builder (unit 1 of nation 1) stands on `(9, 10)` and an idle unit of the same
nation (unit 2) on `(10, 10)`. -/
def farWalledInWorld : World :=
  { MAX_WORLD_X_LOC := 200, MAX_WORLD_Y_LOC := 200, SPRITE_MOVE := 3, SPRITE_IDLE := 1,
    ACTION_STOP := 0,
    is_accessible := fun x y _ => decide ((x = 10 ∨ x = 9) ∧ y = 10),
    has_unit := fun x y _ => decide ((x = 10 ∨ x = 9) ∧ y = 10),
    unit_recno := fun x _ _ => if x = 9 then 1 else 2,
    unit_array := fun k =>
      if k = 1 then some (idleUnit 1 1 9 10) else if k = 2 then some (idleUnit 2 1 10 10)
      else none }

/-- A 5 x 5 buffer (1 x 1 footprint) with the single handle 2 in the outline-ring
cell `(1, 1)`. -/
def outlineHandleArea : Area := fun k => if k = 1 * 5 + 1 then 2 else 0

/-- A 200 x 200 map, accessible everywhere, with the builder (unit 1 of nation 1)
on `(50, 50)`, an idle unit of nation 2 (unit 2) on `(10, 10)` and an idle unit of
nation 1 (unit 3) on `(11, 10)`. -/
def mixedWorld : World :=
  { MAX_WORLD_X_LOC := 200, MAX_WORLD_Y_LOC := 200, SPRITE_MOVE := 3, SPRITE_IDLE := 1,
    ACTION_STOP := 0,
    is_accessible := fun _ _ _ => true,
    has_unit := fun x y _ => decide ((x = 50 ∧ y = 50) ∨ ((x = 10 ∨ x = 11) ∧ y = 10)),
    unit_recno := fun x _ _ => if x = 50 then 1 else if x = 10 then 2 else 3,
    unit_array := fun k =>
      if k = 1 then some (idleUnit 1 1 50 50) else if k = 2 then some (idleUnit 2 2 10 10)
      else if k = 3 then some (idleUnit 3 1 11 10) else none }

/-! ## Notions and sample inputs for the searches -/

/-- A 5 x 5 buffer around the 1 x 1 centre `(2, 2)`: the cells `(1, 1)` and
`(1, 2)`, positions 0 and 7 of ring 1, hold the handles 7 and 8; every other
cell holds 0. -/
def flankedArea : Area := fun k => if k = 1 * 5 + 1 then 7 else if k = 2 * 5 + 1 then 8 else 0

/-- Spec: the cell one step outward from the cell `p` of the rectangular ring R: a
cell on the left or right side moves one column away from the rectangle, a cell
on the top or bottom side one row away, a corner cell both. -/
def outwardCell (R0x R0y R0Width R0Height R : Int) (p : Int × Int) : Int × Int :=
  ((if p.1 = R0x - R then p.1 - 1 else if p.1 = R0x + R0Width - 1 + R then p.1 + 1 else p.1),
   (if p.2 = R0y - R then p.2 - 1 else if p.2 = R0y + R0Height - 1 + R then p.2 + 1 else p.2))

/-- Spec: the cell in line with a strip immediately beyond the end that the cell
`p` of the strip is: beyond the first cell for position 0, beyond the last cell
otherwise; a strip with `R0Width > 1` is horizontal. -/
def beyondStripEnd (R0Width Index : Int) (p : Int × Int) : Int × Int :=
  if R0Width > 1 then (if Index = 0 then (p.1 - 1, p.2) else (p.1 + 1, p.2))
  else (if Index = 0 then (p.1, p.2 - 1) else (p.1, p.2 + 1))

/-- Spec: the two cells next to the cell `p` of a strip on either side of the
strip: above and below for a horizontal strip (`R0Width > 1`), left and right
for a vertical one. -/
def besideStrip (R0Width : Int) (p : Int × Int) : (Int × Int) × (Int × Int) :=
  if R0Width > 1 then ((p.1, p.2 - 1), (p.1, p.2 + 1)) else ((p.1 - 1, p.2), (p.1 + 1, p.2))

/-! ## Counting cells and tracing loops -/

/-- The number of cells of the `width x height` buffer that lie in one of the
rings `lo .. hi - 1` and hold a movable handle (neither 0 nor AREA_BLOCKED). -/
def ringHandleCount (area : Area) (width height R0x lo hi : Int) : Int :=
  ∑ k in Finset.range (width * height).toNat,
    (if (area (k : Int) ≠ 0 ∧ area (k : Int) ≠ AREA_BLOCKED) ∧
        (lo ≤ cellRing width height R0x (k : Int) ∧ cellRing width height R0x (k : Int) < hi)
      then (1 : Int) else 0)

/-- The number of cells of the `width x height` buffer that lie in ring R and
hold 0. -/
def ringFreeCount (area : Area) (width height R0x R : Int) : Int :=
  ∑ k in Finset.range (width * height).toNat,
    (if area (k : Int) = 0 ∧ cellRing width height R0x (k : Int) = R then (1 : Int) else 0)

/-- The number of cells `(x, y)` of the `width x height` buffer with
`x0 <= x < x0 + w` and `y0 <= y < y0 + h` that hold a movable handle. -/
def rectHandleCount (area : Area) (width height x0 y0 w h : Int) : Int :=
  ∑ k in Finset.range (width * height).toNat,
    (if (area (k : Int) ≠ 0 ∧ area (k : Int) ≠ AREA_BLOCKED) ∧
        (x0 ≤ (k : Int) % width ∧ (k : Int) % width < x0 + w ∧
          y0 ≤ (k : Int) / width ∧ (k : Int) / width < y0 + h)
      then (1 : Int) else 0)

/-- The loop heads that `forLoopWhile guard body n lo s0` with `hi = lo + n`
passes: `LoopVisits guard body hi lo s0 i s` says that the test of the loop is
evaluated with counter `i` in state `s`.  The body runs from there when `i < hi`
and `guard s` holds. -/
inductive LoopVisits {σ : Type} (guard : σ → Bool) (body : Int → σ → σ) (hi lo : Int) (s0 : σ) :
    Int → σ → Prop
  | start : LoopVisits guard body hi lo s0 lo s0
  | step (i : Int) (s : σ) : LoopVisits guard body hi lo s0 i s → i < hi → guard s = true →
      LoopVisits guard body hi lo s0 (i + 1) (body i s)

/-- One outward push from the outline ring together with its backfill, as the
writes of `PushQueues`: the movable handle of the outline cell at position
`Index` is written to the cell at position `q` of ring `outlineRing + 1`, which
holds 0, the outline cell is cleared, then the movable handle of the footprint
cell `(ux, uy)` is written to the outline cell and that footprint cell is
cleared. -/
def QueueStep (width R0x R0y R0Width R0Height outlineRing : Int) (area area' : Area) : Prop :=
  ∃ Index q ux uy : Int,
    (0 ≤ Index ∧ Index < RingLength R0Width R0Height outlineRing) ∧
    (0 ≤ q ∧ q < RingLength R0Width R0Height (outlineRing + 1)) ∧
    (R0x - (outlineRing - 1) ≤ ux ∧
      ux < R0x - (outlineRing - 1) + (R0Width + 2 * (outlineRing - 1)) ∧
      R0y - (outlineRing - 1) ≤ uy ∧
      uy < R0y - (outlineRing - 1) + (R0Height + 2 * (outlineRing - 1))) ∧
    (area ((RingIndexToXY R0x R0y R0Width R0Height outlineRing Index).2 * width +
        (RingIndexToXY R0x R0y R0Width R0Height outlineRing Index).1) ≠ 0 ∧
      area ((RingIndexToXY R0x R0y R0Width R0Height outlineRing Index).2 * width +
        (RingIndexToXY R0x R0y R0Width R0Height outlineRing Index).1) ≠ AREA_BLOCKED) ∧
    area ((RingIndexToXY R0x R0y R0Width R0Height (outlineRing + 1) q).2 * width +
      (RingIndexToXY R0x R0y R0Width R0Height (outlineRing + 1) q).1) = 0 ∧
    (area (uy * width + ux) ≠ 0 ∧ area (uy * width + ux) ≠ AREA_BLOCKED) ∧
    area' =
      ((((area.write
            ((RingIndexToXY R0x R0y R0Width R0Height (outlineRing + 1) q).2 * width +
              (RingIndexToXY R0x R0y R0Width R0Height (outlineRing + 1) q).1)
            (area ((RingIndexToXY R0x R0y R0Width R0Height outlineRing Index).2 * width +
              (RingIndexToXY R0x R0y R0Width R0Height outlineRing Index).1))).write
          ((RingIndexToXY R0x R0y R0Width R0Height outlineRing Index).2 * width +
            (RingIndexToXY R0x R0y R0Width R0Height outlineRing Index).1) 0).write
          ((RingIndexToXY R0x R0y R0Width R0Height outlineRing Index).2 * width +
            (RingIndexToXY R0x R0y R0Width R0Height outlineRing Index).1)
          (area (uy * width + ux))).write (uy * width + ux) 0)

/-- The buffer `area'` is reached from `area` by exactly `n` paired steps
`QueueStep`. -/
def QueueSteps (width R0x R0y R0Width R0Height outlineRing : Int) : Nat → Area → Area → Prop
  | 0, area, area' => area' = area
  | n + 1, area, area' =>
    ∃ mid, QueueStep width R0x R0y R0Width R0Height outlineRing area mid ∧
      QueueSteps width R0x R0y R0Width R0Height outlineRing n mid area'

/-- A 5 x 5 buffer (1 x 1 footprint at `(2, 2)`) whose nine inner cells, the
footprint and the outline ring, hold the handles `k + 1`, while the cells of the
border ring hold 0. -/
def crowdedArea : Area := fun k =>
  if 1 ≤ k % 5 ∧ k % 5 ≤ 3 ∧ 1 ≤ k / 5 ∧ k / 5 ≤ 3 then (k + 1).toNat else 0

/-! ## Assertions of the source -/

/-- The entry assertion of `FindNearestUnit`, as written:
`! (locX >= searchX && locX < searchX + searchWidth && locY >= searchY &&
locY < searchY + searchWidth)`. -/
def FindNearestUnitAssert (locX locY searchX searchY searchWidth searchHeight : Int) : Bool :=
  !(decide (locX ≥ searchX ∧ locX < searchX + searchWidth ∧ locY ≥ searchY ∧
    locY < searchY + searchWidth))

/-- The `do .. while` loop of `PushRings` again, returning all the variables as
they are when the loop ends, where the closing assertion is evaluated (`PushRings`
returns the count, and the buffer and the random source go on to the next
stage). -/
def PushRingsLoopExit (MAX_MOVE width height R0x R0y R0Width R0Height outlineRing : Int) :
    Nat → Area → RandSource → Int → Option PushState
  | 0, _, _, _ => none
  | fuel + 1, area, rnd, emptyRing =>
    let s := PushRingsCycle area rnd MAX_MOVE width height R0x R0y R0Width R0Height
      outlineRing emptyRing
    if s.emptyRing + 1 < outlineRing ∧ s.pushed = true then
      PushRingsLoopExit MAX_MOVE width height R0x R0y R0Width R0Height outlineRing
        fuel s.area s.rnd s.emptyRing
    else some s

/-- The closing assertion of `PushRings`:
`(occupationCount == 0) == (emptyRing+1 >= outlineRing)`. -/
def PushRingsClosingAssert (s : PushState) (outlineRing : Int) : Bool :=
  decide (s.occupationCount = 0) == decide (s.emptyRing + 1 ≥ outlineRing)

/-! ## The order of FindNearestUnit -/

/-- The distance `max(|dx|, |dy|)` of the cell `(x, y)` from `(locX, locY)`. -/
def nearDistance (locX locY x y : Int) : Int :=
  max (Int.natAbs (x - locX) : Int) (Int.natAbs (y - locY) : Int)

/-- The secondary distance `min(|dx|, |dy|)` of the cell `(x, y)` from `(locX, locY)`;
it is 0 exactly on the row and the column of `(locX, locY)`. -/
def nearDistance2 (locX locY x y : Int) : Int :=
  min (Int.natAbs (x - locX) : Int) (Int.natAbs (y - locY) : Int)

/-- The cell `(x, y)` of the search rectangle comes before `(X, Y)` in the order of the
two loops of `FindNearestUnit`: rows from the top, each from the left. -/
def scannedBefore (searchX searchY searchWidth searchHeight Y X x y : Int) : Prop :=
  searchX ≤ x ∧ x < searchX + searchWidth ∧ searchY ≤ y ∧ y < searchY + searchHeight ∧
    (y < Y ∨ (y = Y ∧ x < X))

/-- The cell `(ux, uy)` is not behind `(x, y)`: its pair of distances is smaller in
the lexicographic order, or the pairs are equal and `(ux, uy)` is not later in
row-major order. -/
def nearerOrFirst (locX locY ux uy x y : Int) : Prop :=
  nearDistance locX locY ux uy < nearDistance locX locY x y ∨
    (nearDistance locX locY ux uy = nearDistance locX locY x y ∧
      nearDistance2 locX locY ux uy < nearDistance2 locX locY x y) ∨
    (nearDistance locX locY ux uy = nearDistance locX locY x y ∧
      nearDistance2 locX locY ux uy = nearDistance2 locX locY x y ∧
      (uy < y ∨ (uy = y ∧ ux ≤ x)))

/-- What the running best of `FindNearestUnit` is when the loops stand at `(X, Y)`:
nothing, if no cell scanned so far holds a movable handle; else a scanned cell with
its handle and distances, not behind any scanned cell with a movable handle. -/
def nearestInvariant (area : Area)
    (locX locY searchX searchY searchWidth searchHeight width Y X : Int) (b : Nearest) : Prop :=
  (b.bestUnit = 0 ∧ b.bestDistance = INT_MAX ∧ b.unitX = 0 ∧ b.unitY = 0 ∧
    ∀ x y, scannedBefore searchX searchY searchWidth searchHeight Y X x y →
      ¬ (area (y * width + x) ≠ 0 ∧ area (y * width + x) ≠ AREA_BLOCKED)) ∨
  (b.bestUnit ≠ 0 ∧ b.bestUnit ≠ AREA_BLOCKED ∧
    scannedBefore searchX searchY searchWidth searchHeight Y X b.unitX b.unitY ∧
    area (b.unitY * width + b.unitX) = b.bestUnit ∧
    b.bestDistance = nearDistance locX locY b.unitX b.unitY ∧
    b.bestDistance2 = nearDistance2 locX locY b.unitX b.unitY ∧
    ∀ x y, scannedBefore searchX searchY searchWidth searchHeight Y X x y →
      area (y * width + x) ≠ 0 ∧ area (y * width + x) ≠ AREA_BLOCKED →
      nearerOrFirst locX locY b.unitX b.unitY x y)

/-! ## The calls of RingIndexToXY

Each function that calls `RingIndexToXY` gets a companion that follows the same
control flow and tells whether every call made on the way is in order.  The
companions take the states from the functions themselves. -/

/-- The entry assertion of `RingIndexToXY`:
`assert( Index >= 0 && Index < RingLength(R0Width, R0Height, R) )`. -/
def RingIndexToXYAssert (R0Width R0Height R Index : Int) : Bool :=
  decide (Index ≥ 0 ∧ Index < RingLength R0Width R0Height R)

/-- The call `RingIndexToXY(R0x, R0y, R0Width, R0Height, R, Index, &x, &y)` is in
order: its entry assertion holds, `R` is one of the rings `0 .. ringCount-1`, and the
cell `(x, y)` it yields has `0 <= x < width` and `0 <= y < height`, as an access
`_Area[y * width + x]` needs. -/
def ringCallOk (width height R0x R0y R0Width R0Height ringCount R Index : Int) : Bool :=
  RingIndexToXYAssert R0Width R0Height R Index && decide (R ≤ ringCount - 1) &&
    decide (0 ≤ (RingIndexToXY R0x R0y R0Width R0Height R Index).1 ∧
      (RingIndexToXY R0x R0y R0Width R0Height R Index).1 < width ∧
      0 ≤ (RingIndexToXY R0x R0y R0Width R0Height R Index).2 ∧
      (RingIndexToXY R0x R0y R0Width R0Height R Index).2 < height)

/-- The check `ok` holds at the start of every iteration of `forLoop body`. -/
def forLoopAll {σ : Type} (ok : Int → σ → Bool) (body : Int → σ → σ) : Nat → Int → σ → Bool
  | 0, _, _ => true
  | n + 1, i, s => ok i s && forLoopAll ok body n (i + 1) (body i s)

/-- The check `ok` holds at the start of every iteration of `forLoopWhile guard body`. -/
def forLoopWhileAll {σ : Type} (guard : σ → Bool) (ok : Int → σ → Bool) (body : Int → σ → σ) :
    Nat → Int → σ → Bool
  | 0, _, _ => true
  | n + 1, i, s =>
    if guard s then ok i s && forLoopWhileAll guard ok body n (i + 1) (body i s) else true

/-- The calls made by the scan loop of `SearchFreeSpotAtIndex`: in every iteration
that is run, the operand of `%` is not negative and the call of `RingIndexToXY` is in
order. -/
def SearchFreeSpotLoopOk (area : Area)
    (width height R0x R0y R0Width R0Height ringCount R Index ringLength : Int) :
    Nat → Int → Int → Bool
  | 0, _, _ => true
  | n + 1, i, direction =>
    let signedIndex := direction * (cdiv i 2 + cmod i 2)
    let ringIndex := cmod (ringLength + Index + signedIndex) ringLength
    let p := RingIndexToXY R0x R0y R0Width R0Height R ringIndex
    decide (ringLength + Index + signedIndex ≥ 0) &&
      ringCallOk width height R0x R0y R0Width R0Height ringCount R ringIndex &&
      (if area (p.2 * width + p.1) = 0 then true
       else SearchFreeSpotLoopOk area width height R0x R0y R0Width R0Height ringCount R Index
         ringLength n (i + 1) (-direction))

/-- The calls made by `SearchFreeSpotAtIndex`. -/
def SearchFreeSpotAtIndexOk (area : Area)
    (maxSearchDistance width height R0x R0y R0Width R0Height ringCount R Index : Int) : Bool :=
  let ringLength := RingLength R0Width R0Height R
  SearchFreeSpotLoopOk area width height R0x R0y R0Width R0Height ringCount R Index ringLength
    (2 * maxSearchDistance).toNat 0 1

/-- The calls made by `FindPushedSpot`, which are those of its searches in ring
R+1. -/
def FindPushedSpotOk (area : Area) (rnd : RandSource)
    (maxSearchDistance width height R0x R0y R0Width R0Height ringCount R Index : Int) : Bool :=
  let nextRingLength := RingLength R0Width R0Height (R + 1)
  if R = 0 ∧ (R0Width = 1 ∨ R0Height = 1) then
    if R0Width = 1 ∧ R0Height = 1 then
      let startRingIndex := rnd.random nextRingLength
      SearchFreeSpotAtIndexOk area
        (cdiv (nextRingLength - 1) 2 + boolToInt (decide (cmod (nextRingLength - 1) 2 = 1)))
        width height R0x R0y R0Width R0Height ringCount (R + 1) startRingIndex
    else if Index = 0 ∨ Index = RingLength R0Width R0Height R - 1 then
      let ringIndex :=
        if R0Width > 1 then (if Index = 0 then nextRingLength - 1 else R0Width + 3)
        else (if Index = 0 then 1 else R0Height + 5)
      SearchFreeSpotAtIndexOk area (maxSearchDistance + 2)
        width height R0x R0y R0Width R0Height ringCount (R + 1) ringIndex
    else
      let firstDirection := rnd.random 2
      let ringIndex :=
        if R0Width > 1 then
          (if firstDirection = 0 then 1 + Index else 1 + R0Width + 3 + (R0Width - 1 - Index))
        else (if firstDirection = 0 then nextRingLength - 1 - Index else 3 + Index)
      let nextIndex := SearchFreeSpotAtIndex area maxSearchDistance
        width height R0x R0y R0Width R0Height (R + 1) ringIndex
      SearchFreeSpotAtIndexOk area maxSearchDistance
          width height R0x R0y R0Width R0Height ringCount (R + 1) ringIndex &&
        (if nextIndex ≥ 0 then true
         else
          let firstDirection2 := boolToInt (decide (firstDirection = 0))
          let ringIndex2 :=
            if R0Width > 1 then
              (if firstDirection2 = 0 then 1 + Index else 1 + R0Width + 3 + (R0Width - 1 - Index))
            else (if firstDirection2 = 0 then nextRingLength - 1 - Index else 3 + Index)
          SearchFreeSpotAtIndexOk area maxSearchDistance
            width height R0x R0y R0Width R0Height ringCount (R + 1) ringIndex2)
  else
    let UpperLeft : Int := 0
    let UpperRight := R0Width + 2 * R - 1
    let LowerRight := R0Width + 2 * R + R0Height - 1 + 2 * R - 1
    let LowerLeft := RingLength R0Width R0Height R - (R0Height + 2 * R - 1)
    let ci : Bool × Int :=
      if Index ≤ UpperLeft then (decide (Index = UpperLeft), -1)
      else if Index ≤ UpperRight then (decide (Index = UpperRight), 1)
      else if Index ≤ LowerRight then (decide (Index = LowerRight), 3)
      else if Index ≤ LowerLeft then (decide (Index = LowerLeft), 5)
      else (false, 7)
    let isCorner := ci.1
    let indexShift := ci.2
    let ringIndex := Index + indexShift + boolToInt isCorner
    SearchFreeSpotAtIndexOk area (maxSearchDistance + boolToInt isCorner)
      width height R0x R0y R0Width R0Height ringCount (R + 1) ringIndex

/-- The calls made by the scan loop of `FindNextNonblockedInRing`. -/
def FindNextNonblockedLoopOk (area : Area)
    (width height R0x R0y R0Width R0Height ringCount R prevSearchIndex ringLength : Int) :
    Nat → Int → Bool
  | 0, _ => true
  | n + 1, i =>
    let index := cmod (prevSearchIndex + 1 + i) ringLength
    let p := RingIndexToXY R0x R0y R0Width R0Height R index
    let flag := area (p.2 * width + p.1)
    ringCallOk width height R0x R0y R0Width R0Height ringCount R index &&
      (if flag ≠ 0 ∧ flag ≠ AREA_BLOCKED then true
       else FindNextNonblockedLoopOk area width height R0x R0y R0Width R0Height ringCount R
         prevSearchIndex ringLength n (i + 1))

/-- The calls made by `FindNextNonblockedInRing`. -/
def FindNextNonblockedInRingOk (area : Area)
    (width height R0x R0y R0Width R0Height ringCount R prevSearchIndex : Int) : Bool :=
  let ringLength := RingLength R0Width R0Height R
  FindNextNonblockedLoopOk area width height R0x R0y R0Width R0Height ringCount R
    prevSearchIndex ringLength ringLength.toNat 0

/-- The calls made by one iteration of the inner loop of `PushRings`: the one for
the cell itself, those of `FindPushedSpot`, and the one for the spot found. -/
def PushRingsCellOk (MAX_MOVE width height R0x R0y R0Width R0Height ringCount R ringLength
    startIndex : Int) (i : Int) (s : PushState) : Bool :=
  let ringIndex := cmod (startIndex + i) ringLength
  let p := RingIndexToXY R0x R0y R0Width R0Height R ringIndex
  let flag := s.area (p.2 * width + p.1)
  ringCallOk width height R0x R0y R0Width R0Height ringCount R ringIndex &&
    (if flag ≠ AREA_BLOCKED ∧ flag ≠ 0 then
      let r := FindPushedSpot s.area s.rnd MAX_MOVE width height R0x R0y R0Width R0Height R
        ringIndex
      FindPushedSpotOk s.area s.rnd MAX_MOVE width height R0x R0y R0Width R0Height ringCount R
          ringIndex &&
        (if r.1 ≠ -1 then
          ringCallOk width height R0x R0y R0Width R0Height ringCount (R + 1) r.1
         else true)
     else true)

/-- The calls made while `PushRings` scans ring R. -/
def PushRingsRingOk (MAX_MOVE width height R0x R0y R0Width R0Height ringCount : Int)
    (R : Int) (s : PushState) : Bool :=
  let ringLength := RingLength R0Width R0Height R
  let startIndex := s.rnd.random ringLength
  forLoopAll
    (PushRingsCellOk MAX_MOVE width height R0x R0y R0Width R0Height ringCount R ringLength
      startIndex)
    (PushRingsCell MAX_MOVE width height R0x R0y R0Width R0Height R ringLength startIndex)
    ringLength.toNat 0 { s with rnd := s.rnd.next, empty := true }

/-- The calls made in one cycle of `PushRings`. -/
def PushRingsCycleOk (area : Area) (rnd : RandSource)
    (MAX_MOVE width height R0x R0y R0Width R0Height ringCount outlineRing emptyRing : Int) :
    Bool :=
  forLoopAll (PushRingsRingOk MAX_MOVE width height R0x R0y R0Width R0Height ringCount)
    (PushRingsRing MAX_MOVE width height R0x R0y R0Width R0Height)
    (outlineRing - (emptyRing + 1)).toNat (emptyRing + 1)
    { area := area, rnd := rnd, emptyRing := emptyRing, occupationCount := 0,
      pushed := false, empty := true }

/-- The calls made in the cycles of `PushRings` that `fuel` allows. -/
def PushRingsLoopOk (MAX_MOVE width height R0x R0y R0Width R0Height ringCount
    outlineRing : Int) : Nat → Area → RandSource → Int → Bool
  | 0, _, _, _ => true
  | fuel + 1, area, rnd, emptyRing =>
    let s := PushRingsCycle area rnd MAX_MOVE width height R0x R0y R0Width R0Height
      outlineRing emptyRing
    PushRingsCycleOk area rnd MAX_MOVE width height R0x R0y R0Width R0Height ringCount
        outlineRing emptyRing &&
      (if s.emptyRing + 1 < outlineRing ∧ s.pushed = true then
        PushRingsLoopOk MAX_MOVE width height R0x R0y R0Width R0Height ringCount outlineRing
          fuel s.area s.rnd s.emptyRing
       else true)

/-- The calls made by `PushRings`. -/
def PushRingsOk (fuel : Nat) (area : Area) (rnd : RandSource)
    (width height R0x R0y R0Width R0Height ringCount outlineRing : Int) : Bool :=
  PushRingsLoopOk 3 width height R0x R0y R0Width R0Height ringCount outlineRing fuel area rnd
    (-1)

/-- The call made by one iteration of the loop of `FillOutline`. -/
def FillOutlineCellOk (width height R0x R0y R0Width R0Height ringCount outlineRing
    outlineRingLength startIndex : Int) (i : Int) (_s : FillState) : Bool :=
  let index := cmod (startIndex + i) outlineRingLength
  ringCallOk width height R0x R0y R0Width R0Height ringCount outlineRing index

/-- The calls made by `FillOutline`. -/
def FillOutlineOk (area : Area) (rnd : RandSource)
    (occupationCount width height R0x R0y R0Width R0Height ringCount outlineRing : Int) :
    Bool :=
  let buildX := R0x - (outlineRing - 1)
  let buildY := R0y - (outlineRing - 1)
  let buildWidth := R0Width + 2 * (outlineRing - 1)
  let buildHeight := R0Height + 2 * (outlineRing - 1)
  let outlineRingLength := RingLength R0Width R0Height outlineRing
  let startIndex := rnd.random outlineRingLength
  forLoopWhileAll (fun s => decide (s.occupationCount > 0))
    (FillOutlineCellOk width height R0x R0y R0Width R0Height ringCount outlineRing
      outlineRingLength startIndex)
    (FillOutlineCell width height R0x R0y R0Width R0Height outlineRing
      buildX buildY buildWidth buildHeight outlineRingLength startIndex)
    outlineRingLength.toNat 0
    { area := area, rnd := rnd.next, occupationCount := occupationCount }

/-- The calls made by the loop of `PushQueues` in the iterations that `fuel`
allows. -/
def PushQueuesLoopOk (width height R0x R0y R0Width R0Height ringCount outlineRing
    buildX buildY buildWidth buildHeight outlineRingLength startIndex : Int) :
    Nat → Int → FillState → Bool
  | fuel, i, s =>
    if i < outlineRingLength ∧ s.occupationCount > 0 then
      match fuel with
      | 0 => true
      | fuel + 1 =>
        let index := cmod (startIndex + i) outlineRingLength
        let p := RingIndexToXY R0x R0y R0Width R0Height outlineRing index
        let flag := s.area (p.2 * width + p.1)
        ringCallOk width height R0x R0y R0Width R0Height ringCount outlineRing index &&
        (if flag ≠ 0 ∧ flag ≠ AREA_BLOCKED then
          let r := FindPushedSpot s.area s.rnd 1 width height R0x R0y R0Width R0Height
            outlineRing index
          FindPushedSpotOk s.area s.rnd 1 width height R0x R0y R0Width R0Height ringCount
            outlineRing index &&
          (if r.1 ≠ -1 then
            let q := RingIndexToXY R0x R0y R0Width R0Height (outlineRing + 1) r.1
            let area1 := (s.area.write (q.2 * width + q.1) flag).write (p.2 * width + p.1) 0
            let u := FindNearestUnit area1 p.1 p.2 buildX buildY buildWidth buildHeight
              width height
            ringCallOk width height R0x R0y R0Width R0Height ringCount (outlineRing + 1) r.1 &&
            (if u.1 ≠ 0 then
              PushQueuesLoopOk width height R0x R0y R0Width R0Height ringCount outlineRing
                buildX buildY buildWidth buildHeight outlineRingLength startIndex fuel
                (i - 1 + 1)
                { area := (area1.write (p.2 * width + p.1) u.1).write (u.2.2 * width + u.2.1) 0
                  rnd := r.2
                  occupationCount := s.occupationCount - 1 }
            else
              PushQueuesLoopOk width height R0x R0y R0Width R0Height ringCount outlineRing
                buildX buildY buildWidth buildHeight outlineRingLength startIndex fuel
                (i + 1) { s with area := area1, rnd := r.2 })
          else
            PushQueuesLoopOk width height R0x R0y R0Width R0Height ringCount outlineRing
              buildX buildY buildWidth buildHeight outlineRingLength startIndex fuel
              (i + 1) { s with rnd := r.2 })
        else
          PushQueuesLoopOk width height R0x R0y R0Width R0Height ringCount outlineRing
            buildX buildY buildWidth buildHeight outlineRingLength startIndex fuel (i + 1) s)
    else true

/-- The calls made by `PushQueues`. -/
def PushQueuesOk (area : Area) (rnd : RandSource)
    (occupationCount width height R0x R0y R0Width R0Height ringCount outlineRing : Int) :
    Bool :=
  let buildX := R0x - (outlineRing - 1)
  let buildY := R0y - (outlineRing - 1)
  let buildWidth := R0Width + 2 * (outlineRing - 1)
  let buildHeight := R0Height + 2 * (outlineRing - 1)
  let outlineRingLength := RingLength R0Width R0Height outlineRing
  let startIndex := rnd.random outlineRingLength
  PushQueuesLoopOk width height R0x R0y R0Width R0Height ringCount outlineRing
    buildX buildY buildWidth buildHeight outlineRingLength startIndex
    (outlineRingLength.toNat + occupationCount.toNat) 0
    { area := area, rnd := rnd.next, occupationCount := occupationCount }

/-- The calls made by one iteration of the inner loop of `MoveAccordingToSchematic`:
those of `FindNextNonblockedInRing`, if it is called, and the one for the target of
a unit that is still inside the build area. -/
def MoveAccordingToSchematicCellOk (area : Area) (w : World)
    (width height xLoc yLoc buildX buildY buildWith buildHeight
      R0x R0y R0Width R0Height ringCount outlineRing outlineRingLength : Int)
    (j i : Int) (s : MoveState) : Bool :=
  let x := xLoc + i
  let y := yLoc + j
  let flag := area (j * width + i)
  if flag ≠ 0 ∧ flag ≠ AREA_BLOCKED then
    let unitRecno := flagToInt flag
    match w.unit_array unitRecno with
    | none => true
    | some _ =>
      if x ≥ buildX ∧ x < buildX + buildWith ∧ y ≥ buildY ∧ y < buildY + buildHeight then
        let desperationMoveIndex :=
          if s.desperationMoveIndex ≠ -1 then
            FindNextNonblockedInRing area width height R0x R0y R0Width R0Height outlineRing
              s.desperationMoveIndex
          else s.desperationMoveIndex
        let moveIndex :=
          if desperationMoveIndex ≠ -1 then desperationMoveIndex
          else s.rnd.random outlineRingLength
        (if s.desperationMoveIndex ≠ -1 then
          FindNextNonblockedInRingOk area width height R0x R0y R0Width R0Height ringCount
            outlineRing s.desperationMoveIndex
         else true) &&
          ringCallOk width height R0x R0y R0Width R0Height ringCount outlineRing moveIndex
      else true
  else true

/-- The calls made by `MoveAccordingToSchematic`. -/
def MoveAccordingToSchematicOk (area : Area) (w : World) (rnd : RandSource)
    (width height xLoc yLoc buildX buildY buildWith buildHeight
      R0x R0y R0Width R0Height ringCount outlineRing : Int) : Bool :=
  let outlineRingLength := RingLength R0Width R0Height outlineRing
  forLoopAll
    (fun j s =>
      forLoopAll
        (MoveAccordingToSchematicCellOk area w width height xLoc yLoc
          buildX buildY buildWith buildHeight R0x R0y R0Width R0Height ringCount outlineRing
          outlineRingLength j)
        (MoveAccordingToSchematicCell area w width height xLoc yLoc
          buildX buildY buildWith buildHeight R0x R0y R0Width R0Height outlineRing
          outlineRingLength j)
        width.toNat 0 s)
    (fun j s =>
      forLoop (MoveAccordingToSchematicCell area w width height xLoc yLoc
          buildX buildY buildWith buildHeight R0x R0y R0Width R0Height outlineRing
          outlineRingLength j)
        width.toNat 0 s)
    height.toNat 0
    { desperationMoveIndex := rnd.random outlineRingLength, rnd := rnd.next, commands := [] }

/-- A 200 x 200 map with the builder (unit 1 of nation 1) on `(50, 50)` and an idle
unit of the same nation (unit 2) on `(11, 10)`, a cell of the 4 x 2 footprint at
`(10, 10)`.  The cells `(9, 9) .. (13, 9)` above it and the cell `(9, 10)` to its
left are not accessible; every other cell is. -/
def wideFootprintWorld : World :=
  { MAX_WORLD_X_LOC := 200, MAX_WORLD_Y_LOC := 200, SPRITE_MOVE := 3, SPRITE_IDLE := 1,
    ACTION_STOP := 0,
    is_accessible := fun x y _ => !(decide ((y = 9 ∧ 9 ≤ x ∧ x ≤ 13) ∨ (x = 9 ∧ y = 10))),
    has_unit := fun x y _ => decide ((x = 50 ∧ y = 50) ∨ (x = 11 ∧ y = 10)),
    unit_recno := fun x _ _ => if x = 50 then 1 else 2,
    unit_array := fun k =>
      if k = 1 then some (idleUnit 1 1 50 50) else if k = 2 then some (idleUnit 2 1 11 10)
      else none }

/-- The schematic of the 4 x 2 footprint at `(10, 10)` in `wideFootprintWorld`: an
8 x 6 buffer. -/
def wideSchematic : Area :=
  match CreateAreaSchematic (fun _ => 0) wideFootprintWorld 1 8 8 8 6 1 1 10 10 4 2 with
  | some r => r.2
  | none => fun _ => 0

/-- What PushRings returns on `wideSchematic` with the random source that always
draws 9. -/
def widePushed : Int × Area × RandSource :=
  match PushRings 5 wideSchematic (fun _ => 9) 8 6 2 2 4 2 1 with
  | some r => r
  | none => (0, fun _ => 0, fun _ => 0)

/-! ## The target of a desperation move -/

theorem cdiv_of_nonneg {a b : Int} (ha : 0 ≤ a) (hb : 0 ≤ b) : cdiv a b = a / b := by
  unfold cdiv
  exact Int.tdiv_eq_ediv ha hb

theorem cmod_of_nonneg {a b : Int} (ha : 0 ≤ a) (hb : 0 ≤ b) : cmod a b = a % b := by
  unfold cmod
  exact Int.tmod_eq_emod ha hb

/-! ### Ring geometry -/

/-- The geometry of an accepted footprint is a valid ring decomposition. -/
theorem geometry_valid (bx by_ bw bh : Int) (hw : 1 ≤ bw) (hh : 1 ≤ bh) :
    ValidRings (geometry bx by_ bw bh).width (geometry bx by_ bw bh).height
      (geometry bx by_ bw bh).R0x (geometry bx by_ bw bh).R0y
      (geometry bx by_ bw bh).R0Width (geometry bx by_ bw bh).R0Height
      (geometry bx by_ bw bh).ringCount := by
  have h : cdiv (min (bw + 1 + 2 * 2) (bh + 1 + 2 * 2)) 2
      = min (bw + 1 + 2 * 2) (bh + 1 + 2 * 2) / 2 :=
    cdiv_of_nonneg (by omega) (by omega)
  constructor <;> simp only [geometry, SCAN_AREA_INCREASE, h] <;> omega

/-- The outline ring of an accepted footprint is `ringCount - 2` and at least 1. -/
theorem geometry_outlineRing (bx by_ bw bh : Int) (hw : 1 ≤ bw) (hh : 1 ≤ bh) :
    (geometry bx by_ bw bh).outlineRing = (geometry bx by_ bw bh).ringCount - 2 ∧
    1 ≤ (geometry bx by_ bw bh).outlineRing := by
  have h : cdiv (min (bw + 1 + 2 * 2) (bh + 1 + 2 * 2)) 2
      = min (bw + 1 + 2 * 2) (bh + 1 + 2 * 2) / 2 :=
    cdiv_of_nonneg (by omega) (by omega)
  constructor
  all_goals simp only [geometry, SCAN_AREA_INCREASE, h]
  all_goals omega

/-- Rings 0 .. n of a valid innermost ring add up to the rectangle of ring n. -/
theorem ringLength_sum_aux (w0 h0 : Int) (hw : 1 ≤ w0) (hh : 1 ≤ h0)
    (hmin : w0 ≤ 2 ∨ h0 ≤ 2) (n : Nat) :
    ((List.range (n + 1)).map (fun R : Nat => RingLength w0 h0 (R : Int))).sum
      = (w0 + 2 * n) * (h0 + 2 * n) := by
  induction n with
  | zero =>
    simp only [List.range_succ, List.range_zero, List.nil_append, List.map_cons, List.map_nil,
      List.sum_cons, List.sum_nil, RingLength]
    simp only [Nat.cast_zero, lt_self_iff_false, false_or, gt_iff_lt, mul_zero, add_zero]
    have h1 : w0 = 1 ∨ w0 = 2 ∨ h0 = 1 ∨ h0 = 2 := by omega
    split_ifs with h <;> rcases h1 with h1 | h1 | h1 | h1 <;> subst h1 <;> omega
  | succ n ih =>
    rw [List.range_succ, List.map_append, List.sum_append, ih]
    have : ((n + 1 : Nat) : Int) > 0 := by omega
    simp only [List.map_cons, List.map_nil, List.sum_cons, List.sum_nil, RingLength, this, true_or,
      if_true]
    push_cast
    ring

/-- Any nonnegative index lands on the rectangle spanned by ring R. -/
theorem ring_in_rect (R0x R0y R0Width R0Height R Index : Int)
    (hW : 1 ≤ R0Width) (hH : 1 ≤ R0Height) (hR : 0 ≤ R) (hI : 0 ≤ Index) :
    R0x - R ≤ (RingIndexToXY R0x R0y R0Width R0Height R Index).1 ∧
    (RingIndexToXY R0x R0y R0Width R0Height R Index).1 ≤ R0x + R0Width - 1 + R ∧
    R0y - R ≤ (RingIndexToXY R0x R0y R0Width R0Height R Index).2 ∧
    (RingIndexToXY R0x R0y R0Width R0Height R Index).2 ≤ R0y + R0Height - 1 + R := by
  unfold RingIndexToXY
  simp only
  split_ifs <;> simp only <;> omega

/-- Two valid ring positions that give the same cell are the same position. -/
theorem ring_inj {width height R0x R0y R0Width R0Height ringCount : Int}
    (v : ValidRings width height R0x R0y R0Width R0Height ringCount)
    (R I R' I' : Int) (hR : 0 ≤ R) (hR' : 0 ≤ R')
    (hI : 0 ≤ I) (hI2 : I < RingLength R0Width R0Height R)
    (hI' : 0 ≤ I') (hI2' : I' < RingLength R0Width R0Height R')
    (h : RingIndexToXY R0x R0y R0Width R0Height R I
      = RingIndexToXY R0x R0y R0Width R0Height R' I') :
    R = R' ∧ I = I' := by
  obtain ⟨hW, hH, hmin, hx, hy, hN, hwidth, hheight⟩ := v
  unfold RingLength at hI2 hI2'
  unfold RingIndexToXY at h
  simp only at h
  split_ifs at h hI2 hI2' <;> simp only [Prod.mk.injEq] at h <;> omega

/-- On the border of the rectangle of ring R, `ringPos` is a valid index of ring R
that `RingIndexToXY` maps back to the cell. -/
theorem ringPos_spec (R0x R0y R0Width R0Height R x y : Int)
    (hW : 1 ≤ R0Width) (hH : 1 ≤ R0Height) (hR : 0 ≤ R)
    (hx0 : R0x - R ≤ x) (hx1 : x ≤ R0x + R0Width - 1 + R)
    (hy0 : R0y - R ≤ y) (hy1 : y ≤ R0y + R0Height - 1 + R)
    (hb : x = R0x - R ∨ x = R0x + R0Width - 1 + R ∨ y = R0y - R ∨ y = R0y + R0Height - 1 + R) :
    0 ≤ ringPos R0x R0y R0Width R0Height R x y ∧
    ringPos R0x R0y R0Width R0Height R x y < RingLength R0Width R0Height R ∧
    RingIndexToXY R0x R0y R0Width R0Height R (ringPos R0x R0y R0Width R0Height R x y) = (x, y) := by
  unfold ringPos
  split_ifs with h1 h2 h3
  all_goals
    unfold RingLength RingIndexToXY
    simp only
    split_ifs <;> simp only [Prod.mk.injEq] <;> omega

/-- Every cell of the scan area is the image of the valid ring position
`(ringOf .., ringPos ..)`. -/
theorem ringOf_spec {width height R0x R0y R0Width R0Height ringCount : Int}
    (v : ValidRings width height R0x R0y R0Width R0Height ringCount)
    (x y : Int) (hx0 : 0 ≤ x) (hx1 : x < width) (hy0 : 0 ≤ y) (hy1 : y < height) :
    0 ≤ ringOf width height R0x x y ∧ ringOf width height R0x x y < ringCount ∧
    0 ≤ ringPos R0x R0y R0Width R0Height (ringOf width height R0x x y) x y ∧
    ringPos R0x R0y R0Width R0Height (ringOf width height R0x x y) x y <
      RingLength R0Width R0Height (ringOf width height R0x x y) ∧
    RingIndexToXY R0x R0y R0Width R0Height (ringOf width height R0x x y)
      (ringPos R0x R0y R0Width R0Height (ringOf width height R0x x y) x y) = (x, y) := by
  obtain ⟨hW, hH, hmin, hx, hy, hN, hwidth, hheight⟩ := v
  have hR : 0 ≤ ringOf width height R0x x y ∧ ringOf width height R0x x y < ringCount := by
    unfold ringOf; omega
  have := ringPos_spec R0x R0y R0Width R0Height (ringOf width height R0x x y) x y hW hH hR.1
    (by unfold ringOf; omega) (by unfold ringOf; omega) (by unfold ringOf; omega)
    (by unfold ringOf; omega) (by unfold ringOf; omega)
  exact ⟨hR.1, hR.2, this⟩

/-- A ring position of a ring below `ringCount` lies inside the scan area. -/
theorem ring_in_area {width height R0x R0y R0Width R0Height ringCount : Int}
    (v : ValidRings width height R0x R0y R0Width R0Height ringCount)
    (R Index : Int) (hR : 0 ≤ R) (hR1 : R < ringCount) (hI : 0 ≤ Index) :
    0 ≤ (RingIndexToXY R0x R0y R0Width R0Height R Index).1 ∧
    (RingIndexToXY R0x R0y R0Width R0Height R Index).1 < width ∧
    0 ≤ (RingIndexToXY R0x R0y R0Width R0Height R Index).2 ∧
    (RingIndexToXY R0x R0y R0Width R0Height R Index).2 < height := by
  obtain ⟨hW, hH, hmin, hx, hy, hN, hwidth, hheight⟩ := v
  have := ring_in_rect R0x R0y R0Width R0Height R Index hW hH hR hI
  omega

/-- C3: for every footprint of at least 1 x 1, the lengths of rings
0 .. ringCount-1 of the derived geometry add up to the scan-area size
(buildWidth + 4) * (buildHeight + 4). -/
theorem ring_lengths_sum_eq_scan_area (buildxLoc buildyLoc buildWidth buildHeight : Int)
    (hw : 1 ≤ buildWidth) (hh : 1 ≤ buildHeight) :
    ((List.range (geometry buildxLoc buildyLoc buildWidth buildHeight).ringCount.toNat).map
      (fun R : Nat => RingLength (geometry buildxLoc buildyLoc buildWidth buildHeight).R0Width
        (geometry buildxLoc buildyLoc buildWidth buildHeight).R0Height (R : Int))).sum
      = (buildWidth + 4) * (buildHeight + 4) := by
  obtain ⟨hW, hH, hmin, hx, hy, hN, hwidth, hheight⟩ :=
    geometry_valid buildxLoc buildyLoc buildWidth buildHeight hw hh
  obtain ⟨n, hn⟩ : ∃ n : Nat,
      (geometry buildxLoc buildyLoc buildWidth buildHeight).ringCount = (n : Int) + 1 :=
    ⟨((geometry buildxLoc buildyLoc buildWidth buildHeight).ringCount - 1).toNat, by omega⟩
  have hn' : (geometry buildxLoc buildyLoc buildWidth buildHeight).ringCount.toNat = n + 1 := by
    omega
  rw [hn', ringLength_sum_aux _ _ hW hH hmin n]
  have e1 : (geometry buildxLoc buildyLoc buildWidth buildHeight).width = buildWidth + 4 := by
    simp only [geometry, SCAN_AREA_INCREASE]; ring
  have e2 : (geometry buildxLoc buildyLoc buildWidth buildHeight).height = buildHeight + 4 := by
    simp only [geometry, SCAN_AREA_INCREASE]; ring
  rw [← e1, ← e2, hwidth, hheight, hn]
  ring

/-- Witness for C3: the 2 x 3 footprint, whose three rings have 6, 14 and 22
cells. -/
theorem ring_lengths_sum_eq_scan_area_witness :
    (1 : Int) ≤ 2 ∧ (1 : Int) ≤ 3 ∧
    ((List.range (geometry 10 10 2 3).ringCount.toNat).map
      (fun R : Nat => RingLength (geometry 10 10 2 3).R0Width
        (geometry 10 10 2 3).R0Height (R : Int))).sum = (2 + 4) * (3 + 4) :=
  ⟨by decide, by decide, ring_lengths_sum_eq_scan_area 10 10 2 3 (by decide) (by decide)⟩

/-- C4: for every footprint of at least 1 x 1, the map from the valid ring
positions (ring R below ringCount, index below the length of ring R) to cells is
a bijection onto the cells of the scan area. -/
theorem ring_positions_bijective (buildxLoc buildyLoc buildWidth buildHeight : Int)
    (hw : 1 ≤ buildWidth) (hh : 1 ≤ buildHeight) :
    Set.BijOn
      (fun p : Int × Int =>
        RingIndexToXY (geometry buildxLoc buildyLoc buildWidth buildHeight).R0x
          (geometry buildxLoc buildyLoc buildWidth buildHeight).R0y
          (geometry buildxLoc buildyLoc buildWidth buildHeight).R0Width
          (geometry buildxLoc buildyLoc buildWidth buildHeight).R0Height p.1 p.2)
      {p | 0 ≤ p.1 ∧ p.1 < (geometry buildxLoc buildyLoc buildWidth buildHeight).ringCount ∧
        0 ≤ p.2 ∧ p.2 < RingLength (geometry buildxLoc buildyLoc buildWidth buildHeight).R0Width
          (geometry buildxLoc buildyLoc buildWidth buildHeight).R0Height p.1}
      {q | 0 ≤ q.1 ∧ q.1 < (geometry buildxLoc buildyLoc buildWidth buildHeight).width ∧
        0 ≤ q.2 ∧ q.2 < (geometry buildxLoc buildyLoc buildWidth buildHeight).height} := by
  have v := geometry_valid buildxLoc buildyLoc buildWidth buildHeight hw hh
  refine ⟨?_, ?_, ?_⟩
  · rintro ⟨R, I⟩ ⟨h1, h2, h3, _⟩
    exact ring_in_area v R I h1 h2 h3
  · rintro ⟨R, I⟩ ⟨h1, _, h3, h4⟩ ⟨R', I'⟩ ⟨h1', _, h3', h4'⟩ h
    obtain ⟨e1, e2⟩ := ring_inj v R I R' I' h1 h1' h3 h4 h3' h4' h
    rw [e1, e2]
  · rintro ⟨x, y⟩ ⟨h1, h2, h3, h4⟩
    obtain ⟨a, b, c, d, e⟩ := ringOf_spec v x y h1 h2 h3 h4
    exact ⟨(_, _), ⟨a, b, c, d⟩, e⟩

/-- Witness for C4: the 1 x 1 footprint, with its 5 x 5 scan area. -/
theorem ring_positions_bijective_witness :
    (1 : Int) ≤ 1 ∧
    Set.BijOn
      (fun p : Int × Int =>
        RingIndexToXY (geometry 10 10 1 1).R0x (geometry 10 10 1 1).R0y
          (geometry 10 10 1 1).R0Width (geometry 10 10 1 1).R0Height p.1 p.2)
      {p | 0 ≤ p.1 ∧ p.1 < (geometry 10 10 1 1).ringCount ∧
        0 ≤ p.2 ∧ p.2 < RingLength (geometry 10 10 1 1).R0Width
          (geometry 10 10 1 1).R0Height p.1}
      {q | 0 ≤ q.1 ∧ q.1 < (geometry 10 10 1 1).width ∧
        0 ≤ q.2 ∧ q.2 < (geometry 10 10 1 1).height} :=
  ⟨by decide, ring_positions_bijective 10 10 1 1 (by decide) (by decide)⟩

/-! ### Loops and the schematic count -/


/-- A relation between two loop states that every pair of bodies keeps is kept by
two runs of `forLoop` over the same range. -/
theorem forLoop_rel {σ τ : Type} (Rel : σ → τ → Prop) (f : Int → σ → σ) (g : Int → τ → τ)
    (h : ∀ i s t, Rel s t → Rel (f i s) (g i t)) :
    ∀ (n : Nat) (i : Int) (s : σ) (t : τ), Rel s t → Rel (forLoop f n i s) (forLoop g n i t) := by
  intro n
  induction n with
  | zero => intro i s t hst; exact hst
  | succ n ih => intro i s t hst; exact ih (i + 1) _ _ (h i s t hst)

/-- The count and the fault flag of `CreateAreaSchematicCell` do not depend on the
buffer. -/
theorem CreateAreaSchematicCell_count (w : World)
    (mobileType xLoc yLoc width nation_recno builder_recno buildX buildY buildWidth buildHeight : Int)
    (j i : Int) (s t : SchematicState)
    (h : s.occupancy = t.occupancy ∧ s.fault = t.fault) :
    (CreateAreaSchematicCell w mobileType xLoc yLoc width nation_recno builder_recno
        buildX buildY buildWidth buildHeight j i s).occupancy =
      (CreateAreaSchematicCell w mobileType xLoc yLoc width nation_recno builder_recno
        buildX buildY buildWidth buildHeight j i t).occupancy ∧
    (CreateAreaSchematicCell w mobileType xLoc yLoc width nation_recno builder_recno
        buildX buildY buildWidth buildHeight j i s).fault =
      (CreateAreaSchematicCell w mobileType xLoc yLoc width nation_recno builder_recno
        buildX buildY buildWidth buildHeight j i t).fault := by
  obtain ⟨h1, h2⟩ := h
  unfold CreateAreaSchematicCell
  simp only
  split_ifs <;> first
    | exact ⟨h1, h2⟩
    | (cases w.unit_array (w.unit_recno (xLoc + i) (yLoc + j) mobileType) with
       | none => exact ⟨h1, rfl⟩
       | some u =>
         simp only
         split_ifs <;> simp [h1, h2])

/-- The count returned by `CreateAreaSchematic` does not depend on the buffer it
starts from. -/
theorem CreateAreaSchematic_count (a a' : Area) (w : World)
    (mobileType xLoc yLoc width height nation_recno builder_recno
      buildX buildY buildWidth buildHeight : Int) :
    (CreateAreaSchematic a w mobileType xLoc yLoc width height nation_recno builder_recno
        buildX buildY buildWidth buildHeight).map Prod.fst =
      (CreateAreaSchematic a' w mobileType xLoc yLoc width height nation_recno builder_recno
        buildX buildY buildWidth buildHeight).map Prod.fst := by
  unfold CreateAreaSchematic
  have key := forLoop_rel (fun s t : SchematicState => s.occupancy = t.occupancy ∧ s.fault = t.fault)
    (fun j s => forLoop (CreateAreaSchematicCell w mobileType xLoc yLoc width nation_recno
      builder_recno buildX buildY buildWidth buildHeight j) width.toNat 0 s)
    (fun j s => forLoop (CreateAreaSchematicCell w mobileType xLoc yLoc width nation_recno
      builder_recno buildX buildY buildWidth buildHeight j) width.toNat 0 s)
    (fun j s t hst => forLoop_rel _ _ _
      (fun i s t hst => CreateAreaSchematicCell_count w mobileType xLoc yLoc width nation_recno
        builder_recno buildX buildY buildWidth buildHeight j i s t hst) width.toNat 0 s t hst)
    height.toNat 0 { area := a, occupancy := 0, fault := false }
    { area := a', occupancy := 0, fault := false } ⟨rfl, rfl⟩
  obtain ⟨k1, k2⟩ := key
  simp only [k2]
  split_ifs
  · rfl
  · simp [k1]

/-! ### The sentinel and the argument check -/

/-- C5: with a 32-bit `loc_flag_t`, AREA_BLOCKED is 2^31, and for a handle h with
1 <= h <= 2^31 - 1 the stored value `(loc_flag_t)h` is neither AREA_BLOCKED nor 0
and reads back as h; so the cell that `CreateAreaSchematic` writes for a movable
unit (not the builder, moving towards another cell or idle of the own nation)
with such a handle is neither blocked nor empty. -/
theorem blocked_sentinel_is_no_handle :
    AREA_BLOCKED = 2 ^ 31 ∧
    (∀ h : Int, 1 ≤ h → h ≤ 2 ^ 31 - 1 →
      toLocFlag h ≠ AREA_BLOCKED ∧ toLocFlag h ≠ 0 ∧ flagToInt (toLocFlag h) = h) ∧
    (∀ (w : World) (mobileType xLoc yLoc width nation_recno builder_recno
        buildX buildY buildWidth buildHeight j i : Int) (s : SchematicState) (u : Unit),
      0 ≤ xLoc + i → xLoc + i < w.MAX_WORLD_X_LOC →
      0 ≤ yLoc + j → yLoc + j < w.MAX_WORLD_X_LOC →
      w.is_accessible (xLoc + i) (yLoc + j) mobileType = true →
      w.has_unit (xLoc + i) (yLoc + j) mobileType = true →
      w.unit_array (w.unit_recno (xLoc + i) (yLoc + j) mobileType) = some u →
      u.sprite_recno ≠ builder_recno →
      ((u.cur_action = w.SPRITE_MOVE ∧ (u.cur_x_loc ≠ u.go_x_loc ∨ u.cur_y_loc ≠ u.go_y_loc)) ∨
        (u.nation_recno = nation_recno ∧ u.cur_action = w.SPRITE_IDLE ∧
          u.action_mode = w.ACTION_STOP ∧ u.action_mode2 = w.ACTION_STOP ∧
          (u.ai_unit = 0 ∨ u.ai_action_id = 0))) →
      1 ≤ u.sprite_recno → u.sprite_recno ≤ 2 ^ 31 - 1 →
      (CreateAreaSchematicCell w mobileType xLoc yLoc width nation_recno builder_recno
          buildX buildY buildWidth buildHeight j i s).area (j * width + i)
        = toLocFlag u.sprite_recno ∧
      (CreateAreaSchematicCell w mobileType xLoc yLoc width nation_recno builder_recno
          buildX buildY buildWidth buildHeight j i s).area (j * width + i) ≠ AREA_BLOCKED ∧
      (CreateAreaSchematicCell w mobileType xLoc yLoc width nation_recno builder_recno
          buildX buildY buildWidth buildHeight j i s).area (j * width + i) ≠ 0) := by
  have hb : AREA_BLOCKED = 2147483648 := by rfl
  have key : ∀ h : Int, 1 ≤ h → h ≤ 2 ^ 31 - 1 →
      toLocFlag h ≠ AREA_BLOCKED ∧ toLocFlag h ≠ 0 ∧ flagToInt (toLocFlag h) = h := by
    intro h h1 h2
    have e : toLocFlag h = h.toNat := by
      unfold toLocFlag
      rw [Int.emod_eq_of_lt (by omega) (by omega)]
    rw [e, hb]
    refine ⟨by omega, by omega, ?_⟩
    unfold flagToInt
    have : h.toNat % 2 ^ 32 = h.toNat := Nat.mod_eq_of_lt (by omega)
    rw [this]
    split_ifs <;> omega
  refine ⟨by rw [hb]; norm_num, key, ?_⟩
  intro w mobileType xLoc yLoc width nation_recno builder_recno buildX buildY buildWidth
    buildHeight j i s u hx0 hx1 hy0 hy1 hacc hunit hu hnb hmov h1 h2
  have hcell : (CreateAreaSchematicCell w mobileType xLoc yLoc width nation_recno builder_recno
      buildX buildY buildWidth buildHeight j i s).area (j * width + i)
      = toLocFlag u.sprite_recno := by
    unfold CreateAreaSchematicCell
    have hloc : decide (xLoc + i ≥ 0 ∧ xLoc + i < w.MAX_WORLD_X_LOC ∧ yLoc + j ≥ 0 ∧
        yLoc + j < w.MAX_WORLD_X_LOC) = true := by
      simp only [decide_eq_true_eq]; exact ⟨hx0, hx1, hy0, hy1⟩
    simp only [hloc, hacc, hunit, hu, Bool.true_eq_false, or_self, if_false, if_true, hnb]
    have hnot : ¬ u.sprite_recno ≤ 0 := by omega
    rcases hmov with hm | hm
    · simp [hm, hnot, Area.write]
    · by_cases hm2 : u.cur_action = w.SPRITE_MOVE ∧
          (u.cur_x_loc ≠ u.go_x_loc ∨ u.cur_y_loc ≠ u.go_y_loc)
      · simp [hm2, hnot, Area.write]
      · simp only [hm2, if_false]
        simp [hm, hnot, Area.write]
  rw [hcell]
  exact ⟨rfl, (key _ h1 h2).1, (key _ h1 h2).2.1⟩

/-- Witness for C5: handle 5, and `walkingUnit` on the cell `(2, 2)` of
`walledInWorld`. -/
theorem blocked_sentinel_is_no_handle_witness :
    (toLocFlag 5 ≠ AREA_BLOCKED ∧ toLocFlag 5 ≠ 0 ∧ flagToInt (toLocFlag 5) = 5) ∧
    ((CreateAreaSchematicCell walledInWorld 1 0 0 5 1 1 2 2 1 1 2 2
          { area := fun _ => 0, occupancy := 0, fault := false }).area (2 * 5 + 2)
        = toLocFlag walkingUnit.sprite_recno ∧
      (CreateAreaSchematicCell walledInWorld 1 0 0 5 1 1 2 2 1 1 2 2
          { area := fun _ => 0, occupancy := 0, fault := false }).area (2 * 5 + 2)
        ≠ AREA_BLOCKED ∧
      (CreateAreaSchematicCell walledInWorld 1 0 0 5 1 1 2 2 1 1 2 2
          { area := fun _ => 0, occupancy := 0, fault := false }).area (2 * 5 + 2) ≠ 0) :=
  ⟨blocked_sentinel_is_no_handle.2.1 5 (by decide) (by decide),
   blocked_sentinel_is_no_handle.2.2 walledInWorld 1 0 0 5 1 1 2 2 1 1 2 2
     { area := fun _ => 0, occupancy := 0, fault := false } walkingUnit
     (by decide) (by decide) (by decide) (by decide) (by decide) (by decide) (by decide)
     (by decide) (by decide) (by decide) (by decide)⟩

/-- C7: a call that fails the argument check (a zero nation or builder, a negative
coordinate, a width or height below 1, or a footprint that reaches the map bound)
returns at once: the object, with its buffer and recorded size, and the random
source are unchanged and no move command is issued. -/
theorem rejected_call_changes_nothing (self : VacateArea) (w : World) (fresh : Option Area)
    (rnd : RandSource) (fuel : Nat)
    (buildxLoc buildyLoc buildWidth buildHeight nation_recno builder_recno : Int)
    (h : nation_recno = 0 ∨ builder_recno = 0 ∨ buildxLoc < 0 ∨ buildyLoc < 0 ∨
      buildWidth < 1 ∨ buildHeight < 1 ∨
      buildxLoc + buildWidth ≥ w.MAX_WORLD_X_LOC ∨ buildyLoc + buildHeight ≥ w.MAX_WORLD_Y_LOC) :
    VacateIdleOfNation self w fresh rnd fuel buildxLoc buildyLoc buildWidth buildHeight
        nation_recno builder_recno
      = .ok { self := self, rnd := rnd, commands := [], exit := .rejected } := by
  have hb : badArguments w buildxLoc buildyLoc buildWidth buildHeight nation_recno builder_recno
      = true := by
    unfold badArguments
    exact decide_eq_true h
  unfold VacateIdleOfNation
  rw [if_pos hb]

/-- Witness for C7: a call with a zero-width footprint. -/
theorem rejected_call_changes_nothing_witness :
    VacateIdleOfNation roomyArea builderOnlyWorld none (fun _ => 0) 1 10 10 0 1 1 1
      = .ok { self := roomyArea, rnd := fun _ => 0, commands := [], exit := .rejected } :=
  rejected_call_changes_nothing roomyArea builderOnlyWorld none (fun _ => 0) 1 10 10 0 1 1 1
    (by decide)

/-- C8 (the code at the map edge): the 1 x 1 footprint on the map cell
`(199, 10)` of a 200 x 200 map lies inside the map, and so does its last column
199 = MAX_WORLD_X_LOC - 1, yet the argument check rejects the call. -/
theorem edge_footprint_is_rejected :
    (0 ≤ (199 : Int) ∧ 199 + 1 - 1 < builderOnlyWorld.MAX_WORLD_X_LOC ∧
      0 ≤ (10 : Int) ∧ 10 + 1 - 1 < builderOnlyWorld.MAX_WORLD_Y_LOC) ∧
    badArguments builderOnlyWorld 199 10 1 1 1 1 = true ∧
    (VacateIdleOfNation roomyArea builderOnlyWorld none (fun _ => 0) 1 199 10 1 1 1 1).toOption.map
      Outcome.exit = some Exit.rejected := by
  decide

/-- After a successful `AllocateArea` the recorded size has room for the request. -/
theorem AllocateArea_capacity (self : VacateArea) (fresh : Option Area) (width height : Int)
    (h : (AllocateArea self fresh width height).1 = true) :
    (AllocateArea self fresh width height).2._Width *
      (AllocateArea self fresh width height).2._Height ≥ width * height := by
  unfold AllocateArea at h ⊢
  split_ifs at h ⊢ with hc
  · exact hc
  · cases fresh with
    | none => simp at h
    | some a => simp

/-- C6: an accepted call in which `CreateAreaSchematic` counts no movable unit
inside the footprint returns right after the schematic is built and issues no
move command, whatever the rest of the scan area holds; and a second call made
right after it, on the object as the first call left it, issues none either. -/
theorem no_occupants_no_commands (self : VacateArea) (w : World) (fresh : Option Area)
    (rnd : RandSource) (fuel : Nat)
    (buildxLoc buildyLoc buildWidth buildHeight nation_recno builder_recno : Int)
    (builder : Unit) (area0 : Area)
    (hargs : badArguments w buildxLoc buildyLoc buildWidth buildHeight nation_recno builder_recno
      = false)
    (halloc : (AllocateArea self fresh (geometry buildxLoc buildyLoc buildWidth buildHeight).width
      (geometry buildxLoc buildyLoc buildWidth buildHeight).height).1 = true)
    (harea : (AllocateArea self fresh (geometry buildxLoc buildyLoc buildWidth buildHeight).width
      (geometry buildxLoc buildyLoc buildWidth buildHeight).height).2._Area = some area0)
    (hbuilder : w.unit_array builder_recno = some builder)
    (hocc : (CreateAreaSchematic area0 w builder.mobile_type
        (geometry buildxLoc buildyLoc buildWidth buildHeight).xLoc
        (geometry buildxLoc buildyLoc buildWidth buildHeight).yLoc
        (geometry buildxLoc buildyLoc buildWidth buildHeight).width
        (geometry buildxLoc buildyLoc buildWidth buildHeight).height
        nation_recno builder_recno buildxLoc buildyLoc buildWidth buildHeight).map Prod.fst
      = some 0) :
    ∃ out, VacateIdleOfNation self w fresh rnd fuel buildxLoc buildyLoc buildWidth buildHeight
        nation_recno builder_recno = .ok out ∧
      out.commands = [] ∧ out.exit = Exit.noOccupants ∧
      ∀ (fresh2 : Option Area) (rnd2 : RandSource) (fuel2 : Nat),
        ∃ out2, VacateIdleOfNation out.self w fresh2 rnd2 fuel2 buildxLoc buildyLoc buildWidth
            buildHeight nation_recno builder_recno = .ok out2 ∧
          out2.commands = [] ∧ out2.exit = Exit.noOccupants := by
  -- what one call does, for any object whose allocation succeeds with some buffer
  have one : ∀ (self' : VacateArea) (fresh' : Option Area) (rnd' : RandSource) (fuel' : Nat)
      (a : Area),
      (AllocateArea self' fresh' (geometry buildxLoc buildyLoc buildWidth buildHeight).width
        (geometry buildxLoc buildyLoc buildWidth buildHeight).height).1 = true →
      (AllocateArea self' fresh' (geometry buildxLoc buildyLoc buildWidth buildHeight).width
        (geometry buildxLoc buildyLoc buildWidth buildHeight).height).2._Area = some a →
      ∃ a1, VacateIdleOfNation self' w fresh' rnd' fuel' buildxLoc buildyLoc buildWidth
          buildHeight nation_recno builder_recno
        = .ok { self := { (AllocateArea self' fresh'
                    (geometry buildxLoc buildyLoc buildWidth buildHeight).width
                    (geometry buildxLoc buildyLoc buildWidth buildHeight).height).2 with
                  _Area := some a1 },
                rnd := rnd', commands := [], exit := .noOccupants } := by
    intro self' fresh' rnd' fuel' a h1 h2
    have hocc' := hocc
    rw [CreateAreaSchematic_count area0 a] at hocc'
    obtain ⟨⟨c, a1⟩, hc, hc0⟩ := Option.map_eq_some'.mp hocc'
    simp only at hc0
    subst hc0
    refine ⟨a1, ?_⟩
    unfold VacateIdleOfNation
    simp [hargs, h1, hbuilder, h2, hc]
  obtain ⟨a1, h1⟩ := one self fresh rnd fuel area0 halloc harea
  refine ⟨_, h1, rfl, rfl, ?_⟩
  intro fresh2 rnd2 fuel2
  -- the object left by the first call has room for the scan area
  have hcap : ∀ f, AllocateArea { (AllocateArea self fresh
        (geometry buildxLoc buildyLoc buildWidth buildHeight).width
        (geometry buildxLoc buildyLoc buildWidth buildHeight).height).2 with _Area := some a1 } f
      (geometry buildxLoc buildyLoc buildWidth buildHeight).width
      (geometry buildxLoc buildyLoc buildWidth buildHeight).height
      = (true, { (AllocateArea self fresh
        (geometry buildxLoc buildyLoc buildWidth buildHeight).width
        (geometry buildxLoc buildyLoc buildWidth buildHeight).height).2 with _Area := some a1 }) := by
    intro f
    have hcap0 := AllocateArea_capacity self fresh _ _ halloc
    unfold AllocateArea
    exact if_pos hcap0
  obtain ⟨a2, h2⟩ := one _ fresh2 rnd2 fuel2 a1 (by rw [hcap]) (by rw [hcap])
  exact ⟨_, h2, rfl, rfl⟩

/-- Witness for C6: the builder alone next to a 1 x 1 footprint. -/
theorem no_occupants_no_commands_witness :
    ∃ out, VacateIdleOfNation roomyArea builderOnlyWorld none (fun _ => 0) 1 10 10 1 1 1 1
        = .ok out ∧
      out.commands = [] ∧ out.exit = Exit.noOccupants ∧
      ∀ (fresh2 : Option Area) (rnd2 : RandSource) (fuel2 : Nat),
        ∃ out2, VacateIdleOfNation out.self builderOnlyWorld fresh2 rnd2 fuel2 10 10 1 1 1 1
            = .ok out2 ∧
          out2.commands = [] ∧ out2.exit = Exit.noOccupants :=
  no_occupants_no_commands roomyArea builderOnlyWorld none (fun _ => 0) 1 10 10 1 1 1 1
    (idleUnit 1 1 9 10) (fun _ => 0) (by decide) (by decide) (by rfl) (by rfl) (by decide)

/-! ### Flat indices and loop invariants -/

/-- A cell inside the scan area has a flat index below `width * height`. -/
theorem idx_bounds {width height x y : Int} (hx0 : 0 ≤ x) (hx1 : x < width)
    (hy0 : 0 ≤ y) (hy1 : y < height) : 0 ≤ y * width + x ∧ y * width + x < width * height := by
  constructor
  · have : 0 ≤ y * width := mul_nonneg hy0 (by omega)
    omega
  · have h1 : (y + 1) * width ≤ height * width :=
      mul_le_mul_of_nonneg_right (by omega) (by omega)
    have h2 : (y + 1) * width = y * width + width := by ring
    have h3 : height * width = width * height := by ring
    omega

/-- Two cells inside the same row range with the same flat index are the same. -/
theorem idx_inj {width x y x' y' : Int} (hx0 : 0 ≤ x) (hx1 : x < width)
    (hx0' : 0 ≤ x') (hx1' : x' < width) (h : y * width + x = y' * width + x') :
    x = x' ∧ y = y' := by
  have hw : 0 < width := by omega
  have e1 : (y * width + x) % width = x := by
    rw [Int.add_comm, Int.add_mul_emod_self, Int.emod_eq_of_lt hx0 hx1]
  have e2 : (y' * width + x') % width = x' := by
    rw [Int.add_comm, Int.add_mul_emod_self, Int.emod_eq_of_lt hx0' hx1']
  have hx : x = x' := by rw [← e1, ← e2, h]
  subst hx
  have : y * width = y' * width := by omega
  exact ⟨rfl, Int.eq_of_mul_eq_mul_right (by omega) this⟩

/-- An invariant that may depend on the loop counter holds after `forLoop`. -/
theorem forLoop_inv {σ : Type} (P : Int → σ → Prop) (body : Int → σ → σ) :
    ∀ (n : Nat) (lo : Int) (s : σ),
      (∀ i s, lo ≤ i → i < lo + n → P i s → P (i + 1) (body i s)) →
      P lo s → P (lo + n) (forLoop body n lo s) := by
  intro n
  induction n with
  | zero => intro lo s _ h0; simpa [forLoop] using h0
  | succ n ih =>
    intro lo s hstep h0
    have h1 := hstep lo s (le_refl _) (by push_cast; omega) h0
    have := ih (lo + 1) (body lo s)
      (fun i s hi1 hi2 hP => hstep i s (by omega) (by push_cast; omega) hP) h1
    have e : lo + 1 + (n : Int) = lo + ((n + 1 : Nat) : Int) := by push_cast; ring
    rw [e] at this
    exact this

/-- An invariant that does not depend on the loop counter holds after `forLoop`. -/
theorem forLoop_inv' {σ : Type} (P : σ → Prop) (body : Int → σ → σ) (n : Nat) (lo : Int) (s : σ)
    (hstep : ∀ i s, lo ≤ i → i < lo + n → P s → P (body i s)) (h0 : P s) :
    P (forLoop body n lo s) :=
  forLoop_inv (fun _ s => P s) body n lo s hstep h0

/-- An invariant kept by the body holds after `forLoopWhile`. -/
theorem forLoopWhile_inv {σ : Type} (P : σ → Prop) (guard : σ → Bool) (body : Int → σ → σ) :
    ∀ (n : Nat) (lo : Int) (s : σ),
      (∀ i s, lo ≤ i → i < lo + n → guard s = true → P s → P (body i s)) →
      P s → P (forLoopWhile guard body n lo s) := by
  intro n
  induction n with
  | zero => intro lo s _ h0; simpa [forLoopWhile] using h0
  | succ n ih =>
    intro lo s hstep h0
    unfold forLoopWhile
    split_ifs with hg
    · exact ih (lo + 1) (body lo s)
        (fun i s hi1 hi2 hgs hP => hstep i s (by omega) (by push_cast; omega) hgs hP)
        (hstep lo s (le_refl _) (by push_cast; omega) hg h0)
    · exact h0

/-! ### Relocations keep the handles -/

theorem Area_write_same (a : Area) (k : Int) (v : Nat) : (a.write k v) k = v := by
  simp [Area.write]

theorem Area_write_other (a : Area) (k j : Int) (v : Nat) (h : j ≠ k) : (a.write k v) j = a j := by
  simp [Area.write, h]

/-- One relocation permutes the cell values of the first `n` cells, so it keeps
the list of handles up to permutation. -/
theorem MoveStep_perm {n : Nat} {area area' : Area} (h : MoveStep (n : Int) area area') :
    (handles area' n).Perm (handles area n) := by
  obtain ⟨a, b, ha0, ha1, hb0, hb1, hb, hane, _, rfl⟩ := h
  obtain ⟨a', rfl⟩ : ∃ a' : Nat, a = (a' : Int) := ⟨a.toNat, by omega⟩
  obtain ⟨b', rfl⟩ : ∃ b' : Nat, b = (b' : Int) := ⟨b.toNat, by omega⟩
  have hab : a' ≠ b' := by
    intro e; subst e; exact hane hb
  -- the new buffer is the old one read through the swap of the two cells
  have hswap : ∀ k : Nat, ((area.write (b' : Int) (area (a' : Int))).write (a' : Int) 0) (k : Int)
      = area ((Equiv.swap a' b' k : Nat) : Int) := by
    intro k
    by_cases hka : k = a'
    · subst hka
      simp [Area.write, hb]
    · by_cases hkb : k = b'
      · subst hkb
        simp [Area.write, hka]
      · rw [Equiv.swap_apply_of_ne_of_ne hka hkb]
        simp [Area.write, hka, hkb]
  unfold handles
  apply List.Perm.filter
  have e : (List.range n).map (fun k : Nat =>
        ((area.write (b' : Int) (area (a' : Int))).write (a' : Int) 0) (k : Int))
      = ((List.range n).map (Equiv.swap a' b')).map (fun k : Nat => area (k : Int)) := by
    rw [List.map_map]
    apply List.map_congr_left
    intro k _
    exact hswap k
  rw [e]
  apply List.Perm.map
  rw [List.perm_ext_iff_of_nodup ((List.nodup_range n).map (Equiv.swap a' b').injective)
    (List.nodup_range n)]
  intro k
  simp only [List.mem_map, List.mem_range]
  constructor
  · rintro ⟨m, hm, rfl⟩
    by_cases hma : m = a'
    · subst hma; rw [Equiv.swap_apply_left]; omega
    · by_cases hmb : m = b'
      · subst hmb; rw [Equiv.swap_apply_right]; omega
      · rw [Equiv.swap_apply_of_ne_of_ne hma hmb]; exact hm
  · intro hk
    refine ⟨Equiv.swap a' b' k, ?_, by simp⟩
    by_cases hka : k = a'
    · subst hka; rw [Equiv.swap_apply_left]; omega
    · by_cases hkb : k = b'
      · subst hkb; rw [Equiv.swap_apply_right]; omega
      · rw [Equiv.swap_apply_of_ne_of_ne hka hkb]; exact hk

/-- Relocations keep the list of handles up to permutation. -/
theorem Moves_perm {n : Nat} {area area' : Area} (h : Moves (n : Int) area area') :
    (handles area' n).Perm (handles area n) := by
  induction h with
  | refl => exact List.Perm.refl _
  | tail _ hstep ih => exact (MoveStep_perm hstep).trans ih

theorem Moves_refl (n : Int) (area : Area) : Moves n area area := Relation.ReflTransGen.refl

theorem Moves_trans {n : Int} {a b c : Area} (h1 : Moves n a b) (h2 : Moves n b c) :
    Moves n a c := Relation.ReflTransGen.trans h1 h2

theorem Moves_single {n : Int} {a b : Area} (h : MoveStep n a b) : Moves n a b :=
  Relation.ReflTransGen.single h

/-! ### Searching a ring -/

/-- The probe of `SearchFreeSpotLoop` is a valid index of the ring as long as the
search distance does not exceed the ring length. -/
theorem probe_in_ring (ringLength Index i direction D : Int)
    (hlen : 0 < ringLength) (hI : 0 ≤ Index) (hdir : direction = 1 ∨ direction = -1)
    (hi0 : 0 ≤ i) (hi1 : i < 2 * D) (hD : D ≤ ringLength) :
    0 ≤ cmod (ringLength + Index + direction * (cdiv i 2 + cmod i 2)) ringLength ∧
    cmod (ringLength + Index + direction * (cdiv i 2 + cmod i 2)) ringLength < ringLength := by
  rw [cdiv_of_nonneg hi0 (by omega), cmod_of_nonneg hi0 (by omega)]
  have hs : 0 ≤ ringLength + Index + direction * (i / 2 + i % 2) := by
    rcases hdir with h | h <;> subst h <;> omega
  rw [cmod_of_nonneg hs (by omega)]
  exact ⟨Int.emod_nonneg _ (by omega), Int.emod_lt_of_pos _ hlen⟩

/-- What `SearchFreeSpotLoop` returns: -1, or a valid index of the ring whose
cell holds 0; and -1 if no valid index of the ring has a cell that holds 0. -/
theorem SearchFreeSpotLoop_spec (area : Area)
    (width R0x R0y R0Width R0Height R Index ringLength D : Int)
    (hlen : 0 < ringLength) (hI : 0 ≤ Index) (hD : D ≤ ringLength) :
    ∀ (n : Nat) (i direction : Int), (direction = 1 ∨ direction = -1) → 0 ≤ i → i + n ≤ 2 * D →
      (SearchFreeSpotLoop area width R0x R0y R0Width R0Height R Index ringLength n i direction
          = -1 ∨
        (0 ≤ SearchFreeSpotLoop area width R0x R0y R0Width R0Height R Index ringLength n i
            direction ∧
          SearchFreeSpotLoop area width R0x R0y R0Width R0Height R Index ringLength n i direction
            < ringLength ∧
          area ((RingIndexToXY R0x R0y R0Width R0Height R
              (SearchFreeSpotLoop area width R0x R0y R0Width R0Height R Index ringLength n i
                direction)).2 * width +
            (RingIndexToXY R0x R0y R0Width R0Height R
              (SearchFreeSpotLoop area width R0x R0y R0Width R0Height R Index ringLength n i
                direction)).1) = 0)) ∧
      ((∀ k, 0 ≤ k → k < ringLength →
          area ((RingIndexToXY R0x R0y R0Width R0Height R k).2 * width +
            (RingIndexToXY R0x R0y R0Width R0Height R k).1) ≠ 0) →
        SearchFreeSpotLoop area width R0x R0y R0Width R0Height R Index ringLength n i direction
          = -1) := by
  intro n
  induction n with
  | zero => intro i direction _ _ _; simp [SearchFreeSpotLoop]
  | succ n ih =>
    intro i direction hdir hi0 hin
    have hp := probe_in_ring ringLength Index i direction D hlen hI hdir hi0
      (by push_cast at hin; omega) hD
    have hrec := ih (i + 1) (-direction) (by omega) (by omega) (by push_cast at hin; omega)
    unfold SearchFreeSpotLoop
    simp only
    split_ifs with hz
    · exact ⟨Or.inr ⟨hp.1, hp.2, hz⟩, fun hall => absurd hz (hall _ hp.1 hp.2)⟩
    · exact hrec

/-- If the cell at the start index holds 0, the search returns the start index. -/
theorem SearchFreeSpotAtIndex_first (area : Area)
    (maxSearchDistance width height R0x R0y R0Width R0Height R Index : Int)
    (hd : 1 ≤ maxSearchDistance) (hI0 : 0 ≤ Index) (hI1 : Index < RingLength R0Width R0Height R)
    (hz : area ((RingIndexToXY R0x R0y R0Width R0Height R Index).2 * width +
      (RingIndexToXY R0x R0y R0Width R0Height R Index).1) = 0) :
    SearchFreeSpotAtIndex area maxSearchDistance width height R0x R0y R0Width R0Height R Index
      = Index := by
  unfold SearchFreeSpotAtIndex
  obtain ⟨n, hn⟩ : ∃ n : Nat, (2 * maxSearchDistance).toNat = n + 1 :=
    ⟨(2 * maxSearchDistance).toNat - 1, by omega⟩
  rw [hn]
  unfold SearchFreeSpotLoop
  have e : cmod (RingLength R0Width R0Height R + Index + 1 * (cdiv 0 2 + cmod 0 2))
      (RingLength R0Width R0Height R) = Index := by
    have h0 : cdiv 0 2 + cmod 0 2 = 0 := by decide
    rw [h0, cmod_of_nonneg (by omega) (by omega)]
    have : (RingLength R0Width R0Height R + Index + 1 * 0) = Index + RingLength R0Width R0Height R := by
      ring
    rw [this, Int.add_emod_self, Int.emod_eq_of_lt hI0 hI1]
  simp only [e, hz, if_true]

/-- What `SearchFreeSpotAtIndex` returns when the start index is not negative and
the search distance is at most the ring length. -/
theorem SearchFreeSpotAtIndex_spec (area : Area)
    (maxSearchDistance width height R0x R0y R0Width R0Height R Index : Int)
    (hI : 0 ≤ Index) (hlen : 0 < RingLength R0Width R0Height R)
    (hD : maxSearchDistance ≤ RingLength R0Width R0Height R) :
    (SearchFreeSpotAtIndex area maxSearchDistance width height R0x R0y R0Width R0Height R Index
        = -1 ∨
      (0 ≤ SearchFreeSpotAtIndex area maxSearchDistance width height R0x R0y R0Width R0Height R
          Index ∧
        SearchFreeSpotAtIndex area maxSearchDistance width height R0x R0y R0Width R0Height R Index
          < RingLength R0Width R0Height R ∧
        area ((RingIndexToXY R0x R0y R0Width R0Height R
            (SearchFreeSpotAtIndex area maxSearchDistance width height R0x R0y R0Width R0Height R
              Index)).2 * width +
          (RingIndexToXY R0x R0y R0Width R0Height R
            (SearchFreeSpotAtIndex area maxSearchDistance width height R0x R0y R0Width R0Height R
              Index)).1) = 0)) ∧
    ((∀ k, 0 ≤ k → k < RingLength R0Width R0Height R →
        area ((RingIndexToXY R0x R0y R0Width R0Height R k).2 * width +
          (RingIndexToXY R0x R0y R0Width R0Height R k).1) ≠ 0) →
      SearchFreeSpotAtIndex area maxSearchDistance width height R0x R0y R0Width R0Height R Index
        = -1) := by
  unfold SearchFreeSpotAtIndex
  exact SearchFreeSpotLoop_spec area width R0x R0y R0Width R0Height R Index _
    (max maxSearchDistance 0) hlen hI (by omega) _ 0 1 (Or.inl rfl) (le_refl _) (by omega)

/-! ### Where `FindPushedSpot` searches -/

theorem random_range (rnd : RandSource) (n : Int) (hn : 0 < n) :
    0 ≤ rnd.random n ∧ rnd.random n < n := by
  unfold RandSource.random
  exact ⟨Int.emod_nonneg _ (by omega), Int.emod_lt_of_pos _ hn⟩

/-- The length of a ring above the innermost one, and of a proper innermost ring. -/
theorem RingLength_pos (R0Width R0Height R : Int) (hW : 1 ≤ R0Width) (hH : 1 ≤ R0Height)
    (hR : 0 ≤ R) : 1 ≤ RingLength R0Width R0Height R ∧
      8 ≤ RingLength R0Width R0Height (R + 1) := by
  unfold RingLength
  constructor <;> split_ifs <;> omega

/-- Every result of `FindPushedSpot` for a valid position of ring R is the result
of a `SearchFreeSpotAtIndex` in ring R+1 that starts at a valid index of that ring
with a search distance between 1 and `max (maxSearchDistance + 2) 4`. -/
theorem FindPushedSpot_cases (P : Int → Prop) (area : Area) (rnd : RandSource)
    (maxSearchDistance width height R0x R0y R0Width R0Height R Index : Int)
    (hW : 1 ≤ R0Width) (hH : 1 ≤ R0Height) (hR : 0 ≤ R)
    (hI0 : 0 ≤ Index) (hI1 : Index < RingLength R0Width R0Height R)
    (hmsd : 1 ≤ maxSearchDistance)
    (h : ∀ d idx, 0 ≤ idx → idx < RingLength R0Width R0Height (R + 1) → 1 ≤ d →
      d ≤ max (maxSearchDistance + 2) 4 →
      P (SearchFreeSpotAtIndex area d width height R0x R0y R0Width R0Height (R + 1) idx)) :
    P (FindPushedSpot area rnd maxSearchDistance width height R0x R0y R0Width R0Height R
      Index).1 := by
  have hn8 := (RingLength_pos R0Width R0Height R hW hH hR).2
  unfold FindPushedSpot
  simp only
  by_cases hdeg : R = 0 ∧ (R0Width = 1 ∨ R0Height = 1)
  · rw [if_pos hdeg]
    obtain ⟨hR0, hstrip⟩ := hdeg
    subst hR0
    by_cases hpt : R0Width = 1 ∧ R0Height = 1
    · rw [if_pos hpt]
      obtain ⟨h1, h2⟩ := hpt
      subst h1 h2
      have hr := random_range rnd (RingLength 1 1 (0 + 1)) (by omega)
      have hd : cdiv (RingLength 1 1 (0 + 1) - 1) 2 +
          boolToInt (decide (cmod (RingLength 1 1 (0 + 1) - 1) 2 = 1)) = 4 := by decide
      rw [hd]
      exact h 4 _ hr.1 hr.2 (by omega) (by omega)
    · rw [if_neg hpt]
      have hlen0 : RingLength R0Width R0Height 0 = max R0Width R0Height := by
        unfold RingLength
        rw [if_neg (by omega)]
      have hlen1 : RingLength R0Width R0Height (0 + 1) = 2 * R0Width + 2 * R0Height + 4 := by
        unfold RingLength
        rw [if_pos (by omega)]
        ring
      rw [hlen0] at hI1
      by_cases hend : Index = 0 ∨ Index = RingLength R0Width R0Height 0 - 1
      · rw [if_pos hend]
        rw [hlen0] at hend
        apply h
        · split_ifs <;> omega
        · split_ifs <;> omega
        · omega
        · omega
      · rw [if_neg hend]
        rw [hlen0] at hend
        have hr := random_range rnd 2 (by omega)
        split_ifs
        all_goals
          apply h
          all_goals omega
  · rw [if_neg hdeg]
    have hlen : RingLength R0Width R0Height R
        = 2 * (R0Width + 2 * R) + 2 * (R0Height - 2 + 2 * R) := by
      unfold RingLength
      rw [if_pos (by omega)]
    have hlen1 : RingLength R0Width R0Height (R + 1)
        = 2 * (R0Width + 2 * R) + 2 * (R0Height - 2 + 2 * R) + 8 := by
      unfold RingLength
      rw [if_pos (by omega)]
      ring
    rw [hlen] at hI1
    apply h
    · unfold boolToInt; split_ifs <;> simp only [decide_eq_true_eq] at * <;> omega
    · unfold boolToInt; split_ifs <;> simp only [decide_eq_true_eq] at * <;> omega
    · unfold boolToInt; split_ifs <;> omega
    · unfold boolToInt; split_ifs <;> omega

/-! ### The nearest unit -/

/-- What the running best of `FindNearestUnit` holds: no unit yet, or a movable
handle together with a cell of the search rectangle that holds it. -/
theorem FindNearestUnit_spec (area : Area)
    (locX locY searchX searchY searchWidth searchHeight width height : Int) :
    (FindNearestUnit area locX locY searchX searchY searchWidth searchHeight width height).1 = 0 ∨
    ((FindNearestUnit area locX locY searchX searchY searchWidth searchHeight width height).1 ≠ 0 ∧
      (FindNearestUnit area locX locY searchX searchY searchWidth searchHeight width height).1
        ≠ AREA_BLOCKED ∧
      searchX ≤ (FindNearestUnit area locX locY searchX searchY searchWidth searchHeight width
        height).2.1 ∧
      (FindNearestUnit area locX locY searchX searchY searchWidth searchHeight width height).2.1
        < searchX + searchWidth ∧
      searchY ≤ (FindNearestUnit area locX locY searchX searchY searchWidth searchHeight width
        height).2.2 ∧
      (FindNearestUnit area locX locY searchX searchY searchWidth searchHeight width height).2.2
        < searchY + searchHeight ∧
      area ((FindNearestUnit area locX locY searchX searchY searchWidth searchHeight width
          height).2.2 * width +
        (FindNearestUnit area locX locY searchX searchY searchWidth searchHeight width height).2.1)
        = (FindNearestUnit area locX locY searchX searchY searchWidth searchHeight width
          height).1) := by
  unfold FindNearestUnit
  simp only
  apply forLoop_inv' (fun b : Nearest => b.bestUnit = 0 ∨
    (b.bestUnit ≠ 0 ∧ b.bestUnit ≠ AREA_BLOCKED ∧ searchX ≤ b.unitX ∧
      b.unitX < searchX + searchWidth ∧ searchY ≤ b.unitY ∧ b.unitY < searchY + searchHeight ∧
      area (b.unitY * width + b.unitX) = b.bestUnit))
  · intro y b hy0 hy1 hb
    apply forLoop_inv' (fun b : Nearest => b.bestUnit = 0 ∨
      (b.bestUnit ≠ 0 ∧ b.bestUnit ≠ AREA_BLOCKED ∧ searchX ≤ b.unitX ∧
        b.unitX < searchX + searchWidth ∧ searchY ≤ b.unitY ∧ b.unitY < searchY + searchHeight ∧
        area (b.unitY * width + b.unitX) = b.bestUnit))
    · intro x b hx0 hx1 hb
      have hx2 : x < searchX + searchWidth := by omega
      have hy2 : y < searchY + searchHeight := by omega
      unfold FindNearestUnitStep
      simp only
      split_ifs with hc
      · right
        exact ⟨hc.1, hc.2.1, hx0, hx2, hy0, hy2, rfl⟩
      · exact hb
    · exact hb
  · left; rfl

/-! ### The stages only relocate handles -/

theorem cmod_range (a len : Int) (ha : 0 ≤ a) (hlen : 0 < len) :
    0 ≤ cmod a len ∧ cmod a len < len := by
  rw [cmod_of_nonneg ha (by omega)]
  exact ⟨Int.emod_nonneg _ (by omega), Int.emod_lt_of_pos _ hlen⟩

/-- Moving the movable handle of one cell of the scan area to another cell of the
scan area that holds 0 is a relocation. -/
theorem moveStep_of_cells {width height : Int} (area : Area) (px py qx qy : Int)
    (hpx0 : 0 ≤ px) (hpx1 : px < width) (hpy0 : 0 ≤ py) (hpy1 : py < height)
    (hqx0 : 0 ≤ qx) (hqx1 : qx < width) (hqy0 : 0 ≤ qy) (hqy1 : qy < height)
    (hp0 : area (py * width + px) ≠ 0) (hp1 : area (py * width + px) ≠ AREA_BLOCKED)
    (hq : area (qy * width + qx) = 0) :
    MoveStep (width * height) area
      ((area.write (qy * width + qx) (area (py * width + px))).write (py * width + px) 0) := by
  have hp := idx_bounds hpx0 hpx1 hpy0 hpy1
  have hq' := idx_bounds hqx0 hqx1 hqy0 hqy1
  exact ⟨_, _, hp.1, hp.2, hq'.1, hq'.2, hq, hp0, hp1, rfl⟩

/-- The result of `FindPushedSpot` for a valid position of a ring below the
outermost one is -1 or a valid index of the next ring whose cell holds 0. -/
theorem FindPushedSpot_spec (area : Area) (rnd : RandSource)
    (maxSearchDistance width height R0x R0y R0Width R0Height R Index : Int)
    (hW : 1 ≤ R0Width) (hH : 1 ≤ R0Height) (hR : 0 ≤ R)
    (hI0 : 0 ≤ Index) (hI1 : Index < RingLength R0Width R0Height R)
    (hmsd : 1 ≤ maxSearchDistance) (hmsd2 : maxSearchDistance ≤ 6) :
    (FindPushedSpot area rnd maxSearchDistance width height R0x R0y R0Width R0Height R Index).1
        = -1 ∨
      (0 ≤ (FindPushedSpot area rnd maxSearchDistance width height R0x R0y R0Width R0Height R
          Index).1 ∧
        (FindPushedSpot area rnd maxSearchDistance width height R0x R0y R0Width R0Height R
          Index).1 < RingLength R0Width R0Height (R + 1) ∧
        area ((RingIndexToXY R0x R0y R0Width R0Height (R + 1)
            (FindPushedSpot area rnd maxSearchDistance width height R0x R0y R0Width R0Height R
              Index).1).2 * width +
          (RingIndexToXY R0x R0y R0Width R0Height (R + 1)
            (FindPushedSpot area rnd maxSearchDistance width height R0x R0y R0Width R0Height R
              Index).1).1) = 0) := by
  have hn8 := (RingLength_pos R0Width R0Height R hW hH hR).2
  apply FindPushedSpot_cases (fun r => r = -1 ∨
    (0 ≤ r ∧ r < RingLength R0Width R0Height (R + 1) ∧
      area ((RingIndexToXY R0x R0y R0Width R0Height (R + 1) r).2 * width +
        (RingIndexToXY R0x R0y R0Width R0Height (R + 1) r).1) = 0))
    area rnd maxSearchDistance width height R0x R0y R0Width R0Height R Index hW hH hR hI0 hI1 hmsd
  intro d idx hidx0 _ _ hd
  exact (SearchFreeSpotAtIndex_spec area d width height R0x R0y R0Width R0Height (R + 1) idx
    hidx0 (by omega) (by omega)).1

/-- The body of the cell loop of `PushRings` leaves the buffer as it is or
relocates one handle. -/
theorem PushRingsCell_moves {width height R0x R0y R0Width R0Height ringCount : Int}
    (v : ValidRings width height R0x R0y R0Width R0Height ringCount)
    (R startIndex i : Int) (hR0 : 0 ≤ R) (hR1 : R + 1 < ringCount)
    (hs : 0 ≤ startIndex) (hi : 0 ≤ i) (s : PushState) :
    Moves (width * height) s.area
      (PushRingsCell 3 width height R0x R0y R0Width R0Height R (RingLength R0Width R0Height R)
        startIndex i s).area := by
  have hlen := (RingLength_pos R0Width R0Height R v.hW v.hH hR0).1
  have hidx := cmod_range (startIndex + i) (RingLength R0Width R0Height R) (by omega) (by omega)
  have hp := ring_in_area v R _ hR0 (by omega) hidx.1
  unfold PushRingsCell
  simp only
  split_ifs with hmov hfound
  · -- a handle is pushed
    have hspec := FindPushedSpot_spec s.area s.rnd 3 width height R0x R0y R0Width R0Height R
      (cmod (startIndex + i) (RingLength R0Width R0Height R)) v.hW v.hH hR0 hidx.1 hidx.2
      (by omega) (by omega)
    rcases hspec with h | ⟨h0, _, hz⟩
    · exact absurd h hfound
    · have hq := ring_in_area v (R + 1) _ (by omega) hR1 h0
      exact Moves_single (moveStep_of_cells s.area _ _ _ _ hp.1 hp.2.1 hp.2.2.1 hp.2.2.2
        hq.1 hq.2.1 hq.2.2.1 hq.2.2.2 hmov.2 hmov.1 hz)
  · exact Moves_refl _ _
  · exact Moves_refl _ _

/-- Scanning one ring in `PushRings` only relocates handles. -/
theorem PushRingsRing_moves {width height R0x R0y R0Width R0Height ringCount : Int}
    (v : ValidRings width height R0x R0y R0Width R0Height ringCount)
    (R : Int) (hR0 : 0 ≤ R) (hR1 : R + 1 < ringCount) (s : PushState) :
    Moves (width * height) s.area
      (PushRingsRing 3 width height R0x R0y R0Width R0Height R s).area := by
  have hlen := (RingLength_pos R0Width R0Height R v.hW v.hH hR0).1
  have hr := random_range s.rnd (RingLength R0Width R0Height R) (by omega)
  unfold PushRingsRing
  simp only
  have key : Moves (width * height) s.area
      (forLoop (PushRingsCell 3 width height R0x R0y R0Width R0Height R
          (RingLength R0Width R0Height R) (s.rnd.random (RingLength R0Width R0Height R)))
        (RingLength R0Width R0Height R).toNat 0
        { s with rnd := s.rnd.next, empty := true }).area := by
    apply forLoop_inv' (fun t : PushState => Moves (width * height) s.area t.area)
    · intro i t hi0 _ ht
      exact Moves_trans ht (PushRingsCell_moves v R _ i hR0 hR1 hr.1 hi0 t)
    · exact Moves_refl _ _
  split_ifs <;> exact key

/-- One cycle of `PushRings` only relocates handles. -/
theorem PushRingsCycle_moves {width height R0x R0y R0Width R0Height ringCount : Int}
    (v : ValidRings width height R0x R0y R0Width R0Height ringCount)
    (outlineRing emptyRing : Int) (ho : outlineRing < ringCount) (he : -1 ≤ emptyRing)
    (area : Area) (rnd : RandSource) :
    Moves (width * height) area
      (PushRingsCycle area rnd 3 width height R0x R0y R0Width R0Height outlineRing
        emptyRing).area := by
  unfold PushRingsCycle
  apply forLoop_inv' (fun t : PushState => Moves (width * height) area t.area)
  · intro R t hR0 hR1 ht
    exact Moves_trans ht (PushRingsRing_moves v R (by omega) (by omega) t)
  · exact Moves_refl _ _

/-- `PushRings`, whenever it returns, has only relocated handles. -/
theorem PushRingsLoop_moves {width height R0x R0y R0Width R0Height ringCount : Int}
    (v : ValidRings width height R0x R0y R0Width R0Height ringCount)
    (outlineRing : Int) (ho : outlineRing < ringCount) :
    ∀ (fuel : Nat) (area : Area) (rnd : RandSource) (emptyRing : Int)
      (r : Int × Area × RandSource), -1 ≤ emptyRing →
      PushRingsLoop 3 width height R0x R0y R0Width R0Height outlineRing fuel area rnd emptyRing
        = some r →
      Moves (width * height) area r.2.1 := by
  intro fuel
  induction fuel with
  | zero => intro area rnd emptyRing r _ h; simp [PushRingsLoop] at h
  | succ fuel ih =>
    intro area rnd emptyRing r he h
    have hc := PushRingsCycle_moves v outlineRing emptyRing ho he area rnd
    have hem : -1 ≤ (PushRingsCycle area rnd 3 width height R0x R0y R0Width R0Height outlineRing
        emptyRing).emptyRing := by
      unfold PushRingsCycle
      apply forLoop_inv' (fun t : PushState => -1 ≤ t.emptyRing)
      · intro R t hR0 _ ht
        unfold PushRingsRing
        simp only
        have key : (forLoop (PushRingsCell 3 width height R0x R0y R0Width R0Height R
              (RingLength R0Width R0Height R) (t.rnd.random (RingLength R0Width R0Height R)))
            (RingLength R0Width R0Height R).toNat 0
            { t with rnd := t.rnd.next, empty := true }).emptyRing = t.emptyRing := by
          apply forLoop_inv' (fun u : PushState => u.emptyRing = t.emptyRing)
          · intro i u _ _ hu
            unfold PushRingsCell
            simp only
            split_ifs <;> exact hu
          · rfl
        split_ifs
        · simp only; omega
        · rw [key]; exact ht
      · exact he
    unfold PushRingsLoop at h
    simp only at h
    split_ifs at h with hcont
    · exact Moves_trans hc (ih _ _ _ r hem h)
    · simp only [Option.some.injEq] at h
      subst h
      exact hc

/-- The body of the loop of `FillOutline` leaves the buffer as it is or relocates
one handle. -/
theorem FillOutlineCell_moves {width height R0x R0y R0Width R0Height ringCount : Int}
    (v : ValidRings width height R0x R0y R0Width R0Height ringCount)
    (outlineRing startIndex i : Int) (ho0 : 1 ≤ outlineRing) (ho : outlineRing + 2 = ringCount)
    (hs : 0 ≤ startIndex) (hi : 0 ≤ i) (s : FillState) :
    Moves (width * height) s.area
      (FillOutlineCell width height R0x R0y R0Width R0Height outlineRing
        (R0x - (outlineRing - 1)) (R0y - (outlineRing - 1))
        (R0Width + 2 * (outlineRing - 1)) (R0Height + 2 * (outlineRing - 1))
        (RingLength R0Width R0Height outlineRing) startIndex i s).area := by
  have hlen := (RingLength_pos R0Width R0Height outlineRing v.hW v.hH (by omega)).1
  have hidx := cmod_range (startIndex + i) (RingLength R0Width R0Height outlineRing)
    (by omega) (by omega)
  have hp := ring_in_area v outlineRing _ (by omega) (by omega) hidx.1
  unfold FillOutlineCell
  simp only
  generalize RingIndexToXY R0x R0y R0Width R0Height outlineRing
    (cmod (startIndex + i) (RingLength R0Width R0Height outlineRing)) = P at hp ⊢
  have hspec := FindNearestUnit_spec s.area P.1 P.2
    (R0x - (outlineRing - 1)) (R0y - (outlineRing - 1))
    (R0Width + 2 * (outlineRing - 1)) (R0Height + 2 * (outlineRing - 1)) width height
  generalize FindNearestUnit s.area P.1 P.2
    (R0x - (outlineRing - 1)) (R0y - (outlineRing - 1))
    (R0Width + 2 * (outlineRing - 1)) (R0Height + 2 * (outlineRing - 1)) width height
    = U at hspec ⊢
  split_ifs with hz hu
  · rcases hspec with h | ⟨h0, h1, hx0, hx1, hy0, hy1, hval⟩
    · exact absurd h hu
    · obtain ⟨hW, hH, hmin, hx, hy, hN, hwidth, hheight⟩ := v
      have hm := @moveStep_of_cells width height s.area U.2.1 U.2.2 P.1 P.2
        (by omega) (by omega) (by omega) (by omega) hp.1 hp.2.1 hp.2.2.1 hp.2.2.2
        (by rw [hval]; exact h0) (by rw [hval]; exact h1) hz
      rw [hval] at hm
      exact Moves_single hm
  · exact Moves_refl _ _
  · exact Moves_refl _ _

/-- `FillOutline` only relocates handles. -/
theorem FillOutline_moves {width height R0x R0y R0Width R0Height ringCount : Int}
    (v : ValidRings width height R0x R0y R0Width R0Height ringCount)
    (outlineRing : Int) (ho0 : 1 ≤ outlineRing) (ho : outlineRing + 2 = ringCount)
    (area : Area) (rnd : RandSource) (occupationCount : Int) :
    Moves (width * height) area
      (FillOutline area rnd occupationCount width height R0x R0y R0Width R0Height
        outlineRing).2.1 := by
  have hlen := (RingLength_pos R0Width R0Height outlineRing v.hW v.hH (by omega)).1
  have hr := random_range rnd (RingLength R0Width R0Height outlineRing) (by omega)
  unfold FillOutline
  simp only
  apply forLoopWhile_inv (fun t : FillState => Moves (width * height) area t.area)
  · intro i t hi0 _ _ ht
    exact Moves_trans ht (FillOutlineCell_moves v outlineRing _ i ho0 ho hr.1 hi0 t)
  · exact Moves_refl _ _

/-- The loop of `PushQueues` returns before its fuel runs out, and has then only
relocated handles. -/
theorem PushQueuesLoop_moves {width height R0x R0y R0Width R0Height ringCount : Int}
    (v : ValidRings width height R0x R0y R0Width R0Height ringCount)
    (outlineRing startIndex : Int) (ho0 : 1 ≤ outlineRing) (ho : outlineRing + 2 = ringCount)
    (hs : 0 ≤ startIndex) :
    ∀ (fuel : Nat) (i : Int) (s : FillState), 0 ≤ i →
      (RingLength R0Width R0Height outlineRing - i).toNat + s.occupationCount.toNat ≤ fuel →
      ∃ t, PushQueuesLoop width height R0x R0y R0Width R0Height outlineRing
          (R0x - (outlineRing - 1)) (R0y - (outlineRing - 1))
          (R0Width + 2 * (outlineRing - 1)) (R0Height + 2 * (outlineRing - 1))
          (RingLength R0Width R0Height outlineRing) startIndex fuel i s = some t ∧
        Moves (width * height) s.area t.area := by
  have hlen := (RingLength_pos R0Width R0Height outlineRing v.hW v.hH (by omega)).1
  intro fuel
  induction fuel with
  | zero =>
    intro i s hi hf
    unfold PushQueuesLoop
    rw [if_neg (by omega)]
    exact ⟨s, rfl, Moves_refl _ _⟩
  | succ fuel ih =>
    intro i s hi hf
    unfold PushQueuesLoop
    by_cases hg : i < RingLength R0Width R0Height outlineRing ∧ s.occupationCount > 0
    · rw [if_pos hg]
      simp only
      have hidx := cmod_range (startIndex + i) (RingLength R0Width R0Height outlineRing)
        (by omega) (by omega)
      have hp := ring_in_area v outlineRing _ (by omega) (by omega) hidx.1
      have hspec := FindPushedSpot_spec s.area s.rnd 1 width height R0x R0y R0Width R0Height
        outlineRing (cmod (startIndex + i) (RingLength R0Width R0Height outlineRing))
        v.hW v.hH (by omega) hidx.1 hidx.2 (by omega) (by omega)
      generalize FindPushedSpot s.area s.rnd 1 width height R0x R0y R0Width R0Height
        outlineRing (cmod (startIndex + i) (RingLength R0Width R0Height outlineRing))
        = F at hspec ⊢
      generalize RingIndexToXY R0x R0y R0Width R0Height outlineRing
        (cmod (startIndex + i) (RingLength R0Width R0Height outlineRing)) = P at hp ⊢
      by_cases hmov : s.area (P.2 * width + P.1) ≠ 0 ∧ s.area (P.2 * width + P.1) ≠ AREA_BLOCKED
      · rw [if_pos hmov]
        by_cases hfound : F.1 ≠ -1
        · rw [if_pos hfound]
          rcases hspec with h | ⟨h0, _, hz⟩
          · exact absurd h hfound
          · have hq := ring_in_area v (outlineRing + 1) F.1 (by omega) (by omega) h0
            generalize RingIndexToXY R0x R0y R0Width R0Height (outlineRing + 1) F.1 = Q
              at hq hz ⊢
            have hm1 := moveStep_of_cells s.area P.1 P.2 Q.1 Q.2 hp.1 hp.2.1 hp.2.2.1 hp.2.2.2
              hq.1 hq.2.1 hq.2.2.1 hq.2.2.2 hmov.1 hmov.2 hz
            generalize harea1 : (s.area.write (Q.2 * width + Q.1)
              (s.area (P.2 * width + P.1))).write (P.2 * width + P.1) 0 = area1 at hm1 ⊢
            have hnear := FindNearestUnit_spec area1 P.1 P.2
              (R0x - (outlineRing - 1)) (R0y - (outlineRing - 1))
              (R0Width + 2 * (outlineRing - 1)) (R0Height + 2 * (outlineRing - 1)) width height
            generalize FindNearestUnit area1 P.1 P.2
              (R0x - (outlineRing - 1)) (R0y - (outlineRing - 1))
              (R0Width + 2 * (outlineRing - 1)) (R0Height + 2 * (outlineRing - 1)) width height
              = U at hnear ⊢
            by_cases hu : U.1 ≠ 0
            · rw [if_pos hu]
              rcases hnear with h | ⟨hn0, hn1, hx0, hx1, hy0, hy1, hval⟩
              · exact absurd h hu
              · obtain ⟨t, ht, hmoves⟩ := ih (i - 1 + 1)
                  { area := (area1.write (P.2 * width + P.1) U.1).write (U.2.2 * width + U.2.1) 0,
                    rnd := F.2, occupationCount := s.occupationCount - 1 } (by omega)
                  (by simp only; omega)
                refine ⟨t, ht, ?_⟩
                have hz1 : area1 (P.2 * width + P.1) = 0 := by
                  rw [← harea1]; exact Area_write_same _ _ _
                have hm2 := @moveStep_of_cells width height area1
                  U.2.1 U.2.2 P.1 P.2
                  (by have := v.hx; have := v.hwidth; omega)
                  (by have := v.hx; have := v.hwidth; omega)
                  (by have := v.hy; have := v.hheight; omega)
                  (by have := v.hy; have := v.hheight; omega)
                  hp.1 hp.2.1 hp.2.2.1 hp.2.2.2
                  (by rw [hval]; exact hn0) (by rw [hval]; exact hn1) hz1
                rw [hval] at hm2
                exact Moves_trans (Moves_trans (Moves_single hm1) (Moves_single hm2)) hmoves
            · rw [if_neg hu]
              obtain ⟨t, ht, hmoves⟩ := ih (i + 1)
                { s with area := area1, rnd := F.2 } (by omega) (by simp only; omega)
              exact ⟨t, ht, Moves_trans (Moves_single hm1) hmoves⟩
        · rw [if_neg hfound]
          obtain ⟨t, ht, hmoves⟩ := ih (i + 1) { s with rnd := F.2 } (by omega)
            (by simp only; omega)
          exact ⟨t, ht, hmoves⟩
      · rw [if_neg hmov]
        obtain ⟨t, ht, hmoves⟩ := ih (i + 1) s (by omega) (by omega)
        exact ⟨t, ht, hmoves⟩
    · rw [if_neg hg]
      exact ⟨s, rfl, Moves_refl _ _⟩

/-- `PushQueues` returns, and has then only relocated handles. -/
theorem PushQueues_moves {width height R0x R0y R0Width R0Height ringCount : Int}
    (v : ValidRings width height R0x R0y R0Width R0Height ringCount)
    (outlineRing : Int) (ho0 : 1 ≤ outlineRing) (ho : outlineRing + 2 = ringCount)
    (area : Area) (rnd : RandSource) (occupationCount : Int) :
    ∃ r, PushQueues area rnd occupationCount width height R0x R0y R0Width R0Height outlineRing
        = some r ∧ Moves (width * height) area r.2.1 := by
  have hlen := (RingLength_pos R0Width R0Height outlineRing v.hW v.hH (by omega)).1
  have hr := random_range rnd (RingLength R0Width R0Height outlineRing) (by omega)
  obtain ⟨t, ht, hmoves⟩ := PushQueuesLoop_moves v outlineRing
    (rnd.random (RingLength R0Width R0Height outlineRing)) ho0 ho hr.1
    ((RingLength R0Width R0Height outlineRing).toNat + occupationCount.toNat) 0
    { area := area, rnd := rnd.next, occupationCount := occupationCount } (le_refl _)
    (by simp only; omega)
  unfold PushQueues
  simp only
  rw [ht]
  exact ⟨_, rfl, hmoves⟩

/-! ### The push cycles end -/

/-- The ring of the cell of a valid ring position is the ring of the position. -/
theorem cellRing_ring {width height R0x R0y R0Width R0Height ringCount : Int}
    (v : ValidRings width height R0x R0y R0Width R0Height ringCount)
    (R I : Int) (hR0 : 0 ≤ R) (hR1 : R < ringCount) (hI0 : 0 ≤ I)
    (hI1 : I < RingLength R0Width R0Height R) :
    cellRing width height R0x ((RingIndexToXY R0x R0y R0Width R0Height R I).2 * width +
      (RingIndexToXY R0x R0y R0Width R0Height R I).1) = R := by
  have hc := ring_in_area v R I hR0 hR1 hI0
  obtain ⟨P, hP⟩ : ∃ P, P = RingIndexToXY R0x R0y R0Width R0Height R I := ⟨_, rfl⟩
  rw [← hP] at hc ⊢
  have hw : 0 < width := by omega
  have e1 : (P.2 * width + P.1) % width = P.1 := by
    rw [Int.add_comm, Int.add_mul_emod_self, Int.emod_eq_of_lt hc.1 hc.2.1]
  have e2 : (P.2 * width + P.1) / width = P.2 := by
    rw [Int.add_comm, Int.add_mul_ediv_right _ _ (ne_of_gt hw),
      Int.ediv_eq_zero_of_lt hc.1 hc.2.1, zero_add]
  unfold cellRing
  rw [e1, e2]
  obtain ⟨a1, a2, a3, a4, a5⟩ := ringOf_spec v P.1 P.2 hc.1 hc.2.1 hc.2.2.1 hc.2.2.2
  have := ring_inj v _ _ R I a1 hR0 a3 a4 hI0 hI1 (by rw [a5, ← hP])
  exact this.1

/-- The ring of a cell of the scan area is a ring of the decomposition. -/
theorem cellRing_range {width height R0x R0y R0Width R0Height ringCount : Int}
    (v : ValidRings width height R0x R0y R0Width R0Height ringCount)
    (k : Int) (hk0 : 0 ≤ k) (hk1 : k < width * height) :
    0 ≤ cellRing width height R0x k ∧ cellRing width height R0x k < ringCount := by
  have hw : 0 < width := by have := v.hwidth; have := v.hW; have := v.hN; omega
  have hx := Int.emod_nonneg k (by omega : width ≠ 0)
  have hx1 := Int.emod_lt_of_pos k hw
  have hy : 0 ≤ k / width := Int.ediv_nonneg hk0 (by omega)
  have hy1 : k / width < height := by
    apply Int.ediv_lt_of_lt_mul hw
    rw [mul_comm]; exact hk1
  have := ringOf_spec v (k % width) (k / width) hx hx1 hy hy1
  exact ⟨this.1, this.2.1⟩


/-- The potential is at most the number of cells times the number of rings. -/
theorem pushPotential_le {width height R0x R0y R0Width R0Height ringCount : Int}
    (v : ValidRings width height R0x R0y R0Width R0Height ringCount) (area : Area) :
    pushPotential area width height R0x ≤ width * height * ringCount := by
  have hn : 0 ≤ width * height :=
    mul_nonneg (by have := v.hwidth; have := v.hW; have := v.hN; omega)
      (by have := v.hheight; have := v.hH; have := v.hN; omega)
  unfold pushPotential
  have h1 : ∀ k ∈ Finset.range (width * height).toNat,
      (if area (k : Int) ≠ 0 ∧ area (k : Int) ≠ AREA_BLOCKED then
        cellRing width height R0x (k : Int) else 0) ≤ ringCount := by
    intro k hk
    rw [Finset.mem_range] at hk
    have := cellRing_range v (k : Int) (by omega) (by omega)
    split_ifs
    · omega
    · have := v.hN; omega
  have h2 := Finset.sum_le_card_nsmul _ _ ringCount h1
  rw [Finset.card_range, nsmul_eq_mul] at h2
  have h3 : (((width * height).toNat : Nat) : Int) = width * height := Int.toNat_of_nonneg hn
  rw [h3] at h2
  exact h2

/-- Pushing a handle from a valid position of ring R to a valid position of ring
R+1 that holds 0 raises the potential by one. -/
theorem pushPotential_push {width height R0x R0y R0Width R0Height ringCount : Int}
    (v : ValidRings width height R0x R0y R0Width R0Height ringCount) (area : Area)
    (R I I' : Int) (hR0 : 0 ≤ R) (hR1 : R + 1 < ringCount) (hI0 : 0 ≤ I)
    (hI1 : I < RingLength R0Width R0Height R) (hI0' : 0 ≤ I')
    (hI1' : I' < RingLength R0Width R0Height (R + 1))
    (hmov : area ((RingIndexToXY R0x R0y R0Width R0Height R I).2 * width +
        (RingIndexToXY R0x R0y R0Width R0Height R I).1) ≠ 0 ∧
      area ((RingIndexToXY R0x R0y R0Width R0Height R I).2 * width +
        (RingIndexToXY R0x R0y R0Width R0Height R I).1) ≠ AREA_BLOCKED)
    (hz : area ((RingIndexToXY R0x R0y R0Width R0Height (R + 1) I').2 * width +
        (RingIndexToXY R0x R0y R0Width R0Height (R + 1) I').1) = 0) :
    pushPotential
      ((area.write ((RingIndexToXY R0x R0y R0Width R0Height (R + 1) I').2 * width +
          (RingIndexToXY R0x R0y R0Width R0Height (R + 1) I').1)
        (area ((RingIndexToXY R0x R0y R0Width R0Height R I).2 * width +
          (RingIndexToXY R0x R0y R0Width R0Height R I).1))).write
        ((RingIndexToXY R0x R0y R0Width R0Height R I).2 * width +
          (RingIndexToXY R0x R0y R0Width R0Height R I).1) 0)
      width height R0x
    = pushPotential area width height R0x + 1 := by
  have hp := ring_in_area v R I hR0 (by omega) hI0
  have hq := ring_in_area v (R + 1) I' (by omega) hR1 hI0'
  have hwa := cellRing_ring v R I hR0 (by omega) hI0 hI1
  have hwb := cellRing_ring v (R + 1) I' (by omega) hR1 hI0' hI1'
  have hpb := idx_bounds hp.1 hp.2.1 hp.2.2.1 hp.2.2.2
  have hqb := idx_bounds hq.1 hq.2.1 hq.2.2.1 hq.2.2.2
  generalize (RingIndexToXY R0x R0y R0Width R0Height R I).2 * width +
    (RingIndexToXY R0x R0y R0Width R0Height R I).1 = a at *
  generalize (RingIndexToXY R0x R0y R0Width R0Height (R + 1) I').2 * width +
    (RingIndexToXY R0x R0y R0Width R0Height (R + 1) I').1 = b at *
  obtain ⟨A, rfl⟩ : ∃ A : Nat, a = (A : Int) := ⟨a.toNat, by omega⟩
  obtain ⟨B, rfl⟩ : ∃ B : Nat, b = (B : Int) := ⟨b.toNat, by omega⟩
  have hAB : A ≠ B := by
    intro e; subst e; exact hmov.1 hz
  have hA : A ∈ Finset.range (width * height).toNat := by rw [Finset.mem_range]; omega
  have hB : B ∈ Finset.range (width * height).toNat := by rw [Finset.mem_range]; omega
  unfold pushPotential
  have hterm : ∀ k ∈ Finset.range (width * height).toNat,
      (if ((area.write (B : Int) (area (A : Int))).write (A : Int) 0) (k : Int) ≠ 0 ∧
          ((area.write (B : Int) (area (A : Int))).write (A : Int) 0) (k : Int) ≠ AREA_BLOCKED then
        cellRing width height R0x (k : Int) else 0)
      = (if area (k : Int) ≠ 0 ∧ area (k : Int) ≠ AREA_BLOCKED then
          cellRing width height R0x (k : Int) else 0) +
        ((if k = A then -R else 0) + (if k = B then R + 1 else 0)) := by
    intro k _
    by_cases hkA : k = A
    · subst hkA
      rw [Area_write_same, if_neg (by simp), if_pos hmov, hwa, if_pos rfl, if_neg hAB]
      ring
    · by_cases hkB : k = B
      · subst hkB
        rw [Area_write_other _ _ _ _ (by exact_mod_cast hkA), Area_write_same, if_pos hmov, hz,
          if_neg (by simp), hwb, if_neg hkA, if_pos rfl]
        ring
      · rw [Area_write_other _ _ _ _ (by exact_mod_cast hkA),
          Area_write_other _ _ _ _ (by exact_mod_cast hkB), if_neg hkA, if_neg hkB]
        ring
  rw [Finset.sum_congr rfl hterm, Finset.sum_add_distrib, Finset.sum_add_distrib,
    Finset.sum_ite_eq' _ A, Finset.sum_ite_eq' _ B, if_pos hA, if_pos hB]
  ring

/-- The body of the cell loop of `PushRings` raises the potential by one when it
pushes, and leaves it as it is otherwise. -/
theorem PushRingsCell_potential {width height R0x R0y R0Width R0Height ringCount : Int}
    (v : ValidRings width height R0x R0y R0Width R0Height ringCount)
    (R startIndex i : Int) (hR0 : 0 ≤ R) (hR1 : R + 1 < ringCount)
    (hs : 0 ≤ startIndex) (hi : 0 ≤ i) (s : PushState) (base : Int)
    (hb : base + boolToInt s.pushed ≤ pushPotential s.area width height R0x) :
    base + boolToInt (PushRingsCell 3 width height R0x R0y R0Width R0Height R
        (RingLength R0Width R0Height R) startIndex i s).pushed ≤
      pushPotential (PushRingsCell 3 width height R0x R0y R0Width R0Height R
        (RingLength R0Width R0Height R) startIndex i s).area width height R0x := by
  have hlen := (RingLength_pos R0Width R0Height R v.hW v.hH hR0).1
  have hidx := cmod_range (startIndex + i) (RingLength R0Width R0Height R) (by omega) (by omega)
  unfold PushRingsCell
  simp only
  split_ifs with hmov hfound
  · have hspec := FindPushedSpot_spec s.area s.rnd 3 width height R0x R0y R0Width R0Height R
      (cmod (startIndex + i) (RingLength R0Width R0Height R)) v.hW v.hH hR0 hidx.1 hidx.2
      (by omega) (by omega)
    rcases hspec with h | ⟨h0, h1, hz⟩
    · exact absurd h hfound
    · simp only
      rw [pushPotential_push v s.area R _ _ hR0 hR1 hidx.1 hidx.2 h0 h1 ⟨hmov.2, hmov.1⟩ hz]
      have : boolToInt s.pushed ≤ 1 := by unfold boolToInt; split_ifs <;> omega
      have : boolToInt true = 1 := rfl
      have : 0 ≤ boolToInt s.pushed := by unfold boolToInt; split_ifs <;> omega
      omega
  · exact hb
  · exact hb

/-- One cycle of `PushRings` does not lower the potential, and raises it if a
handle was pushed. -/
theorem PushRingsCycle_potential {width height R0x R0y R0Width R0Height ringCount : Int}
    (v : ValidRings width height R0x R0y R0Width R0Height ringCount)
    (outlineRing emptyRing : Int) (ho : outlineRing < ringCount) (he : -1 ≤ emptyRing)
    (area : Area) (rnd : RandSource) :
    pushPotential area width height R0x +
        boolToInt (PushRingsCycle area rnd 3 width height R0x R0y R0Width R0Height outlineRing
          emptyRing).pushed ≤
      pushPotential (PushRingsCycle area rnd 3 width height R0x R0y R0Width R0Height outlineRing
        emptyRing).area width height R0x := by
  unfold PushRingsCycle
  apply forLoop_inv' (fun t : PushState =>
    pushPotential area width height R0x + boolToInt t.pushed ≤
      pushPotential t.area width height R0x)
  · intro R t hR0 hR1 ht
    have hlen := (RingLength_pos R0Width R0Height R v.hW v.hH (by omega)).1
    have hr := random_range t.rnd (RingLength R0Width R0Height R) (by omega)
    unfold PushRingsRing
    simp only
    have key : pushPotential area width height R0x +
        boolToInt (forLoop (PushRingsCell 3 width height R0x R0y R0Width R0Height R
            (RingLength R0Width R0Height R) (t.rnd.random (RingLength R0Width R0Height R)))
          (RingLength R0Width R0Height R).toNat 0
          { t with rnd := t.rnd.next, empty := true }).pushed ≤
        pushPotential (forLoop (PushRingsCell 3 width height R0x R0y R0Width R0Height R
            (RingLength R0Width R0Height R) (t.rnd.random (RingLength R0Width R0Height R)))
          (RingLength R0Width R0Height R).toNat 0
          { t with rnd := t.rnd.next, empty := true }).area width height R0x := by
      apply forLoop_inv' (fun u : PushState =>
        pushPotential area width height R0x + boolToInt u.pushed ≤
          pushPotential u.area width height R0x)
      · intro i u hi0 _ hu
        exact PushRingsCell_potential v R _ i (by omega) (by omega) hr.1 hi0 u _ hu
      · exact ht
    split_ifs <;> exact key
  · show pushPotential area width height R0x + boolToInt false ≤ _
    simp [boolToInt]

/-- The cycles of `PushRings` keep `emptyRing` at -1 or above. -/
theorem PushRingsCycle_emptyRing (width height R0x R0y R0Width R0Height outlineRing
    emptyRing : Int) (he : -1 ≤ emptyRing) (area : Area) (rnd : RandSource) :
    -1 ≤ (PushRingsCycle area rnd 3 width height R0x R0y R0Width R0Height outlineRing
      emptyRing).emptyRing := by
  unfold PushRingsCycle
  apply forLoop_inv' (fun t : PushState => -1 ≤ t.emptyRing)
  · intro R t hR0 _ ht
    unfold PushRingsRing
    simp only
    have key : (forLoop (PushRingsCell 3 width height R0x R0y R0Width R0Height R
          (RingLength R0Width R0Height R) (t.rnd.random (RingLength R0Width R0Height R)))
        (RingLength R0Width R0Height R).toNat 0
        { t with rnd := t.rnd.next, empty := true }).emptyRing = t.emptyRing := by
      apply forLoop_inv' (fun u : PushState => u.emptyRing = t.emptyRing)
      · intro i u _ _ hu
        unfold PushRingsCell
        simp only
        split_ifs <;> exact hu
      · rfl
    split_ifs
    · simp only; omega
    · rw [key]; exact ht
  · exact he

/-- The push cycles end: with more fuel than the potential can still rise,
`PushRingsLoop` returns. -/
theorem PushRingsLoop_returns {width height R0x R0y R0Width R0Height ringCount : Int}
    (v : ValidRings width height R0x R0y R0Width R0Height ringCount)
    (outlineRing : Int) (ho : outlineRing < ringCount) :
    ∀ (fuel : Nat) (area : Area) (rnd : RandSource) (emptyRing : Int), -1 ≤ emptyRing →
      width * height * ringCount - pushPotential area width height R0x < fuel →
      ∃ r, PushRingsLoop 3 width height R0x R0y R0Width R0Height outlineRing fuel area rnd
        emptyRing = some r := by
  intro fuel
  induction fuel with
  | zero =>
    intro area rnd emptyRing _ hf
    have := pushPotential_le v area
    simp only [Nat.cast_zero] at hf
    omega
  | succ fuel ih =>
    intro area rnd emptyRing he hf
    have hpot := PushRingsCycle_potential v outlineRing emptyRing ho he area rnd
    have hem := PushRingsCycle_emptyRing width height R0x R0y R0Width R0Height outlineRing
      emptyRing he area rnd
    unfold PushRingsLoop
    simp only
    split_ifs with hcont
    · apply ih _ _ _ hem
      rw [hcont.2] at hpot
      have : boolToInt true = 1 := rfl
      push_cast at hf
      omega
    · exact ⟨_, rfl⟩

/-- More fuel does not change what `PushRingsLoop` returns. -/
theorem PushRingsLoop_fuel (width height R0x R0y R0Width R0Height outlineRing : Int) :
    ∀ (fuel : Nat) (area : Area) (rnd : RandSource) (emptyRing : Int)
      (r : Int × Area × RandSource),
      PushRingsLoop 3 width height R0x R0y R0Width R0Height outlineRing fuel area rnd emptyRing
        = some r →
      ∀ fuel', fuel ≤ fuel' →
        PushRingsLoop 3 width height R0x R0y R0Width R0Height outlineRing fuel' area rnd
          emptyRing = some r := by
  intro fuel
  induction fuel with
  | zero => intro area rnd emptyRing r h; simp [PushRingsLoop] at h
  | succ fuel ih =>
    intro area rnd emptyRing r h fuel' hle
    obtain ⟨f, rfl⟩ : ∃ f, fuel' = f + 1 := ⟨fuel' - 1, by omega⟩
    unfold PushRingsLoop at h ⊢
    simp only at h ⊢
    split_ifs at h ⊢ with hcont
    · exact ih _ _ _ r h f (by omega)
    · exact h

/-- `PushRings` returns for every buffer and random source: the fuel
`width * height * ringCount + 1` is enough, and more fuel gives the same result. -/
theorem PushRings_returns {width height R0x R0y R0Width R0Height ringCount : Int}
    (v : ValidRings width height R0x R0y R0Width R0Height ringCount)
    (outlineRing : Int) (ho : outlineRing < ringCount) (area : Area) (rnd : RandSource) :
    ∃ r, ∀ fuel, (width * height * ringCount).toNat + 1 ≤ fuel →
      PushRings fuel area rnd width height R0x R0y R0Width R0Height outlineRing = some r := by
  have hpot : 0 ≤ pushPotential area width height R0x := by
    unfold pushPotential
    apply Finset.sum_nonneg
    intro k hk
    rw [Finset.mem_range] at hk
    have hn : 0 ≤ width * height :=
      mul_nonneg (by have := v.hwidth; have := v.hW; have := v.hN; omega)
        (by have := v.hheight; have := v.hH; have := v.hN; omega)
    have := cellRing_range v (k : Int) (by omega) (by omega)
    split_ifs
    · exact this.1
    · exact le_refl _
  obtain ⟨r, hr⟩ := PushRingsLoop_returns v outlineRing ho
    ((width * height * ringCount).toNat + 1) area rnd (-1) (le_refl _)
    (by push_cast; omega)
  exact ⟨r, fun fuel hf => PushRingsLoop_fuel width height R0x R0y R0Width R0Height outlineRing
    _ area rnd (-1) r hr fuel hf⟩

/-! ### C2: the stages keep the handles -/

theorem KeepsHandles_of_moves {n : Int} {area area' : Area} (hn : 0 ≤ n)
    (h : Moves n area area') : KeepsHandles n area area' := by
  have h' : Moves ((n.toNat : Nat) : Int) area area' := by
    rw [Int.toNat_of_nonneg hn]; exact h
  exact ⟨h, Moves_perm h', fun hd => (Moves_perm h').nodup_iff.mpr hd⟩

/-- C2: with the geometry of a footprint of at least 1 x 1, for every buffer and
every random source, each of PushRings, FillOutline and PushQueues returns (the
push cycles of PushRings end within width * height * ringCount + 1 cycles) and has
then only moved movable handles into cells that hold 0, clearing the cell each
came from; so the handles in the buffer are the same up to permutation before and
after the stage, and handles that are pairwise distinct on entry are pairwise
distinct on exit. -/
theorem stages_keep_handles (buildxLoc buildyLoc buildWidth buildHeight : Int)
    (hw : 1 ≤ buildWidth) (hh : 1 ≤ buildHeight)
    (area : Area) (rnd : RandSource) (occupationCount : Int) :
    (∃ r, (∀ fuel, ((geometry buildxLoc buildyLoc buildWidth buildHeight).width *
          (geometry buildxLoc buildyLoc buildWidth buildHeight).height *
          (geometry buildxLoc buildyLoc buildWidth buildHeight).ringCount).toNat + 1 ≤ fuel →
        PushRings fuel area rnd
          (geometry buildxLoc buildyLoc buildWidth buildHeight).width
          (geometry buildxLoc buildyLoc buildWidth buildHeight).height
          (geometry buildxLoc buildyLoc buildWidth buildHeight).R0x
          (geometry buildxLoc buildyLoc buildWidth buildHeight).R0y
          (geometry buildxLoc buildyLoc buildWidth buildHeight).R0Width
          (geometry buildxLoc buildyLoc buildWidth buildHeight).R0Height
          (geometry buildxLoc buildyLoc buildWidth buildHeight).outlineRing = some r) ∧
      KeepsHandles ((geometry buildxLoc buildyLoc buildWidth buildHeight).width *
        (geometry buildxLoc buildyLoc buildWidth buildHeight).height) area r.2.1) ∧
    (∀ fuel r, PushRings fuel area rnd
        (geometry buildxLoc buildyLoc buildWidth buildHeight).width
        (geometry buildxLoc buildyLoc buildWidth buildHeight).height
        (geometry buildxLoc buildyLoc buildWidth buildHeight).R0x
        (geometry buildxLoc buildyLoc buildWidth buildHeight).R0y
        (geometry buildxLoc buildyLoc buildWidth buildHeight).R0Width
        (geometry buildxLoc buildyLoc buildWidth buildHeight).R0Height
        (geometry buildxLoc buildyLoc buildWidth buildHeight).outlineRing = some r →
      KeepsHandles ((geometry buildxLoc buildyLoc buildWidth buildHeight).width *
        (geometry buildxLoc buildyLoc buildWidth buildHeight).height) area r.2.1) ∧
    KeepsHandles ((geometry buildxLoc buildyLoc buildWidth buildHeight).width *
        (geometry buildxLoc buildyLoc buildWidth buildHeight).height) area
      (FillOutline area rnd occupationCount
        (geometry buildxLoc buildyLoc buildWidth buildHeight).width
        (geometry buildxLoc buildyLoc buildWidth buildHeight).height
        (geometry buildxLoc buildyLoc buildWidth buildHeight).R0x
        (geometry buildxLoc buildyLoc buildWidth buildHeight).R0y
        (geometry buildxLoc buildyLoc buildWidth buildHeight).R0Width
        (geometry buildxLoc buildyLoc buildWidth buildHeight).R0Height
        (geometry buildxLoc buildyLoc buildWidth buildHeight).outlineRing).2.1 ∧
    (∃ r, PushQueues area rnd occupationCount
        (geometry buildxLoc buildyLoc buildWidth buildHeight).width
        (geometry buildxLoc buildyLoc buildWidth buildHeight).height
        (geometry buildxLoc buildyLoc buildWidth buildHeight).R0x
        (geometry buildxLoc buildyLoc buildWidth buildHeight).R0y
        (geometry buildxLoc buildyLoc buildWidth buildHeight).R0Width
        (geometry buildxLoc buildyLoc buildWidth buildHeight).R0Height
        (geometry buildxLoc buildyLoc buildWidth buildHeight).outlineRing = some r ∧
      KeepsHandles ((geometry buildxLoc buildyLoc buildWidth buildHeight).width *
        (geometry buildxLoc buildyLoc buildWidth buildHeight).height) area r.2.1) := by
  have v := geometry_valid buildxLoc buildyLoc buildWidth buildHeight hw hh
  obtain ⟨ho, ho1⟩ := geometry_outlineRing buildxLoc buildyLoc buildWidth buildHeight hw hh
  have hn : 0 ≤ (geometry buildxLoc buildyLoc buildWidth buildHeight).width *
      (geometry buildxLoc buildyLoc buildWidth buildHeight).height :=
    mul_nonneg (by have := v.hwidth; have := v.hW; have := v.hN; omega)
      (by have := v.hheight; have := v.hH; have := v.hN; omega)
  have hpush : ∀ fuel r, PushRings fuel area rnd
      (geometry buildxLoc buildyLoc buildWidth buildHeight).width
      (geometry buildxLoc buildyLoc buildWidth buildHeight).height
      (geometry buildxLoc buildyLoc buildWidth buildHeight).R0x
      (geometry buildxLoc buildyLoc buildWidth buildHeight).R0y
      (geometry buildxLoc buildyLoc buildWidth buildHeight).R0Width
      (geometry buildxLoc buildyLoc buildWidth buildHeight).R0Height
      (geometry buildxLoc buildyLoc buildWidth buildHeight).outlineRing = some r →
      KeepsHandles ((geometry buildxLoc buildyLoc buildWidth buildHeight).width *
        (geometry buildxLoc buildyLoc buildWidth buildHeight).height) area r.2.1 := by
    intro fuel r hr
    exact KeepsHandles_of_moves hn
      (PushRingsLoop_moves v _ (by omega) fuel area rnd (-1) r (le_refl _) hr)
  refine ⟨?_, hpush, ?_, ?_⟩
  · obtain ⟨r, hr⟩ := PushRings_returns v
      (geometry buildxLoc buildyLoc buildWidth buildHeight).outlineRing (by omega) area rnd
    exact ⟨r, hr, hpush _ r (hr _ (le_refl _))⟩
  · exact KeepsHandles_of_moves hn (FillOutline_moves v _ ho1 (by omega) area rnd occupationCount)
  · obtain ⟨r, hr, hm⟩ := PushQueues_moves v _ ho1 (by omega) area rnd occupationCount
    exact ⟨r, hr, KeepsHandles_of_moves hn hm⟩

/-- Witness for C2: the three stages on a 5 x 5 buffer with one handle in the
1 x 1 footprint. -/
theorem stages_keep_handles_witness :
    (∃ r, PushRings 76 loneHandleArea (fun _ => 0)
        (geometry 10 10 1 1).width (geometry 10 10 1 1).height (geometry 10 10 1 1).R0x
        (geometry 10 10 1 1).R0y (geometry 10 10 1 1).R0Width (geometry 10 10 1 1).R0Height
        (geometry 10 10 1 1).outlineRing = some r ∧
      KeepsHandles ((geometry 10 10 1 1).width * (geometry 10 10 1 1).height)
        loneHandleArea r.2.1) ∧
    KeepsHandles ((geometry 10 10 1 1).width * (geometry 10 10 1 1).height) loneHandleArea
      (FillOutline loneHandleArea (fun _ => 0) 1
        (geometry 10 10 1 1).width (geometry 10 10 1 1).height (geometry 10 10 1 1).R0x
        (geometry 10 10 1 1).R0y (geometry 10 10 1 1).R0Width (geometry 10 10 1 1).R0Height
        (geometry 10 10 1 1).outlineRing).2.1 ∧
    (∃ r, PushQueues loneHandleArea (fun _ => 0) 1
        (geometry 10 10 1 1).width (geometry 10 10 1 1).height (geometry 10 10 1 1).R0x
        (geometry 10 10 1 1).R0y (geometry 10 10 1 1).R0Width (geometry 10 10 1 1).R0Height
        (geometry 10 10 1 1).outlineRing = some r ∧
      KeepsHandles ((geometry 10 10 1 1).width * (geometry 10 10 1 1).height)
        loneHandleArea r.2.1) := by
  obtain ⟨⟨r, hr, hk⟩, _, h3, h4⟩ :=
    stages_keep_handles 10 10 1 1 (by decide) (by decide) loneHandleArea (fun _ => 0) 1
  exact ⟨⟨r, hr 76 (by decide), hk⟩, h3, h4⟩

/-! ### C10: a packed scan area -/

/-- With no free cell in the scan area, `FindPushedSpot` finds nothing. -/
theorem FindPushedSpot_none {width height R0x R0y R0Width R0Height ringCount : Int}
    (v : ValidRings width height R0x R0y R0Width R0Height ringCount)
    (area : Area) (rnd : RandSource) (maxSearchDistance R Index : Int)
    (hfree : ∀ x, 0 ≤ x → x < width → ∀ y, 0 ≤ y → y < height → area (y * width + x) ≠ 0)
    (hR0 : 0 ≤ R) (hR1 : R + 1 < ringCount)
    (hI0 : 0 ≤ Index) (hI1 : Index < RingLength R0Width R0Height R)
    (hmsd : 1 ≤ maxSearchDistance) (hmsd2 : maxSearchDistance ≤ 6) :
    (FindPushedSpot area rnd maxSearchDistance width height R0x R0y R0Width R0Height R Index).1
      = -1 := by
  have hn8 := (RingLength_pos R0Width R0Height R v.hW v.hH hR0).2
  apply FindPushedSpot_cases (fun r => r = -1)
    area rnd maxSearchDistance width height R0x R0y R0Width R0Height R Index v.hW v.hH hR0 hI0 hI1
    hmsd
  intro d idx hidx0 _ _ hd
  apply (SearchFreeSpotAtIndex_spec area d width height R0x R0y R0Width R0Height (R + 1) idx
    hidx0 (by omega) (by omega)).2
  intro k hk0 _
  have hq := ring_in_area v (R + 1) k (by omega) hR1 hk0
  exact hfree _ hq.1 hq.2.1 _ hq.2.2.1 hq.2.2.2

/-- With no free cell in the scan area, one cycle of `PushRings` changes no cell
and pushes nothing. -/
theorem PushRingsCycle_packed {width height R0x R0y R0Width R0Height ringCount : Int}
    (v : ValidRings width height R0x R0y R0Width R0Height ringCount)
    (area : Area) (rnd : RandSource) (outlineRing : Int) (ho : outlineRing < ringCount)
    (hfree : ∀ x, 0 ≤ x → x < width → ∀ y, 0 ≤ y → y < height → area (y * width + x) ≠ 0) :
    (PushRingsCycle area rnd 3 width height R0x R0y R0Width R0Height outlineRing (-1)).area = area ∧
    (PushRingsCycle area rnd 3 width height R0x R0y R0Width R0Height outlineRing (-1)).pushed
      = false := by
  unfold PushRingsCycle
  apply forLoop_inv' (fun t : PushState => t.area = area ∧ t.pushed = false)
  · intro R t hR0 hR1 ht
    have hlen := (RingLength_pos R0Width R0Height R v.hW v.hH (by omega)).1
    have hr := random_range t.rnd (RingLength R0Width R0Height R) (by omega)
    unfold PushRingsRing
    simp only
    have key : (forLoop (PushRingsCell 3 width height R0x R0y R0Width R0Height R
          (RingLength R0Width R0Height R) (t.rnd.random (RingLength R0Width R0Height R)))
        (RingLength R0Width R0Height R).toNat 0
        { t with rnd := t.rnd.next, empty := true }).area = area ∧
      (forLoop (PushRingsCell 3 width height R0x R0y R0Width R0Height R
          (RingLength R0Width R0Height R) (t.rnd.random (RingLength R0Width R0Height R)))
        (RingLength R0Width R0Height R).toNat 0
        { t with rnd := t.rnd.next, empty := true }).pushed = false := by
      apply forLoop_inv' (fun u : PushState => u.area = area ∧ u.pushed = false)
      · intro i u hi0 _ hu
        have hidx := cmod_range (t.rnd.random (RingLength R0Width R0Height R) + i)
          (RingLength R0Width R0Height R) (by omega) (by omega)
        have hnone := FindPushedSpot_none v u.area u.rnd 3 R
          (cmod (t.rnd.random (RingLength R0Width R0Height R) + i)
            (RingLength R0Width R0Height R))
          (by rw [hu.1]; exact hfree) (by omega) (by omega) hidx.1 hidx.2 (by omega) (by omega)
        unfold PushRingsCell
        simp only
        rw [hnone]
        split_ifs with h1 h2
        · exact absurd rfl h2
        · exact hu
        · exact hu
      · exact ht
    split_ifs <;> exact key
  · exact ⟨rfl, rfl⟩

/-- With no free cell in the scan area, `PushRings` returns after one cycle and has
changed no cell. -/
theorem PushRings_packed {width height R0x R0y R0Width R0Height ringCount : Int}
    (v : ValidRings width height R0x R0y R0Width R0Height ringCount)
    (area : Area) (rnd : RandSource) (outlineRing : Int) (ho : outlineRing < ringCount)
    (hfree : ∀ x, 0 ≤ x → x < width → ∀ y, 0 ≤ y → y < height → area (y * width + x) ≠ 0) :
    ∃ c rnd', PushRings 1 area rnd width height R0x R0y R0Width R0Height outlineRing
      = some (c, area, rnd') := by
  obtain ⟨h1, h2⟩ := PushRingsCycle_packed v area rnd outlineRing ho hfree
  unfold PushRings PushRingsLoop
  simp only
  rw [if_neg (by rw [h2]; simp)]
  exact ⟨_, _, by rw [h1]⟩

/-- With no free cell in the scan area, `FillOutline` changes nothing. -/
theorem FillOutline_packed {width height R0x R0y R0Width R0Height ringCount : Int}
    (v : ValidRings width height R0x R0y R0Width R0Height ringCount)
    (area : Area) (rnd : RandSource) (occupationCount outlineRing : Int)
    (ho0 : 1 ≤ outlineRing) (ho : outlineRing + 2 = ringCount)
    (hfree : ∀ x, 0 ≤ x → x < width → ∀ y, 0 ≤ y → y < height → area (y * width + x) ≠ 0) :
    FillOutline area rnd occupationCount width height R0x R0y R0Width R0Height outlineRing
      = (occupationCount, area, rnd.next) := by
  have hlen := (RingLength_pos R0Width R0Height outlineRing v.hW v.hH (by omega)).1
  have hr := random_range rnd (RingLength R0Width R0Height outlineRing) (by omega)
  unfold FillOutline
  simp only
  have key : forLoopWhile (fun s : FillState => decide (s.occupationCount > 0))
      (FillOutlineCell width height R0x R0y R0Width R0Height outlineRing
        (R0x - (outlineRing - 1)) (R0y - (outlineRing - 1))
        (R0Width + 2 * (outlineRing - 1)) (R0Height + 2 * (outlineRing - 1))
        (RingLength R0Width R0Height outlineRing)
        (rnd.random (RingLength R0Width R0Height outlineRing)))
      (RingLength R0Width R0Height outlineRing).toNat 0
      { area := area, rnd := rnd.next, occupationCount := occupationCount }
      = { area := area, rnd := rnd.next, occupationCount := occupationCount } := by
    apply forLoopWhile_inv (fun t : FillState =>
      t = { area := area, rnd := rnd.next, occupationCount := occupationCount })
    · intro i t hi0 _ _ ht
      subst ht
      have hidx := cmod_range (rnd.random (RingLength R0Width R0Height outlineRing) + i)
        (RingLength R0Width R0Height outlineRing) (by omega) (by omega)
      have hp := ring_in_area v outlineRing _ (by omega) (by omega) hidx.1
      unfold FillOutlineCell
      simp only
      rw [if_neg (hfree _ hp.1 hp.2.1 _ hp.2.2.1 hp.2.2.2)]
    · rfl
  rw [key]

/-- With no free cell in the scan area, the loop of `PushQueues` returns with the
count and the buffer it started with. -/
theorem PushQueuesLoop_packed {width height R0x R0y R0Width R0Height ringCount : Int}
    (v : ValidRings width height R0x R0y R0Width R0Height ringCount)
    (area : Area) (occupationCount outlineRing startIndex : Int)
    (ho0 : 1 ≤ outlineRing) (ho : outlineRing + 2 = ringCount) (hs : 0 ≤ startIndex)
    (hfree : ∀ x, 0 ≤ x → x < width → ∀ y, 0 ≤ y → y < height → area (y * width + x) ≠ 0) :
    ∀ (fuel : Nat) (i : Int) (rnd : RandSource), 0 ≤ i →
      (RingLength R0Width R0Height outlineRing - i).toNat ≤ fuel →
      ∃ rnd', PushQueuesLoop width height R0x R0y R0Width R0Height outlineRing
          (R0x - (outlineRing - 1)) (R0y - (outlineRing - 1))
          (R0Width + 2 * (outlineRing - 1)) (R0Height + 2 * (outlineRing - 1))
          (RingLength R0Width R0Height outlineRing) startIndex fuel i
          { area := area, rnd := rnd, occupationCount := occupationCount }
        = some { area := area, rnd := rnd', occupationCount := occupationCount } := by
  have hlen := (RingLength_pos R0Width R0Height outlineRing v.hW v.hH (by omega)).1
  intro fuel
  induction fuel with
  | zero =>
    intro i rnd hi hf
    unfold PushQueuesLoop
    rw [if_neg (by omega)]
    exact ⟨rnd, rfl⟩
  | succ fuel ih =>
    intro i rnd hi hf
    unfold PushQueuesLoop
    by_cases hg : i < RingLength R0Width R0Height outlineRing ∧ occupationCount > 0
    · rw [if_pos hg]
      simp only
      have hidx := cmod_range (startIndex + i) (RingLength R0Width R0Height outlineRing)
        (by omega) (by omega)
      have hnone := FindPushedSpot_none v area rnd 1 outlineRing
        (cmod (startIndex + i) (RingLength R0Width R0Height outlineRing))
        hfree (by omega) (by omega) hidx.1 hidx.2 (by omega) (by omega)
      rw [hnone]
      by_cases hmov : area ((RingIndexToXY R0x R0y R0Width R0Height outlineRing
            (cmod (startIndex + i) (RingLength R0Width R0Height outlineRing))).2 * width +
          (RingIndexToXY R0x R0y R0Width R0Height outlineRing
            (cmod (startIndex + i) (RingLength R0Width R0Height outlineRing))).1) ≠ 0 ∧
          area ((RingIndexToXY R0x R0y R0Width R0Height outlineRing
            (cmod (startIndex + i) (RingLength R0Width R0Height outlineRing))).2 * width +
          (RingIndexToXY R0x R0y R0Width R0Height outlineRing
            (cmod (startIndex + i) (RingLength R0Width R0Height outlineRing))).1) ≠ AREA_BLOCKED
      · rw [if_pos hmov, if_neg (by simp)]
        exact ih (i + 1) _ (by omega) (by omega)
      · rw [if_neg hmov]
        exact ih (i + 1) _ (by omega) (by omega)
    · rw [if_neg hg]
      exact ⟨rnd, rfl⟩

/-- With no free cell in the scan area, `PushQueues` returns the count and the
buffer it was given. -/
theorem PushQueues_packed {width height R0x R0y R0Width R0Height ringCount : Int}
    (v : ValidRings width height R0x R0y R0Width R0Height ringCount)
    (area : Area) (rnd : RandSource) (occupationCount outlineRing : Int)
    (ho0 : 1 ≤ outlineRing) (ho : outlineRing + 2 = ringCount)
    (hfree : ∀ x, 0 ≤ x → x < width → ∀ y, 0 ≤ y → y < height → area (y * width + x) ≠ 0) :
    ∃ rnd', PushQueues area rnd occupationCount width height R0x R0y R0Width R0Height outlineRing
      = some (occupationCount, area, rnd') := by
  have hlen := (RingLength_pos R0Width R0Height outlineRing v.hW v.hH (by omega)).1
  have hr := random_range rnd (RingLength R0Width R0Height outlineRing) (by omega)
  obtain ⟨rnd', h⟩ := PushQueuesLoop_packed v area occupationCount outlineRing
    (rnd.random (RingLength R0Width R0Height outlineRing)) ho0 ho hr.1 hfree
    ((RingLength R0Width R0Height outlineRing).toNat + occupationCount.toNat) 0 rnd.next
    (le_refl _) (by omega)
  unfold PushQueues
  simp only
  rw [h]
  exact ⟨rnd', rfl⟩

/-- C10, as the code behaves: if every cell of the scan area holds a movable
handle except the builder's cell, which is AREA_BLOCKED, then no cell of the scan
area is free, so PushRings ends after one cycle with no cell changed, FillOutline
changes no cell, and PushQueues changes no cell either and returns the occupancy
count it was given. -/
theorem packed_scan_area_is_stuck (buildxLoc buildyLoc buildWidth buildHeight : Int)
    (hw : 1 ≤ buildWidth) (hh : 1 ≤ buildHeight)
    (area : Area) (rnd : RandSource) (occupationCount xb yb : Int)
    (hxb : 0 ≤ xb ∧ xb < (geometry buildxLoc buildyLoc buildWidth buildHeight).width)
    (hyb : 0 ≤ yb ∧ yb < (geometry buildxLoc buildyLoc buildWidth buildHeight).height)
    (hblocked : area (yb * (geometry buildxLoc buildyLoc buildWidth buildHeight).width + xb)
      = AREA_BLOCKED)
    (hpacked : ∀ x, 0 ≤ x → x < (geometry buildxLoc buildyLoc buildWidth buildHeight).width →
      ∀ y, 0 ≤ y → y < (geometry buildxLoc buildyLoc buildWidth buildHeight).height →
      (x, y) ≠ (xb, yb) →
      area (y * (geometry buildxLoc buildyLoc buildWidth buildHeight).width + x) ≠ 0 ∧
      area (y * (geometry buildxLoc buildyLoc buildWidth buildHeight).width + x) ≠ AREA_BLOCKED) :
    (∃ c rnd', PushRings 1 area rnd
        (geometry buildxLoc buildyLoc buildWidth buildHeight).width
        (geometry buildxLoc buildyLoc buildWidth buildHeight).height
        (geometry buildxLoc buildyLoc buildWidth buildHeight).R0x
        (geometry buildxLoc buildyLoc buildWidth buildHeight).R0y
        (geometry buildxLoc buildyLoc buildWidth buildHeight).R0Width
        (geometry buildxLoc buildyLoc buildWidth buildHeight).R0Height
        (geometry buildxLoc buildyLoc buildWidth buildHeight).outlineRing
      = some (c, area, rnd')) ∧
    FillOutline area rnd occupationCount
        (geometry buildxLoc buildyLoc buildWidth buildHeight).width
        (geometry buildxLoc buildyLoc buildWidth buildHeight).height
        (geometry buildxLoc buildyLoc buildWidth buildHeight).R0x
        (geometry buildxLoc buildyLoc buildWidth buildHeight).R0y
        (geometry buildxLoc buildyLoc buildWidth buildHeight).R0Width
        (geometry buildxLoc buildyLoc buildWidth buildHeight).R0Height
        (geometry buildxLoc buildyLoc buildWidth buildHeight).outlineRing
      = (occupationCount, area, rnd.next) ∧
    (∃ rnd', PushQueues area rnd occupationCount
        (geometry buildxLoc buildyLoc buildWidth buildHeight).width
        (geometry buildxLoc buildyLoc buildWidth buildHeight).height
        (geometry buildxLoc buildyLoc buildWidth buildHeight).R0x
        (geometry buildxLoc buildyLoc buildWidth buildHeight).R0y
        (geometry buildxLoc buildyLoc buildWidth buildHeight).R0Width
        (geometry buildxLoc buildyLoc buildWidth buildHeight).R0Height
        (geometry buildxLoc buildyLoc buildWidth buildHeight).outlineRing
      = some (occupationCount, area, rnd')) := by
  have v := geometry_valid buildxLoc buildyLoc buildWidth buildHeight hw hh
  obtain ⟨ho, ho1⟩ := geometry_outlineRing buildxLoc buildyLoc buildWidth buildHeight hw hh
  have hfree : ∀ x, 0 ≤ x → x < (geometry buildxLoc buildyLoc buildWidth buildHeight).width →
      ∀ y, 0 ≤ y → y < (geometry buildxLoc buildyLoc buildWidth buildHeight).height →
      area (y * (geometry buildxLoc buildyLoc buildWidth buildHeight).width + x) ≠ 0 := by
    intro x hx0 hx1 y hy0 hy1
    by_cases hc : (x, y) = (xb, yb)
    · simp only [Prod.mk.injEq] at hc
      rw [hc.1, hc.2, hblocked]
      decide
    · exact (hpacked x hx0 hx1 y hy0 hy1 hc).1
  exact ⟨PushRings_packed v area rnd _ (by omega) hfree,
    FillOutline_packed v area rnd occupationCount _ ho1 (by omega) hfree,
    PushQueues_packed v area rnd occupationCount _ ho1 (by omega) hfree⟩

/-- Witness for C10 as amended: the packed 5 x 5 buffer of a 1 x 1 footprint. -/
theorem packed_scan_area_is_stuck_witness :
    (∃ c rnd', PushRings 1 packedArea (fun _ => 0)
        (geometry 10 10 1 1).width (geometry 10 10 1 1).height (geometry 10 10 1 1).R0x
        (geometry 10 10 1 1).R0y (geometry 10 10 1 1).R0Width (geometry 10 10 1 1).R0Height
        (geometry 10 10 1 1).outlineRing = some (c, packedArea, rnd')) ∧
    FillOutline packedArea (fun _ => 0) 1
        (geometry 10 10 1 1).width (geometry 10 10 1 1).height (geometry 10 10 1 1).R0x
        (geometry 10 10 1 1).R0y (geometry 10 10 1 1).R0Width (geometry 10 10 1 1).R0Height
        (geometry 10 10 1 1).outlineRing
      = (1, packedArea, RandSource.next (fun _ => 0)) ∧
    (∃ rnd', PushQueues packedArea (fun _ => 0) 1
        (geometry 10 10 1 1).width (geometry 10 10 1 1).height (geometry 10 10 1 1).R0x
        (geometry 10 10 1 1).R0y (geometry 10 10 1 1).R0Width (geometry 10 10 1 1).R0Height
        (geometry 10 10 1 1).outlineRing = some (1, packedArea, rnd')) :=
  packed_scan_area_is_stuck 10 10 1 1 (by decide) (by decide) packedArea (fun _ => 0) 1 1 2
    (by decide) (by decide) (by decide)
    (by
      have e : (geometry 10 10 1 1).width = 5 := by decide
      have e2 : (geometry 10 10 1 1).height = 5 := by decide
      rw [e, e2]
      intro x hx0 hx1 y hy0 hy1 hne
      interval_cases x <;> interval_cases y <;> first
        | exact absurd rfl hne
        | decide)

/-- C10 as stated fails: in the packed 5 x 5 buffer of a 1 x 1 footprint every cell
holds a movable handle except the builder's cell `(1, 2)`, which is blocked; yet
PushQueues, called with the occupancy count 1 that PushRings and FillOutline leave,
pushes nothing: it returns the count 1 and all 25 cells as they were. -/
theorem packed_scan_area_counterexample :
    ((List.range 25).all (fun k : Nat =>
      if k = 2 * 5 + 1 then decide (packedArea (k : Int) = AREA_BLOCKED)
      else decide (packedArea (k : Int) ≠ 0 ∧ packedArea (k : Int) ≠ AREA_BLOCKED))) = true ∧
    (PushRings 1 packedArea (fun _ => 0)
        (geometry 10 10 1 1).width (geometry 10 10 1 1).height (geometry 10 10 1 1).R0x
        (geometry 10 10 1 1).R0y (geometry 10 10 1 1).R0Width (geometry 10 10 1 1).R0Height
        (geometry 10 10 1 1).outlineRing).map Prod.fst = some 1 ∧
    (FillOutline packedArea (fun _ => 0) 1
        (geometry 10 10 1 1).width (geometry 10 10 1 1).height (geometry 10 10 1 1).R0x
        (geometry 10 10 1 1).R0y (geometry 10 10 1 1).R0Width (geometry 10 10 1 1).R0Height
        (geometry 10 10 1 1).outlineRing).1 = 1 ∧
    (PushQueues packedArea (fun _ => 0) 1
        (geometry 10 10 1 1).width (geometry 10 10 1 1).height (geometry 10 10 1 1).R0x
        (geometry 10 10 1 1).R0y (geometry 10 10 1 1).R0Width (geometry 10 10 1 1).R0Height
        (geometry 10 10 1 1).outlineRing).map
      (fun r => (r.1, (List.range 25).map (fun k : Nat => r.2.1 (k : Int))))
      = some (1, (List.range 25).map (fun k : Nat => packedArea (k : Int))) := by
  decide

/-! ### C9: a single occupant -/

/-- Two valid ring positions with the same flat index are the same position. -/
theorem ringCell_inj {width height R0x R0y R0Width R0Height ringCount : Int}
    (v : ValidRings width height R0x R0y R0Width R0Height ringCount)
    (R I R' I' : Int) (hR : 0 ≤ R) (hR1 : R < ringCount) (hR' : 0 ≤ R') (hR1' : R' < ringCount)
    (hI : 0 ≤ I) (hI2 : I < RingLength R0Width R0Height R)
    (hI' : 0 ≤ I') (hI2' : I' < RingLength R0Width R0Height R')
    (h : (RingIndexToXY R0x R0y R0Width R0Height R I).2 * width +
        (RingIndexToXY R0x R0y R0Width R0Height R I).1
      = (RingIndexToXY R0x R0y R0Width R0Height R' I').2 * width +
        (RingIndexToXY R0x R0y R0Width R0Height R' I').1) :
    R = R' ∧ I = I' := by
  have h1 := ring_in_area v R I hR hR1 hI
  have h2 := ring_in_area v R' I' hR' hR1' hI'
  obtain ⟨e1, e2⟩ := idx_inj h1.1 h1.2.1 h2.1 h2.2.1 h
  exact ring_inj v R I R' I' hR hR' hI hI2 hI' hI2' (Prod.ext e1 e2)

/-- A valid ring position is a cell on the border of the rectangle of its ring. -/
theorem ring_on_border (R0x R0y R0Width R0Height R Index : Int)
    (hW : 1 ≤ R0Width) (hH : 1 ≤ R0Height) (hR : 0 ≤ R)
    (hI : 0 ≤ Index) (hI1 : Index < RingLength R0Width R0Height R) :
    (RingIndexToXY R0x R0y R0Width R0Height R Index).1 = R0x - R ∨
    (RingIndexToXY R0x R0y R0Width R0Height R Index).1 = R0x + R0Width - 1 + R ∨
    (RingIndexToXY R0x R0y R0Width R0Height R Index).2 = R0y - R ∨
    (RingIndexToXY R0x R0y R0Width R0Height R Index).2 = R0y + R0Height - 1 + R := by
  unfold RingLength at hI1
  unfold RingIndexToXY
  simp only
  split_ifs at hI1 ⊢ <;> dsimp only <;> first
    | (left; omega)
    | (right; left; omega)
    | (right; right; left; omega)
    | (right; right; right; omega)

/-- In a buffer with a single handle, at a valid position of ring R, the search of
`FindPushedSpot` succeeds: it returns a valid index of ring R+1. -/
theorem FindPushedSpot_single {width height R0x R0y R0Width R0Height ringCount : Int}
    (v : ValidRings width height R0x R0y R0Width R0Height ringCount)
    (area : Area) (rnd : RandSource) (h : Nat) (maxSearchDistance R I : Int)
    (hs : SingleAt area h width R0x R0y R0Width R0Height ringCount R I)
    (hR1 : R + 1 < ringCount) (hmsd : 1 ≤ maxSearchDistance) :
    0 ≤ (FindPushedSpot area rnd maxSearchDistance width height R0x R0y R0Width R0Height R I).1 ∧
    (FindPushedSpot area rnd maxSearchDistance width height R0x R0y R0Width R0Height R I).1
      < RingLength R0Width R0Height (R + 1) := by
  obtain ⟨hR0, _, hI0, hI1, _, hrest⟩ := hs
  apply FindPushedSpot_cases (fun r => 0 ≤ r ∧ r < RingLength R0Width R0Height (R + 1))
    area rnd maxSearchDistance width height R0x R0y R0Width R0Height R I v.hW v.hH hR0 hI0 hI1 hmsd
  intro d idx hidx0 hidx1 hd _
  have hz := hrest (R + 1) idx (by omega) hR1 hidx0 hidx1
    (by intro e; simp only [Prod.mk.injEq] at e; omega)
  rw [SearchFreeSpotAtIndex_first area d width height R0x R0y R0Width R0Height (R + 1) idx hd
    hidx0 hidx1 hz]
  exact ⟨hidx0, hidx1⟩

/-- Pushing the single handle from ring R to a valid position of ring R+1 gives a
buffer with the single handle there. -/
theorem SingleAt_push {width height R0x R0y R0Width R0Height ringCount : Int}
    (v : ValidRings width height R0x R0y R0Width R0Height ringCount)
    {area : Area} {h : Nat} {R I : Int} (q : Int)
    (hs : SingleAt area h width R0x R0y R0Width R0Height ringCount R I)
    (hR1 : R + 1 < ringCount) (hq0 : 0 ≤ q) (hq1 : q < RingLength R0Width R0Height (R + 1)) :
    SingleAt
      ((area.write ((RingIndexToXY R0x R0y R0Width R0Height (R + 1) q).2 * width +
          (RingIndexToXY R0x R0y R0Width R0Height (R + 1) q).1)
        (area ((RingIndexToXY R0x R0y R0Width R0Height R I).2 * width +
          (RingIndexToXY R0x R0y R0Width R0Height R I).1))).write
        ((RingIndexToXY R0x R0y R0Width R0Height R I).2 * width +
          (RingIndexToXY R0x R0y R0Width R0Height R I).1) 0)
      h width R0x R0y R0Width R0Height ringCount (R + 1) q := by
  obtain ⟨hR0, hRN, hI0, hI1, hval, hrest⟩ := hs
  have hne : (RingIndexToXY R0x R0y R0Width R0Height (R + 1) q).2 * width +
      (RingIndexToXY R0x R0y R0Width R0Height (R + 1) q).1 ≠
      (RingIndexToXY R0x R0y R0Width R0Height R I).2 * width +
      (RingIndexToXY R0x R0y R0Width R0Height R I).1 := by
    intro e
    have := ringCell_inj v (R + 1) q R I (by omega) hR1 hR0 hRN hq0 hq1 hI0 hI1 e
    omega
  refine ⟨by omega, hR1, hq0, hq1, ?_, ?_⟩
  · rw [Area_write_other _ _ _ _ hne, Area_write_same, hval]
  · intro ρ' k' h1 h2 h3 h4 hne'
    by_cases hp : (RingIndexToXY R0x R0y R0Width R0Height ρ' k').2 * width +
        (RingIndexToXY R0x R0y R0Width R0Height ρ' k').1 =
        (RingIndexToXY R0x R0y R0Width R0Height R I).2 * width +
        (RingIndexToXY R0x R0y R0Width R0Height R I).1
    · rw [hp, Area_write_same]
    · rw [Area_write_other _ _ _ _ hp]
      have hq : (RingIndexToXY R0x R0y R0Width R0Height ρ' k').2 * width +
          (RingIndexToXY R0x R0y R0Width R0Height ρ' k').1 ≠
          (RingIndexToXY R0x R0y R0Width R0Height (R + 1) q).2 * width +
          (RingIndexToXY R0x R0y R0Width R0Height (R + 1) q).1 := by
        intro e
        have := ringCell_inj v ρ' k' (R + 1) q h1 h2 (by omega) hR1 h3 h4 hq0 hq1 e
        exact hne' (Prod.ext this.1 this.2)
      rw [Area_write_other _ _ _ _ hq]
      apply hrest ρ' k' h1 h2 h3 h4
      intro e
      simp only [Prod.mk.injEq] at e
      exact hp (by rw [e.1, e.2])

/-- Every valid index of a ring is visited by a scan that starts anywhere. -/
theorem scan_covers (startIndex len k : Int) (hs : 0 ≤ startIndex) (hk0 : 0 ≤ k) (hk1 : k < len) :
    ∃ j, 0 ≤ j ∧ j < len ∧ cmod (startIndex + j) len = k := by
  have hlen : 0 < len := by omega
  refine ⟨(k - startIndex) % len, Int.emod_nonneg _ (by omega), Int.emod_lt_of_pos _ hlen, ?_⟩
  rw [cmod_of_nonneg (by have := Int.emod_nonneg (k - startIndex) (by omega : len ≠ 0); omega)
    (by omega)]
  rw [Int.add_emod_emod]
  have : startIndex + (k - startIndex) = k := by ring
  rw [this, Int.emod_eq_of_lt hk0 hk1]

/-- One step of the cell loop of `PushRings` on a buffer with a single handle. -/
theorem PushRingsCell_single {width height R0x R0y R0Width R0Height ringCount : Int}
    (v : ValidRings width height R0x R0y R0Width R0Height ringCount)
    (h : Nat) (hh0 : h ≠ 0) (hh1 : h ≠ AREA_BLOCKED)
    (outlineRing R startIndex e i : Int) (hR0 : 0 ≤ R) (hRo : R < outlineRing)
    (ho : outlineRing + 2 = ringCount) (hs : 0 ≤ startIndex) (hi : 0 ≤ i) (s : PushState)
    (hJ : SingleScan h width R0x R0y R0Width R0Height ringCount outlineRing R startIndex e i s) :
    SingleScan h width R0x R0y R0Width R0Height ringCount outlineRing R startIndex e (i + 1)
      (PushRingsCell 3 width height R0x R0y R0Width R0Height R (RingLength R0Width R0Height R)
        startIndex i s) := by
  obtain ⟨he, hocc, hempty, ρ, k, hsingle, hρ0, hρ1, hvisited⟩ := hJ
  have hlen := (RingLength_pos R0Width R0Height R v.hW v.hH hR0).1
  have hidx := cmod_range (startIndex + i) (RingLength R0Width R0Height R) (by omega) (by omega)
  unfold PushRingsCell
  simp only
  by_cases hc : ρ = R ∧ k = cmod (startIndex + i) (RingLength R0Width R0Height R)
  · -- the handle is on this cell: it is pushed to the next ring
    obtain ⟨e1, e2⟩ := hc
    subst e1
    rw [← e2]
    have hval := hsingle.2.2.2.2.1
    have hfound := FindPushedSpot_single v s.area s.rnd h 3 ρ k hsingle (by omega) (by omega)
    rw [if_pos (by rw [hval]; exact ⟨hh1, hh0⟩), if_pos (by omega)]
    exact ⟨he, hocc, hempty, ρ + 1, _, SingleAt_push v _ hsingle (by omega) hfound.1 hfound.2,
      by omega, by omega, fun e => absurd e (by omega)⟩
  · -- the cell is empty
    have hz := hsingle.2.2.2.2.2 R (cmod (startIndex + i) (RingLength R0Width R0Height R))
      hR0 (by omega) hidx.1 hidx.2
      (by intro e; simp only [Prod.mk.injEq] at e; exact hc ⟨e.1.symm, e.2.symm⟩)
    rw [if_neg (by rw [hz]; simp)]
    refine ⟨he, hocc, hempty, ρ, k, hsingle, hρ0, hρ1, ?_⟩
    intro e1 j hj0 hj1
    by_cases hji : j = i
    · subst hji
      intro e2
      exact hc ⟨e1, e2.symm⟩
    · exact hvisited e1 j hj0 (by omega)

/-- Scanning ring R in `PushRings` on a buffer with a single handle that has not
left ring R yet: the ring is marked empty and the handle is beyond it. -/
theorem PushRingsRing_single {width height R0x R0y R0Width R0Height ringCount : Int}
    (v : ValidRings width height R0x R0y R0Width R0Height ringCount)
    (h : Nat) (hh0 : h ≠ 0) (hh1 : h ≠ AREA_BLOCKED)
    (outlineRing R : Int) (hR0 : 0 ≤ R) (hRo : R < outlineRing)
    (ho : outlineRing + 2 = ringCount) (s : PushState)
    (hK : s.emptyRing = R - 1 ∧ s.occupationCount = 0 ∧
      ∃ ρ k, SingleAt s.area h width R0x R0y R0Width R0Height ringCount ρ k ∧ R ≤ ρ ∧
        ρ ≤ outlineRing) :
    (PushRingsRing 3 width height R0x R0y R0Width R0Height R s).emptyRing = R + 1 - 1 ∧
    (PushRingsRing 3 width height R0x R0y R0Width R0Height R s).occupationCount = 0 ∧
    ∃ ρ k, SingleAt (PushRingsRing 3 width height R0x R0y R0Width R0Height R s).area h
        width R0x R0y R0Width R0Height ringCount ρ k ∧ R + 1 ≤ ρ ∧ ρ ≤ outlineRing := by
  obtain ⟨he, hocc, ρ, k, hsingle, hρ0, hρ1⟩ := hK
  have hlen := (RingLength_pos R0Width R0Height R v.hW v.hH hR0).1
  have hr := random_range s.rnd (RingLength R0Width R0Height R) (by omega)
  have key := forLoop_inv
    (SingleScan h width R0x R0y R0Width R0Height ringCount outlineRing R
      (s.rnd.random (RingLength R0Width R0Height R)) (R - 1))
    (PushRingsCell 3 width height R0x R0y R0Width R0Height R (RingLength R0Width R0Height R)
      (s.rnd.random (RingLength R0Width R0Height R)))
    (RingLength R0Width R0Height R).toNat 0 { s with rnd := s.rnd.next, empty := true }
    (fun i t hi0 _ hJ => PushRingsCell_single v h hh0 hh1 outlineRing R _ (R - 1) i hR0 hRo ho
      hr.1 hi0 t hJ)
    ⟨he, hocc, rfl, ρ, k, hsingle, hρ0, hρ1, fun _ j hj0 hj1 => absurd hj1 (by omega)⟩
  obtain ⟨he', hocc', hempty', ρ', k', hsingle', hρ0', hρ1', hvisited'⟩ := key
  have hρne : ρ' ≠ R := by
    intro e1
    obtain ⟨j, hj0, hj1, hj⟩ := scan_covers (s.rnd.random (RingLength R0Width R0Height R))
      (RingLength R0Width R0Height R) k' hr.1 hsingle'.2.2.1 (by rw [← e1]; exact hsingle'.2.2.2.1)
    exact hvisited' e1 j hj0 (by omega) hj
  unfold PushRingsRing
  simp only
  rw [if_pos ⟨hempty', he'⟩]
  exact ⟨by simp, hocc', ρ', k', hsingle', by omega, hρ1'⟩

/-- `PushRings` on a buffer with a single handle inside the footprint: after one
cycle it returns 0 and the handle is on the outline ring. -/
theorem PushRings_single {width height R0x R0y R0Width R0Height ringCount : Int}
    (v : ValidRings width height R0x R0y R0Width R0Height ringCount)
    (h : Nat) (hh0 : h ≠ 0) (hh1 : h ≠ AREA_BLOCKED)
    (outlineRing : Int) (ho0 : 1 ≤ outlineRing) (ho : outlineRing + 2 = ringCount)
    (area : Area) (rnd : RandSource) (ρ k : Int)
    (hsingle : SingleAt area h width R0x R0y R0Width R0Height ringCount ρ k)
    (hρ : ρ < outlineRing) (fuel : Nat) :
    ∃ area' rnd' k', PushRings (fuel + 1) area rnd width height R0x R0y R0Width R0Height
        outlineRing = some (0, area', rnd') ∧
      SingleAt area' h width R0x R0y R0Width R0Height ringCount outlineRing k' := by
  have key := forLoop_inv
    (fun (R : Int) (s : PushState) => s.emptyRing = R - 1 ∧ s.occupationCount = 0 ∧
      ∃ ρ k, SingleAt s.area h width R0x R0y R0Width R0Height ringCount ρ k ∧ R ≤ ρ ∧
        ρ ≤ outlineRing)
    (PushRingsRing 3 width height R0x R0y R0Width R0Height)
    (outlineRing - (-1 + 1)).toNat (-1 + 1)
    { area := area, rnd := rnd, emptyRing := -1, occupationCount := 0, pushed := false,
      empty := true }
    (fun R s hR0 hR1 hK => PushRingsRing_single v h hh0 hh1 outlineRing R (by omega) (by omega)
      ho s hK)
    ⟨by simp, rfl, ρ, k, hsingle, by have := hsingle.1; omega, by omega⟩
  have hend : (-1 + 1 : Int) + ((outlineRing - (-1 + 1)).toNat : Int) = outlineRing := by omega
  rw [hend] at key
  obtain ⟨he, hocc, ρ', k', hsingle', hρ0', hρ1'⟩ := key
  have hρ' : ρ' = outlineRing := by omega
  subst hρ'
  unfold PushRings PushRingsLoop
  simp only
  unfold PushRingsCycle
  rw [if_neg (by rw [he]; omega), hocc]
  exact ⟨_, _, k', rfl, hsingle'⟩

/-- The push of a single handle out of the footprint, for any valid ring
decomposition with two rings around the footprint. -/
theorem lone_occupant_core {width height R0x R0y R0Width R0Height ringCount : Int}
    (v : ValidRings width height R0x R0y R0Width R0Height ringCount)
    (outlineRing : Int) (ho1 : 1 ≤ outlineRing) (ho : outlineRing = ringCount - 2)
    (area : Area) (rnd : RandSource) (h : Nat) (x0 y0 : Int)
    (hh0 : h ≠ 0) (hh1 : h ≠ AREA_BLOCKED)
    (hx : 2 ≤ x0 ∧ x0 < width - 2) (hy : 2 ≤ y0 ∧ y0 < height - 2)
    (hcell : area (y0 * width + x0) = h)
    (hrest : ∀ x, 0 ≤ x → x < width → ∀ y, 0 ≤ y → y < height → (x, y) ≠ (x0, y0) →
      area (y * width + x) = 0)
    (fuel : Nat) (hfuel : 1 ≤ fuel) :
    ∃ area' rnd' k,
      PushRings fuel area rnd width height R0x R0y R0Width R0Height outlineRing
        = some (0, area', rnd') ∧
      0 ≤ k ∧ k < RingLength R0Width R0Height outlineRing ∧
      area' ((RingIndexToXY R0x R0y R0Width R0Height outlineRing k).2 * width +
        (RingIndexToXY R0x R0y R0Width R0Height outlineRing k).1) = h ∧
      (∀ x, 0 ≤ x → x < width → ∀ y, 0 ≤ y → y < height →
        (x, y) ≠ RingIndexToXY R0x R0y R0Width R0Height outlineRing k →
        area' (y * width + x) = 0) ∧
      (∀ x, 2 ≤ x → x < width - 2 → ∀ y, 2 ≤ y → y < height - 2 →
        area' (y * width + x) = 0) := by
  -- the handle in ring coordinates
  obtain ⟨a1, a2, a3, a4, a5⟩ := ringOf_spec v x0 y0 (by omega) (by omega) (by omega) (by omega)
  have hρ : ringOf width height R0x x0 y0 < outlineRing := by
    have := v.hx
    unfold ringOf; omega
  have hsingle : SingleAt area h width R0x R0y R0Width R0Height ringCount
      (ringOf width height R0x x0 y0)
      (ringPos R0x R0y R0Width R0Height (ringOf width height R0x x0 y0) x0 y0) := by
    refine ⟨a1, a2, a3, a4, by rw [a5]; exact hcell, ?_⟩
    intro ρ' k' h1 h2 h3 h4 hne
    have hcellin := ring_in_area v ρ' k' h1 h2 h3
    apply hrest _ hcellin.1 hcellin.2.1 _ hcellin.2.2.1 hcellin.2.2.2
    intro e
    have := ring_inj v ρ' k' _ _ h1 a1 h3 h4 a3 a4 (by rw [a5]; exact e)
    exact hne (Prod.ext this.1 this.2)
  obtain ⟨fuel', rfl⟩ : ∃ f, fuel = f + 1 := ⟨fuel - 1, by omega⟩
  obtain ⟨area', rnd', k, hpush, hk0, _, hk2, hk3, hkval, hkrest⟩ :=
    PushRings_single v h hh0 hh1 outlineRing ho1 (by omega) area rnd _ _ hsingle hρ fuel'
  have hother : ∀ x, 0 ≤ x → x < width → ∀ y, 0 ≤ y → y < height →
      (x, y) ≠ RingIndexToXY R0x R0y R0Width R0Height outlineRing k →
      area' (y * width + x) = 0 := by
    intro x hx0 hx1 y hy0 hy1 hne
    obtain ⟨b1, b2, b3, b4, b5⟩ := ringOf_spec v x y hx0 hx1 hy0 hy1
    have := hkrest _ _ b1 b2 b3 b4 (by
      intro e
      simp only [Prod.mk.injEq] at e
      apply hne
      have hb := b5
      rw [e.2, e.1] at hb
      exact hb.symm)
    rw [b5] at this
    exact this
  refine ⟨area', rnd', k, hpush, hk2, hk3, hkval, hother, ?_⟩
  intro x hx0 hx1 y hy0 hy1
  apply hother x (by omega) (by omega) y (by omega) (by omega)
  intro e
  have hb := ring_on_border R0x R0y R0Width R0Height outlineRing k v.hW v.hH (by omega) hk2 hk3
  rw [← e] at hb
  have := v.hx
  have := v.hy
  have := v.hwidth
  have := v.hheight
  simp only at hb
  omega

/-- C9: in the geometry of a footprint of at least 1 x 1, if the buffer holds one
movable handle, in a footprint cell (buffer columns 2 .. 2+buildWidth-1, rows
2 .. 2+buildHeight-1), and 0 in every other cell of the scan area, then for every
random source PushRings returns 0 after one cycle and leaves the handle on a cell
of ring outlineRing and 0 in every other cell, the footprint cells included; and a
call of VacateIdleOfNation whose schematic is this buffer goes from PushRings
straight to MoveAccordingToSchematic: FillOutline and PushQueues do not run. -/
theorem lone_occupant_is_pushed_to_outline
    (buildxLoc buildyLoc buildWidth buildHeight : Int)
    (hw : 1 ≤ buildWidth) (hh : 1 ≤ buildHeight)
    (area : Area) (rnd : RandSource) (h : Nat) (x0 y0 : Int)
    (hh0 : h ≠ 0) (hh1 : h ≠ AREA_BLOCKED)
    (hx : 2 ≤ x0 ∧ x0 < 2 + buildWidth) (hy : 2 ≤ y0 ∧ y0 < 2 + buildHeight)
    (hcell : area (y0 * (geometry buildxLoc buildyLoc buildWidth buildHeight).width + x0) = h)
    (hrest : ∀ x, 0 ≤ x → x < (geometry buildxLoc buildyLoc buildWidth buildHeight).width →
      ∀ y, 0 ≤ y → y < (geometry buildxLoc buildyLoc buildWidth buildHeight).height →
      (x, y) ≠ (x0, y0) →
      area (y * (geometry buildxLoc buildyLoc buildWidth buildHeight).width + x) = 0)
    (fuel : Nat) (hfuel : 1 ≤ fuel) :
    ∃ area' rnd' k,
      PushRings fuel area rnd
        (geometry buildxLoc buildyLoc buildWidth buildHeight).width
        (geometry buildxLoc buildyLoc buildWidth buildHeight).height
        (geometry buildxLoc buildyLoc buildWidth buildHeight).R0x
        (geometry buildxLoc buildyLoc buildWidth buildHeight).R0y
        (geometry buildxLoc buildyLoc buildWidth buildHeight).R0Width
        (geometry buildxLoc buildyLoc buildWidth buildHeight).R0Height
        (geometry buildxLoc buildyLoc buildWidth buildHeight).outlineRing
        = some (0, area', rnd') ∧
      0 ≤ k ∧
      k < RingLength (geometry buildxLoc buildyLoc buildWidth buildHeight).R0Width
        (geometry buildxLoc buildyLoc buildWidth buildHeight).R0Height
        (geometry buildxLoc buildyLoc buildWidth buildHeight).outlineRing ∧
      area' ((RingIndexToXY (geometry buildxLoc buildyLoc buildWidth buildHeight).R0x
            (geometry buildxLoc buildyLoc buildWidth buildHeight).R0y
            (geometry buildxLoc buildyLoc buildWidth buildHeight).R0Width
            (geometry buildxLoc buildyLoc buildWidth buildHeight).R0Height
            (geometry buildxLoc buildyLoc buildWidth buildHeight).outlineRing k).2 *
          (geometry buildxLoc buildyLoc buildWidth buildHeight).width +
        (RingIndexToXY (geometry buildxLoc buildyLoc buildWidth buildHeight).R0x
            (geometry buildxLoc buildyLoc buildWidth buildHeight).R0y
            (geometry buildxLoc buildyLoc buildWidth buildHeight).R0Width
            (geometry buildxLoc buildyLoc buildWidth buildHeight).R0Height
            (geometry buildxLoc buildyLoc buildWidth buildHeight).outlineRing k).1) = h ∧
      (∀ x, 0 ≤ x → x < (geometry buildxLoc buildyLoc buildWidth buildHeight).width →
        ∀ y, 0 ≤ y → y < (geometry buildxLoc buildyLoc buildWidth buildHeight).height →
        (x, y) ≠ RingIndexToXY (geometry buildxLoc buildyLoc buildWidth buildHeight).R0x
            (geometry buildxLoc buildyLoc buildWidth buildHeight).R0y
            (geometry buildxLoc buildyLoc buildWidth buildHeight).R0Width
            (geometry buildxLoc buildyLoc buildWidth buildHeight).R0Height
            (geometry buildxLoc buildyLoc buildWidth buildHeight).outlineRing k →
        area' (y * (geometry buildxLoc buildyLoc buildWidth buildHeight).width + x) = 0) ∧
      (∀ x, 2 ≤ x → x < 2 + buildWidth → ∀ y, 2 ≤ y → y < 2 + buildHeight →
        area' (y * (geometry buildxLoc buildyLoc buildWidth buildHeight).width + x) = 0) ∧
      (∀ (self : VacateArea) (w : World) (fresh : Option Area) (area0 : Area) (builder : Unit)
          (nation_recno builder_recno occupationCount0 : Int),
        badArguments w buildxLoc buildyLoc buildWidth buildHeight nation_recno builder_recno
          = false →
        (AllocateArea self fresh (geometry buildxLoc buildyLoc buildWidth buildHeight).width
          (geometry buildxLoc buildyLoc buildWidth buildHeight).height).1 = true →
        (AllocateArea self fresh (geometry buildxLoc buildyLoc buildWidth buildHeight).width
          (geometry buildxLoc buildyLoc buildWidth buildHeight).height).2._Area = some area0 →
        w.unit_array builder_recno = some builder →
        CreateAreaSchematic area0 w builder.mobile_type
          (geometry buildxLoc buildyLoc buildWidth buildHeight).xLoc
          (geometry buildxLoc buildyLoc buildWidth buildHeight).yLoc
          (geometry buildxLoc buildyLoc buildWidth buildHeight).width
          (geometry buildxLoc buildyLoc buildWidth buildHeight).height
          nation_recno builder_recno buildxLoc buildyLoc buildWidth buildHeight
          = some (occupationCount0, area) →
        occupationCount0 ≠ 0 →
        VacateIdleOfNation self w fresh rnd fuel buildxLoc buildyLoc buildWidth buildHeight
            nation_recno builder_recno
          = .ok
            { self := { (AllocateArea self fresh
                  (geometry buildxLoc buildyLoc buildWidth buildHeight).width
                  (geometry buildxLoc buildyLoc buildWidth buildHeight).height).2 with
                _Area := some area' }
              rnd := (MoveAccordingToSchematic area' w rnd'
                (geometry buildxLoc buildyLoc buildWidth buildHeight).width
                (geometry buildxLoc buildyLoc buildWidth buildHeight).height
                (geometry buildxLoc buildyLoc buildWidth buildHeight).xLoc
                (geometry buildxLoc buildyLoc buildWidth buildHeight).yLoc
                buildxLoc buildyLoc buildWidth buildHeight
                (geometry buildxLoc buildyLoc buildWidth buildHeight).R0x
                (geometry buildxLoc buildyLoc buildWidth buildHeight).R0y
                (geometry buildxLoc buildyLoc buildWidth buildHeight).R0Width
                (geometry buildxLoc buildyLoc buildWidth buildHeight).R0Height
                (geometry buildxLoc buildyLoc buildWidth buildHeight).outlineRing).2
              commands := (MoveAccordingToSchematic area' w rnd'
                (geometry buildxLoc buildyLoc buildWidth buildHeight).width
                (geometry buildxLoc buildyLoc buildWidth buildHeight).height
                (geometry buildxLoc buildyLoc buildWidth buildHeight).xLoc
                (geometry buildxLoc buildyLoc buildWidth buildHeight).yLoc
                buildxLoc buildyLoc buildWidth buildHeight
                (geometry buildxLoc buildyLoc buildWidth buildHeight).R0x
                (geometry buildxLoc buildyLoc buildWidth buildHeight).R0y
                (geometry buildxLoc buildyLoc buildWidth buildHeight).R0Width
                (geometry buildxLoc buildyLoc buildWidth buildHeight).R0Height
                (geometry buildxLoc buildyLoc buildWidth buildHeight).outlineRing).1
              exit := .completed 0 }) := by
  have v := geometry_valid buildxLoc buildyLoc buildWidth buildHeight hw hh
  obtain ⟨ho, ho1⟩ := geometry_outlineRing buildxLoc buildyLoc buildWidth buildHeight hw hh
  have hwd : (geometry buildxLoc buildyLoc buildWidth buildHeight).width = buildWidth + 4 := by
    simp only [geometry, SCAN_AREA_INCREASE]; ring
  have hht : (geometry buildxLoc buildyLoc buildWidth buildHeight).height = buildHeight + 4 := by
    simp only [geometry, SCAN_AREA_INCREASE]; ring
  obtain ⟨area', rnd', k, hpush, hk0, hk1, hkval, hother, hfoot⟩ :=
    lone_occupant_core v _ ho1 ho area rnd h x0 y0 hh0 hh1 (by omega) (by omega) hcell hrest
      fuel hfuel
  refine ⟨area', rnd', k, hpush, hk0, hk1, hkval, hother, ?_, ?_⟩
  · intro x hx0 hx1 y hy0 hy1
    exact hfoot x hx0 (by omega) y hy0 (by omega)
  · intro self w fresh area0 builder nation_recno builder_recno occupationCount0
      hargs halloc harea hbuilder hschem hocc0
    unfold VacateIdleOfNation
    simp only [hargs, halloc, harea, hbuilder, hschem, hocc0, hpush,
      Bool.false_eq_true, Bool.true_eq_false, if_false, ne_eq, not_true_eq_false]
/-- Witness for C9: the schematic of `loneUnitWorld`, with unit 2 alone in the
1 x 1 footprint, and the call that builds it. -/
theorem lone_occupant_is_pushed_to_outline_witness :
    ∃ area' rnd' k,
      PushRings 1 loneUnitSchematic (fun _ => 0)
        (geometry 10 10 1 1).width (geometry 10 10 1 1).height (geometry 10 10 1 1).R0x
        (geometry 10 10 1 1).R0y (geometry 10 10 1 1).R0Width (geometry 10 10 1 1).R0Height
        (geometry 10 10 1 1).outlineRing = some (0, area', rnd') ∧
      area' ((RingIndexToXY (geometry 10 10 1 1).R0x (geometry 10 10 1 1).R0y
            (geometry 10 10 1 1).R0Width (geometry 10 10 1 1).R0Height
            (geometry 10 10 1 1).outlineRing k).2 * (geometry 10 10 1 1).width +
          (RingIndexToXY (geometry 10 10 1 1).R0x (geometry 10 10 1 1).R0y
            (geometry 10 10 1 1).R0Width (geometry 10 10 1 1).R0Height
            (geometry 10 10 1 1).outlineRing k).1) = 2 ∧
      area' (2 * (geometry 10 10 1 1).width + 2) = 0 ∧
      VacateIdleOfNation roomyArea loneUnitWorld none (fun _ => 0) 1 10 10 1 1 1 1
        = .ok
          { self := { (AllocateArea roomyArea none (geometry 10 10 1 1).width
                (geometry 10 10 1 1).height).2 with _Area := some area' }
            rnd := (MoveAccordingToSchematic area' loneUnitWorld rnd'
              (geometry 10 10 1 1).width (geometry 10 10 1 1).height (geometry 10 10 1 1).xLoc
              (geometry 10 10 1 1).yLoc 10 10 1 1 (geometry 10 10 1 1).R0x
              (geometry 10 10 1 1).R0y (geometry 10 10 1 1).R0Width
              (geometry 10 10 1 1).R0Height (geometry 10 10 1 1).outlineRing).2
            commands := (MoveAccordingToSchematic area' loneUnitWorld rnd'
              (geometry 10 10 1 1).width (geometry 10 10 1 1).height (geometry 10 10 1 1).xLoc
              (geometry 10 10 1 1).yLoc 10 10 1 1 (geometry 10 10 1 1).R0x
              (geometry 10 10 1 1).R0y (geometry 10 10 1 1).R0Width
              (geometry 10 10 1 1).R0Height (geometry 10 10 1 1).outlineRing).1
            exit := .completed 0 } := by
  obtain ⟨area', rnd', k, h1, _, _, h4, _, h6, h7⟩ :=
    lone_occupant_is_pushed_to_outline 10 10 1 1 (by decide) (by decide) loneUnitSchematic
      (fun _ => 0) 2 2 2 (by decide) (by decide) (by decide) (by decide) (by decide)
      (by
        have e : (geometry 10 10 1 1).width = 5 := by decide
        have e2 : (geometry 10 10 1 1).height = 5 := by decide
        rw [e, e2]
        intro x hx0 hx1 y hy0 hy1 hne
        interval_cases x <;> interval_cases y <;> first
          | exact absurd rfl hne
          | decide)
      1 (le_refl _)
  exact ⟨area', rnd', k, h1, h4, h6 2 (by decide) (by decide) 2 (by decide) (by decide),
    h7 roomyArea loneUnitWorld none (fun _ => 0) (idleUnit 1 1 50 50) 1 1 1
      (by decide) (by decide) rfl rfl rfl (by decide)⟩

/-! ### C1: the units still inside the footprint -/

/-- The result of `FindNextNonblockedInRing` is -1 or a valid index of the ring. -/
theorem FindNextNonblockedInRing_range (area : Area)
    (width height R0x R0y R0Width R0Height R prevSearchIndex : Int)
    (hlen : 0 < RingLength R0Width R0Height R) (hprev : 0 ≤ prevSearchIndex) :
    FindNextNonblockedInRing area width height R0x R0y R0Width R0Height R prevSearchIndex = -1 ∨
    (0 ≤ FindNextNonblockedInRing area width height R0x R0y R0Width R0Height R prevSearchIndex ∧
      FindNextNonblockedInRing area width height R0x R0y R0Width R0Height R prevSearchIndex
        < RingLength R0Width R0Height R) := by
  unfold FindNextNonblockedInRing
  simp only
  have key : ∀ (n : Nat) (i : Int), 0 ≤ i →
      FindNextNonblockedLoop area width R0x R0y R0Width R0Height R prevSearchIndex
          (RingLength R0Width R0Height R) n i = -1 ∨
      (0 ≤ FindNextNonblockedLoop area width R0x R0y R0Width R0Height R prevSearchIndex
          (RingLength R0Width R0Height R) n i ∧
        FindNextNonblockedLoop area width R0x R0y R0Width R0Height R prevSearchIndex
          (RingLength R0Width R0Height R) n i < RingLength R0Width R0Height R) := by
    intro n
    induction n with
    | zero => intro i _; left; rfl
    | succ n ih =>
      intro i hi
      unfold FindNextNonblockedLoop
      simp only
      split_ifs
      · right
        exact cmod_range _ _ (by omega) hlen
      · exact ih (i + 1) (by omega)
  exact key _ 0 (le_refl _)

/-- The body of the loops of `MoveAccordingToSchematic` keeps the cursor -1 or a
valid index of the outline ring, and keeps every command issued so far. -/
theorem MoveAccordingToSchematicCell_keeps (area : Area) (w : World)
    (width height xLoc yLoc buildX buildY buildWith buildHeight
      R0x R0y R0Width R0Height outlineRing : Int)
    (hlen : 0 < RingLength R0Width R0Height outlineRing) (j i : Int) (s : MoveState)
    (hs : s.desperationMoveIndex = -1 ∨
      (0 ≤ s.desperationMoveIndex ∧
        s.desperationMoveIndex < RingLength R0Width R0Height outlineRing)) :
    ((MoveAccordingToSchematicCell area w width height xLoc yLoc buildX buildY buildWith
        buildHeight R0x R0y R0Width R0Height outlineRing
        (RingLength R0Width R0Height outlineRing) j i s).desperationMoveIndex = -1 ∨
      (0 ≤ (MoveAccordingToSchematicCell area w width height xLoc yLoc buildX buildY buildWith
          buildHeight R0x R0y R0Width R0Height outlineRing
          (RingLength R0Width R0Height outlineRing) j i s).desperationMoveIndex ∧
        (MoveAccordingToSchematicCell area w width height xLoc yLoc buildX buildY buildWith
          buildHeight R0x R0y R0Width R0Height outlineRing
          (RingLength R0Width R0Height outlineRing) j i s).desperationMoveIndex
          < RingLength R0Width R0Height outlineRing)) ∧
    ∀ c ∈ s.commands, c ∈ (MoveAccordingToSchematicCell area w width height xLoc yLoc buildX
      buildY buildWith buildHeight R0x R0y R0Width R0Height outlineRing
      (RingLength R0Width R0Height outlineRing) j i s).commands := by
  unfold MoveAccordingToSchematicCell
  simp only
  by_cases hmov : area (j * width + i) ≠ 0 ∧ area (j * width + i) ≠ AREA_BLOCKED
  · rw [if_pos hmov]
    cases w.unit_array (flagToInt (area (j * width + i))) with
    | none => exact ⟨hs, fun c hc => hc⟩
    | some unit =>
      simp only
      by_cases hin : xLoc + i ≥ buildX ∧ xLoc + i < buildX + buildWith ∧ yLoc + j ≥ buildY ∧
          yLoc + j < buildY + buildHeight
      · rw [if_pos hin]
        simp only
        constructor
        · split_ifs with hd
          · exact FindNextNonblockedInRing_range area width height R0x R0y R0Width R0Height
              outlineRing _ hlen (by omega)
          · exact hs
        · intro c hc
          split_ifs <;> first
            | exact List.mem_append_left _ hc
            | exact hc
      · rw [if_neg hin]
        simp only
        refine ⟨hs, ?_⟩
        intro c hc
        split_ifs
        · exact List.mem_append_left _ hc
        · exact hc
  · rw [if_neg hmov]
    exact ⟨hs, fun c hc => hc⟩

/-- An index at or past the end of a ring that is a proper rectangle border (every
ring but a strip-shaped ring 0) falls through to the default: the top-left corner
of the ring. -/
theorem RingIndexToXY_past_end (R0x R0y R0Width R0Height R Index : Int)
    (hW : 1 ≤ R0Width) (hH : 1 ≤ R0Height) (hR : 0 ≤ R)
    (hproper : R > 0 ∨ (R0Width > 1 ∧ R0Height > 1))
    (hI : RingLength R0Width R0Height R ≤ Index) :
    RingIndexToXY R0x R0y R0Width R0Height R Index = (R0x - R, R0y - R) := by
  unfold RingLength at hI
  rw [if_pos hproper] at hI
  unfold RingIndexToXY
  simp only
  split_ifs <;> first | rfl | omega

/-- A negative index takes the first branch of `RingIndexToXY`: the result lies
`-Index` cells to the left of the top-left corner of the ring. -/
theorem RingIndexToXY_negative (R0x R0y R0Width R0Height R Index : Int)
    (hW : 1 ≤ R0Width) (hR : 0 ≤ R) (hI : Index < 0) :
    RingIndexToXY R0x R0y R0Width R0Height R Index = (R0x - R + Index, R0y - R) := by
  unfold RingIndexToXY
  rw [if_pos (by omega)]

/-- C20 as stated fails: for the ring 1 around a 1 x 1 centre at `(2, 2)` (the
border of `[1, 3] x [1, 3]`, of length 8) the index -1 gives `(0, 1)`, which is not
the top-left corner `(1, 1)` and lies outside the ring; and for the strip-shaped
ring 0 of size 1 x 5 the index 5, which is the ring length, gives `(2, 5)`, not
the top-left corner `(2, 2)`. -/
theorem negative_index_leaves_ring :
    RingLength 1 1 1 = 8 ∧
    RingIndexToXY 2 2 1 1 1 (-1) = (0, 1) ∧
    RingIndexToXY 2 2 1 1 1 (-1) ≠ (2 - 1, 2 - 1) ∧
    (RingIndexToXY 2 2 1 1 1 (-1)).1 < 2 - 1 ∧
    (∀ Index, 0 ≤ Index → Index < RingLength 1 1 1 →
      RingIndexToXY 2 2 1 1 1 Index ≠ RingIndexToXY 2 2 1 1 1 (-1)) ∧
    RingLength 1 5 0 = 5 ∧
    RingIndexToXY 2 2 1 5 0 5 = (2, 5) ∧
    RingIndexToXY 2 2 1 5 0 5 ≠ (2 - 0, 2 - 0) := by
  refine ⟨by decide, by decide, by decide, by decide, ?_, by decide, by decide, by decide⟩
  intro Index h0 h1 he
  have hb := ring_in_rect 2 2 1 1 1 Index (by omega) (by omega) (by omega) h0
  have hv : RingIndexToXY 2 2 1 1 1 (-1) = (0, 1) := by decide
  rw [he, hv] at hb
  omega

/-- C20, as the code behaves: for a ring R >= 0 around a centre of at least 1 x 1 and
an Index at or past the end of the ring, RingIndexToXY (without its assertion)
returns a cell of ring R, and this cell is the top-left corner (R0x - R, R0y - R)
when the ring is a proper rectangle border (R > 0, or R0Width > 1 and
R0Height > 1).  A negative Index is not caught: it takes the first branch and gives
(R0x - R + Index, R0y - R), which is left of the top-left corner and is no cell of
ring R. -/
theorem index_past_end_stays_in_ring (R0x R0y R0Width R0Height R Index : Int)
    (hW : 1 ≤ R0Width) (hH : 1 ≤ R0Height) (hR : 0 ≤ R) :
    (RingLength R0Width R0Height R ≤ Index →
      (∃ k, 0 ≤ k ∧ k < RingLength R0Width R0Height R ∧
        RingIndexToXY R0x R0y R0Width R0Height R Index
          = RingIndexToXY R0x R0y R0Width R0Height R k) ∧
      ((R > 0 ∨ (R0Width > 1 ∧ R0Height > 1)) →
        RingIndexToXY R0x R0y R0Width R0Height R Index = (R0x - R, R0y - R))) ∧
    (Index < 0 →
      RingIndexToXY R0x R0y R0Width R0Height R Index = (R0x - R + Index, R0y - R) ∧
      (RingIndexToXY R0x R0y R0Width R0Height R Index).1 < R0x - R ∧
      ∀ k, 0 ≤ k → k < RingLength R0Width R0Height R →
        RingIndexToXY R0x R0y R0Width R0Height R k
          ≠ RingIndexToXY R0x R0y R0Width R0Height R Index) := by
  have hlen := (RingLength_pos R0Width R0Height R hW hH hR).1
  constructor
  · intro hI
    have hrect := ring_in_rect R0x R0y R0Width R0Height R Index hW hH hR (by omega)
    have hborder : (RingIndexToXY R0x R0y R0Width R0Height R Index).1 = R0x - R ∨
        (RingIndexToXY R0x R0y R0Width R0Height R Index).1 = R0x + R0Width - 1 + R ∨
        (RingIndexToXY R0x R0y R0Width R0Height R Index).2 = R0y - R ∨
        (RingIndexToXY R0x R0y R0Width R0Height R Index).2 = R0y + R0Height - 1 + R := by
      by_cases hproper : R > 0 ∨ (R0Width > 1 ∧ R0Height > 1)
      · rw [RingIndexToXY_past_end R0x R0y R0Width R0Height R Index hW hH hR hproper hI]
        exact Or.inl rfl
      · omega
    constructor
    · have hp := ringPos_spec R0x R0y R0Width R0Height R
        (RingIndexToXY R0x R0y R0Width R0Height R Index).1
        (RingIndexToXY R0x R0y R0Width R0Height R Index).2 hW hH hR hrect.1 hrect.2.1
        hrect.2.2.1 hrect.2.2.2 hborder
      exact ⟨_, hp.1, hp.2.1, hp.2.2.symm⟩
    · intro hproper
      exact RingIndexToXY_past_end R0x R0y R0Width R0Height R Index hW hH hR hproper hI
  · intro hI
    have hneg := RingIndexToXY_negative R0x R0y R0Width R0Height R Index hW hR hI
    refine ⟨hneg, by rw [hneg]; dsimp only; omega, ?_⟩
    intro k hk0 hk1 he
    have hrect := ring_in_rect R0x R0y R0Width R0Height R k hW hH hR hk0
    rw [he, hneg] at hrect
    dsimp only at hrect
    omega

/-- Witness for C20 as amended: ring 1 around the 1 x 1 centre `(2, 2)`, of length
8, with the index 8 and with the index -1. -/
theorem index_past_end_stays_in_ring_witness :
    ((1 : Int) ≤ 1 ∧ (0 : Int) ≤ 1) ∧
    RingIndexToXY 2 2 1 1 1 8 = (1, 1) ∧
    (RingLength 1 1 1 ≤ 8 →
      (∃ k, 0 ≤ k ∧ k < RingLength 1 1 1 ∧
        RingIndexToXY 2 2 1 1 1 8 = RingIndexToXY 2 2 1 1 1 k) ∧
      (((1 : Int) > 0 ∨ ((1 : Int) > 1 ∧ (1 : Int) > 1)) →
        RingIndexToXY 2 2 1 1 1 8 = (2 - 1, 2 - 1))) :=
  ⟨by decide, by decide,
    (index_past_end_stays_in_ring 2 2 1 1 1 8 (by decide) (by decide) (by decide)).1⟩

/-- The fields of `geometry` in terms of the footprint. -/
theorem geometry_fields (bx by_ bw bh : Int) (hw : 1 ≤ bw) (hh : 1 ≤ bh) :
    (geometry bx by_ bw bh).xLoc = bx - 2 ∧ (geometry bx by_ bw bh).yLoc = by_ - 2 ∧
    (geometry bx by_ bw bh).width = bw + 4 ∧ (geometry bx by_ bw bh).height = bh + 4 ∧
    (geometry bx by_ bw bh).R0x - ((geometry bx by_ bw bh).outlineRing - 1) = 2 ∧
    (geometry bx by_ bw bh).R0y - ((geometry bx by_ bw bh).outlineRing - 1) = 2 ∧
    (geometry bx by_ bw bh).R0Width + 2 * ((geometry bx by_ bw bh).outlineRing - 1) = bw ∧
    (geometry bx by_ bw bh).R0Height + 2 * ((geometry bx by_ bw bh).outlineRing - 1) = bh := by
  have v := geometry_valid bx by_ bw bh hw hh
  have ho := (geometry_outlineRing bx by_ bw bh hw hh).1
  have hx := v.hx
  have hy := v.hy
  have hwd := v.hwidth
  have hht := v.hheight
  have e1 : (geometry bx by_ bw bh).xLoc = bx - 2 := rfl
  have e2 : (geometry bx by_ bw bh).yLoc = by_ - 2 := rfl
  have e3 : (geometry bx by_ bw bh).width = bw + 2 * 2 := rfl
  have e4 : (geometry bx by_ bw bh).height = bh + 2 * 2 := rfl
  refine ⟨e1, e2, by omega, by omega, by omega, by omega, by omega, by omega⟩

/-- C19: with the ring parameters derived from a footprint of at least 1 x 1, a
valid position of ring R is a cell of the footprint rectangle (buffer coordinates
`[2, 2 + buildWidth) x [2, 2 + buildHeight)`) exactly when `R < outlineRing`; the
cells of ring `outlineRing` are exactly the cells of the rectangle one larger on
every side that are not in the footprint; and the rectangle that `FillOutline` and
`PushQueues` compute from the ring parameters is the footprint, so that these two
run their loops on it. -/
theorem outline_ring_borders_footprint (buildxLoc buildyLoc buildWidth buildHeight : Int)
    (g : Geometry) (hg : g = geometry buildxLoc buildyLoc buildWidth buildHeight)
    (hw : 1 ≤ buildWidth) (hh : 1 ≤ buildHeight) :
    (∀ R Index, 0 ≤ R → 0 ≤ Index → Index < RingLength g.R0Width g.R0Height R →
      ((2 ≤ (RingIndexToXY g.R0x g.R0y g.R0Width g.R0Height R Index).1 ∧
        (RingIndexToXY g.R0x g.R0y g.R0Width g.R0Height R Index).1 < 2 + buildWidth ∧
        2 ≤ (RingIndexToXY g.R0x g.R0y g.R0Width g.R0Height R Index).2 ∧
        (RingIndexToXY g.R0x g.R0y g.R0Width g.R0Height R Index).2 < 2 + buildHeight) ↔
       R < g.outlineRing)) ∧
    (∀ x y : Int,
      (∃ Index, 0 ≤ Index ∧ Index < RingLength g.R0Width g.R0Height g.outlineRing ∧
        RingIndexToXY g.R0x g.R0y g.R0Width g.R0Height g.outlineRing Index = (x, y)) ↔
      (2 - 1 ≤ x ∧ x ≤ 2 + buildWidth ∧ 2 - 1 ≤ y ∧ y ≤ 2 + buildHeight ∧
        ¬ (2 ≤ x ∧ x < 2 + buildWidth ∧ 2 ≤ y ∧ y < 2 + buildHeight))) ∧
    (g.xLoc + 2 = buildxLoc ∧ g.yLoc + 2 = buildyLoc ∧
      g.R0x - (g.outlineRing - 1) = 2 ∧ g.R0y - (g.outlineRing - 1) = 2 ∧
      g.R0Width + 2 * (g.outlineRing - 1) = buildWidth ∧
      g.R0Height + 2 * (g.outlineRing - 1) = buildHeight) ∧
    (∀ (area : Area) (rnd : RandSource) (occupationCount : Int),
      FillOutline area rnd occupationCount g.width g.height g.R0x g.R0y g.R0Width g.R0Height
          g.outlineRing =
        ((forLoopWhile (fun s => decide (s.occupationCount > 0))
          (FillOutlineCell g.width g.height g.R0x g.R0y g.R0Width g.R0Height g.outlineRing
            2 2 buildWidth buildHeight (RingLength g.R0Width g.R0Height g.outlineRing)
            (rnd.random (RingLength g.R0Width g.R0Height g.outlineRing)))
          (RingLength g.R0Width g.R0Height g.outlineRing).toNat 0
          { area := area, rnd := rnd.next, occupationCount := occupationCount }).occupationCount,
         (forLoopWhile (fun s => decide (s.occupationCount > 0))
          (FillOutlineCell g.width g.height g.R0x g.R0y g.R0Width g.R0Height g.outlineRing
            2 2 buildWidth buildHeight (RingLength g.R0Width g.R0Height g.outlineRing)
            (rnd.random (RingLength g.R0Width g.R0Height g.outlineRing)))
          (RingLength g.R0Width g.R0Height g.outlineRing).toNat 0
          { area := area, rnd := rnd.next, occupationCount := occupationCount }).area,
         (forLoopWhile (fun s => decide (s.occupationCount > 0))
          (FillOutlineCell g.width g.height g.R0x g.R0y g.R0Width g.R0Height g.outlineRing
            2 2 buildWidth buildHeight (RingLength g.R0Width g.R0Height g.outlineRing)
            (rnd.random (RingLength g.R0Width g.R0Height g.outlineRing)))
          (RingLength g.R0Width g.R0Height g.outlineRing).toNat 0
          { area := area, rnd := rnd.next, occupationCount := occupationCount }).rnd)) ∧
    (∀ (area : Area) (rnd : RandSource) (occupationCount : Int),
      PushQueues area rnd occupationCount g.width g.height g.R0x g.R0y g.R0Width g.R0Height
          g.outlineRing =
        (PushQueuesLoop g.width g.height g.R0x g.R0y g.R0Width g.R0Height g.outlineRing
          2 2 buildWidth buildHeight (RingLength g.R0Width g.R0Height g.outlineRing)
          (rnd.random (RingLength g.R0Width g.R0Height g.outlineRing))
          ((RingLength g.R0Width g.R0Height g.outlineRing).toNat + occupationCount.toNat) 0
          { area := area, rnd := rnd.next, occupationCount := occupationCount }).map
          (fun s => (s.occupationCount, s.area, s.rnd))) := by
  subst hg
  have v := geometry_valid buildxLoc buildyLoc buildWidth buildHeight hw hh
  obtain ⟨ho, ho1⟩ := geometry_outlineRing buildxLoc buildyLoc buildWidth buildHeight hw hh
  obtain ⟨f1, f2, f3, f4, f5, f6, f7, f8⟩ :=
    geometry_fields buildxLoc buildyLoc buildWidth buildHeight hw hh
  generalize geometry buildxLoc buildyLoc buildWidth buildHeight = g at *
  have hW := v.hW
  have hH := v.hH
  have part1 : ∀ R Index, 0 ≤ R → 0 ≤ Index → Index < RingLength g.R0Width g.R0Height R →
      ((2 ≤ (RingIndexToXY g.R0x g.R0y g.R0Width g.R0Height R Index).1 ∧
        (RingIndexToXY g.R0x g.R0y g.R0Width g.R0Height R Index).1 < 2 + buildWidth ∧
        2 ≤ (RingIndexToXY g.R0x g.R0y g.R0Width g.R0Height R Index).2 ∧
        (RingIndexToXY g.R0x g.R0y g.R0Width g.R0Height R Index).2 < 2 + buildHeight) ↔
       R < g.outlineRing) := by
    intro R Index hR hI0 hI1
    have hrect := ring_in_rect g.R0x g.R0y g.R0Width g.R0Height R Index hW hH hR hI0
    have hbord := ring_on_border g.R0x g.R0y g.R0Width g.R0Height R Index hW hH hR hI0 hI1
    generalize RingIndexToXY g.R0x g.R0y g.R0Width g.R0Height R Index = p at *
    constructor
    · intro hin
      by_contra hge
      rcases hbord with h | h | h | h <;> omega
    · intro hlt
      omega
  refine ⟨part1, ?_, ⟨by omega, by omega, f5, f6, f7, f8⟩, ?_, ?_⟩
  · intro x y
    constructor
    · rintro ⟨Index, hI0, hI1, he⟩
      have hrect := ring_in_rect g.R0x g.R0y g.R0Width g.R0Height g.outlineRing Index hW hH
        (by omega) hI0
      have hp := (part1 g.outlineRing Index (by omega) hI0 hI1)
      rw [he] at hrect hp
      simp only at hrect hp
      refine ⟨by omega, by omega, by omega, by omega, ?_⟩
      intro hin
      have := hp.1 hin
      omega
    · rintro ⟨hx0, hx1, hy0, hy1, hout⟩
      have hsp := ringPos_spec g.R0x g.R0y g.R0Width g.R0Height g.outlineRing x y hW hH
        (by omega) (by omega) (by omega) (by omega) (by omega) (by omega)
      exact ⟨_, hsp.1, hsp.2.1, hsp.2.2⟩
  · intro area rnd occupationCount
    unfold FillOutline
    simp only [f5, f6, f7, f8]
  · intro area rnd occupationCount
    unfold PushQueues
    simp only [f5, f6, f7, f8]

/-- Witness for C19: the 2 x 3 footprint at `(10, 10)`. -/
theorem outline_ring_borders_footprint_witness :
    (1 : Int) ≤ 2 ∧ (1 : Int) ≤ 3 ∧
    (∀ R Index, 0 ≤ R → 0 ≤ Index →
      Index < RingLength (geometry 10 10 2 3).R0Width (geometry 10 10 2 3).R0Height R →
      ((2 ≤ (RingIndexToXY (geometry 10 10 2 3).R0x (geometry 10 10 2 3).R0y
            (geometry 10 10 2 3).R0Width (geometry 10 10 2 3).R0Height R Index).1 ∧
        (RingIndexToXY (geometry 10 10 2 3).R0x (geometry 10 10 2 3).R0y
            (geometry 10 10 2 3).R0Width (geometry 10 10 2 3).R0Height R Index).1 < 2 + 2 ∧
        2 ≤ (RingIndexToXY (geometry 10 10 2 3).R0x (geometry 10 10 2 3).R0y
            (geometry 10 10 2 3).R0Width (geometry 10 10 2 3).R0Height R Index).2 ∧
        (RingIndexToXY (geometry 10 10 2 3).R0x (geometry 10 10 2 3).R0y
            (geometry 10 10 2 3).R0Width (geometry 10 10 2 3).R0Height R Index).2 < 2 + 3) ↔
       R < (geometry 10 10 2 3).outlineRing)) :=
  ⟨by decide, by decide,
    (outline_ring_borders_footprint 10 10 2 3 (geometry 10 10 2 3) rfl (by decide)
      (by decide)).1⟩

/-! ### C12: the blocked cells are left alone -/

theorem AREA_BLOCKED_ne_zero : AREA_BLOCKED ≠ 0 := by decide

theorem SameBlocked_refl (area : Area) : SameBlocked area area := fun _ => Iff.rfl

theorem SameBlocked_trans {a b c : Area} (h1 : SameBlocked a b) (h2 : SameBlocked b c) :
    SameBlocked a c := fun k => (h2 k).trans (h1 k)

/-- Writing a value that is not AREA_BLOCKED to a cell that holds 0 and clearing a
cell that was not blocked keeps the blocked cells. -/
theorem SameBlocked_move (area : Area) (p q : Int) (v : Nat) (hq : area q = 0)
    (hp : area p ≠ AREA_BLOCKED) (hv : v ≠ AREA_BLOCKED) :
    SameBlocked area ((area.write q v).write p 0) := by
  intro k
  unfold Area.write
  by_cases hkp : k = p
  · subst hkp
    simp only [if_true]
    constructor
    · intro h; exact absurd h.symm AREA_BLOCKED_ne_zero
    · intro h; exact absurd h hp
  · rw [if_neg hkp]
    by_cases hkq : k = q
    · subst hkq
      simp only [if_true]
      constructor
      · intro h; exact absurd h hv
      · intro h; rw [hq] at h; exact absurd h.symm AREA_BLOCKED_ne_zero
    · rw [if_neg hkq]

/-- An index that the scan loop of `SearchFreeSpotAtIndex` returns, other than -1,
names a cell that holds 0; this needs nothing of the parameters. -/
theorem SearchFreeSpotLoop_zero (area : Area)
    (width R0x R0y R0Width R0Height R Index ringLength : Int) :
    ∀ (n : Nat) (i direction : Int),
      SearchFreeSpotLoop area width R0x R0y R0Width R0Height R Index ringLength n i direction
        ≠ -1 →
      area ((RingIndexToXY R0x R0y R0Width R0Height R
          (SearchFreeSpotLoop area width R0x R0y R0Width R0Height R Index ringLength n i
            direction)).2 * width +
        (RingIndexToXY R0x R0y R0Width R0Height R
          (SearchFreeSpotLoop area width R0x R0y R0Width R0Height R Index ringLength n i
            direction)).1) = 0 := by
  intro n
  induction n with
  | zero => intro i d h; exact absurd rfl h
  | succ n ih =>
    intro i d h
    unfold SearchFreeSpotLoop at h ⊢
    simp only at h ⊢
    split_ifs at h ⊢ with hz
    · exact hz
    · exact ih _ _ h

theorem SearchFreeSpotAtIndex_zero (area : Area)
    (maxSearchDistance width height R0x R0y R0Width R0Height R Index : Int)
    (h : SearchFreeSpotAtIndex area maxSearchDistance width height R0x R0y R0Width R0Height R
      Index ≠ -1) :
    area ((RingIndexToXY R0x R0y R0Width R0Height R
        (SearchFreeSpotAtIndex area maxSearchDistance width height R0x R0y R0Width R0Height R
          Index)).2 * width +
      (RingIndexToXY R0x R0y R0Width R0Height R
        (SearchFreeSpotAtIndex area maxSearchDistance width height R0x R0y R0Width R0Height R
          Index)).1) = 0 :=
  SearchFreeSpotLoop_zero area width R0x R0y R0Width R0Height R Index _ _ _ _ h

/-- An index that `FindPushedSpot` returns, other than -1, names a cell of ring
R+1 that holds 0; this needs nothing of the parameters. -/
theorem FindPushedSpot_zero (area : Area) (rnd : RandSource)
    (maxSearchDistance width height R0x R0y R0Width R0Height R Index : Int)
    (h : (FindPushedSpot area rnd maxSearchDistance width height R0x R0y R0Width R0Height R
      Index).1 ≠ -1) :
    area ((RingIndexToXY R0x R0y R0Width R0Height (R + 1)
        (FindPushedSpot area rnd maxSearchDistance width height R0x R0y R0Width R0Height R
          Index).1).2 * width +
      (RingIndexToXY R0x R0y R0Width R0Height (R + 1)
        (FindPushedSpot area rnd maxSearchDistance width height R0x R0y R0Width R0Height R
          Index).1).1) = 0 := by
  unfold FindPushedSpot at h ⊢
  simp only at h ⊢
  by_cases h1 : R = 0 ∧ (R0Width = 1 ∨ R0Height = 1)
  · rw [if_pos h1] at h ⊢
    by_cases h2 : R0Width = 1 ∧ R0Height = 1
    · rw [if_pos h2] at h ⊢
      exact SearchFreeSpotAtIndex_zero area _ width height R0x R0y R0Width R0Height (R + 1) _ h
    · rw [if_neg h2] at h ⊢
      by_cases h3 : Index = 0 ∨ Index = RingLength R0Width R0Height R - 1
      · rw [if_pos h3] at h ⊢
        exact SearchFreeSpotAtIndex_zero area _ width height R0x R0y R0Width R0Height (R + 1) _ h
      · rw [if_neg h3] at h ⊢
        by_cases h4 : SearchFreeSpotAtIndex area maxSearchDistance width height R0x R0y R0Width
            R0Height (R + 1)
            (if R0Width > 1 then
              (if rnd.random 2 = 0 then 1 + Index else 1 + R0Width + 3 + (R0Width - 1 - Index))
            else (if rnd.random 2 = 0 then RingLength R0Width R0Height (R + 1) - 1 - Index
              else 3 + Index)) ≥ 0
        · rw [if_pos h4] at h ⊢
          exact SearchFreeSpotAtIndex_zero area _ width height R0x R0y R0Width R0Height (R + 1) _ h
        · rw [if_neg h4] at h ⊢
          exact SearchFreeSpotAtIndex_zero area _ width height R0x R0y R0Width R0Height (R + 1) _ h
  · rw [if_neg h1] at h ⊢
    exact SearchFreeSpotAtIndex_zero area _ width height R0x R0y R0Width R0Height (R + 1) _ h

/-- The body of the cell loop of `PushRings` keeps the blocked cells. -/
theorem PushRingsCell_blocked
    (MAX_MOVE width height R0x R0y R0Width R0Height R ringLength startIndex i : Int)
    (s : PushState) :
    SameBlocked s.area
      (PushRingsCell MAX_MOVE width height R0x R0y R0Width R0Height R ringLength startIndex i
        s).area := by
  unfold PushRingsCell
  simp only
  by_cases hmov : s.area ((RingIndexToXY R0x R0y R0Width R0Height R
        (cmod (startIndex + i) ringLength)).2 * width +
      (RingIndexToXY R0x R0y R0Width R0Height R (cmod (startIndex + i) ringLength)).1)
        ≠ AREA_BLOCKED ∧
      s.area ((RingIndexToXY R0x R0y R0Width R0Height R
        (cmod (startIndex + i) ringLength)).2 * width +
      (RingIndexToXY R0x R0y R0Width R0Height R (cmod (startIndex + i) ringLength)).1) ≠ 0
  · rw [if_pos hmov]
    by_cases hfound : (FindPushedSpot s.area s.rnd MAX_MOVE width height R0x R0y R0Width R0Height
        R (cmod (startIndex + i) ringLength)).1 ≠ -1
    · rw [if_pos hfound]
      exact SameBlocked_move s.area _ _ _
        (FindPushedSpot_zero s.area s.rnd MAX_MOVE width height R0x R0y R0Width R0Height R _
          hfound) hmov.1 hmov.1
    · rw [if_neg hfound]
      exact SameBlocked_refl _
  · rw [if_neg hmov]
    exact SameBlocked_refl _

/-- One cycle of `PushRings` keeps the blocked cells. -/
theorem PushRingsCycle_blocked (area : Area) (rnd : RandSource)
    (MAX_MOVE width height R0x R0y R0Width R0Height outlineRing emptyRing : Int) :
    SameBlocked area
      (PushRingsCycle area rnd MAX_MOVE width height R0x R0y R0Width R0Height outlineRing
        emptyRing).area := by
  unfold PushRingsCycle
  apply forLoop_inv' (fun t : PushState => SameBlocked area t.area)
  · intro R t _ _ ht
    unfold PushRingsRing
    simp only
    have key : SameBlocked area (forLoop (PushRingsCell MAX_MOVE width height R0x R0y R0Width
          R0Height R (RingLength R0Width R0Height R)
          (t.rnd.random (RingLength R0Width R0Height R)))
        (RingLength R0Width R0Height R).toNat 0
        { t with rnd := t.rnd.next, empty := true }).area := by
      apply forLoop_inv' (fun u : PushState => SameBlocked area u.area)
      · intro i u _ _ hu
        exact SameBlocked_trans hu (PushRingsCell_blocked _ _ _ _ _ _ _ _ _ _ _ u)
      · exact ht
    split_ifs
    · exact key
    · exact key
  · exact SameBlocked_refl _

/-- `PushRings`, whenever it returns, has kept the blocked cells. -/
theorem PushRingsLoop_blocked
    (MAX_MOVE width height R0x R0y R0Width R0Height outlineRing : Int) :
    ∀ (fuel : Nat) (area : Area) (rnd : RandSource) (emptyRing : Int)
      (r : Int × Area × RandSource),
      PushRingsLoop MAX_MOVE width height R0x R0y R0Width R0Height outlineRing fuel area rnd
        emptyRing = some r →
      SameBlocked area r.2.1 := by
  intro fuel
  induction fuel with
  | zero => intro area rnd emptyRing r h; simp [PushRingsLoop] at h
  | succ fuel ih =>
    intro area rnd emptyRing r h
    have hc := PushRingsCycle_blocked area rnd MAX_MOVE width height R0x R0y R0Width R0Height
      outlineRing emptyRing
    unfold PushRingsLoop at h
    simp only at h
    split_ifs at h with hcont
    · exact SameBlocked_trans hc (ih _ _ _ r h)
    · simp only [Option.some.injEq] at h
      subst h
      exact hc

/-- Moving the unit that `FindNearestUnit` reports into a cell that holds 0 keeps
the blocked cells. -/
theorem SameBlocked_fill (area : Area) (q : Int)
    (locX locY searchX searchY searchWidth searchHeight width height : Int)
    (hq : area q = 0)
    (hu : (FindNearestUnit area locX locY searchX searchY searchWidth searchHeight width
      height).1 ≠ 0) :
    SameBlocked area
      ((area.write q (FindNearestUnit area locX locY searchX searchY searchWidth searchHeight
          width height).1).write
        ((FindNearestUnit area locX locY searchX searchY searchWidth searchHeight width
            height).2.2 * width +
          (FindNearestUnit area locX locY searchX searchY searchWidth searchHeight width
            height).2.1) 0) := by
  rcases FindNearestUnit_spec area locX locY searchX searchY searchWidth searchHeight width
    height with h | ⟨_, h1, _, _, _, _, hval⟩
  · exact absurd h hu
  · exact SameBlocked_move area _ q _ hq (by rw [hval]; exact h1) h1

/-- The body of the loop of `FillOutline` keeps the blocked cells. -/
theorem FillOutlineCell_blocked (width height R0x R0y R0Width R0Height outlineRing
    buildX buildY buildWidth buildHeight outlineRingLength startIndex i : Int) (s : FillState) :
    SameBlocked s.area
      (FillOutlineCell width height R0x R0y R0Width R0Height outlineRing
        buildX buildY buildWidth buildHeight outlineRingLength startIndex i s).area := by
  unfold FillOutlineCell
  simp only
  split_ifs with hz hu
  · exact SameBlocked_fill s.area _ _ _ _ _ _ _ _ _ hz hu
  · exact SameBlocked_refl _
  · exact SameBlocked_refl _

/-- `FillOutline` keeps the blocked cells. -/
theorem FillOutline_blocked (area : Area) (rnd : RandSource)
    (occupationCount width height R0x R0y R0Width R0Height outlineRing : Int) :
    SameBlocked area
      (FillOutline area rnd occupationCount width height R0x R0y R0Width R0Height
        outlineRing).2.1 := by
  unfold FillOutline
  simp only
  apply forLoopWhile_inv (fun t : FillState => SameBlocked area t.area)
  · intro i t _ _ _ ht
    exact SameBlocked_trans ht (FillOutlineCell_blocked _ _ _ _ _ _ _ _ _ _ _ _ _ _ t)
  · exact SameBlocked_refl _

/-- The loop of `PushQueues`, whenever it returns, has kept the blocked cells. -/
theorem PushQueuesLoop_blocked (width height R0x R0y R0Width R0Height outlineRing
    buildX buildY buildWidth buildHeight outlineRingLength startIndex : Int) :
    ∀ (fuel : Nat) (i : Int) (s t : FillState),
      PushQueuesLoop width height R0x R0y R0Width R0Height outlineRing
        buildX buildY buildWidth buildHeight outlineRingLength startIndex fuel i s = some t →
      SameBlocked s.area t.area := by
  intro fuel
  induction fuel with
  | zero =>
    intro i s t h
    unfold PushQueuesLoop at h
    split_ifs at h
    simp only [Option.some.injEq] at h
    subst h
    exact SameBlocked_refl _
  | succ fuel ih =>
    intro i s t h
    unfold PushQueuesLoop at h
    by_cases hg : i < outlineRingLength ∧ s.occupationCount > 0
    · rw [if_pos hg] at h
      simp only at h
      by_cases hmov : s.area ((RingIndexToXY R0x R0y R0Width R0Height outlineRing
            (cmod (startIndex + i) outlineRingLength)).2 * width +
          (RingIndexToXY R0x R0y R0Width R0Height outlineRing
            (cmod (startIndex + i) outlineRingLength)).1) ≠ 0 ∧
          s.area ((RingIndexToXY R0x R0y R0Width R0Height outlineRing
            (cmod (startIndex + i) outlineRingLength)).2 * width +
          (RingIndexToXY R0x R0y R0Width R0Height outlineRing
            (cmod (startIndex + i) outlineRingLength)).1) ≠ AREA_BLOCKED
      · rw [if_pos hmov] at h
        by_cases hfound : (FindPushedSpot s.area s.rnd 1 width height R0x R0y R0Width R0Height
            outlineRing (cmod (startIndex + i) outlineRingLength)).1 ≠ -1
        · rw [if_pos hfound] at h
          have hpush := SameBlocked_move s.area
            ((RingIndexToXY R0x R0y R0Width R0Height outlineRing
              (cmod (startIndex + i) outlineRingLength)).2 * width +
            (RingIndexToXY R0x R0y R0Width R0Height outlineRing
              (cmod (startIndex + i) outlineRingLength)).1) _ _
            (FindPushedSpot_zero s.area s.rnd 1 width height R0x R0y R0Width R0Height
              outlineRing _ hfound) hmov.2 hmov.2
          generalize harea1 : (s.area.write _ _).write _ 0 = area1 at h hpush
          have hvac : area1 ((RingIndexToXY R0x R0y R0Width R0Height outlineRing
              (cmod (startIndex + i) outlineRingLength)).2 * width +
            (RingIndexToXY R0x R0y R0Width R0Height outlineRing
              (cmod (startIndex + i) outlineRingLength)).1) = 0 := by
            rw [← harea1]
            exact Area_write_same _ _ _
          split_ifs at h with hu
          · have hfill := SameBlocked_fill area1 _ _ _ _ _ _ _ _ _ hvac hu
            have hrest := ih _ _ t h
            exact SameBlocked_trans hpush (SameBlocked_trans hfill hrest)
          · have hrest := ih _ _ t h
            exact SameBlocked_trans hpush hrest
        · rw [if_neg hfound] at h
          have hrest := ih _ _ t h
          exact hrest
      · rw [if_neg hmov] at h
        exact ih _ _ t h
    · rw [if_neg hg] at h
      simp only [Option.some.injEq] at h
      subst h
      exact SameBlocked_refl _

/-- The loop of `PushQueues` returns for every buffer and all parameters: an
iteration either advances `i` or lowers `occupationCount`, which the guard keeps
positive, so the fuel that `PushQueues` allows is never used up. -/
theorem PushQueuesLoop_returns (width height R0x R0y R0Width R0Height outlineRing
    buildX buildY buildWidth buildHeight outlineRingLength startIndex : Int) :
    ∀ (fuel : Nat) (i : Int) (s : FillState),
      (outlineRingLength - i).toNat + s.occupationCount.toNat ≤ fuel →
      ∃ t, PushQueuesLoop width height R0x R0y R0Width R0Height outlineRing
        buildX buildY buildWidth buildHeight outlineRingLength startIndex fuel i s = some t := by
  intro fuel
  induction fuel with
  | zero =>
    intro i s hf
    unfold PushQueuesLoop
    rw [if_neg (by omega)]
    exact ⟨s, rfl⟩
  | succ fuel ih =>
    intro i s hf
    unfold PushQueuesLoop
    by_cases hg : i < outlineRingLength ∧ s.occupationCount > 0
    · rw [if_pos hg]
      simp only
      split_ifs
      · exact ih _ _ (by simp only; omega)
      · exact ih _ _ (by simp only; omega)
      · exact ih _ _ (by simp only; omega)
      · exact ih _ _ (by omega)
    · rw [if_neg hg]
      exact ⟨s, rfl⟩

/-- More fuel does not change what the loop of `PushQueues` returns. -/
theorem PushQueuesLoop_fuel (width height R0x R0y R0Width R0Height outlineRing
    buildX buildY buildWidth buildHeight outlineRingLength startIndex : Int) :
    ∀ (fuel : Nat) (i : Int) (s t : FillState),
      PushQueuesLoop width height R0x R0y R0Width R0Height outlineRing
        buildX buildY buildWidth buildHeight outlineRingLength startIndex fuel i s = some t →
      ∀ fuel', fuel ≤ fuel' →
        PushQueuesLoop width height R0x R0y R0Width R0Height outlineRing
          buildX buildY buildWidth buildHeight outlineRingLength startIndex fuel' i s = some t := by
  intro fuel
  induction fuel with
  | zero =>
    intro i s t h fuel' _
    unfold PushQueuesLoop at h ⊢
    by_cases hg : i < outlineRingLength ∧ s.occupationCount > 0
    · rw [if_pos hg] at h
      simp at h
    · rw [if_neg hg] at h ⊢
      exact h
  | succ fuel ih =>
    intro i s t h fuel' hle
    obtain ⟨f, rfl⟩ : ∃ f, fuel' = f + 1 := ⟨fuel' - 1, by omega⟩
    unfold PushQueuesLoop at h ⊢
    by_cases hg : i < outlineRingLength ∧ s.occupationCount > 0
    · rw [if_pos hg] at h ⊢
      simp only at h ⊢
      split_ifs at h ⊢
      · exact ih _ _ t h f (by omega)
      · exact ih _ _ t h f (by omega)
      · exact ih _ _ t h f (by omega)
      · exact ih _ _ t h f (by omega)
    · rw [if_neg hg] at h ⊢
      exact h

/-- `PushQueues` returns for every buffer and all parameters. -/
theorem PushQueues_returns (area : Area) (rnd : RandSource)
    (occupationCount width height R0x R0y R0Width R0Height outlineRing : Int) :
    ∃ r, PushQueues area rnd occupationCount width height R0x R0y R0Width R0Height outlineRing
      = some r := by
  obtain ⟨t, ht⟩ := PushQueuesLoop_returns width height R0x R0y R0Width R0Height outlineRing
    (R0x - (outlineRing - 1)) (R0y - (outlineRing - 1))
    (R0Width + 2 * (outlineRing - 1)) (R0Height + 2 * (outlineRing - 1))
    (RingLength R0Width R0Height outlineRing)
    (rnd.random (RingLength R0Width R0Height outlineRing))
    ((RingLength R0Width R0Height outlineRing).toNat + occupationCount.toNat) 0
    { area := area, rnd := rnd.next, occupationCount := occupationCount }
    (by simp only [sub_zero]; exact le_refl _)
  refine ⟨(t.occupationCount, t.area, t.rnd), ?_⟩
  unfold PushQueues
  simp only
  rw [ht]
  rfl

/-- `PushQueues` keeps the blocked cells. -/
theorem PushQueues_blocked (area : Area) (rnd : RandSource)
    (occupationCount width height R0x R0y R0Width R0Height outlineRing : Int)
    (r : Int × Area × RandSource)
    (h : PushQueues area rnd occupationCount width height R0x R0y R0Width R0Height outlineRing
      = some r) :
    SameBlocked area r.2.1 := by
  unfold PushQueues at h
  simp only at h
  cases hl : PushQueuesLoop width height R0x R0y R0Width R0Height outlineRing
    (R0x - (outlineRing - 1)) (R0y - (outlineRing - 1))
    (R0Width + 2 * (outlineRing - 1)) (R0Height + 2 * (outlineRing - 1))
    (RingLength R0Width R0Height outlineRing)
    (rnd.random (RingLength R0Width R0Height outlineRing))
    ((RingLength R0Width R0Height outlineRing).toNat + occupationCount.toNat) 0
    { area := area, rnd := rnd.next, occupationCount := occupationCount } with
  | none => rw [hl] at h; simp at h
  | some t =>
    rw [hl] at h
    simp only [Option.map_some', Option.some.injEq] at h
    subst h
    exact PushQueuesLoop_blocked _ _ _ _ _ _ _ _ _ _ _ _ _ _ _ _ t hl

/-- C12: for every buffer, every random source and all parameters, each of
PushRings (at any fuel at which it returns), FillOutline and PushQueues (which
always returns) leaves the set of blocked cells as it was: a cell holds
AREA_BLOCKED after the stage exactly when it held AREA_BLOCKED before, so no
blocked cell is changed and AREA_BLOCKED is written to no cell. -/
theorem stages_keep_blocked_cells (area : Area) (rnd : RandSource)
    (occupationCount width height R0x R0y R0Width R0Height outlineRing : Int) :
    (∀ (fuel : Nat) (r : Int × Area × RandSource),
      PushRings fuel area rnd width height R0x R0y R0Width R0Height outlineRing = some r →
      ∀ k : Int, r.2.1 k = AREA_BLOCKED ↔ area k = AREA_BLOCKED) ∧
    (∀ k : Int,
      (FillOutline area rnd occupationCount width height R0x R0y R0Width R0Height
        outlineRing).2.1 k = AREA_BLOCKED ↔ area k = AREA_BLOCKED) ∧
    (∃ r, PushQueues area rnd occupationCount width height R0x R0y R0Width R0Height outlineRing
        = some r ∧
      ∀ k : Int, r.2.1 k = AREA_BLOCKED ↔ area k = AREA_BLOCKED) := by
  refine ⟨?_, ?_, ?_⟩
  · intro fuel r h
    exact PushRingsLoop_blocked 3 width height R0x R0y R0Width R0Height outlineRing fuel area rnd
      (-1) r h
  · exact FillOutline_blocked area rnd occupationCount width height R0x R0y R0Width R0Height
      outlineRing
  · obtain ⟨r, hr⟩ := PushQueues_returns area rnd occupationCount width height R0x R0y R0Width
      R0Height outlineRing
    exact ⟨r, hr, PushQueues_blocked area rnd occupationCount width height R0x R0y R0Width
      R0Height outlineRing r hr⟩

/-- Witness for C12: PushRings on the packed 5 x 5 buffer, whose cell `(1, 2)` is
blocked, returns and keeps the blocked cells. -/
theorem stages_keep_blocked_cells_witness :
    packedArea (2 * 5 + 1) = AREA_BLOCKED ∧
    ∃ r, PushRings 76 packedArea (fun _ => 0) 5 5 2 2 1 1 1 = some r ∧
      ∀ k : Int, r.2.1 k = AREA_BLOCKED ↔ packedArea k = AREA_BLOCKED := by
  refine ⟨by decide, ?_⟩
  have hsome : (PushRings 76 packedArea (fun _ => 0) 5 5 2 2 1 1 1).isSome = true := by decide
  cases h : PushRings 76 packedArea (fun _ => 0) 5 5 2 2 1 1 1 with
  | none => rw [h] at hsome; exact absurd hsome (by decide)
  | some r =>
    exact ⟨r, rfl, (stages_keep_blocked_cells packedArea (fun _ => 0) 1 5 5 2 2 1 1 1).1 76 r h⟩

/-! ### C13: the loops of PushRings and PushQueues terminate -/

/-- The body of the cell loop of `PushRings` either leaves the buffer and the flag
`pushed` as they are, or moves one movable handle from a valid position of ring R
to a valid position of ring R+1 that holds 0, and sets `pushed`. -/
theorem PushRingsCell_outward {width height R0x R0y R0Width R0Height ringCount : Int}
    (v : ValidRings width height R0x R0y R0Width R0Height ringCount)
    (R startIndex i : Int) (hR0 : 0 ≤ R) (hR1 : R + 1 < ringCount)
    (hs : 0 ≤ startIndex) (hi : 0 ≤ i) (s : PushState) :
    ((PushRingsCell 3 width height R0x R0y R0Width R0Height R (RingLength R0Width R0Height R)
        startIndex i s).area = s.area ∧
      (PushRingsCell 3 width height R0x R0y R0Width R0Height R (RingLength R0Width R0Height R)
        startIndex i s).pushed = s.pushed) ∨
    ∃ I I', 0 ≤ I ∧ I < RingLength R0Width R0Height R ∧
      0 ≤ I' ∧ I' < RingLength R0Width R0Height (R + 1) ∧
      s.area ((RingIndexToXY R0x R0y R0Width R0Height R I).2 * width +
        (RingIndexToXY R0x R0y R0Width R0Height R I).1) ≠ 0 ∧
      s.area ((RingIndexToXY R0x R0y R0Width R0Height R I).2 * width +
        (RingIndexToXY R0x R0y R0Width R0Height R I).1) ≠ AREA_BLOCKED ∧
      s.area ((RingIndexToXY R0x R0y R0Width R0Height (R + 1) I').2 * width +
        (RingIndexToXY R0x R0y R0Width R0Height (R + 1) I').1) = 0 ∧
      (PushRingsCell 3 width height R0x R0y R0Width R0Height R (RingLength R0Width R0Height R)
        startIndex i s).area =
        (s.area.write ((RingIndexToXY R0x R0y R0Width R0Height (R + 1) I').2 * width +
            (RingIndexToXY R0x R0y R0Width R0Height (R + 1) I').1)
          (s.area ((RingIndexToXY R0x R0y R0Width R0Height R I).2 * width +
            (RingIndexToXY R0x R0y R0Width R0Height R I).1))).write
          ((RingIndexToXY R0x R0y R0Width R0Height R I).2 * width +
            (RingIndexToXY R0x R0y R0Width R0Height R I).1) 0 ∧
      (PushRingsCell 3 width height R0x R0y R0Width R0Height R (RingLength R0Width R0Height R)
        startIndex i s).pushed = true := by
  have hlen := (RingLength_pos R0Width R0Height R v.hW v.hH hR0).1
  have hidx := cmod_range (startIndex + i) (RingLength R0Width R0Height R) (by omega) (by omega)
  unfold PushRingsCell
  simp only
  split_ifs with hmov hfound
  · right
    have hspec := FindPushedSpot_spec s.area s.rnd 3 width height R0x R0y R0Width R0Height R
      (cmod (startIndex + i) (RingLength R0Width R0Height R)) v.hW v.hH hR0 hidx.1 hidx.2
      (by omega) (by omega)
    rcases hspec with h | ⟨h0, h1, hz⟩
    · exact absurd h hfound
    · exact ⟨_, _, hidx.1, hidx.2, h0, h1, hmov.2, hmov.1, hz, rfl, rfl⟩
  · left; exact ⟨rfl, rfl⟩
  · left; exact ⟨rfl, rfl⟩

/-- C13: for every buffer, every valid ring geometry and every random source, the
push-cycle loop of PushRings terminates: `width * height * ringCount + 1` cycles
are enough and more fuel gives the same result, because a write in a cycle moves
one handle from its ring to the next ring outward, and a cycle that pushed
(which is what makes the loop repeat) raises the sum of the ring indices of the
handles by at least one.  The scan loop of PushQueues terminates for every
occupancy count although it holds its index back after a backfill: the
`outlineRingLength + occupationCount` iterations that the model allows are never
used up, and more fuel gives the same result. -/
theorem push_loops_terminate {width height R0x R0y R0Width R0Height ringCount : Int}
    (v : ValidRings width height R0x R0y R0Width R0Height ringCount)
    (outlineRing : Int) (ho : outlineRing < ringCount) (area : Area) (rnd : RandSource)
    (occupationCount : Int) :
    (∃ r, ∀ fuel, (width * height * ringCount).toNat + 1 ≤ fuel →
      PushRings fuel area rnd width height R0x R0y R0Width R0Height outlineRing = some r) ∧
    (∀ (R startIndex i : Int) (s : PushState), 0 ≤ R → R + 1 < ringCount → 0 ≤ startIndex →
      0 ≤ i →
      ((PushRingsCell 3 width height R0x R0y R0Width R0Height R (RingLength R0Width R0Height R)
          startIndex i s).area = s.area ∧
        (PushRingsCell 3 width height R0x R0y R0Width R0Height R (RingLength R0Width R0Height R)
          startIndex i s).pushed = s.pushed) ∨
      ∃ I I', 0 ≤ I ∧ I < RingLength R0Width R0Height R ∧
        0 ≤ I' ∧ I' < RingLength R0Width R0Height (R + 1) ∧
        s.area ((RingIndexToXY R0x R0y R0Width R0Height R I).2 * width +
          (RingIndexToXY R0x R0y R0Width R0Height R I).1) ≠ 0 ∧
        s.area ((RingIndexToXY R0x R0y R0Width R0Height R I).2 * width +
          (RingIndexToXY R0x R0y R0Width R0Height R I).1) ≠ AREA_BLOCKED ∧
        s.area ((RingIndexToXY R0x R0y R0Width R0Height (R + 1) I').2 * width +
          (RingIndexToXY R0x R0y R0Width R0Height (R + 1) I').1) = 0 ∧
        (PushRingsCell 3 width height R0x R0y R0Width R0Height R (RingLength R0Width R0Height R)
          startIndex i s).area =
          (s.area.write ((RingIndexToXY R0x R0y R0Width R0Height (R + 1) I').2 * width +
              (RingIndexToXY R0x R0y R0Width R0Height (R + 1) I').1)
            (s.area ((RingIndexToXY R0x R0y R0Width R0Height R I).2 * width +
              (RingIndexToXY R0x R0y R0Width R0Height R I).1))).write
            ((RingIndexToXY R0x R0y R0Width R0Height R I).2 * width +
              (RingIndexToXY R0x R0y R0Width R0Height R I).1) 0 ∧
        (PushRingsCell 3 width height R0x R0y R0Width R0Height R (RingLength R0Width R0Height R)
          startIndex i s).pushed = true) ∧
    (∀ (a : Area) (rn : RandSource) (emptyRing : Int), -1 ≤ emptyRing →
      (PushRingsCycle a rn 3 width height R0x R0y R0Width R0Height outlineRing
          emptyRing).pushed = true →
      pushPotential a width height R0x + 1 ≤
        pushPotential (PushRingsCycle a rn 3 width height R0x R0y R0Width R0Height outlineRing
          emptyRing).area width height R0x) ∧
    (∀ a : Area, pushPotential a width height R0x ≤ width * height * ringCount) ∧
    (∃ t, ∀ fuel, (RingLength R0Width R0Height outlineRing).toNat + occupationCount.toNat ≤ fuel →
      PushQueuesLoop width height R0x R0y R0Width R0Height outlineRing
        (R0x - (outlineRing - 1)) (R0y - (outlineRing - 1))
        (R0Width + 2 * (outlineRing - 1)) (R0Height + 2 * (outlineRing - 1))
        (RingLength R0Width R0Height outlineRing)
        (rnd.random (RingLength R0Width R0Height outlineRing)) fuel 0
        { area := area, rnd := rnd.next, occupationCount := occupationCount } = some t ∧
      PushQueues area rnd occupationCount width height R0x R0y R0Width R0Height outlineRing
        = some (t.occupationCount, t.area, t.rnd)) := by
  refine ⟨PushRings_returns v outlineRing ho area rnd, ?_, ?_, fun a => pushPotential_le v a, ?_⟩
  · intro R startIndex i s hR0 hR1 hs hi
    exact PushRingsCell_outward v R startIndex i hR0 hR1 hs hi s
  · intro a rn emptyRing he hp
    have h := PushRingsCycle_potential v outlineRing emptyRing ho he a rn
    rw [hp] at h
    exact h
  · obtain ⟨t, ht⟩ := PushQueuesLoop_returns width height R0x R0y R0Width R0Height outlineRing
      (R0x - (outlineRing - 1)) (R0y - (outlineRing - 1))
      (R0Width + 2 * (outlineRing - 1)) (R0Height + 2 * (outlineRing - 1))
      (RingLength R0Width R0Height outlineRing)
      (rnd.random (RingLength R0Width R0Height outlineRing))
      ((RingLength R0Width R0Height outlineRing).toNat + occupationCount.toNat) 0
      { area := area, rnd := rnd.next, occupationCount := occupationCount }
      (by simp only [sub_zero]; exact le_refl _)
    refine ⟨t, fun fuel hfuel => ⟨?_, ?_⟩⟩
    · exact PushQueuesLoop_fuel _ _ _ _ _ _ _ _ _ _ _ _ _ _ _ _ t ht fuel hfuel
    · unfold PushQueues
      simp only
      rw [ht]
      rfl

/-- Witness for C13: the ring geometry of the 1 x 1 footprint at `(10, 10)` with
the packed 5 x 5 buffer. -/
theorem push_loops_terminate_witness :
    (geometry 10 10 1 1).outlineRing < (geometry 10 10 1 1).ringCount ∧
    (∃ r, ∀ fuel, ((geometry 10 10 1 1).width * (geometry 10 10 1 1).height *
        (geometry 10 10 1 1).ringCount).toNat + 1 ≤ fuel →
      PushRings fuel packedArea (fun _ => 0) (geometry 10 10 1 1).width
        (geometry 10 10 1 1).height (geometry 10 10 1 1).R0x (geometry 10 10 1 1).R0y
        (geometry 10 10 1 1).R0Width (geometry 10 10 1 1).R0Height
        (geometry 10 10 1 1).outlineRing = some r) :=
  ⟨by decide,
    (push_loops_terminate (geometry_valid 10 10 1 1 (by decide) (by decide))
      (geometry 10 10 1 1).outlineRing (by decide) packedArea (fun _ => 0) 1).1⟩

/-! ### C14, C15, C16: the schematic -/

/-- A handle in the range of a positive `int` is stored as itself: the cell value
is neither AREA_BLOCKED nor 0 and reads back as the handle. -/
theorem toLocFlag_handle (h : Int) (h1 : 1 ≤ h) (h2 : h ≤ INT_MAX) :
    toLocFlag h ≠ AREA_BLOCKED ∧ toLocFlag h ≠ 0 ∧ flagToInt (toLocFlag h) = h := by
  have hb : AREA_BLOCKED = 2147483648 := by rfl
  have hm : INT_MAX = 2147483647 := by rfl
  rw [hm] at h2
  have e : toLocFlag h = h.toNat := by
    unfold toLocFlag
    rw [Int.emod_eq_of_lt (by omega) (by omega)]
  rw [e, hb]
  refine ⟨by omega, by omega, ?_⟩
  unfold flagToInt
  have hlt : h.toNat % 2 ^ 32 = h.toNat := Nat.mod_eq_of_lt (by omega)
  rw [hlt, if_pos (by omega)]
  omega

/-- The body of the loops of `CreateAreaSchematic` on any state, in terms of what
it does on the blank state: unless the cell faults it writes the cell's value to
the cell's index, it adds the cell's count, and it records the fault. -/
theorem CreateAreaSchematicCell_effect (w : World)
    (mobileType xLoc yLoc width nation_recno builder_recno buildX buildY buildWidth buildHeight : Int)
    (j i : Int) (s : SchematicState) :
    CreateAreaSchematicCell w mobileType xLoc yLoc width nation_recno builder_recno
        buildX buildY buildWidth buildHeight j i s =
      { area :=
          if (schematicProbe w mobileType xLoc yLoc width nation_recno builder_recno
              buildX buildY buildWidth buildHeight j i).fault = true then s.area
          else s.area.write (j * width + i)
            ((schematicProbe w mobileType xLoc yLoc width nation_recno builder_recno
              buildX buildY buildWidth buildHeight j i).area (j * width + i))
        occupancy := s.occupancy +
          (schematicProbe w mobileType xLoc yLoc width nation_recno builder_recno
            buildX buildY buildWidth buildHeight j i).occupancy
        fault := s.fault ||
          (schematicProbe w mobileType xLoc yLoc width nation_recno builder_recno
            buildX buildY buildWidth buildHeight j i).fault } := by
  unfold schematicProbe CreateAreaSchematicCell
  simp only
  by_cases h1 : decide (xLoc + i ≥ 0 ∧ xLoc + i < w.MAX_WORLD_X_LOC ∧ yLoc + j ≥ 0 ∧
      yLoc + j < w.MAX_WORLD_X_LOC) = false ∨
      w.is_accessible (xLoc + i) (yLoc + j) mobileType = false
  · simp only [if_pos h1]
    simp [Area_write_same]
  · simp only [if_neg h1]
    by_cases h2 : w.has_unit (xLoc + i) (yLoc + j) mobileType = true
    · simp only [if_pos h2]
      cases w.unit_array (w.unit_recno (xLoc + i) (yLoc + j) mobileType) with
      | none => simp
      | some u =>
        simp only
        by_cases h3 : u.sprite_recno = builder_recno
        · simp only [if_pos h3]
          simp [Area_write_same]
        · simp only [if_neg h3]
          by_cases h4 : (if u.cur_action = w.SPRITE_MOVE ∧
                (u.cur_x_loc ≠ u.go_x_loc ∨ u.cur_y_loc ≠ u.go_y_loc) then false
              else if u.nation_recno = nation_recno ∧ u.cur_action = w.SPRITE_IDLE ∧
                u.action_mode = w.ACTION_STOP ∧ u.action_mode2 = w.ACTION_STOP ∧
                (u.ai_unit = 0 ∨ u.ai_action_id = 0) then false
              else true) = true
          · simp only [if_pos h4]
            simp [Area_write_same]
          · simp only [if_neg h4]
            by_cases h5 : u.sprite_recno ≤ 0
            · simp only [if_pos h5]
              simp [Area_write_same]
            · simp only [if_neg h5]
              by_cases h6 : xLoc + i ≥ buildX ∧ xLoc + i < buildX + buildWidth ∧
                  yLoc + j ≥ buildY ∧ yLoc + j < buildY + buildHeight
              · simp only [if_pos h6]
                simp [Area_write_same]
              · simp only [if_neg h6]
                simp [Area_write_same]
    · simp only [if_neg h2]
      simp [Area_write_same]
/-- One row of `CreateAreaSchematic`: the loop over `i` faults exactly when the
state it starts from has faulted or a cell of the row faults; otherwise every cell
of the row holds its value, every other index is as before, and the count has
grown by the counts of the cells. -/
theorem CreateAreaSchematic_row (w : World)
    (mobileType xLoc yLoc width nation_recno builder_recno buildX buildY buildWidth buildHeight : Int)
    (j : Int) (base : SchematicState) :
    ((forLoop (CreateAreaSchematicCell w mobileType xLoc yLoc width nation_recno builder_recno
          buildX buildY buildWidth buildHeight j) width.toNat 0 base).fault = false ↔
      (base.fault = false ∧ ∀ i, 0 ≤ i → i < width →
        (schematicProbe w mobileType xLoc yLoc width nation_recno builder_recno
          buildX buildY buildWidth buildHeight j i).fault = false)) ∧
    ((forLoop (CreateAreaSchematicCell w mobileType xLoc yLoc width nation_recno builder_recno
          buildX buildY buildWidth buildHeight j) width.toNat 0 base).fault = false →
      (∀ i, 0 ≤ i → i < width →
        (forLoop (CreateAreaSchematicCell w mobileType xLoc yLoc width nation_recno builder_recno
          buildX buildY buildWidth buildHeight j) width.toNat 0 base).area (j * width + i) =
        (schematicProbe w mobileType xLoc yLoc width nation_recno builder_recno
          buildX buildY buildWidth buildHeight j i).area (j * width + i)) ∧
      (∀ k, (∀ i, 0 ≤ i → i < width → k ≠ j * width + i) →
        (forLoop (CreateAreaSchematicCell w mobileType xLoc yLoc width nation_recno builder_recno
          buildX buildY buildWidth buildHeight j) width.toNat 0 base).area k = base.area k) ∧
      (forLoop (CreateAreaSchematicCell w mobileType xLoc yLoc width nation_recno builder_recno
          buildX buildY buildWidth buildHeight j) width.toNat 0 base).occupancy =
        base.occupancy + ∑ i in Finset.range width.toNat,
          (schematicProbe w mobileType xLoc yLoc width nation_recno builder_recno
            buildX buildY buildWidth buildHeight j (i : Int)).occupancy) := by
  have key := forLoop_inv
    (fun (i : Int) (s : SchematicState) =>
      0 ≤ i ∧
      (s.fault = false ↔
        (base.fault = false ∧ ∀ i', 0 ≤ i' → i' < i →
          (schematicProbe w mobileType xLoc yLoc width nation_recno builder_recno
            buildX buildY buildWidth buildHeight j i').fault = false)) ∧
      (s.fault = false →
        (∀ i', 0 ≤ i' → i' < i →
          s.area (j * width + i') =
          (schematicProbe w mobileType xLoc yLoc width nation_recno builder_recno
            buildX buildY buildWidth buildHeight j i').area (j * width + i')) ∧
        (∀ k, (∀ i', 0 ≤ i' → i' < i → k ≠ j * width + i') → s.area k = base.area k) ∧
        s.occupancy = base.occupancy + ∑ i' in Finset.range i.toNat,
          (schematicProbe w mobileType xLoc yLoc width nation_recno builder_recno
            buildX buildY buildWidth buildHeight j (i' : Int)).occupancy))
    (CreateAreaSchematicCell w mobileType xLoc yLoc width nation_recno builder_recno
      buildX buildY buildWidth buildHeight j) width.toNat 0 base
    (by
      intro i s hi0 hi1 ⟨_, hf, hrest⟩
      rw [CreateAreaSchematicCell_effect]
      generalize hc : schematicProbe w mobileType xLoc yLoc width nation_recno builder_recno
        buildX buildY buildWidth buildHeight j i = c
      refine ⟨by omega, ?_, ?_⟩
      · simp only [Bool.or_eq_false_iff]
        constructor
        · rintro ⟨h1, h2⟩
          refine ⟨(hf.1 h1).1, fun i' h0 h1' => ?_⟩
          by_cases he : i' = i
          · subst he; rw [hc]; exact h2
          · exact (hf.1 h1).2 i' h0 (by omega)
        · rintro ⟨h1, h2⟩
          refine ⟨hf.2 ⟨h1, fun i' h0 h1' => h2 i' h0 (by omega)⟩, ?_⟩
          rw [← hc]
          exact h2 i hi0 (by omega)
      · simp only [Bool.or_eq_false_iff]
        rintro ⟨h1, h2⟩
        obtain ⟨ha, hfr, hocc⟩ := hrest h1
        rw [if_neg (by rw [h2]; simp)]
        refine ⟨?_, ?_, ?_⟩
        · intro i' h0 h1'
          by_cases he : i' = i
          · subst he; rw [hc]; exact Area_write_same _ _ _
          · rw [Area_write_other _ _ _ _ (by omega)]
            exact ha i' h0 (by omega)
        · intro k hk
          rw [Area_write_other _ _ _ _ (hk i hi0 (by omega))]
          exact hfr k (fun i' h0 h1' => hk i' h0 (by omega))
        · have e : (i + 1).toNat = i.toNat + 1 := by omega
          have e2 : ((i.toNat : Nat) : Int) = i := by omega
          rw [e, Finset.sum_range_succ, e2, hc, hocc]
          ring)
    ⟨le_refl _, ⟨fun h => ⟨h, fun i' h0 h1 => absurd h1 (by omega)⟩, fun h => h.1⟩,
      fun _ => ⟨fun i' h0 h1 => absurd h1 (by omega), fun k _ => rfl, by simp⟩⟩
  obtain ⟨_, kf, krest⟩ := key
  constructor
  · constructor
    · intro h
      exact ⟨(kf.1 h).1, fun i h0 h1 => (kf.1 h).2 i h0 (by omega)⟩
    · rintro ⟨h1, h2⟩
      exact kf.2 ⟨h1, fun i h0 h1' => h2 i h0 (by omega)⟩
  · intro h
    obtain ⟨ha, hfr, hocc⟩ := krest h
    refine ⟨fun i h0 h1 => ha i h0 (by omega), ?_, ?_⟩
    · intro k hk
      exact hfr k (fun i h0 h1 => hk i h0 (by omega))
    · have e : (0 + (width.toNat : Int)).toNat = width.toNat := by omega
      rw [hocc, e]

/-- The two loops of `CreateAreaSchematic`: they fault exactly when a cell of the
scan area faults; otherwise every cell of the buffer holds its value, every other
index is as before, and the count is the sum of the counts of the cells. -/
theorem CreateAreaSchematic_loops (w : World)
    (mobileType xLoc yLoc width height nation_recno builder_recno
      buildX buildY buildWidth buildHeight : Int) (area0 : Area) :
    ((forLoop (fun j s =>
          forLoop (CreateAreaSchematicCell w mobileType xLoc yLoc width nation_recno builder_recno
            buildX buildY buildWidth buildHeight j) width.toNat 0 s)
        height.toNat 0 { area := area0, occupancy := 0, fault := false }).fault = false ↔
      ∀ j i, 0 ≤ j → j < height → 0 ≤ i → i < width →
        (schematicProbe w mobileType xLoc yLoc width nation_recno builder_recno
          buildX buildY buildWidth buildHeight j i).fault = false) ∧
    ((forLoop (fun j s =>
          forLoop (CreateAreaSchematicCell w mobileType xLoc yLoc width nation_recno builder_recno
            buildX buildY buildWidth buildHeight j) width.toNat 0 s)
        height.toNat 0 { area := area0, occupancy := 0, fault := false }).fault = false →
      (∀ j i, 0 ≤ j → j < height → 0 ≤ i → i < width →
        (forLoop (fun j s =>
          forLoop (CreateAreaSchematicCell w mobileType xLoc yLoc width nation_recno builder_recno
            buildX buildY buildWidth buildHeight j) width.toNat 0 s)
          height.toNat 0 { area := area0, occupancy := 0, fault := false }).area (j * width + i) =
        (schematicProbe w mobileType xLoc yLoc width nation_recno builder_recno
          buildX buildY buildWidth buildHeight j i).area (j * width + i)) ∧
      (∀ k, (∀ j i, 0 ≤ j → j < height → 0 ≤ i → i < width → k ≠ j * width + i) →
        (forLoop (fun j s =>
          forLoop (CreateAreaSchematicCell w mobileType xLoc yLoc width nation_recno builder_recno
            buildX buildY buildWidth buildHeight j) width.toNat 0 s)
          height.toNat 0 { area := area0, occupancy := 0, fault := false }).area k = area0 k) ∧
      (forLoop (fun j s =>
          forLoop (CreateAreaSchematicCell w mobileType xLoc yLoc width nation_recno builder_recno
            buildX buildY buildWidth buildHeight j) width.toNat 0 s)
          height.toNat 0 { area := area0, occupancy := 0, fault := false }).occupancy =
        ∑ j in Finset.range height.toNat, ∑ i in Finset.range width.toNat,
          (schematicProbe w mobileType xLoc yLoc width nation_recno builder_recno
            buildX buildY buildWidth buildHeight (j : Int) (i : Int)).occupancy) := by
  have key := forLoop_inv
    (fun (j : Int) (s : SchematicState) =>
      0 ≤ j ∧
      (s.fault = false ↔
        ∀ j' i, 0 ≤ j' → j' < j → 0 ≤ i → i < width →
          (schematicProbe w mobileType xLoc yLoc width nation_recno builder_recno
            buildX buildY buildWidth buildHeight j' i).fault = false) ∧
      (s.fault = false →
        (∀ j' i, 0 ≤ j' → j' < j → 0 ≤ i → i < width →
          s.area (j' * width + i) =
          (schematicProbe w mobileType xLoc yLoc width nation_recno builder_recno
            buildX buildY buildWidth buildHeight j' i).area (j' * width + i)) ∧
        (∀ k, (∀ j' i, 0 ≤ j' → j' < j → 0 ≤ i → i < width → k ≠ j' * width + i) →
          s.area k = area0 k) ∧
        s.occupancy = ∑ j' in Finset.range j.toNat, ∑ i in Finset.range width.toNat,
          (schematicProbe w mobileType xLoc yLoc width nation_recno builder_recno
            buildX buildY buildWidth buildHeight (j' : Int) (i : Int)).occupancy))
    (fun j s =>
      forLoop (CreateAreaSchematicCell w mobileType xLoc yLoc width nation_recno builder_recno
        buildX buildY buildWidth buildHeight j) width.toNat 0 s)
    height.toNat 0 { area := area0, occupancy := 0, fault := false }
    (by
      intro j s hj0 hj1 ⟨_, hf, hrest⟩
      obtain ⟨rf, rrest⟩ := CreateAreaSchematic_row w mobileType xLoc yLoc width nation_recno
        builder_recno buildX buildY buildWidth buildHeight j s
      simp only
      generalize forLoop (CreateAreaSchematicCell w mobileType xLoc yLoc width nation_recno
        builder_recno buildX buildY buildWidth buildHeight j) width.toNat 0 s = s' at rf rrest ⊢
      refine ⟨by omega, ?_, ?_⟩
      · constructor
        · intro h j' i h0 h1 hi0 hi1
          obtain ⟨hb, hrow⟩ := rf.1 h
          by_cases he : j' = j
          · subst he; exact hrow i hi0 hi1
          · exact hf.1 hb j' i h0 (by omega) hi0 hi1
        · intro h
          exact rf.2 ⟨hf.2 (fun j' i h0 h1 hi0 hi1 => h j' i h0 (by omega) hi0 hi1),
            fun i hi0 hi1 => h j i hj0 (by omega) hi0 hi1⟩
      · intro h
        obtain ⟨hb, hrow⟩ := rf.1 h
        obtain ⟨ha, hfr, hocc⟩ := hrest hb
        obtain ⟨ra, rfr, rocc⟩ := rrest h
        refine ⟨?_, ?_, ?_⟩
        · intro j' i h0 h1 hi0 hi1
          by_cases he : j' = j
          · subst he; exact ra i hi0 hi1
          · rw [rfr (j' * width + i) (fun i2 h20 h21 e => he (idx_inj hi0 hi1 h20 h21 e).2)]
            exact ha j' i h0 (by omega) hi0 hi1
        · intro k hk
          rw [rfr k (fun i h0 h1 => hk j i hj0 (by omega) h0 h1)]
          exact hfr k (fun j' i h0 h1 hi0 hi1 => hk j' i h0 (by omega) hi0 hi1)
        · have e : (j + 1).toNat = j.toNat + 1 := by omega
          have e2 : ((j.toNat : Nat) : Int) = j := by omega
          rw [e, Finset.sum_range_succ, e2, rocc, hocc])
    ⟨le_refl _, ⟨fun _ j' i h0 h1 => absurd h1 (by omega), fun _ => rfl⟩,
      fun _ => ⟨fun j' i h0 h1 => absurd h1 (by omega), fun k _ => rfl, by simp⟩⟩
  obtain ⟨_, kf, krest⟩ := key
  constructor
  · constructor
    · intro h j i h0 h1 hi0 hi1
      exact kf.1 h j i h0 (by omega) hi0 hi1
    · intro h
      exact kf.2 (fun j i h0 h1 hi0 hi1 => h j i h0 (by omega) hi0 hi1)
  · intro h
    obtain ⟨ha, hfr, hocc⟩ := krest h
    refine ⟨fun j i h0 h1 hi0 hi1 => ha j i h0 (by omega) hi0 hi1, ?_, ?_⟩
    · intro k hk
      exact hfr k (fun j i h0 h1 hi0 hi1 => hk j i h0 (by omega) hi0 hi1)
    · have e : (0 + (height.toNat : Int)).toNat = height.toNat := by omega
      rw [hocc, e]

/-- `CreateAreaSchematic` returns unless a cell of the scan area names a unit that
`unit_array` does not hold; the buffer it returns holds at every cell `(i, j)` the
value of that cell and is unchanged elsewhere, and the count it returns is the sum
of the counts of the cells. -/
theorem CreateAreaSchematic_spec (w : World)
    (mobileType xLoc yLoc width height nation_recno builder_recno
      buildX buildY buildWidth buildHeight : Int) (area0 : Area) :
    ((∀ j i, 0 ≤ j → j < height → 0 ≤ i → i < width →
        (schematicProbe w mobileType xLoc yLoc width nation_recno builder_recno
          buildX buildY buildWidth buildHeight j i).fault = false) →
      ∃ r, CreateAreaSchematic area0 w mobileType xLoc yLoc width height nation_recno
        builder_recno buildX buildY buildWidth buildHeight = some r) ∧
    ∀ r, CreateAreaSchematic area0 w mobileType xLoc yLoc width height nation_recno
        builder_recno buildX buildY buildWidth buildHeight = some r →
      (∀ j i, 0 ≤ j → j < height → 0 ≤ i → i < width →
        (schematicProbe w mobileType xLoc yLoc width nation_recno builder_recno
          buildX buildY buildWidth buildHeight j i).fault = false ∧
        r.2 (j * width + i) =
          (schematicProbe w mobileType xLoc yLoc width nation_recno builder_recno
            buildX buildY buildWidth buildHeight j i).area (j * width + i)) ∧
      (∀ k, (∀ j i, 0 ≤ j → j < height → 0 ≤ i → i < width → k ≠ j * width + i) →
        r.2 k = area0 k) ∧
      r.1 = ∑ j in Finset.range height.toNat, ∑ i in Finset.range width.toNat,
        (schematicProbe w mobileType xLoc yLoc width nation_recno builder_recno
          buildX buildY buildWidth buildHeight (j : Int) (i : Int)).occupancy := by
  obtain ⟨lf, lrest⟩ := CreateAreaSchematic_loops w mobileType xLoc yLoc width height
    nation_recno builder_recno buildX buildY buildWidth buildHeight area0
  unfold CreateAreaSchematic
  simp only
  generalize forLoop (fun j s =>
      forLoop (CreateAreaSchematicCell w mobileType xLoc yLoc width nation_recno builder_recno
        buildX buildY buildWidth buildHeight j) width.toNat 0 s)
    height.toNat 0 { area := area0, occupancy := 0, fault := false } = s at lf lrest ⊢
  constructor
  · intro h
    have hs := lf.2 h
    rw [if_neg (by rw [hs]; simp)]
    exact ⟨_, rfl⟩
  · intro r hr
    by_cases hs : s.fault = true
    · rw [if_pos hs] at hr
      exact absurd hr (by simp)
    · rw [if_neg hs] at hr
      simp only [Option.some.injEq] at hr
      subst hr
      have hs' : s.fault = false := by simpa using hs
      obtain ⟨ha, hfr, hocc⟩ := lrest hs'
      exact ⟨fun j i h0 h1 hi0 hi1 => ⟨lf.1 hs' j i h0 h1 hi0 hi1, ha j i h0 h1 hi0 hi1⟩,
        hfr, hocc⟩

/-- A cell faults exactly when the code fetches its location, the location is
accessible and has a unit, and `unit_array` does not hold that unit. -/
theorem schematicProbe_fault (w : World)
    (mobileType xLoc yLoc width nation_recno builder_recno buildX buildY buildWidth buildHeight : Int)
    (j i : Int) :
    (schematicProbe w mobileType xLoc yLoc width nation_recno builder_recno
      buildX buildY buildWidth buildHeight j i).fault = true ↔
    ((xLoc + i ≥ 0 ∧ xLoc + i < w.MAX_WORLD_X_LOC ∧ yLoc + j ≥ 0 ∧
        yLoc + j < w.MAX_WORLD_X_LOC) ∧
      w.is_accessible (xLoc + i) (yLoc + j) mobileType = true ∧
      w.has_unit (xLoc + i) (yLoc + j) mobileType = true ∧
      w.unit_array (w.unit_recno (xLoc + i) (yLoc + j) mobileType) = none) := by
  unfold schematicProbe CreateAreaSchematicCell
  simp only
  by_cases h1 : decide (xLoc + i ≥ 0 ∧ xLoc + i < w.MAX_WORLD_X_LOC ∧ yLoc + j ≥ 0 ∧
      yLoc + j < w.MAX_WORLD_X_LOC) = false ∨
      w.is_accessible (xLoc + i) (yLoc + j) mobileType = false
  · rw [if_pos h1]
    simp only [decide_eq_false_iff_not] at h1
    constructor
    · intro h; exact absurd h (by simp)
    · rintro ⟨h2, h3, _⟩
      rcases h1 with h | h
      · exact absurd h2 h
      · rw [h3] at h; exact absurd h (by simp)
  · rw [if_neg h1]
    simp only [decide_eq_false_iff_not, not_or, not_not, Bool.not_eq_false] at h1
    by_cases h2 : w.has_unit (xLoc + i) (yLoc + j) mobileType = true
    · rw [if_pos h2]
      cases hu : w.unit_array (w.unit_recno (xLoc + i) (yLoc + j) mobileType) with
      | none =>
        constructor
        · intro _; exact ⟨h1.1, h1.2, h2, rfl⟩
        · intro _; rfl
      | some u =>
        constructor
        · intro h
          simp only at h
          split_ifs at h
        · rintro ⟨_, _, _, h⟩
          exact absurd h (by simp)
    · rw [if_neg h2]
      constructor
      · intro h; exact absurd h (by simp)
      · rintro ⟨_, _, h, _⟩
        exact absurd h h2

/-- The value that `CreateAreaSchematic` writes to a cell whose location the code
does not fetch, or whose location is not accessible, is AREA_BLOCKED, and the cell
is not counted. -/
theorem schematicProbe_blocked (w : World)
    (mobileType xLoc yLoc width nation_recno builder_recno buildX buildY buildWidth buildHeight : Int)
    (j i : Int)
    (h : ¬ (xLoc + i ≥ 0 ∧ xLoc + i < w.MAX_WORLD_X_LOC ∧ yLoc + j ≥ 0 ∧
        yLoc + j < w.MAX_WORLD_X_LOC) ∨
      w.is_accessible (xLoc + i) (yLoc + j) mobileType = false) :
    (schematicProbe w mobileType xLoc yLoc width nation_recno builder_recno
      buildX buildY buildWidth buildHeight j i).area (j * width + i) = AREA_BLOCKED ∧
    (schematicProbe w mobileType xLoc yLoc width nation_recno builder_recno
      buildX buildY buildWidth buildHeight j i).occupancy = 0 := by
  unfold schematicProbe CreateAreaSchematicCell
  simp only
  rw [if_pos (by simpa using h)]
  simp [Area.write]

/-- The value that `CreateAreaSchematic` writes to a cell whose location the code
fetches and finds accessible and without a unit is 0, and the cell is not
counted. -/
theorem schematicProbe_free (w : World)
    (mobileType xLoc yLoc width nation_recno builder_recno buildX buildY buildWidth buildHeight : Int)
    (j i : Int)
    (hloc : xLoc + i ≥ 0 ∧ xLoc + i < w.MAX_WORLD_X_LOC ∧ yLoc + j ≥ 0 ∧
      yLoc + j < w.MAX_WORLD_X_LOC)
    (hacc : w.is_accessible (xLoc + i) (yLoc + j) mobileType = true)
    (hno : w.has_unit (xLoc + i) (yLoc + j) mobileType = false) :
    (schematicProbe w mobileType xLoc yLoc width nation_recno builder_recno
      buildX buildY buildWidth buildHeight j i).area (j * width + i) = 0 ∧
    (schematicProbe w mobileType xLoc yLoc width nation_recno builder_recno
      buildX buildY buildWidth buildHeight j i).occupancy = 0 := by
  unfold schematicProbe CreateAreaSchematicCell
  simp only
  rw [if_neg (by simp [hloc, hacc]), if_neg (by simp [hno])]
  simp [Area.write]

/-- The flag `obstacle` of `CreateAreaSchematic` is set exactly when neither of its
two tests holds. -/
theorem obstacle_iff (M I : Prop) [Decidable M] [Decidable I] :
    ((if M then false else if I then false else true) = true) ↔ ¬ (M ∨ I) := by
  by_cases hm : M <;> by_cases hi : I <;> simp [hm, hi]

/-- The value that `CreateAreaSchematic` writes to a cell whose location the code
fetches and finds accessible and with the unit `u`: the handle of `u` when `u` is
not the builder, has a positive `sprite_recno`, and is moving to another location
or is an idle unit of the nation with no action; AREA_BLOCKED in every other case.
The cell is counted when it gets the handle and lies in the footprint. -/
theorem schematicProbe_unit (w : World)
    (mobileType xLoc yLoc width nation_recno builder_recno buildX buildY buildWidth buildHeight : Int)
    (j i : Int) (u : Unit)
    (hloc : xLoc + i ≥ 0 ∧ xLoc + i < w.MAX_WORLD_X_LOC ∧ yLoc + j ≥ 0 ∧
      yLoc + j < w.MAX_WORLD_X_LOC)
    (hacc : w.is_accessible (xLoc + i) (yLoc + j) mobileType = true)
    (hhas : w.has_unit (xLoc + i) (yLoc + j) mobileType = true)
    (hu : w.unit_array (w.unit_recno (xLoc + i) (yLoc + j) mobileType) = some u) :
    (schematicProbe w mobileType xLoc yLoc width nation_recno builder_recno
      buildX buildY buildWidth buildHeight j i).area (j * width + i) =
      (if u.sprite_recno ≠ builder_recno ∧ 0 < u.sprite_recno ∧
          ((u.cur_action = w.SPRITE_MOVE ∧
              (u.cur_x_loc ≠ u.go_x_loc ∨ u.cur_y_loc ≠ u.go_y_loc)) ∨
            (u.nation_recno = nation_recno ∧ u.cur_action = w.SPRITE_IDLE ∧
              u.action_mode = w.ACTION_STOP ∧ u.action_mode2 = w.ACTION_STOP ∧
              (u.ai_unit = 0 ∨ u.ai_action_id = 0))) then toLocFlag u.sprite_recno
        else AREA_BLOCKED) ∧
    (schematicProbe w mobileType xLoc yLoc width nation_recno builder_recno
      buildX buildY buildWidth buildHeight j i).occupancy =
      (if (u.sprite_recno ≠ builder_recno ∧ 0 < u.sprite_recno ∧
          ((u.cur_action = w.SPRITE_MOVE ∧
              (u.cur_x_loc ≠ u.go_x_loc ∨ u.cur_y_loc ≠ u.go_y_loc)) ∨
            (u.nation_recno = nation_recno ∧ u.cur_action = w.SPRITE_IDLE ∧
              u.action_mode = w.ACTION_STOP ∧ u.action_mode2 = w.ACTION_STOP ∧
              (u.ai_unit = 0 ∨ u.ai_action_id = 0)))) ∧
          (xLoc + i ≥ buildX ∧ xLoc + i < buildX + buildWidth ∧ yLoc + j ≥ buildY ∧
            yLoc + j < buildY + buildHeight) then 1 else 0) := by
  unfold schematicProbe CreateAreaSchematicCell
  simp only
  rw [if_neg (by simp [hloc, hacc]), if_pos hhas, hu]
  simp only
  have hob := obstacle_iff (u.cur_action = w.SPRITE_MOVE ∧
      (u.cur_x_loc ≠ u.go_x_loc ∨ u.cur_y_loc ≠ u.go_y_loc))
    (u.nation_recno = nation_recno ∧ u.cur_action = w.SPRITE_IDLE ∧
      u.action_mode = w.ACTION_STOP ∧ u.action_mode2 = w.ACTION_STOP ∧
      (u.ai_unit = 0 ∨ u.ai_action_id = 0))
  by_cases hC : u.sprite_recno ≠ builder_recno ∧ 0 < u.sprite_recno ∧
      ((u.cur_action = w.SPRITE_MOVE ∧
          (u.cur_x_loc ≠ u.go_x_loc ∨ u.cur_y_loc ≠ u.go_y_loc)) ∨
        (u.nation_recno = nation_recno ∧ u.cur_action = w.SPRITE_IDLE ∧
          u.action_mode = w.ACTION_STOP ∧ u.action_mode2 = w.ACTION_STOP ∧
          (u.ai_unit = 0 ∨ u.ai_action_id = 0)))
  · have c1 := hC.1
    have c2 := hC.2.1
    have c3 := hC.2.2
    have h4 : ¬ ((if u.cur_action = w.SPRITE_MOVE ∧
          (u.cur_x_loc ≠ u.go_x_loc ∨ u.cur_y_loc ≠ u.go_y_loc) then false
        else if u.nation_recno = nation_recno ∧ u.cur_action = w.SPRITE_IDLE ∧
          u.action_mode = w.ACTION_STOP ∧ u.action_mode2 = w.ACTION_STOP ∧
          (u.ai_unit = 0 ∨ u.ai_action_id = 0) then false
        else true) = true) := fun h => hob.1 h c3
    have h5 : ¬ u.sprite_recno ≤ 0 := by omega
    rw [if_neg c1, if_neg h4, if_neg h5, if_pos hC]
    dsimp only
    refine ⟨Area_write_same _ _ _, ?_⟩
    by_cases h6 : xLoc + i ≥ buildX ∧ xLoc + i < buildX + buildWidth ∧
          yLoc + j ≥ buildY ∧ yLoc + j < buildY + buildHeight
    · rw [if_pos h6, if_pos ⟨hC, h6⟩]
      rfl
    · have hCF : ¬ ((u.sprite_recno ≠ builder_recno ∧ 0 < u.sprite_recno ∧
      ((u.cur_action = w.SPRITE_MOVE ∧
          (u.cur_x_loc ≠ u.go_x_loc ∨ u.cur_y_loc ≠ u.go_y_loc)) ∨
        (u.nation_recno = nation_recno ∧ u.cur_action = w.SPRITE_IDLE ∧
          u.action_mode = w.ACTION_STOP ∧ u.action_mode2 = w.ACTION_STOP ∧
          (u.ai_unit = 0 ∨ u.ai_action_id = 0)))) ∧
          (xLoc + i ≥ buildX ∧ xLoc + i < buildX + buildWidth ∧
          yLoc + j ≥ buildY ∧ yLoc + j < buildY + buildHeight)) := fun h => h6 h.2
      rw [if_neg h6, if_neg hCF]
  · have hCF : ¬ ((u.sprite_recno ≠ builder_recno ∧ 0 < u.sprite_recno ∧
      ((u.cur_action = w.SPRITE_MOVE ∧
          (u.cur_x_loc ≠ u.go_x_loc ∨ u.cur_y_loc ≠ u.go_y_loc)) ∨
        (u.nation_recno = nation_recno ∧ u.cur_action = w.SPRITE_IDLE ∧
          u.action_mode = w.ACTION_STOP ∧ u.action_mode2 = w.ACTION_STOP ∧
          (u.ai_unit = 0 ∨ u.ai_action_id = 0)))) ∧
        (xLoc + i ≥ buildX ∧ xLoc + i < buildX + buildWidth ∧
          yLoc + j ≥ buildY ∧ yLoc + j < buildY + buildHeight)) := fun h => hC h.1
    rw [if_neg hC, if_neg hCF]
    by_cases h3 : u.sprite_recno = builder_recno
    · rw [if_pos h3]
      dsimp only
      exact ⟨Area_write_same _ _ _, rfl⟩
    · rw [if_neg h3]
      by_cases h4 : (if u.cur_action = w.SPRITE_MOVE ∧
          (u.cur_x_loc ≠ u.go_x_loc ∨ u.cur_y_loc ≠ u.go_y_loc) then false
        else if u.nation_recno = nation_recno ∧ u.cur_action = w.SPRITE_IDLE ∧
          u.action_mode = w.ACTION_STOP ∧ u.action_mode2 = w.ACTION_STOP ∧
          (u.ai_unit = 0 ∨ u.ai_action_id = 0) then false
        else true) = true
      · rw [if_pos h4]
        dsimp only
        exact ⟨Area_write_same _ _ _, rfl⟩
      · rw [if_neg h4]
        have hMI := not_not.1 (fun h => h4 (hob.2 h))
        by_cases h5 : u.sprite_recno ≤ 0
        · rw [if_pos h5]
          dsimp only
          exact ⟨Area_write_same _ _ _, rfl⟩
        · exact absurd ⟨h3, by omega, hMI⟩ hC

/-- A cell that does not fault is counted exactly when the value written to it is a
movable handle and its map cell lies in the footprint; the handles are in the
range of an `int`. -/
theorem schematicProbe_count (w : World)
    (mobileType xLoc yLoc width nation_recno builder_recno buildX buildY buildWidth buildHeight : Int)
    (j i : Int)
    (hint : ∀ u, w.unit_array (w.unit_recno (xLoc + i) (yLoc + j) mobileType) = some u →
      u.sprite_recno ≤ INT_MAX)
    (hf : (schematicProbe w mobileType xLoc yLoc width nation_recno builder_recno
      buildX buildY buildWidth buildHeight j i).fault = false) :
    (schematicProbe w mobileType xLoc yLoc width nation_recno builder_recno
      buildX buildY buildWidth buildHeight j i).occupancy =
      (if ((schematicProbe w mobileType xLoc yLoc width nation_recno builder_recno
            buildX buildY buildWidth buildHeight j i).area (j * width + i) ≠ 0 ∧
          (schematicProbe w mobileType xLoc yLoc width nation_recno builder_recno
            buildX buildY buildWidth buildHeight j i).area (j * width + i) ≠ AREA_BLOCKED) ∧
          (xLoc + i ≥ buildX ∧ xLoc + i < buildX + buildWidth ∧ yLoc + j ≥ buildY ∧
            yLoc + j < buildY + buildHeight) then 1 else 0) := by
  by_cases hb : ¬ (xLoc + i ≥ 0 ∧ xLoc + i < w.MAX_WORLD_X_LOC ∧ yLoc + j ≥ 0 ∧
        yLoc + j < w.MAX_WORLD_X_LOC) ∨
      w.is_accessible (xLoc + i) (yLoc + j) mobileType = false
  · obtain ⟨e1, e2⟩ := schematicProbe_blocked w mobileType xLoc yLoc width nation_recno
      builder_recno buildX buildY buildWidth buildHeight j i hb
    rw [e1, e2, if_neg (fun h => h.1.2 rfl)]
  · have hloc : xLoc + i ≥ 0 ∧ xLoc + i < w.MAX_WORLD_X_LOC ∧ yLoc + j ≥ 0 ∧
        yLoc + j < w.MAX_WORLD_X_LOC := not_not.1 (fun h => hb (Or.inl h))
    have hacc : w.is_accessible (xLoc + i) (yLoc + j) mobileType = true := by
      cases h : w.is_accessible (xLoc + i) (yLoc + j) mobileType with
      | true => rfl
      | false => exact absurd (Or.inr h) hb
    cases hhas : w.has_unit (xLoc + i) (yLoc + j) mobileType with
    | false =>
      obtain ⟨e1, e2⟩ := schematicProbe_free w mobileType xLoc yLoc width nation_recno
        builder_recno buildX buildY buildWidth buildHeight j i hloc hacc hhas
      rw [e1, e2, if_neg (fun h => h.1.1 rfl)]
    | true =>
      cases hu : w.unit_array (w.unit_recno (xLoc + i) (yLoc + j) mobileType) with
      | none =>
        have := (schematicProbe_fault w mobileType xLoc yLoc width nation_recno
          builder_recno buildX buildY buildWidth buildHeight j i).2 ⟨hloc, hacc, hhas, hu⟩
        rw [this] at hf
        exact absurd hf (by simp)
      | some u =>
        obtain ⟨e1, e2⟩ := schematicProbe_unit w mobileType xLoc yLoc width nation_recno
          builder_recno buildX buildY buildWidth buildHeight j i u hloc hacc hhas hu
        rw [e2]
        by_cases hC : u.sprite_recno ≠ builder_recno ∧ 0 < u.sprite_recno ∧
            ((u.cur_action = w.SPRITE_MOVE ∧
                (u.cur_x_loc ≠ u.go_x_loc ∨ u.cur_y_loc ≠ u.go_y_loc)) ∨
              (u.nation_recno = nation_recno ∧ u.cur_action = w.SPRITE_IDLE ∧
                u.action_mode = w.ACTION_STOP ∧ u.action_mode2 = w.ACTION_STOP ∧
                (u.ai_unit = 0 ∨ u.ai_action_id = 0)))
        · have hh := toLocFlag_handle u.sprite_recno (by omega) (hint u hu)
          rw [if_pos hC] at e1
          rw [e1]
          by_cases hF : xLoc + i ≥ buildX ∧ xLoc + i < buildX + buildWidth ∧ yLoc + j ≥ buildY ∧
            yLoc + j < buildY + buildHeight
          · rw [if_pos ⟨hC, hF⟩, if_pos ⟨⟨hh.2.1, hh.1⟩, hF⟩]
          · have n1 : ¬ ((u.sprite_recno ≠ builder_recno ∧ 0 < u.sprite_recno ∧
            ((u.cur_action = w.SPRITE_MOVE ∧
                (u.cur_x_loc ≠ u.go_x_loc ∨ u.cur_y_loc ≠ u.go_y_loc)) ∨
              (u.nation_recno = nation_recno ∧ u.cur_action = w.SPRITE_IDLE ∧
                u.action_mode = w.ACTION_STOP ∧ u.action_mode2 = w.ACTION_STOP ∧
                (u.ai_unit = 0 ∨ u.ai_action_id = 0)))) ∧
                (xLoc + i ≥ buildX ∧ xLoc + i < buildX + buildWidth ∧ yLoc + j ≥ buildY ∧
            yLoc + j < buildY + buildHeight)) := fun h => hF h.2
            rw [if_neg n1, if_neg (fun h => hF h.2)]
        · rw [if_neg hC] at e1
          rw [e1]
          have n1 : ¬ ((u.sprite_recno ≠ builder_recno ∧ 0 < u.sprite_recno ∧
            ((u.cur_action = w.SPRITE_MOVE ∧
                (u.cur_x_loc ≠ u.go_x_loc ∨ u.cur_y_loc ≠ u.go_y_loc)) ∨
              (u.nation_recno = nation_recno ∧ u.cur_action = w.SPRITE_IDLE ∧
                u.action_mode = w.ACTION_STOP ∧ u.action_mode2 = w.ACTION_STOP ∧
                (u.ai_unit = 0 ∨ u.ai_action_id = 0)))) ∧
              (xLoc + i ≥ buildX ∧ xLoc + i < buildX + buildWidth ∧ yLoc + j ≥ buildY ∧
            yLoc + j < buildY + buildHeight)) := fun h => hC h.1
          rw [if_neg n1, if_neg (fun h => h.1.2 rfl)]

/-- C16: the value that CreateAreaSchematic returns is the number of cells of the
buffer it returns that hold a movable handle (neither 0 nor AREA_BLOCKED) and
whose map cell lies in the footprint rectangle; a movable handle in the margin is
not counted.  CreateAreaSchematic returns whenever `unit_array` holds every unit
that the map reports; the `sprite_recno` of a unit is an `int`, at most
INT_MAX. -/
theorem schematic_count_is_footprint_handles (w : World)
    (mobileType xLoc yLoc width height nation_recno builder_recno
      buildX buildY buildWidth buildHeight : Int) (area0 : Area)
    (hint : ∀ r u, w.unit_array r = some u → u.sprite_recno ≤ INT_MAX) :
    ((∀ x y, w.has_unit x y mobileType = true →
        w.unit_array (w.unit_recno x y mobileType) ≠ none) →
      ∃ r, CreateAreaSchematic area0 w mobileType xLoc yLoc width height nation_recno
        builder_recno buildX buildY buildWidth buildHeight = some r) ∧
    ∀ r, CreateAreaSchematic area0 w mobileType xLoc yLoc width height nation_recno
        builder_recno buildX buildY buildWidth buildHeight = some r →
      r.1 = footprintHandleCount r.2 xLoc yLoc width height buildX buildY buildWidth
        buildHeight := by
  obtain ⟨hret, hspec⟩ := CreateAreaSchematic_spec w mobileType xLoc yLoc width height
    nation_recno builder_recno buildX buildY buildWidth buildHeight area0
  constructor
  · intro hunits
    apply hret
    intro j i _ _ _ _
    cases hf : (schematicProbe w mobileType xLoc yLoc width nation_recno builder_recno
      buildX buildY buildWidth buildHeight j i).fault with
    | false => rfl
    | true =>
      obtain ⟨_, _, hhas, hnone⟩ := (schematicProbe_fault w mobileType xLoc yLoc width
        nation_recno builder_recno buildX buildY buildWidth buildHeight j i).1 hf
      exact absurd hnone (hunits _ _ hhas)
  · intro r hr
    obtain ⟨hcells, _, hocc⟩ := hspec r hr
    rw [hocc]
    unfold footprintHandleCount
    apply Finset.sum_congr rfl
    intro j hj
    apply Finset.sum_congr rfl
    intro i hi
    rw [Finset.mem_range] at hj hi
    obtain ⟨hf, hval⟩ := hcells (j : Int) (i : Int) (by omega) (by omega) (by omega) (by omega)
    rw [hval]
    exact schematicProbe_count w mobileType xLoc yLoc width nation_recno builder_recno
      buildX buildY buildWidth buildHeight j i (fun u hu => hint _ u hu) hf

/-- Witness for C16: the schematic of the 1 x 1 footprint `(10, 10)` in
`loneUnitWorld`, whose single own idle unit stands in the footprint. -/
theorem schematic_count_is_footprint_handles_witness :
    (∀ r u, loneUnitWorld.unit_array r = some u → u.sprite_recno ≤ INT_MAX) ∧
    (CreateAreaSchematic (fun _ => 0) loneUnitWorld 1 8 8 5 5 1 1 10 10 1 1).map Prod.fst
      = some 1 ∧
    ∀ r, CreateAreaSchematic (fun _ => 0) loneUnitWorld 1 8 8 5 5 1 1 10 10 1 1 = some r →
      r.1 = footprintHandleCount r.2 8 8 5 5 10 10 1 1 := by
  have hint : ∀ r u, loneUnitWorld.unit_array r = some u → u.sprite_recno ≤ INT_MAX := by
    intro r u h
    unfold loneUnitWorld at h
    simp only at h
    split_ifs at h <;> simp only [Option.some.injEq] at h <;> subst h <;> decide
  exact ⟨hint, by decide,
    (schematic_count_is_footprint_handles loneUnitWorld 1 8 8 5 5 1 1 10 10 1 1 (fun _ => 0)
      hint).2⟩

/-- What CreateAreaSchematic writes to a cell of the scan area whose location the
code fetches (its test is `x >= 0 && x < MAX_WORLD_X_LOC && y >= 0 &&
y < MAX_WORLD_X_LOC`): AREA_BLOCKED if the location is not accessible, 0 if it is
accessible and has no unit, and for a unit the handle when the unit is not the
builder, has a positive `sprite_recno` and is moving to another location or is an
idle unit of the nation without an action, AREA_BLOCKED otherwise. -/
theorem CreateAreaSchematic_classifies (w : World)
    (mobileType xLoc yLoc width height nation_recno builder_recno
      buildX buildY buildWidth buildHeight : Int) (area0 : Area) (r : Int × Area)
    (hr : CreateAreaSchematic area0 w mobileType xLoc yLoc width height nation_recno
      builder_recno buildX buildY buildWidth buildHeight = some r)
    (j i : Int) (hj0 : 0 ≤ j) (hj1 : j < height) (hi0 : 0 ≤ i) (hi1 : i < width)
    (hloc : xLoc + i ≥ 0 ∧ xLoc + i < w.MAX_WORLD_X_LOC ∧ yLoc + j ≥ 0 ∧
      yLoc + j < w.MAX_WORLD_X_LOC) :
    (w.is_accessible (xLoc + i) (yLoc + j) mobileType = false →
      r.2 (j * width + i) = AREA_BLOCKED) ∧
    (w.is_accessible (xLoc + i) (yLoc + j) mobileType = true →
      w.has_unit (xLoc + i) (yLoc + j) mobileType = false → r.2 (j * width + i) = 0) ∧
    (w.is_accessible (xLoc + i) (yLoc + j) mobileType = true →
      w.has_unit (xLoc + i) (yLoc + j) mobileType = true →
      ∃ u, w.unit_array (w.unit_recno (xLoc + i) (yLoc + j) mobileType) = some u ∧
        r.2 (j * width + i) =
          (if u.sprite_recno ≠ builder_recno ∧ 0 < u.sprite_recno ∧
              ((u.cur_action = w.SPRITE_MOVE ∧
                  (u.cur_x_loc ≠ u.go_x_loc ∨ u.cur_y_loc ≠ u.go_y_loc)) ∨
                (u.nation_recno = nation_recno ∧ u.cur_action = w.SPRITE_IDLE ∧
                  u.action_mode = w.ACTION_STOP ∧ u.action_mode2 = w.ACTION_STOP ∧
                  (u.ai_unit = 0 ∨ u.ai_action_id = 0))) then toLocFlag u.sprite_recno
            else AREA_BLOCKED)) := by
  obtain ⟨hf, hval⟩ := ((CreateAreaSchematic_spec w mobileType xLoc yLoc width height
    nation_recno builder_recno buildX buildY buildWidth buildHeight area0).2 r hr).1
    j i hj0 hj1 hi0 hi1
  rw [hval]
  refine ⟨?_, ?_, ?_⟩
  · intro hacc
    exact (schematicProbe_blocked w mobileType xLoc yLoc width nation_recno builder_recno
      buildX buildY buildWidth buildHeight j i (Or.inr hacc)).1
  · intro hacc hno
    exact (schematicProbe_free w mobileType xLoc yLoc width nation_recno builder_recno
      buildX buildY buildWidth buildHeight j i hloc hacc hno).1
  · intro hacc hhas
    cases hu : w.unit_array (w.unit_recno (xLoc + i) (yLoc + j) mobileType) with
    | none =>
      have := (schematicProbe_fault w mobileType xLoc yLoc width nation_recno
        builder_recno buildX buildY buildWidth buildHeight j i).2 ⟨hloc, hacc, hhas, hu⟩
      rw [this] at hf
      exact absurd hf (by simp)
    | some u =>
      exact ⟨u, rfl, (schematicProbe_unit w mobileType xLoc yLoc width nation_recno
        builder_recno buildX buildY buildWidth buildHeight j i u hloc hacc hhas hu).1⟩

/-- C14 fails on the code where the map has more rows than columns: on the
100 x 200 map `tallWorld` the call for the 1 x 1 footprint `(10, 150)` is accepted;
the map cell `(10, 150)` is inside the map, accessible and holds an idle unit of
the nation, not the builder, with the handle 2, and the map cell `(11, 150)` is
inside the map, accessible and free; CreateAreaSchematic writes AREA_BLOCKED for
both and counts no occupant, because it compares `y` with MAX_WORLD_X_LOC, and the
call ends without a command. -/
theorem in_map_cell_is_blocked :
    badArguments tallWorld 10 150 1 1 1 1 = false ∧
    ((0 : Int) ≤ 10 ∧ 10 < tallWorld.MAX_WORLD_X_LOC ∧ (0 : Int) ≤ 150 ∧
      150 < tallWorld.MAX_WORLD_Y_LOC) ∧
    tallWorld.is_accessible 10 150 1 = true ∧ tallWorld.has_unit 10 150 1 = true ∧
    tallWorld.unit_array (tallWorld.unit_recno 10 150 1) = some (idleUnit 2 1 10 150) ∧
    tallWorld.is_accessible 11 150 1 = true ∧ tallWorld.has_unit 11 150 1 = false ∧
    (CreateAreaSchematic (fun _ => 0) tallWorld 1 (geometry 10 150 1 1).xLoc
        (geometry 10 150 1 1).yLoc (geometry 10 150 1 1).width (geometry 10 150 1 1).height
        1 1 10 150 1 1).map
      (fun r => (r.1, r.2 (2 * (geometry 10 150 1 1).width + 2),
        r.2 (2 * (geometry 10 150 1 1).width + 3)))
      = some (0, AREA_BLOCKED, AREA_BLOCKED) ∧
    (VacateIdleOfNation roomyArea tallWorld none (fun _ => 0) 76 10 150 1 1 1 1).toOption.map
      (fun out => (out.exit, out.commands)) = some (Exit.noOccupants, []) := by
  decide

/-- C15 fails on the code where the map has more columns than rows: on the
200 x 100 map `wideWorld` the call for the 1 x 1 footprint `(10, 98)` is accepted
and its scan area reaches the row `y = 100`, which is outside the map
(`y >= MAX_WORLD_Y_LOC`); CreateAreaSchematic compares `y` with MAX_WORLD_X_LOC,
fetches the location `(10, 100)` and writes what the map answers for it, here 0,
not AREA_BLOCKED, while for the column `x = 200` of a footprint at the right edge
it does write AREA_BLOCKED. -/
theorem off_map_row_is_queried :
    badArguments wideWorld 10 98 1 1 1 1 = false ∧
    (geometry 10 98 1 1).yLoc + 4 = 100 ∧ (geometry 10 98 1 1).xLoc + 2 = 10 ∧
    (4 < (geometry 10 98 1 1).height ∧ 2 < (geometry 10 98 1 1).width) ∧
    wideWorld.MAX_WORLD_Y_LOC ≤ 100 ∧
    (CreateAreaSchematic (fun _ => AREA_BLOCKED) wideWorld 1 (geometry 10 98 1 1).xLoc
        (geometry 10 98 1 1).yLoc (geometry 10 98 1 1).width (geometry 10 98 1 1).height
        1 1 10 98 1 1).map
      (fun r => r.2 (4 * (geometry 10 98 1 1).width + 2)) = some 0 ∧
    badArguments wideWorld 198 10 1 1 1 1 = false ∧
    (geometry 198 10 1 1).xLoc + 4 = 200 ∧
    (CreateAreaSchematic (fun _ => 0) wideWorld 1 (geometry 198 10 1 1).xLoc
        (geometry 198 10 1 1).yLoc (geometry 198 10 1 1).width (geometry 198 10 1 1).height
        1 1 198 10 1 1).map
      (fun r => r.2 (2 * (geometry 198 10 1 1).width + 4)) = some AREA_BLOCKED := by
  decide

/-! ### C17, C18: the commands of MoveAccordingToSchematic -/

/-- The body of the loops of `MoveAccordingToSchematic` appends at most one command
to the commands issued so far, and a command it appends is for the movable handle
of its cell. -/
theorem MoveAccordingToSchematicCell_appends (area : Area) (w : World)
    (width height xLoc yLoc buildX buildY buildWith buildHeight
      R0x R0y R0Width R0Height outlineRing outlineRingLength : Int) (j i : Int) (s : MoveState) :
    ∃ l : List MoveCmd,
      (MoveAccordingToSchematicCell area w width height xLoc yLoc buildX buildY buildWith
        buildHeight R0x R0y R0Width R0Height outlineRing outlineRingLength j i s).commands
        = s.commands ++ l ∧
      l.length ≤ 1 ∧
      ∀ c ∈ l, (area (j * width + i) ≠ 0 ∧ area (j * width + i) ≠ AREA_BLOCKED) ∧
        c.recno = flagToInt (area (j * width + i)) := by
  unfold MoveAccordingToSchematicCell
  simp only
  by_cases hmov : area (j * width + i) ≠ 0 ∧ area (j * width + i) ≠ AREA_BLOCKED
  · rw [if_pos hmov]
    cases w.unit_array (flagToInt (area (j * width + i))) with
    | none => exact ⟨[], by simp, by simp, by simp⟩
    | some unit =>
      simp only
      by_cases hin : xLoc + i ≥ buildX ∧ xLoc + i < buildX + buildWith ∧ yLoc + j ≥ buildY ∧
          yLoc + j < buildY + buildHeight
      · rw [if_pos hin]
        simp only
        split_ifs
        all_goals first
          | exact ⟨[_], rfl, by simp, by
              intro c hc
              rw [List.mem_singleton] at hc
              subst hc
              exact ⟨hmov, rfl⟩⟩
          | exact ⟨[], by simp, by simp, by simp⟩
      · rw [if_neg hin]
        simp only
        split_ifs
        · exact ⟨[_], rfl, by simp, by
            intro c hc
            rw [List.mem_singleton] at hc
            subst hc
            exact ⟨hmov, rfl⟩⟩
        · exact ⟨[], by simp, by simp, by simp⟩
  · rw [if_neg hmov]
    exact ⟨[], by simp, by simp, by simp⟩

/-- At a cell outside the footprint that holds a movable handle with a unit behind
it, the body of the loops of `MoveAccordingToSchematic` takes the map cell of the
buffer cell as the target and issues the command exactly when the next location of
the unit differs from it. -/
theorem MoveAccordingToSchematicCell_outside (area : Area) (w : World)
    (width height xLoc yLoc buildX buildY buildWith buildHeight
      R0x R0y R0Width R0Height outlineRing outlineRingLength : Int) (j i : Int) (s : MoveState)
    (unit : Unit)
    (hmov : area (j * width + i) ≠ 0 ∧ area (j * width + i) ≠ AREA_BLOCKED)
    (hunit : w.unit_array (flagToInt (area (j * width + i))) = some unit)
    (hout : ¬ (xLoc + i ≥ buildX ∧ xLoc + i < buildX + buildWith ∧ yLoc + j ≥ buildY ∧
      yLoc + j < buildY + buildHeight)) :
    (MoveAccordingToSchematicCell area w width height xLoc yLoc buildX buildY buildWith
      buildHeight R0x R0y R0Width R0Height outlineRing outlineRingLength j i s).commands =
      (if unit.next_x_loc ≠ xLoc + i ∨ unit.next_y_loc ≠ yLoc + j then
        s.commands ++ [{ recno := flagToInt (area (j * width + i)), x := xLoc + i, y := yLoc + j }]
      else s.commands) := by
  unfold MoveAccordingToSchematicCell
  simp only
  rw [if_pos hmov, hunit]
  simp only
  rw [if_neg hout]

/-- At a footprint cell that holds a movable handle with a unit behind it, the body
of the loops of `MoveAccordingToSchematic` takes a position of ring `outlineRing`,
as `RingIndexToXY` gives it, as the target and issues the command exactly when the
next location of the unit differs from it. -/
theorem MoveAccordingToSchematicCell_inside (area : Area) (w : World)
    (width height xLoc yLoc buildX buildY buildWith buildHeight
      R0x R0y R0Width R0Height outlineRing outlineRingLength : Int) (j i : Int) (s : MoveState)
    (unit : Unit)
    (hmov : area (j * width + i) ≠ 0 ∧ area (j * width + i) ≠ AREA_BLOCKED)
    (hunit : w.unit_array (flagToInt (area (j * width + i))) = some unit)
    (hin : xLoc + i ≥ buildX ∧ xLoc + i < buildX + buildWith ∧ yLoc + j ≥ buildY ∧
      yLoc + j < buildY + buildHeight) :
    ∃ moveIndex : Int,
      (MoveAccordingToSchematicCell area w width height xLoc yLoc buildX buildY buildWith
        buildHeight R0x R0y R0Width R0Height outlineRing outlineRingLength j i s).commands =
        (if unit.next_x_loc ≠ (RingIndexToXY R0x R0y R0Width R0Height outlineRing moveIndex).1 ∨
            unit.next_y_loc ≠ (RingIndexToXY R0x R0y R0Width R0Height outlineRing moveIndex).2
          then
          s.commands ++
            [{ recno := flagToInt (area (j * width + i)),
               x := (RingIndexToXY R0x R0y R0Width R0Height outlineRing moveIndex).1,
               y := (RingIndexToXY R0x R0y R0Width R0Height outlineRing moveIndex).2 }]
        else s.commands) := by
  unfold MoveAccordingToSchematicCell
  simp only
  rw [if_pos hmov, hunit]
  simp only
  rw [if_pos hin]
  exact ⟨_, rfl⟩

/-- Every command that `MoveAccordingToSchematic` issues is for the movable handle
of a cell of the buffer, and there are at most as many commands as cells. -/
theorem MoveAccordingToSchematic_sources (area : Area) (w : World) (rnd : RandSource)
    (width height xLoc yLoc buildX buildY buildWith buildHeight
      R0x R0y R0Width R0Height outlineRing : Int) :
    (∀ c ∈ (MoveAccordingToSchematic area w rnd width height xLoc yLoc buildX buildY buildWith
        buildHeight R0x R0y R0Width R0Height outlineRing).1,
      ∃ j i, 0 ≤ j ∧ j < height ∧ 0 ≤ i ∧ i < width ∧
        (area (j * width + i) ≠ 0 ∧ area (j * width + i) ≠ AREA_BLOCKED) ∧
        c.recno = flagToInt (area (j * width + i))) ∧
    (MoveAccordingToSchematic area w rnd width height xLoc yLoc buildX buildY buildWith
        buildHeight R0x R0y R0Width R0Height outlineRing).1.length
      ≤ height.toNat * width.toNat := by
  unfold MoveAccordingToSchematic
  simp only
  have key := forLoop_inv
    (fun (j : Int) (s : MoveState) =>
      0 ≤ j ∧
      (∀ c ∈ s.commands, ∃ j' i, 0 ≤ j' ∧ j' < j ∧ 0 ≤ i ∧ i < width ∧
        (area (j' * width + i) ≠ 0 ∧ area (j' * width + i) ≠ AREA_BLOCKED) ∧
        c.recno = flagToInt (area (j' * width + i))) ∧
      s.commands.length ≤ j.toNat * width.toNat)
    (fun j s => forLoop (MoveAccordingToSchematicCell area w width height xLoc yLoc
        buildX buildY buildWith buildHeight R0x R0y R0Width R0Height outlineRing
        (RingLength R0Width R0Height outlineRing) j) width.toNat 0 s)
    height.toNat 0
    { desperationMoveIndex := rnd.random (RingLength R0Width R0Height outlineRing),
      rnd := rnd.next, commands := [] }
    (by
      intro j s hj0 hj1 ⟨_, hsrc, hlen⟩
      have inner := forLoop_inv
        (fun (i : Int) (t : MoveState) =>
          0 ≤ i ∧
          (∀ c ∈ t.commands, ∃ j' i', 0 ≤ j' ∧ (j' < j ∨ (j' = j ∧ i' < i)) ∧ 0 ≤ i' ∧
            i' < width ∧
            (area (j' * width + i') ≠ 0 ∧ area (j' * width + i') ≠ AREA_BLOCKED) ∧
            c.recno = flagToInt (area (j' * width + i'))) ∧
          t.commands.length ≤ j.toNat * width.toNat + i.toNat)
        (MoveAccordingToSchematicCell area w width height xLoc yLoc
          buildX buildY buildWith buildHeight R0x R0y R0Width R0Height outlineRing
          (RingLength R0Width R0Height outlineRing) j)
        width.toNat 0 s
        (by
          intro i t hi0 hi1 ⟨_, hQ, hL⟩
          obtain ⟨l, hl, hl1, hl2⟩ := MoveAccordingToSchematicCell_appends area w width height
            xLoc yLoc buildX buildY buildWith buildHeight R0x R0y R0Width R0Height outlineRing
            (RingLength R0Width R0Height outlineRing) j i t
          rw [hl]
          refine ⟨by omega, ?_, ?_⟩
          · intro c hc
            rcases List.mem_append.1 hc with h | h
            · obtain ⟨j', i', a1, a2, a3, a4, a5, a6⟩ := hQ c h
              exact ⟨j', i', a1, by omega, a3, a4, a5, a6⟩
            · obtain ⟨b1, b2⟩ := hl2 c h
              exact ⟨j, i, by omega, by omega, by omega, by omega, b1, b2⟩
          · rw [List.length_append]
            have e : (i + 1).toNat = i.toNat + 1 := by omega
            omega)
        ⟨le_refl _, fun c hc => by
            obtain ⟨j', i', a1, a2, a3, a4, a5, a6⟩ := hsrc c hc
            exact ⟨j', i', a1, Or.inl a2, a3, a4, a5, a6⟩,
          by simpa using hlen⟩
      obtain ⟨_, iQ, iL⟩ := inner
      refine ⟨by omega, ?_, ?_⟩
      · intro c hc
        obtain ⟨j', i', a1, a2, a3, a4, a5, a6⟩ := iQ c hc
        exact ⟨j', i', a1, by omega, a3, a4, a5, a6⟩
      · have e : (j + 1).toNat = j.toNat + 1 := by omega
        have e2 : (0 + (width.toNat : Int)).toNat = width.toNat := by omega
        rw [e, Nat.succ_mul]
        rw [e2] at iL
        exact iL)
    ⟨le_refl _, fun c hc => absurd hc (List.not_mem_nil c), by simp⟩
  obtain ⟨_, kQ, kL⟩ := key
  constructor
  · intro c hc
    obtain ⟨j', i', a1, a2, a3, a4, a5, a6⟩ := kQ c hc
    exact ⟨j', i', a1, by omega, a3, a4, a5, a6⟩
  · have e2 : (0 + (height.toNat : Int)).toNat = height.toNat := by omega
    rw [e2] at kL
    exact kL

/-- The command that the body of the loops of `MoveAccordingToSchematic` issues at a
cell outside the footprint is among the commands of `MoveAccordingToSchematic`. -/
theorem MoveAccordingToSchematic_outside (area : Area) (w : World) (rnd : RandSource)
    (width height xLoc yLoc buildX buildY buildWith buildHeight
      R0x R0y R0Width R0Height outlineRing : Int) (i0 j0 : Int)
    (hi0 : 0 ≤ i0) (hi1 : i0 < width) (hj0 : 0 ≤ j0) (hj1 : j0 < height) (unit : Unit)
    (hmov : area (j0 * width + i0) ≠ 0 ∧ area (j0 * width + i0) ≠ AREA_BLOCKED)
    (hunit : w.unit_array (flagToInt (area (j0 * width + i0))) = some unit)
    (hout : ¬ (xLoc + i0 ≥ buildX ∧ xLoc + i0 < buildX + buildWith ∧ yLoc + j0 ≥ buildY ∧
      yLoc + j0 < buildY + buildHeight))
    (hnext : unit.next_x_loc ≠ xLoc + i0 ∨ unit.next_y_loc ≠ yLoc + j0) :
    MoveCmd.mk (flagToInt (area (j0 * width + i0))) (xLoc + i0) (yLoc + j0) ∈
      (MoveAccordingToSchematic area w rnd width height xLoc yLoc buildX buildY buildWith
        buildHeight R0x R0y R0Width R0Height outlineRing).1 := by
  unfold MoveAccordingToSchematic
  simp only
  have key := forLoop_inv
    (fun (j : Int) (s : MoveState) =>
      j0 < j → MoveCmd.mk (flagToInt (area (j0 * width + i0))) (xLoc + i0) (yLoc + j0) ∈ s.commands)
    (fun j s => forLoop (MoveAccordingToSchematicCell area w width height xLoc yLoc
        buildX buildY buildWith buildHeight R0x R0y R0Width R0Height outlineRing
        (RingLength R0Width R0Height outlineRing) j) width.toNat 0 s)
    height.toNat 0
    { desperationMoveIndex := rnd.random (RingLength R0Width R0Height outlineRing),
      rnd := rnd.next, commands := [] }
    (by
      intro j s hjlo hjhi hP
      have inner := forLoop_inv
        (fun (i : Int) (t : MoveState) =>
          (j0 < j ∨ (j = j0 ∧ i0 < i)) →
            MoveCmd.mk (flagToInt (area (j0 * width + i0))) (xLoc + i0) (yLoc + j0) ∈ t.commands)
        (MoveAccordingToSchematicCell area w width height xLoc yLoc
          buildX buildY buildWith buildHeight R0x R0y R0Width R0Height outlineRing
          (RingLength R0Width R0Height outlineRing) j)
        width.toNat 0 s
        (by
          intro i t hilo hihi hQ hpos
          by_cases hhere : j = j0 ∧ i = i0
          · obtain ⟨e1, e2⟩ := hhere
            subst e1 e2
            rw [MoveAccordingToSchematicCell_outside area w width height xLoc yLoc buildX buildY
              buildWith buildHeight R0x R0y R0Width R0Height outlineRing _ j i t unit hmov hunit
              hout, if_pos hnext]
            exact List.mem_append_right _ (List.mem_singleton_self _)
          · obtain ⟨l, hl, _, _⟩ := MoveAccordingToSchematicCell_appends area w width height
              xLoc yLoc buildX buildY buildWith buildHeight R0x R0y R0Width R0Height outlineRing
              (RingLength R0Width R0Height outlineRing) j i t
            rw [hl]
            exact List.mem_append_left _ (hQ (by omega)))
        (fun hpos => hP (by omega))
      intro hpos
      exact inner (by omega))
    (fun hpos => absurd hpos (by omega))
  exact key (by omega)

/-- C18: in MoveAccordingToSchematic, at a buffer cell outside the footprint that
holds a movable handle whose unit the registry holds, the target is the map cell
of the buffer cell and the move_to command is issued exactly when the next
location of the unit differs from the target; at a footprint cell the command is
likewise issued exactly when the next location differs from the target computed
there; a buffer cell leads to at most one command, which is for the handle of the
cell, so there are at most `width * height` commands; and the command of a cell
outside the footprint is among the commands that MoveAccordingToSchematic
returns. -/
theorem move_orders_follow_schematic (area : Area) (w : World) (rnd : RandSource)
    (width height xLoc yLoc buildX buildY buildWith buildHeight
      R0x R0y R0Width R0Height outlineRing : Int) :
    (∀ (outlineRingLength j i : Int) (s : MoveState) (unit : Unit),
      (area (j * width + i) ≠ 0 ∧ area (j * width + i) ≠ AREA_BLOCKED) →
      w.unit_array (flagToInt (area (j * width + i))) = some unit →
      ¬ (xLoc + i ≥ buildX ∧ xLoc + i < buildX + buildWith ∧ yLoc + j ≥ buildY ∧
        yLoc + j < buildY + buildHeight) →
      (MoveAccordingToSchematicCell area w width height xLoc yLoc buildX buildY buildWith
        buildHeight R0x R0y R0Width R0Height outlineRing outlineRingLength j i s).commands =
        (if unit.next_x_loc ≠ xLoc + i ∨ unit.next_y_loc ≠ yLoc + j then
          s.commands ++ [MoveCmd.mk (flagToInt (area (j * width + i))) (xLoc + i) (yLoc + j)]
        else s.commands)) ∧
    (∀ (outlineRingLength j i : Int) (s : MoveState) (unit : Unit),
      (area (j * width + i) ≠ 0 ∧ area (j * width + i) ≠ AREA_BLOCKED) →
      w.unit_array (flagToInt (area (j * width + i))) = some unit →
      (xLoc + i ≥ buildX ∧ xLoc + i < buildX + buildWith ∧ yLoc + j ≥ buildY ∧
        yLoc + j < buildY + buildHeight) →
      ∃ moveIndex : Int,
        (MoveAccordingToSchematicCell area w width height xLoc yLoc buildX buildY buildWith
          buildHeight R0x R0y R0Width R0Height outlineRing outlineRingLength j i s).commands =
          (if unit.next_x_loc ≠ (RingIndexToXY R0x R0y R0Width R0Height outlineRing moveIndex).1 ∨
              unit.next_y_loc ≠ (RingIndexToXY R0x R0y R0Width R0Height outlineRing moveIndex).2
            then
            s.commands ++ [MoveCmd.mk (flagToInt (area (j * width + i)))
              (RingIndexToXY R0x R0y R0Width R0Height outlineRing moveIndex).1
              (RingIndexToXY R0x R0y R0Width R0Height outlineRing moveIndex).2]
          else s.commands)) ∧
    (∀ (outlineRingLength j i : Int) (s : MoveState),
      ∃ l : List MoveCmd,
        (MoveAccordingToSchematicCell area w width height xLoc yLoc buildX buildY buildWith
          buildHeight R0x R0y R0Width R0Height outlineRing outlineRingLength j i s).commands
          = s.commands ++ l ∧
        l.length ≤ 1 ∧
        ∀ c ∈ l, (area (j * width + i) ≠ 0 ∧ area (j * width + i) ≠ AREA_BLOCKED) ∧
          c.recno = flagToInt (area (j * width + i))) ∧
    (MoveAccordingToSchematic area w rnd width height xLoc yLoc buildX buildY buildWith
        buildHeight R0x R0y R0Width R0Height outlineRing).1.length
      ≤ height.toNat * width.toNat ∧
    (∀ (i j : Int) (unit : Unit), 0 ≤ i → i < width → 0 ≤ j → j < height →
      (area (j * width + i) ≠ 0 ∧ area (j * width + i) ≠ AREA_BLOCKED) →
      w.unit_array (flagToInt (area (j * width + i))) = some unit →
      ¬ (xLoc + i ≥ buildX ∧ xLoc + i < buildX + buildWith ∧ yLoc + j ≥ buildY ∧
        yLoc + j < buildY + buildHeight) →
      (unit.next_x_loc ≠ xLoc + i ∨ unit.next_y_loc ≠ yLoc + j) →
      MoveCmd.mk (flagToInt (area (j * width + i))) (xLoc + i) (yLoc + j) ∈
        (MoveAccordingToSchematic area w rnd width height xLoc yLoc buildX buildY buildWith
          buildHeight R0x R0y R0Width R0Height outlineRing).1) := by
  refine ⟨?_, ?_, ?_, ?_, ?_⟩
  · intro outlineRingLength j i s unit hmov hunit hout
    exact MoveAccordingToSchematicCell_outside area w width height xLoc yLoc buildX buildY
      buildWith buildHeight R0x R0y R0Width R0Height outlineRing outlineRingLength j i s unit
      hmov hunit hout
  · intro outlineRingLength j i s unit hmov hunit hin
    exact MoveAccordingToSchematicCell_inside area w width height xLoc yLoc buildX buildY
      buildWith buildHeight R0x R0y R0Width R0Height outlineRing outlineRingLength j i s unit
      hmov hunit hin
  · intro outlineRingLength j i s
    exact MoveAccordingToSchematicCell_appends area w width height xLoc yLoc buildX buildY
      buildWith buildHeight R0x R0y R0Width R0Height outlineRing outlineRingLength j i s
  · exact (MoveAccordingToSchematic_sources area w rnd width height xLoc yLoc buildX buildY
      buildWith buildHeight R0x R0y R0Width R0Height outlineRing).2
  · intro i j unit hi0 hi1 hj0 hj1 hmov hunit hout hnext
    exact MoveAccordingToSchematic_outside area w rnd width height xLoc yLoc buildX buildY
      buildWith buildHeight R0x R0y R0Width R0Height outlineRing i j hi0 hi1 hj0 hj1 unit hmov
      hunit hout hnext

/-- Witness for C18: in the 5 x 5 buffer of the 1 x 1 footprint `(10, 10)` the
handle 2 sits in the outline-ring cell `(1, 1)`, the map cell `(9, 9)`; unit 2
stands on `(10, 10)`, so it is ordered to `(9, 9)`. -/
theorem move_orders_follow_schematic_witness :
    (outlineHandleArea (1 * 5 + 1) ≠ 0 ∧ outlineHandleArea (1 * 5 + 1) ≠ AREA_BLOCKED) ∧
    loneUnitWorld.unit_array (flagToInt (outlineHandleArea (1 * 5 + 1)))
      = some (idleUnit 2 1 10 10) ∧
    MoveCmd.mk (flagToInt (outlineHandleArea (1 * 5 + 1))) (8 + 1) (8 + 1) ∈
      (MoveAccordingToSchematic outlineHandleArea loneUnitWorld (fun _ => 0) 5 5 8 8 10 10 1 1
        2 2 1 1 1).1 :=
  ⟨by decide, by decide,
    (move_orders_follow_schematic outlineHandleArea loneUnitWorld (fun _ => 0) 5 5 8 8 10 10 1 1
      2 2 1 1 1).2.2.2.2 1 1 (idleUnit 2 1 10 10) (by decide) (by decide) (by decide)
      (by decide) (by decide) (by decide) (by decide) (by decide)⟩

/-- C17 fails on the code: on `farWalledInWorld` the call for the 1 x 1 footprint
`(10, 10)` is accepted, unit 2 cannot leave the footprint cell, and the command
issued for it is `move_to(1, 1)`.  The target is position 0 of ring `outlineRing`
in buffer coordinates; the scan area starts at the map cell `(8, 8)`, so the
boundary ring of the footprint is the border of `[9, 11] x [9, 11]` on the map, and
`(1, 1)` is not a cell of it. -/
theorem desperation_target_off_the_outline :
    badArguments farWalledInWorld 10 10 1 1 1 1 = false ∧
    (VacateIdleOfNation roomyArea farWalledInWorld none (fun _ => 0) 76
        10 10 1 1 1 1).toOption.map
      (fun out => (out.exit, out.commands,
        out.self._Area.map (fun a => a (2 * (geometry 10 10 1 1).width + 2))))
      = some (Exit.completed 1, [MoveCmd.mk 2 1 1], some 2) ∧
    RingIndexToXY (geometry 10 10 1 1).R0x (geometry 10 10 1 1).R0y (geometry 10 10 1 1).R0Width
      (geometry 10 10 1 1).R0Height (geometry 10 10 1 1).outlineRing 0 = (1, 1) ∧
    ((geometry 10 10 1 1).xLoc + 1, (geometry 10 10 1 1).yLoc + 1) = (9, 9) ∧
    ¬ ((10 : Int) - 1 ≤ 1 ∧ (1 : Int) ≤ 10 + 1 ∧ (10 : Int) - 1 ≤ 1 ∧ (1 : Int) ≤ 10 + 1) := by
  decide

/-! ### C11: a unit that is an obstacle -/

/-- An accepted call of `VacateIdleOfNation` that returns normally and had a buffer:
the final buffer has the blocked cells of the schematic that `CreateAreaSchematic`
built, and the commands are none or those of `MoveAccordingToSchematic` on the final
buffer. -/
theorem VacateIdleOfNation_ok_blocked (self : VacateArea) (w : World) (fresh : Option Area)
    (rnd : RandSource) (fuel : Nat)
    (buildxLoc buildyLoc buildWidth buildHeight nation_recno builder_recno : Int)
    (out : Outcome)
    (hargs : badArguments w buildxLoc buildyLoc buildWidth buildHeight nation_recno builder_recno
      = false)
    (hrun : VacateIdleOfNation self w fresh rnd fuel buildxLoc buildyLoc buildWidth buildHeight
      nation_recno builder_recno = .ok out) :
    out.exit = Exit.allocFailed ∨
    ∃ (builder : Unit) (area0 : Area) (r0 : Int × Area) (area : Area),
      w.unit_array builder_recno = some builder ∧
      CreateAreaSchematic area0 w builder.mobile_type
        (geometry buildxLoc buildyLoc buildWidth buildHeight).xLoc
        (geometry buildxLoc buildyLoc buildWidth buildHeight).yLoc
        (geometry buildxLoc buildyLoc buildWidth buildHeight).width
        (geometry buildxLoc buildyLoc buildWidth buildHeight).height
        nation_recno builder_recno buildxLoc buildyLoc buildWidth buildHeight = some r0 ∧
      SameBlocked r0.2 area ∧
      out.self._Area = some area ∧
      ((out.exit = Exit.noOccupants ∧ r0.1 = 0 ∧ out.commands = []) ∨
        ∃ rnd4, out.commands =
          (MoveAccordingToSchematic area w rnd4
            (geometry buildxLoc buildyLoc buildWidth buildHeight).width
            (geometry buildxLoc buildyLoc buildWidth buildHeight).height
            (geometry buildxLoc buildyLoc buildWidth buildHeight).xLoc
            (geometry buildxLoc buildyLoc buildWidth buildHeight).yLoc
            buildxLoc buildyLoc buildWidth buildHeight
            (geometry buildxLoc buildyLoc buildWidth buildHeight).R0x
            (geometry buildxLoc buildyLoc buildWidth buildHeight).R0y
            (geometry buildxLoc buildyLoc buildWidth buildHeight).R0Width
            (geometry buildxLoc buildyLoc buildWidth buildHeight).R0Height
            (geometry buildxLoc buildyLoc buildWidth buildHeight).outlineRing).1) := by
  unfold VacateIdleOfNation at hrun
  simp only [hargs, Bool.false_eq_true, if_false] at hrun
  split at hrun
  · simp only [Except.ok.injEq] at hrun
    subst hrun
    left; rfl
  · right
    split at hrun
    · simp at hrun
    · simp at hrun
    · rename_i builder area0 hb ha
      split at hrun
      · simp at hrun
      · rename_i occ0 area1 hc
        split at hrun
        · simp only [Except.ok.injEq] at hrun
          subst hrun
          rename_i hz
          exact ⟨builder, area0, (occ0, area1), area1, hb, hc, SameBlocked_refl _, rfl,
            Or.inl ⟨rfl, hz, rfl⟩⟩
        · split at hrun
          · simp at hrun
          · rename_i occ1 area2 rnd2 hp
            split at hrun
            · simp at hrun
            · rename_i occ4 area4 rnd4 hq
              simp only [Except.ok.injEq] at hrun
              subst hrun
              have h12 : SameBlocked area1 area2 :=
                PushRingsLoop_blocked 3 _ _ _ _ _ _ _ fuel area1 rnd (-1) (occ1, area2, rnd2) hp
              generalize hr3 : (if occ1 ≠ 0 then
                  FillOutline area2 rnd2 occ1
                    (geometry buildxLoc buildyLoc buildWidth buildHeight).width
                    (geometry buildxLoc buildyLoc buildWidth buildHeight).height
                    (geometry buildxLoc buildyLoc buildWidth buildHeight).R0x
                    (geometry buildxLoc buildyLoc buildWidth buildHeight).R0y
                    (geometry buildxLoc buildyLoc buildWidth buildHeight).R0Width
                    (geometry buildxLoc buildyLoc buildWidth buildHeight).R0Height
                    (geometry buildxLoc buildyLoc buildWidth buildHeight).outlineRing
                else (occ1, area2, rnd2)) = r3 at hq
              have h23 : SameBlocked area2 r3.2.1 := by
                rw [← hr3]
                split_ifs
                · exact FillOutline_blocked _ _ _ _ _ _ _ _ _ _
                · exact SameBlocked_refl _
              have h34 : SameBlocked r3.2.1 area4 := by
                by_cases hz3 : r3.1 ≠ 0
                · rw [if_pos hz3] at hq
                  exact PushQueues_blocked _ _ _ _ _ _ _ _ _ _ (occ4, area4, rnd4) hq
                · rw [if_neg hz3] at hq
                  simp only [Option.some.injEq] at hq
                  rw [hq]
                  exact SameBlocked_refl _
              exact ⟨builder, area0, (occ0, area1), area4, hb, hc,
                SameBlocked_trans h12 (SameBlocked_trans h23 h34), rfl, Or.inr ⟨rnd4, rfl⟩⟩

/-- The cell of a unit that belongs to another nation and is idle gets AREA_BLOCKED
and is not counted, whatever the map says about the cell otherwise. -/
theorem schematicProbe_foreign_idle (w : World)
    (mobileType xLoc yLoc width nation_recno builder_recno buildX buildY buildWidth buildHeight : Int)
    (j i : Int) (u : Unit)
    (hhas : w.has_unit (xLoc + i) (yLoc + j) mobileType = true)
    (hu : w.unit_array (w.unit_recno (xLoc + i) (yLoc + j) mobileType) = some u)
    (hforeign : u.nation_recno ≠ nation_recno) (hidle : u.cur_action = w.SPRITE_IDLE)
    (hconst : w.SPRITE_IDLE ≠ w.SPRITE_MOVE) :
    (schematicProbe w mobileType xLoc yLoc width nation_recno builder_recno
      buildX buildY buildWidth buildHeight j i).fault = false ∧
    (schematicProbe w mobileType xLoc yLoc width nation_recno builder_recno
      buildX buildY buildWidth buildHeight j i).area (j * width + i) = AREA_BLOCKED ∧
    (schematicProbe w mobileType xLoc yLoc width nation_recno builder_recno
      buildX buildY buildWidth buildHeight j i).occupancy = 0 := by
  have hfault : (schematicProbe w mobileType xLoc yLoc width nation_recno builder_recno
      buildX buildY buildWidth buildHeight j i).fault = false := by
    cases hf : (schematicProbe w mobileType xLoc yLoc width nation_recno builder_recno
      buildX buildY buildWidth buildHeight j i).fault with
    | false => rfl
    | true =>
      obtain ⟨_, _, _, hnone⟩ := (schematicProbe_fault w mobileType xLoc yLoc width
        nation_recno builder_recno buildX buildY buildWidth buildHeight j i).1 hf
      rw [hu] at hnone
      exact absurd hnone (by simp)
  refine ⟨hfault, ?_⟩
  by_cases hb : ¬ (xLoc + i ≥ 0 ∧ xLoc + i < w.MAX_WORLD_X_LOC ∧ yLoc + j ≥ 0 ∧
        yLoc + j < w.MAX_WORLD_X_LOC) ∨
      w.is_accessible (xLoc + i) (yLoc + j) mobileType = false
  · exact schematicProbe_blocked w mobileType xLoc yLoc width nation_recno
      builder_recno buildX buildY buildWidth buildHeight j i hb
  · have hloc : xLoc + i ≥ 0 ∧ xLoc + i < w.MAX_WORLD_X_LOC ∧ yLoc + j ≥ 0 ∧
        yLoc + j < w.MAX_WORLD_X_LOC := not_not.1 (fun h => hb (Or.inl h))
    have hacc : w.is_accessible (xLoc + i) (yLoc + j) mobileType = true := by
      cases h : w.is_accessible (xLoc + i) (yLoc + j) mobileType with
      | true => rfl
      | false => exact absurd (Or.inr h) hb
    obtain ⟨e1, e2⟩ := schematicProbe_unit w mobileType xLoc yLoc width nation_recno
      builder_recno buildX buildY buildWidth buildHeight j i u hloc hacc hhas hu
    have hC : ¬ (u.sprite_recno ≠ builder_recno ∧ 0 < u.sprite_recno ∧
        ((u.cur_action = w.SPRITE_MOVE ∧
            (u.cur_x_loc ≠ u.go_x_loc ∨ u.cur_y_loc ≠ u.go_y_loc)) ∨
          (u.nation_recno = nation_recno ∧ u.cur_action = w.SPRITE_IDLE ∧
            u.action_mode = w.ACTION_STOP ∧ u.action_mode2 = w.ACTION_STOP ∧
            (u.ai_unit = 0 ∨ u.ai_action_id = 0)))) := by
      rintro ⟨_, _, h | h⟩
      · rw [hidle] at h
        exact hconst h.1
      · exact hforeign h.1
    have hCF : ¬ ((u.sprite_recno ≠ builder_recno ∧ 0 < u.sprite_recno ∧
        ((u.cur_action = w.SPRITE_MOVE ∧
            (u.cur_x_loc ≠ u.go_x_loc ∨ u.cur_y_loc ≠ u.go_y_loc)) ∨
          (u.nation_recno = nation_recno ∧ u.cur_action = w.SPRITE_IDLE ∧
            u.action_mode = w.ACTION_STOP ∧ u.action_mode2 = w.ACTION_STOP ∧
            (u.ai_unit = 0 ∨ u.ai_action_id = 0)))) ∧
        (xLoc + i ≥ buildX ∧ xLoc + i < buildX + buildWidth ∧ yLoc + j ≥ buildY ∧
          yLoc + j < buildY + buildHeight)) := fun h => hC h.1
    rw [if_neg hC] at e1
    rw [if_neg hCF] at e2
    exact ⟨e1, e2⟩

/-- C11, as the code behaves: for a unit that stands on a cell of the scan area (a
footprint cell or a margin cell), belongs to another nation and is idle
(SPRITE_IDLE, which is not SPRITE_MOVE), the body of CreateAreaSchematic writes
AREA_BLOCKED to its cell and leaves the occupancy count as it is; and after an
accepted call that returned normally and had a buffer, the cell still holds
AREA_BLOCKED in the final buffer, so no stage has relocated the unit, and every
move_to command issued is for the movable handle of another cell: the unit is not
counted and is given no order. -/
theorem foreign_idle_unit_is_an_obstacle (self : VacateArea) (w : World) (fresh : Option Area)
    (rnd : RandSource) (fuel : Nat)
    (buildxLoc buildyLoc buildWidth buildHeight nation_recno builder_recno : Int)
    (i j : Int) (builder u : Unit)
    (hargs : badArguments w buildxLoc buildyLoc buildWidth buildHeight nation_recno builder_recno
      = false)
    (hi : 0 ≤ i ∧ i < (geometry buildxLoc buildyLoc buildWidth buildHeight).width)
    (hj : 0 ≤ j ∧ j < (geometry buildxLoc buildyLoc buildWidth buildHeight).height)
    (hbuilder : w.unit_array builder_recno = some builder)
    (hhas : w.has_unit ((geometry buildxLoc buildyLoc buildWidth buildHeight).xLoc + i)
      ((geometry buildxLoc buildyLoc buildWidth buildHeight).yLoc + j) builder.mobile_type = true)
    (hu : w.unit_array (w.unit_recno
      ((geometry buildxLoc buildyLoc buildWidth buildHeight).xLoc + i)
      ((geometry buildxLoc buildyLoc buildWidth buildHeight).yLoc + j) builder.mobile_type)
      = some u)
    (hforeign : u.nation_recno ≠ nation_recno) (hidle : u.cur_action = w.SPRITE_IDLE)
    (hconst : w.SPRITE_IDLE ≠ w.SPRITE_MOVE) :
    (∀ s : SchematicState,
      (CreateAreaSchematicCell w builder.mobile_type
        (geometry buildxLoc buildyLoc buildWidth buildHeight).xLoc
        (geometry buildxLoc buildyLoc buildWidth buildHeight).yLoc
        (geometry buildxLoc buildyLoc buildWidth buildHeight).width
        nation_recno builder_recno buildxLoc buildyLoc buildWidth buildHeight j i s).area
        (j * (geometry buildxLoc buildyLoc buildWidth buildHeight).width + i) = AREA_BLOCKED ∧
      (CreateAreaSchematicCell w builder.mobile_type
        (geometry buildxLoc buildyLoc buildWidth buildHeight).xLoc
        (geometry buildxLoc buildyLoc buildWidth buildHeight).yLoc
        (geometry buildxLoc buildyLoc buildWidth buildHeight).width
        nation_recno builder_recno buildxLoc buildyLoc buildWidth buildHeight j i s).occupancy
        = s.occupancy) ∧
    ∀ out, VacateIdleOfNation self w fresh rnd fuel buildxLoc buildyLoc buildWidth buildHeight
        nation_recno builder_recno = .ok out →
      out.exit = Exit.allocFailed ∨
      ∃ area, out.self._Area = some area ∧
        area (j * (geometry buildxLoc buildyLoc buildWidth buildHeight).width + i)
          = AREA_BLOCKED ∧
        ∀ c ∈ out.commands, ∃ j' i', 0 ≤ j' ∧
          j' < (geometry buildxLoc buildyLoc buildWidth buildHeight).height ∧ 0 ≤ i' ∧
          i' < (geometry buildxLoc buildyLoc buildWidth buildHeight).width ∧
          (j', i') ≠ (j, i) ∧
          (area (j' * (geometry buildxLoc buildyLoc buildWidth buildHeight).width + i') ≠ 0 ∧
            area (j' * (geometry buildxLoc buildyLoc buildWidth buildHeight).width + i')
              ≠ AREA_BLOCKED) ∧
          c.recno = flagToInt
            (area (j' * (geometry buildxLoc buildyLoc buildWidth buildHeight).width + i')) := by
  obtain ⟨pf, pa, po⟩ := schematicProbe_foreign_idle w builder.mobile_type
    (geometry buildxLoc buildyLoc buildWidth buildHeight).xLoc
    (geometry buildxLoc buildyLoc buildWidth buildHeight).yLoc
    (geometry buildxLoc buildyLoc buildWidth buildHeight).width
    nation_recno builder_recno buildxLoc buildyLoc buildWidth buildHeight j i u hhas hu
    hforeign hidle hconst
  constructor
  · intro s
    rw [CreateAreaSchematicCell_effect, pf, pa, po]
    simp [Area_write_same]
  · intro out hrun
    rcases VacateIdleOfNation_ok_blocked self w fresh rnd fuel buildxLoc buildyLoc buildWidth
      buildHeight nation_recno builder_recno out hargs hrun with h | h
    · exact Or.inl h
    · right
      obtain ⟨builder', area0, r0, area, hb', hc, hsame, harea, hcmd⟩ := h
      rw [hbuilder] at hb'
      simp only [Option.some.injEq] at hb'
      subst hb'
      have hcell := (((CreateAreaSchematic_spec w builder.mobile_type _ _ _ _ _ _ _ _ _ _
        area0).2 r0 hc).1 j i hj.1 hj.2 hi.1 hi.2).2
      rw [pa] at hcell
      have hfinal := (hsame _).2 hcell
      refine ⟨area, harea, hfinal, ?_⟩
      intro c hcin
      rcases hcmd with ⟨_, _, hnil⟩ | ⟨rnd4, hm⟩
      · rw [hnil] at hcin
        exact absurd hcin (List.not_mem_nil c)
      · rw [hm] at hcin
        obtain ⟨j', i', a1, a2, a3, a4, a5, a6⟩ :=
          (MoveAccordingToSchematic_sources area w rnd4 _ _ _ _ _ _ _ _ _ _ _ _ _).1 c hcin
        refine ⟨j', i', a1, a2, a3, a4, ?_, a5, a6⟩
        intro he
        simp only [Prod.mk.injEq] at he
        rw [he.1, he.2] at a5
        exact a5.2 hfinal

/-- Witness for C11 as amended: on `mixedWorld` the 2 x 1 footprint `(10, 10)`
holds the idle unit 2 of nation 2 on `(10, 10)` and the idle unit 3 of nation 1 on
`(11, 10)`; the call for nation 1 ends with the count 0, its only command is for
unit 3, and the cell of unit 2 holds AREA_BLOCKED in the final buffer. -/
theorem foreign_idle_unit_is_an_obstacle_witness :
    badArguments mixedWorld 10 10 2 1 1 1 = false ∧
    (VacateIdleOfNation roomyArea mixedWorld none (fun _ => 0) 91 10 10 2 1 1 1).toOption.map
      (fun out => (out.exit, out.commands,
        out.self._Area.map (fun a => a (2 * (geometry 10 10 2 1).width + 2))))
      = some (Exit.completed 0, [MoveCmd.mk 3 12 11], some AREA_BLOCKED) ∧
    ∀ out, VacateIdleOfNation roomyArea mixedWorld none (fun _ => 0) 91 10 10 2 1 1 1
        = .ok out →
      out.exit = Exit.allocFailed ∨
      ∃ area, out.self._Area = some area ∧
        area (2 * (geometry 10 10 2 1).width + 2) = AREA_BLOCKED ∧
        ∀ c ∈ out.commands, ∃ j' i', 0 ≤ j' ∧ j' < (geometry 10 10 2 1).height ∧ 0 ≤ i' ∧
          i' < (geometry 10 10 2 1).width ∧ (j', i') ≠ (2, 2) ∧
          (area (j' * (geometry 10 10 2 1).width + i') ≠ 0 ∧
            area (j' * (geometry 10 10 2 1).width + i') ≠ AREA_BLOCKED) ∧
          c.recno = flagToInt (area (j' * (geometry 10 10 2 1).width + i')) :=
  ⟨by decide, by decide,
    (foreign_idle_unit_is_an_obstacle roomyArea mixedWorld none (fun _ => 0) 91 10 10 2 1 1 1
      2 2 (idleUnit 1 1 50 50) (idleUnit 2 2 10 10) (by decide) (by decide) (by decide)
      (by decide) (by decide) (by decide) (by decide) (by decide) (by decide)).2⟩

/-- C11 as stated fails: on `foreignIdleWorld` the 1 x 1 footprint `(10, 10)` holds
the idle unit 2 of nation 2; the call for nation 1 is accepted, CreateAreaSchematic
writes AREA_BLOCKED for the cell and returns the count 0, not a count of at least
1, and the call returns there without a single move_to command: the unit is given
no order. -/
theorem foreign_idle_unit_counterexample :
    badArguments foreignIdleWorld 10 10 1 1 1 1 = false ∧
    foreignIdleWorld.has_unit 10 10 1 = true ∧
    foreignIdleWorld.unit_array (foreignIdleWorld.unit_recno 10 10 1)
      = some (idleUnit 2 2 10 10) ∧
    (idleUnit 2 2 10 10).nation_recno ≠ 1 ∧
    (idleUnit 2 2 10 10).cur_action = foreignIdleWorld.SPRITE_IDLE ∧
    (CreateAreaSchematic (fun _ => 0) foreignIdleWorld 1 (geometry 10 10 1 1).xLoc
        (geometry 10 10 1 1).yLoc (geometry 10 10 1 1).width (geometry 10 10 1 1).height
        1 1 10 10 1 1).map
      (fun r => (r.1, r.2 (2 * (geometry 10 10 1 1).width + 2))) = some (0, AREA_BLOCKED) ∧
    (VacateIdleOfNation roomyArea foreignIdleWorld none (fun _ => 0) 76
        10 10 1 1 1 1).toOption.map
      (fun out => (out.exit, out.commands,
        out.self._Area.map (fun a => a (2 * (geometry 10 10 1 1).width + 2))))
      = some (Exit.noOccupants, [], some AREA_BLOCKED) := by
  decide

/-! ### Allocation -/

/-- C21: with the result of the allocation given by `fresh`, AllocateArea returns
true and leaves the object as it is when `_Width * _Height >= width * height`;
after a call that returns true the recorded capacity is at least `width * height`
and at least the capacity before the call; after a call that returns false
`_Area` is null and `_Width = _Height = 0`; and an accepted call of
VacateIdleOfNation whose allocation fails returns at once, with that empty
object, an untouched random source and no move command. -/
theorem allocation_keeps_capacity (self : VacateArea) (fresh : Option Area) (width height : Int) :
    (self._Width * self._Height ≥ width * height →
      AllocateArea self fresh width height = (true, self)) ∧
    ((AllocateArea self fresh width height).1 = true →
      (AllocateArea self fresh width height).2._Width *
          (AllocateArea self fresh width height).2._Height ≥ width * height ∧
        (AllocateArea self fresh width height).2._Width *
          (AllocateArea self fresh width height).2._Height ≥ self._Width * self._Height) ∧
    ((AllocateArea self fresh width height).1 = false →
      (AllocateArea self fresh width height).2._Area = none ∧
        (AllocateArea self fresh width height).2._Width = 0 ∧
        (AllocateArea self fresh width height).2._Height = 0) ∧
    (∀ (w : World) (rnd : RandSource) (fuel : Nat)
        (buildxLoc buildyLoc buildWidth buildHeight nation_recno builder_recno : Int),
      badArguments w buildxLoc buildyLoc buildWidth buildHeight nation_recno builder_recno
        = false →
      (AllocateArea self fresh (geometry buildxLoc buildyLoc buildWidth buildHeight).width
        (geometry buildxLoc buildyLoc buildWidth buildHeight).height).1 = false →
      VacateIdleOfNation self w fresh rnd fuel buildxLoc buildyLoc buildWidth buildHeight
          nation_recno builder_recno
        = .ok { self := { _Width := 0, _Height := 0, _Area := none }, rnd := rnd,
                commands := [], exit := .allocFailed }) := by
  refine ⟨?_, ?_, ?_, ?_⟩
  · intro h
    unfold AllocateArea
    rw [if_pos h]
  · intro h
    unfold AllocateArea at h ⊢
    by_cases hc : self._Width * self._Height ≥ width * height
    · rw [if_pos hc]
      exact ⟨hc, le_refl _⟩
    · rw [if_neg hc] at h ⊢
      cases fresh with
      | none => simp at h
      | some a => exact ⟨le_refl _, by simp only; omega⟩
  · intro h
    unfold AllocateArea at h ⊢
    by_cases hc : self._Width * self._Height ≥ width * height
    · rw [if_pos hc] at h
      simp at h
    · rw [if_neg hc] at h ⊢
      cases fresh with
      | none => exact ⟨rfl, rfl, rfl⟩
      | some a => simp at h
  · intro w rnd fuel buildxLoc buildyLoc buildWidth buildHeight nation_recno builder_recno
      hargs hfail
    have hobj : (AllocateArea self fresh
        (geometry buildxLoc buildyLoc buildWidth buildHeight).width
        (geometry buildxLoc buildyLoc buildWidth buildHeight).height).2
          = { _Width := 0, _Height := 0, _Area := none } := by
      unfold AllocateArea at hfail ⊢
      by_cases hc : self._Width * self._Height ≥
          (geometry buildxLoc buildyLoc buildWidth buildHeight).width *
            (geometry buildxLoc buildyLoc buildWidth buildHeight).height
      · rw [if_pos hc] at hfail
        simp at hfail
      · rw [if_neg hc] at hfail ⊢
        cases fresh with
        | none => rfl
        | some a => simp at hfail
    unfold VacateIdleOfNation
    rw [if_neg (by rw [hargs]; decide)]
    simp only
    rw [if_pos hfail, hobj]

/-- Witness for C21: an object with room for 8 x 8 cells is asked for the 5 x 5
cells of a 1 x 1 footprint and keeps its buffer; asked for 9 x 9 cells when no
memory is left, it ends up empty. -/
theorem allocation_keeps_capacity_witness :
    AllocateArea roomyArea none 5 5 = (true, roomyArea) ∧
    ((AllocateArea roomyArea none 9 9).2._Area = none ∧
      (AllocateArea roomyArea none 9 9).2._Width = 0 ∧
      (AllocateArea roomyArea none 9 9).2._Height = 0) :=
  ⟨(allocation_keeps_capacity roomyArea none 5 5).1 (by decide),
   (allocation_keeps_capacity roomyArea none 9 9).2.2.1 (by decide)⟩

/-! ### The nominal target of `FindPushedSpot` -/

/-- The cell at a position on the top side of a ring. -/
theorem RingIndexToXY_top (R0x R0y R0Width R0Height R Index : Int)
    (h1 : Index < R0Width + 2 * R) :
    RingIndexToXY R0x R0y R0Width R0Height R Index = (R0x - R + Index, R0y - R) := by
  unfold RingIndexToXY
  rw [if_pos h1]

/-- The cell at a position on the right side of a ring. -/
theorem RingIndexToXY_right (R0x R0y R0Width R0Height R Index : Int)
    (h1 : R0Width + 2 * R ≤ Index)
    (h2 : Index - (R0Width + 2 * R) < R0Height - 2 + 2 * R) :
    RingIndexToXY R0x R0y R0Width R0Height R Index
      = (R0x + R0Width - 1 + R, R0y - R + 1 + (Index - (R0Width + 2 * R))) := by
  unfold RingIndexToXY
  simp only
  rw [if_neg (by omega), if_pos h2]

/-- The cell at a position on the bottom side of a ring. -/
theorem RingIndexToXY_bottom (R0x R0y R0Width R0Height R Index : Int)
    (h1 : R0Width + 2 * R ≤ Index)
    (h2 : R0Height - 2 + 2 * R ≤ Index - (R0Width + 2 * R))
    (h3 : Index - (R0Width + 2 * R) - (R0Height - 2 + 2 * R) < R0Width + 2 * R) :
    RingIndexToXY R0x R0y R0Width R0Height R Index
      = (R0x + R0Width - 1 + R - (Index - (R0Width + 2 * R) - (R0Height - 2 + 2 * R)),
         R0y + R0Height - 1 + R) := by
  unfold RingIndexToXY
  simp only
  rw [if_neg (by omega), if_neg (by omega), if_pos h3]

/-- The cell at a position on the left side of a ring. -/
theorem RingIndexToXY_left (R0x R0y R0Width R0Height R Index : Int)
    (h1 : R0Width + 2 * R ≤ Index)
    (h2 : R0Height - 2 + 2 * R ≤ Index - (R0Width + 2 * R))
    (h3 : R0Width + 2 * R ≤ Index - (R0Width + 2 * R) - (R0Height - 2 + 2 * R))
    (h4 : Index - (R0Width + 2 * R) - (R0Height - 2 + 2 * R) - (R0Width + 2 * R)
      < R0Height - 2 + 2 * R) :
    RingIndexToXY R0x R0y R0Width R0Height R Index
      = (R0x - R, R0y + R0Height - 1 - 1 + R -
          (Index - (R0Width + 2 * R) - (R0Height - 2 + 2 * R) - (R0Width + 2 * R))) := by
  unfold RingIndexToXY
  simp only
  rw [if_neg (by omega), if_neg (by omega), if_neg (by omega), if_pos h4]

/-- In a proper rectangular ring, the position `Index + indexShift + isCorner` of
the next ring is the cell one step outward from the cell at `Index`. -/
theorem outward_position (R0x R0y R0Width R0Height R Index k : Int)
    (hW : 2 ≤ R0Width + 2 * R) (hH : 2 ≤ R0Height + 2 * R)
    (hI0 : 0 ≤ Index) (hI1 : Index < 2 * (R0Width + 2 * R) + 2 * (R0Height - 2 + 2 * R))
    (hk : (Index = 0 ∧ k = 0) ∨ (0 < Index ∧ Index < R0Width + 2 * R - 1 ∧ k = Index + 1) ∨
      (Index = R0Width + 2 * R - 1 ∧ k = Index + 2) ∨
      (R0Width + 2 * R - 1 < Index ∧ Index < R0Width + 2 * R + R0Height - 1 + 2 * R - 1 ∧
        k = Index + 3) ∨
      (Index = R0Width + 2 * R + R0Height - 1 + 2 * R - 1 ∧ k = Index + 4) ∨
      (R0Width + 2 * R + R0Height - 1 + 2 * R - 1 < Index ∧
        Index < 2 * (R0Width + 2 * R) + 2 * (R0Height - 2 + 2 * R) - (R0Height + 2 * R - 1) ∧
        k = Index + 5) ∨
      (Index = 2 * (R0Width + 2 * R) + 2 * (R0Height - 2 + 2 * R) - (R0Height + 2 * R - 1) ∧
        k = Index + 6) ∨
      (2 * (R0Width + 2 * R) + 2 * (R0Height - 2 + 2 * R) - (R0Height + 2 * R - 1) < Index ∧
        k = Index + 7)) :
    RingIndexToXY R0x R0y R0Width R0Height (R + 1) k
      = outwardCell R0x R0y R0Width R0Height R
          (RingIndexToXY R0x R0y R0Width R0Height R Index) := by
  rcases hk with ⟨h, rfl⟩ | ⟨h1, h2, rfl⟩ | ⟨h, rfl⟩ | ⟨h1, h2, rfl⟩ | ⟨h, rfl⟩ |
    ⟨h1, h2, rfl⟩ | ⟨h, rfl⟩ | ⟨h, rfl⟩
  · rw [RingIndexToXY_top _ _ _ _ R Index (by omega),
      RingIndexToXY_top _ _ _ _ (R + 1) _ (by omega)]
    unfold outwardCell
    simp only [Prod.mk.injEq]
    constructor <;> split_ifs <;> omega
  · rw [RingIndexToXY_top _ _ _ _ R Index (by omega),
      RingIndexToXY_top _ _ _ _ (R + 1) _ (by omega)]
    unfold outwardCell
    simp only [Prod.mk.injEq]
    constructor <;> split_ifs <;> omega
  · rw [RingIndexToXY_top _ _ _ _ R Index (by omega),
      RingIndexToXY_top _ _ _ _ (R + 1) _ (by omega)]
    unfold outwardCell
    simp only [Prod.mk.injEq]
    constructor <;> split_ifs <;> omega
  · rw [RingIndexToXY_right _ _ _ _ R Index (by omega) (by omega),
      RingIndexToXY_right _ _ _ _ (R + 1) _ (by omega) (by omega)]
    unfold outwardCell
    simp only [Prod.mk.injEq]
    constructor <;> split_ifs <;> omega
  · rw [RingIndexToXY_bottom _ _ _ _ R Index (by omega) (by omega) (by omega),
      RingIndexToXY_bottom _ _ _ _ (R + 1) _ (by omega) (by omega) (by omega)]
    unfold outwardCell
    simp only [Prod.mk.injEq]
    constructor <;> split_ifs <;> omega
  · rw [RingIndexToXY_bottom _ _ _ _ R Index (by omega) (by omega) (by omega),
      RingIndexToXY_bottom _ _ _ _ (R + 1) _ (by omega) (by omega) (by omega)]
    unfold outwardCell
    simp only [Prod.mk.injEq]
    constructor <;> split_ifs <;> omega
  · rw [RingIndexToXY_bottom _ _ _ _ R Index (by omega) (by omega) (by omega),
      RingIndexToXY_bottom _ _ _ _ (R + 1) _ (by omega) (by omega) (by omega)]
    unfold outwardCell
    simp only [Prod.mk.injEq]
    constructor <;> split_ifs <;> omega
  · rw [RingIndexToXY_left _ _ _ _ R Index (by omega) (by omega) (by omega) (by omega),
      RingIndexToXY_left _ _ _ _ (R + 1) _ (by omega) (by omega) (by omega) (by omega)]
    unfold outwardCell
    simp only [Prod.mk.injEq]
    constructor <;> split_ifs <;> omega

/-- C28: for a proper rectangular ring R (R > 0, or R = 0 with R0Width > 1 and
R0Height > 1) of a valid geometry and every valid Index, FindPushedSpot makes one
search in ring R+1, with a distance of at least maxSearchDistance, that starts at
the position of the cell one step outward from the source cell: the same corner
of ring R+1 for a corner cell, the cell directly outward for a cell on a side.
With maxSearchDistance >= 1, if that cell holds 0 FindPushedSpot returns its
position in ring R+1. -/
theorem proper_ring_nominal_target (area : Area) (rnd : RandSource)
    (maxSearchDistance width height R0x R0y R0Width R0Height R Index : Int)
    (hW : 1 ≤ R0Width) (hH : 1 ≤ R0Height) (hR : 0 ≤ R)
    (hproper : R > 0 ∨ (R0Width > 1 ∧ R0Height > 1))
    (hI0 : 0 ≤ Index) (hI1 : Index < RingLength R0Width R0Height R)
    (hmsd : 1 ≤ maxSearchDistance) :
    ∃ ringIndex d : Int, 0 ≤ ringIndex ∧ ringIndex < RingLength R0Width R0Height (R + 1) ∧
      maxSearchDistance ≤ d ∧
      RingIndexToXY R0x R0y R0Width R0Height (R + 1) ringIndex
        = outwardCell R0x R0y R0Width R0Height R
            (RingIndexToXY R0x R0y R0Width R0Height R Index) ∧
      FindPushedSpot area rnd maxSearchDistance width height R0x R0y R0Width R0Height R Index
        = (SearchFreeSpotAtIndex area d width height R0x R0y R0Width R0Height (R + 1)
            ringIndex, rnd) ∧
      (area ((RingIndexToXY R0x R0y R0Width R0Height (R + 1) ringIndex).2 * width +
          (RingIndexToXY R0x R0y R0Width R0Height (R + 1) ringIndex).1) = 0 →
        (FindPushedSpot area rnd maxSearchDistance width height R0x R0y R0Width R0Height R
          Index).1 = ringIndex) := by
  have hdeg : ¬ (R = 0 ∧ (R0Width = 1 ∨ R0Height = 1)) := by omega
  have hlen : RingLength R0Width R0Height R
      = 2 * (R0Width + 2 * R) + 2 * (R0Height - 2 + 2 * R) := by
    unfold RingLength
    rw [if_pos (by omega)]
  have hlen1 : RingLength R0Width R0Height (R + 1)
      = 2 * (R0Width + 2 * R) + 2 * (R0Height - 2 + 2 * R) + 8 := by
    unfold RingLength
    rw [if_pos (by omega)]
    ring
  rw [hlen] at hI1
  have key : ∀ ringIndex d : Int, 0 ≤ ringIndex →
      ringIndex < RingLength R0Width R0Height (R + 1) → maxSearchDistance ≤ d →
      RingIndexToXY R0x R0y R0Width R0Height (R + 1) ringIndex
        = outwardCell R0x R0y R0Width R0Height R
            (RingIndexToXY R0x R0y R0Width R0Height R Index) →
      FindPushedSpot area rnd maxSearchDistance width height R0x R0y R0Width R0Height R Index
        = (SearchFreeSpotAtIndex area d width height R0x R0y R0Width R0Height (R + 1)
            ringIndex, rnd) →
      ∃ ringIndex d : Int, 0 ≤ ringIndex ∧ ringIndex < RingLength R0Width R0Height (R + 1) ∧
        maxSearchDistance ≤ d ∧
        RingIndexToXY R0x R0y R0Width R0Height (R + 1) ringIndex
          = outwardCell R0x R0y R0Width R0Height R
              (RingIndexToXY R0x R0y R0Width R0Height R Index) ∧
        FindPushedSpot area rnd maxSearchDistance width height R0x R0y R0Width R0Height R Index
          = (SearchFreeSpotAtIndex area d width height R0x R0y R0Width R0Height (R + 1)
              ringIndex, rnd) ∧
        (area ((RingIndexToXY R0x R0y R0Width R0Height (R + 1) ringIndex).2 * width +
            (RingIndexToXY R0x R0y R0Width R0Height (R + 1) ringIndex).1) = 0 →
          (FindPushedSpot area rnd maxSearchDistance width height R0x R0y R0Width R0Height R
            Index).1 = ringIndex) := by
    intro ringIndex d h0 h1 hd hxy hfps
    refine ⟨ringIndex, d, h0, h1, hd, hxy, hfps, fun hz => ?_⟩
    rw [hfps]
    exact SearchFreeSpotAtIndex_first area d width height R0x R0y R0Width R0Height (R + 1)
      ringIndex (by omega) h0 h1 hz
  have hout := outward_position R0x R0y R0Width R0Height R Index
  have hfps : ∀ (c : Bool) (s : Int),
      (if Index ≤ 0 then (decide (Index = 0), (-1 : Int))
        else if Index ≤ R0Width + 2 * R - 1 then (decide (Index = R0Width + 2 * R - 1), 1)
        else if Index ≤ R0Width + 2 * R + R0Height - 1 + 2 * R - 1 then
          (decide (Index = R0Width + 2 * R + R0Height - 1 + 2 * R - 1), 3)
        else if Index ≤ RingLength R0Width R0Height R - (R0Height + 2 * R - 1) then
          (decide (Index = RingLength R0Width R0Height R - (R0Height + 2 * R - 1)), 5)
        else (false, 7)) = (c, s) →
      FindPushedSpot area rnd maxSearchDistance width height R0x R0y R0Width R0Height R Index
        = (SearchFreeSpotAtIndex area (maxSearchDistance + boolToInt c) width height R0x R0y
            R0Width R0Height (R + 1) (Index + s + boolToInt c), rnd) := by
    intro c s hcs
    unfold FindPushedSpot
    simp only
    rw [if_neg hdeg, hcs]
  by_cases c1 : Index = 0
  · refine key 0 (maxSearchDistance + 1) (by omega) (by omega) (by omega)
      (hout 0 (by omega) (by omega) hI0 hI1 (by omega)) ?_
    rw [hfps true (-1) (by rw [if_pos (by omega)]; simp [c1])]
    simp [boolToInt, c1]
  by_cases c2 : Index < R0Width + 2 * R - 1
  · refine key (Index + 1) maxSearchDistance (by omega) (by omega) (by omega)
      (hout _ (by omega) (by omega) hI0 hI1 (by omega)) ?_
    rw [hfps false 1 (by
      rw [if_neg (by omega), if_pos (by omega)]
      simp only [Prod.mk.injEq, decide_eq_false_iff_not, and_true]
      omega)]
    simp [boolToInt]
  by_cases c3 : Index = R0Width + 2 * R - 1
  · refine key (Index + 2) (maxSearchDistance + 1) (by omega) (by omega) (by omega)
      (hout _ (by omega) (by omega) hI0 hI1 (by omega)) ?_
    rw [hfps true 1 (by
      rw [if_neg (by omega), if_pos (by omega)]
      simp only [Prod.mk.injEq, decide_eq_true_eq, and_true]
      omega)]
    simp only [boolToInt, if_true]
    rw [show Index + 1 + 1 = Index + 2 by ring]
  by_cases c4 : Index < R0Width + 2 * R + R0Height - 1 + 2 * R - 1
  · refine key (Index + 3) maxSearchDistance (by omega) (by omega) (by omega)
      (hout _ (by omega) (by omega) hI0 hI1 (by omega)) ?_
    rw [hfps false 3 (by
      rw [if_neg (by omega), if_neg (by omega), if_pos (by omega)]
      simp only [Prod.mk.injEq, decide_eq_false_iff_not, and_true]
      omega)]
    simp [boolToInt]
  by_cases c5 : Index = R0Width + 2 * R + R0Height - 1 + 2 * R - 1
  · refine key (Index + 4) (maxSearchDistance + 1) (by omega) (by omega) (by omega)
      (hout _ (by omega) (by omega) hI0 hI1 (by omega)) ?_
    rw [hfps true 3 (by
      rw [if_neg (by omega), if_neg (by omega), if_pos (by omega)]
      simp only [Prod.mk.injEq, decide_eq_true_eq, and_true]
      omega)]
    simp only [boolToInt, if_true]
    rw [show Index + 3 + 1 = Index + 4 by ring]
  by_cases c6 : Index < RingLength R0Width R0Height R - (R0Height + 2 * R - 1)
  · rw [hlen] at c6
    refine key (Index + 5) maxSearchDistance (by omega) (by omega) (by omega)
      (hout _ (by omega) (by omega) hI0 hI1 (by omega)) ?_
    rw [hfps false 5 (by
      rw [hlen, if_neg (by omega), if_neg (by omega), if_neg (by omega), if_pos (by omega)]
      simp only [Prod.mk.injEq, decide_eq_false_iff_not, and_true]
      omega)]
    simp [boolToInt]
  by_cases c7 : Index = RingLength R0Width R0Height R - (R0Height + 2 * R - 1)
  · rw [hlen] at c6 c7
    refine key (Index + 6) (maxSearchDistance + 1) (by omega) (by omega) (by omega)
      (hout _ (by omega) (by omega) hI0 hI1 (by omega)) ?_
    rw [hfps true 5 (by
      rw [hlen, if_neg (by omega), if_neg (by omega), if_neg (by omega), if_pos (by omega)]
      simp only [Prod.mk.injEq, decide_eq_true_eq, and_true]
      omega)]
    simp only [boolToInt, if_true]
    rw [show Index + 5 + 1 = Index + 6 by ring]
  · rw [hlen] at c6 c7
    refine key (Index + 7) maxSearchDistance (by omega) (by omega) (by omega)
      (hout _ (by omega) (by omega) hI0 hI1 (by omega)) ?_
    rw [hfps false 7 (by
      rw [hlen, if_neg (by omega), if_neg (by omega), if_neg (by omega), if_neg (by omega)])]
    simp [boolToInt]

/-- Witness for C28: the corner at position 0 of ring 1 around the 1 x 1 centre
`(2, 2)` of a 5 x 5 buffer that holds 0 everywhere. -/
theorem proper_ring_nominal_target_witness :
    (0 : Int) < RingLength 1 1 1 ∧
    ∃ ringIndex d : Int, 0 ≤ ringIndex ∧ ringIndex < RingLength 1 1 (1 + 1) ∧ 3 ≤ d ∧
      RingIndexToXY 2 2 1 1 (1 + 1) ringIndex = outwardCell 2 2 1 1 1 (RingIndexToXY 2 2 1 1 1 0) ∧
      FindPushedSpot (fun _ => 0) (fun _ => 0) 3 5 5 2 2 1 1 1 0
        = (SearchFreeSpotAtIndex (fun _ => 0) d 5 5 2 2 1 1 (1 + 1) ringIndex, fun _ => 0) ∧
      ((fun _ => 0 : Area) ((RingIndexToXY 2 2 1 1 (1 + 1) ringIndex).2 * 5 +
          (RingIndexToXY 2 2 1 1 (1 + 1) ringIndex).1) = 0 →
        (FindPushedSpot (fun _ => 0) (fun _ => 0) 3 5 5 2 2 1 1 1 0).1 = ringIndex) :=
  ⟨by decide,
    proper_ring_nominal_target (fun _ => 0) (fun _ => 0) 3 5 5 2 2 1 1 1 0 (by decide)
      (by decide) (by decide) (by decide) (by decide) (by decide) (by decide)⟩

/-- For an interior cell of a strip, `FindPushedSpot` searches from the position
`a` on one side of the strip and, if that fails, from the position `b` on the
other side, or the other way round, as the random first direction has it. -/
theorem FindPushedSpot_interior (area : Area)
    (maxSearchDistance width height R0x R0y R0Width R0Height Index : Int)
    (hW : 1 ≤ R0Width) (hH : 1 ≤ R0Height) (hstrip : R0Width = 1 ∨ R0Height = 1)
    (hI0 : 0 < Index) (hI1 : Index < RingLength R0Width R0Height 0 - 1)
    (rnd : RandSource) (a b : Int)
    (ha : a = (if R0Width > 1 then 1 + Index else RingLength R0Width R0Height 1 - 1 - Index))
    (hb : b = (if R0Width > 1 then 1 + R0Width + 3 + (R0Width - 1 - Index) else 3 + Index)) :
    (FindPushedSpot area rnd maxSearchDistance width height R0x R0y R0Width R0Height 0
          Index).1
      = (if 0 ≤ SearchFreeSpotAtIndex area maxSearchDistance width height R0x R0y R0Width
            R0Height 1 a then
          SearchFreeSpotAtIndex area maxSearchDistance width height R0x R0y R0Width
            R0Height 1 a
        else SearchFreeSpotAtIndex area maxSearchDistance width height R0x R0y R0Width
            R0Height 1 b) ∨
    (FindPushedSpot area rnd maxSearchDistance width height R0x R0y R0Width R0Height 0
          Index).1
      = (if 0 ≤ SearchFreeSpotAtIndex area maxSearchDistance width height R0x R0y R0Width
            R0Height 1 b then
          SearchFreeSpotAtIndex area maxSearchDistance width height R0x R0y R0Width
            R0Height 1 b
        else SearchFreeSpotAtIndex area maxSearchDistance width height R0x R0y R0Width
            R0Height 1 a) := by
  have hlen0 : RingLength R0Width R0Height 0 = max R0Width R0Height := by
    unfold RingLength
    rw [if_neg (by omega)]
  rw [hlen0] at hI1
  have hpt : ¬ (R0Width = 1 ∧ R0Height = 1) := by omega
  have hend : ¬ (Index = 0 ∨ Index = RingLength R0Width R0Height 0 - 1) := by
    rw [hlen0]; omega
  unfold FindPushedSpot
  simp only [zero_add]
  rw [if_pos ⟨trivial, hstrip⟩, if_neg hpt, if_neg hend]
  by_cases hr : rnd.random 2 = 0
  · left
    simp only [hr, if_true, boolToInt, decide_True, one_ne_zero, if_false, ← ha, ← hb]
    split_ifs <;> rfl
  · right
    simp only [hr, if_false, boolToInt, decide_False, Bool.false_eq_true, if_true, ← ha, ← hb]
    split_ifs <;> rfl

/-- C30: for a strip (R = 0, one of R0Width, R0Height equal to 1) and an interior
cell 0 < Index < S - 1, with a search distance of at most the length of ring 1:
the two positions of ring 1 from which FindPushedSpot searches are the two cells
next to the source cell on either side of the strip; for every random source the
result is the result of one of the two searches with the unchanged
maxSearchDistance, and it is -1 exactly when both searches return -1, so that
two random sources agree on whether FindPushedSpot fails. -/
theorem strip_interior_tries_both_sides (area : Area)
    (maxSearchDistance width height R0x R0y R0Width R0Height Index : Int)
    (hW : 1 ≤ R0Width) (hH : 1 ≤ R0Height) (hstrip : R0Width = 1 ∨ R0Height = 1)
    (hI0 : 0 < Index) (hI1 : Index < RingLength R0Width R0Height 0 - 1)
    (hmsd : maxSearchDistance ≤ RingLength R0Width R0Height 1) :
    ∃ a b : Int, (0 ≤ a ∧ a < RingLength R0Width R0Height 1) ∧
      (0 ≤ b ∧ b < RingLength R0Width R0Height 1) ∧
      (RingIndexToXY R0x R0y R0Width R0Height 1 a, RingIndexToXY R0x R0y R0Width R0Height 1 b)
        = besideStrip R0Width (RingIndexToXY R0x R0y R0Width R0Height 0 Index) ∧
      (∀ rnd : RandSource,
        ((FindPushedSpot area rnd maxSearchDistance width height R0x R0y R0Width R0Height 0
              Index).1
            = SearchFreeSpotAtIndex area maxSearchDistance width height R0x R0y R0Width R0Height
                1 a ∨
          (FindPushedSpot area rnd maxSearchDistance width height R0x R0y R0Width R0Height 0
              Index).1
            = SearchFreeSpotAtIndex area maxSearchDistance width height R0x R0y R0Width R0Height
                1 b) ∧
        ((FindPushedSpot area rnd maxSearchDistance width height R0x R0y R0Width R0Height 0
              Index).1 = -1 ↔
          SearchFreeSpotAtIndex area maxSearchDistance width height R0x R0y R0Width R0Height 1 a
              = -1 ∧
            SearchFreeSpotAtIndex area maxSearchDistance width height R0x R0y R0Width R0Height
              1 b = -1)) ∧
      (∀ rnd rnd2 : RandSource,
        (FindPushedSpot area rnd maxSearchDistance width height R0x R0y R0Width R0Height 0
            Index).1 = -1 ↔
        (FindPushedSpot area rnd2 maxSearchDistance width height R0x R0y R0Width R0Height 0
            Index).1 = -1) := by
  have hlen0 : RingLength R0Width R0Height 0 = max R0Width R0Height := by
    unfold RingLength
    rw [if_neg (by omega)]
  have hlen1 : RingLength R0Width R0Height 1 = 2 * R0Width + 2 * R0Height + 4 := by
    unfold RingLength
    rw [if_pos (by omega)]
    ring
  rw [hlen0] at hI1
  have hpt : ¬ (R0Width = 1 ∧ R0Height = 1) := by omega
  have hend : ¬ (Index = 0 ∨ Index = RingLength R0Width R0Height 0 - 1) := by
    rw [hlen0]; omega
  have hspec : ∀ k : Int, 0 ≤ k →
      SearchFreeSpotAtIndex area maxSearchDistance width height R0x R0y R0Width R0Height 1 k
          = -1 ∨
        0 ≤ SearchFreeSpotAtIndex area maxSearchDistance width height R0x R0y R0Width R0Height
          1 k := by
    intro k hk
    rcases (SearchFreeSpotAtIndex_spec area maxSearchDistance width height R0x R0y R0Width
      R0Height 1 k hk (by omega) hmsd).1 with h | h
    · exact Or.inl h
    · exact Or.inr h.1
  have key : ∀ a b : Int, 0 ≤ a → 0 ≤ b →
      ∀ rnd : RandSource,
        (FindPushedSpot area rnd maxSearchDistance width height R0x R0y R0Width R0Height 0
              Index).1
          = (if 0 ≤ SearchFreeSpotAtIndex area maxSearchDistance width height R0x R0y R0Width
                R0Height 1 a then
              SearchFreeSpotAtIndex area maxSearchDistance width height R0x R0y R0Width
                R0Height 1 a
            else SearchFreeSpotAtIndex area maxSearchDistance width height R0x R0y R0Width
                R0Height 1 b) ∨
        (FindPushedSpot area rnd maxSearchDistance width height R0x R0y R0Width R0Height 0
              Index).1
          = (if 0 ≤ SearchFreeSpotAtIndex area maxSearchDistance width height R0x R0y R0Width
                R0Height 1 b then
              SearchFreeSpotAtIndex area maxSearchDistance width height R0x R0y R0Width
                R0Height 1 b
            else SearchFreeSpotAtIndex area maxSearchDistance width height R0x R0y R0Width
                R0Height 1 a) →
      ((FindPushedSpot area rnd maxSearchDistance width height R0x R0y R0Width R0Height 0
              Index).1
            = SearchFreeSpotAtIndex area maxSearchDistance width height R0x R0y R0Width R0Height
                1 a ∨
          (FindPushedSpot area rnd maxSearchDistance width height R0x R0y R0Width R0Height 0
              Index).1
            = SearchFreeSpotAtIndex area maxSearchDistance width height R0x R0y R0Width R0Height
                1 b) ∧
        ((FindPushedSpot area rnd maxSearchDistance width height R0x R0y R0Width R0Height 0
              Index).1 = -1 ↔
          SearchFreeSpotAtIndex area maxSearchDistance width height R0x R0y R0Width R0Height 1 a
              = -1 ∧
            SearchFreeSpotAtIndex area maxSearchDistance width height R0x R0y R0Width R0Height
              1 b = -1) := by
    intro a b ha hb rnd h
    have h1 := hspec a ha
    have h2 := hspec b hb
    rcases h with h | h <;> rw [h] <;> split_ifs with hc <;> constructor <;>
      omega
  have hfps : ∀ (rnd : RandSource) (a b : Int),
      a = (if R0Width > 1 then 1 + Index else RingLength R0Width R0Height 1 - 1 - Index) →
      b = (if R0Width > 1 then 1 + R0Width + 3 + (R0Width - 1 - Index) else 3 + Index) →
        (FindPushedSpot area rnd maxSearchDistance width height R0x R0y R0Width R0Height 0
              Index).1
          = (if 0 ≤ SearchFreeSpotAtIndex area maxSearchDistance width height R0x R0y R0Width
                R0Height 1 a then
              SearchFreeSpotAtIndex area maxSearchDistance width height R0x R0y R0Width
                R0Height 1 a
            else SearchFreeSpotAtIndex area maxSearchDistance width height R0x R0y R0Width
                R0Height 1 b) ∨
        (FindPushedSpot area rnd maxSearchDistance width height R0x R0y R0Width R0Height 0
              Index).1
          = (if 0 ≤ SearchFreeSpotAtIndex area maxSearchDistance width height R0x R0y R0Width
                R0Height 1 b then
              SearchFreeSpotAtIndex area maxSearchDistance width height R0x R0y R0Width
                R0Height 1 b
            else SearchFreeSpotAtIndex area maxSearchDistance width height R0x R0y R0Width
                R0Height 1 a) :=
    fun rnd a b ha hb => FindPushedSpot_interior area maxSearchDistance width height R0x R0y
      R0Width R0Height Index hW hH hstrip hI0 (by rw [hlen0]; exact hI1) rnd a b ha hb
  have main : ∃ a b : Int, (0 ≤ a ∧ a < RingLength R0Width R0Height 1) ∧
      (0 ≤ b ∧ b < RingLength R0Width R0Height 1) ∧
      (RingIndexToXY R0x R0y R0Width R0Height 1 a, RingIndexToXY R0x R0y R0Width R0Height 1 b)
        = besideStrip R0Width (RingIndexToXY R0x R0y R0Width R0Height 0 Index) ∧
      (∀ rnd : RandSource,
        ((FindPushedSpot area rnd maxSearchDistance width height R0x R0y R0Width R0Height 0
              Index).1
            = SearchFreeSpotAtIndex area maxSearchDistance width height R0x R0y R0Width R0Height
                1 a ∨
          (FindPushedSpot area rnd maxSearchDistance width height R0x R0y R0Width R0Height 0
              Index).1
            = SearchFreeSpotAtIndex area maxSearchDistance width height R0x R0y R0Width R0Height
                1 b) ∧
        ((FindPushedSpot area rnd maxSearchDistance width height R0x R0y R0Width R0Height 0
              Index).1 = -1 ↔
          SearchFreeSpotAtIndex area maxSearchDistance width height R0x R0y R0Width R0Height 1 a
              = -1 ∧
            SearchFreeSpotAtIndex area maxSearchDistance width height R0x R0y R0Width R0Height
              1 b = -1)) := by
    by_cases hw : R0Width > 1
    · refine ⟨1 + Index, 1 + R0Width + 3 + (R0Width - 1 - Index), by omega, by omega, ?_,
        fun rnd => key _ _ (by omega) (by omega) rnd
          (hfps rnd _ _ (by rw [if_pos hw]) (by rw [if_pos hw]))⟩
      rw [RingIndexToXY_top _ _ _ _ 0 Index (by omega),
        RingIndexToXY_top _ _ _ _ 1 _ (by omega),
        RingIndexToXY_bottom _ _ _ _ 1 _ (by omega) (by omega) (by omega)]
      unfold besideStrip
      rw [if_pos hw]
      simp only [Prod.mk.injEq]
      omega
    · refine ⟨RingLength R0Width R0Height 1 - 1 - Index, 3 + Index, by omega, by omega, ?_,
        fun rnd => key _ _ (by omega) (by omega) rnd
          (hfps rnd _ _ (by rw [if_neg hw]) (by rw [if_neg hw]))⟩
      rw [hlen1, RingIndexToXY_right _ _ _ _ 0 Index (by omega) (by omega),
        RingIndexToXY_left _ _ _ _ 1 _ (by omega) (by omega) (by omega) (by omega),
        RingIndexToXY_right _ _ _ _ 1 _ (by omega) (by omega)]
      unfold besideStrip
      rw [if_neg hw]
      simp only [Prod.mk.injEq]
      omega
  obtain ⟨a, b, ha, hb, hpos, hall⟩ := main
  exact ⟨a, b, ha, hb, hpos, hall, fun rnd rnd2 => ((hall rnd).2).trans ((hall rnd2).2).symm⟩

/-- Witness for C30: the middle cell of the horizontal strip `(2, 2) .. (4, 2)` in
a 7 x 5 buffer that holds 0 everywhere, with maxSearchDistance 3. -/
theorem strip_interior_tries_both_sides_witness :
    ((0 : Int) < 1 ∧ (1 : Int) < RingLength 3 1 0 - 1) ∧
    ∃ a b : Int, (0 ≤ a ∧ a < RingLength 3 1 1) ∧ (0 ≤ b ∧ b < RingLength 3 1 1) ∧
      (RingIndexToXY 2 2 3 1 1 a, RingIndexToXY 2 2 3 1 1 b)
        = besideStrip 3 (RingIndexToXY 2 2 3 1 0 1) ∧
      (∀ rnd : RandSource,
        ((FindPushedSpot (fun _ => 0) rnd 3 7 5 2 2 3 1 0 1).1
            = SearchFreeSpotAtIndex (fun _ => 0) 3 7 5 2 2 3 1 1 a ∨
          (FindPushedSpot (fun _ => 0) rnd 3 7 5 2 2 3 1 0 1).1
            = SearchFreeSpotAtIndex (fun _ => 0) 3 7 5 2 2 3 1 1 b) ∧
        ((FindPushedSpot (fun _ => 0) rnd 3 7 5 2 2 3 1 0 1).1 = -1 ↔
          SearchFreeSpotAtIndex (fun _ => 0) 3 7 5 2 2 3 1 1 a = -1 ∧
            SearchFreeSpotAtIndex (fun _ => 0) 3 7 5 2 2 3 1 1 b = -1)) ∧
      (∀ rnd rnd2 : RandSource,
        (FindPushedSpot (fun _ => 0) rnd 3 7 5 2 2 3 1 0 1).1 = -1 ↔
        (FindPushedSpot (fun _ => 0) rnd2 3 7 5 2 2 3 1 0 1).1 = -1) :=
  ⟨⟨by decide, by decide⟩,
    strip_interior_tries_both_sides (fun _ => 0) 3 7 5 2 2 3 1 1 (by decide) (by decide)
      (by decide) (by decide) (by decide) (by decide)⟩

/-! ### Where the code departs from the intended search -/

/-- C27: SearchFreeSpotAtIndex with maxSearchDistance 1 from position 0 of ring 1
(length 8) around a 1 x 1 centre, where positions 0 and 7 are taken and position
1 = Index + 1 holds 0: the scan looks at Index and Index - 1 only and returns
-1, although a cell at distance 1 to the right is free. -/
theorem search_window_stops_short_on_the_right :
    RingLength 1 1 1 = 8 ∧
    flankedArea ((RingIndexToXY 2 2 1 1 1 (0 + 1)).2 * 5 + (RingIndexToXY 2 2 1 1 1 (0 + 1)).1)
      = 0 ∧
    SearchFreeSpotAtIndex flankedArea 1 5 5 2 2 1 1 1 0 = -1 := by
  decide

/-- C29: FindPushedSpot for the last cell (Index = S - 1 = 1) of the horizontal
strip `(2, 2), (3, 2)` and of the vertical strip `(2, 2), (2, 3)` on a buffer
that holds 0 everywhere: the cell in line with the strip beyond that end, between
the two corners of ring 1, is position 4 resp. 6 and is free, but the search
starts at, and returns, position 5 resp. 7, a corner of ring 1. -/
theorem strip_far_end_starts_at_a_corner :
    (RingIndexToXY 2 2 2 1 1 4 = beyondStripEnd 2 1 (RingIndexToXY 2 2 2 1 0 1) ∧
      (FindPushedSpot (fun _ => 0) (fun _ => 0) 3 6 5 2 2 2 1 0 1).1 = 5 ∧
      RingIndexToXY 2 2 2 1 1 5 = (2 + 2, 2 + 1)) ∧
    (RingIndexToXY 2 2 1 2 1 6 = beyondStripEnd 1 1 (RingIndexToXY 2 2 1 2 0 1) ∧
      (FindPushedSpot (fun _ => 0) (fun _ => 0) 3 5 6 2 2 1 2 0 1).1 = 7 ∧
      RingIndexToXY 2 2 1 2 1 7 = (2 - 1, 2 + 2)) := by
  decide

/-! ### Sums over the cells of the buffer -/

/-- A write to a cell of the buffer changes a sum over its cells by the term of
that cell. -/
theorem sum_write (area : Area) (n : Nat) (A : Int) (v : Nat) (term : Int → Nat → Int)
    (hA0 : 0 ≤ A) (hA1 : A < n) :
    ∑ k in Finset.range n, term (k : Int) ((area.write A v) (k : Int))
      = ∑ k in Finset.range n, term (k : Int) (area (k : Int)) - term A (area A) + term A v := by
  obtain ⟨a, rfl⟩ : ∃ a : Nat, A = (a : Int) := ⟨A.toNat, by omega⟩
  have ha : a ∈ Finset.range n := Finset.mem_range.mpr (by omega)
  have hterm : ∀ k ∈ Finset.range n, term (k : Int) ((area.write (a : Int) v) (k : Int))
      = term (k : Int) (area (k : Int)) +
        (if k = a then term (a : Int) v - term (a : Int) (area (a : Int)) else 0) := by
    intro k _
    by_cases hk : k = a
    · subst hk
      rw [Area_write_same, if_pos rfl]
      ring
    · rw [Area_write_other _ _ _ _ (by omega), if_neg hk]
      ring
  rw [Finset.sum_congr rfl hterm, Finset.sum_add_distrib, Finset.sum_ite_eq' _ _ _, if_pos ha]
  ring

/-- A write outside the buffer leaves a sum over its cells as it is. -/
theorem sum_write_zero (area : Area) (n : Nat) (A : Int) (v : Nat) (term : Int → Nat → Int)
    (hA : term A (area A) = term A v) :
    ∑ k in Finset.range n, term (k : Int) ((area.write A v) (k : Int))
      = ∑ k in Finset.range n, term (k : Int) (area (k : Int)) := by
  apply Finset.sum_congr rfl
  intro k _
  by_cases hk : (k : Int) = A
  · rw [hk, Area_write_same, hA]
  · rw [Area_write_other _ _ _ _ hk]

/-! ### The nearest unit is found -/

/-- If the search rectangle holds a movable handle and every cell of it is closer
than INT_MAX to the target, `FindNearestUnit` returns a handle. -/
theorem FindNearestUnit_finds (area : Area)
    (locX locY searchX searchY searchWidth searchHeight width height : Int)
    (hdist : ∀ x y, searchX ≤ x → x < searchX + searchWidth → searchY ≤ y →
      y < searchY + searchHeight →
      max (Int.natAbs (x - locX) : Int) (Int.natAbs (y - locY) : Int) < INT_MAX)
    (x0 y0 : Int) (hx0 : searchX ≤ x0) (hx1 : x0 < searchX + searchWidth)
    (hy0 : searchY ≤ y0) (hy1 : y0 < searchY + searchHeight)
    (hm : area (y0 * width + x0) ≠ 0 ∧ area (y0 * width + x0) ≠ AREA_BLOCKED) :
    (FindNearestUnit area locX locY searchX searchY searchWidth searchHeight width height).1
      ≠ 0 := by
  unfold FindNearestUnit
  simp only
  have hfinal := forLoop_inv
    (fun (y : Int) (b : Nearest) => b.bestUnit ≠ 0 ∨
      (b.bestDistance = INT_MAX ∧ ∀ y' x', searchY ≤ y' → y' < y → searchX ≤ x' →
        x' < searchX + searchWidth →
        ¬ (area (y' * width + x') ≠ 0 ∧ area (y' * width + x') ≠ AREA_BLOCKED)))
    (fun y b => forLoop (fun x b => FindNearestUnitStep area locX locY width y x b)
      searchWidth.toNat searchX b)
    searchHeight.toNat searchY
    { bestUnit := 0, bestDistance := INT_MAX, bestDistance2 := INT_MAX, unitX := 0, unitY := 0 }
    ?_ ?_
  · rcases hfinal with h | ⟨_, h⟩
    · exact h
    · exact absurd hm (h y0 x0 hy0 (by omega) hx0 hx1)
  · intro y b hy0' hy1' hb
    have hrow := forLoop_inv
      (fun (x : Int) (b : Nearest) => b.bestUnit ≠ 0 ∨
        (b.bestDistance = INT_MAX ∧
          (∀ y' x', searchY ≤ y' → y' < y → searchX ≤ x' → x' < searchX + searchWidth →
            ¬ (area (y' * width + x') ≠ 0 ∧ area (y' * width + x') ≠ AREA_BLOCKED)) ∧
          ∀ x', searchX ≤ x' → x' < x →
            ¬ (area (y * width + x') ≠ 0 ∧ area (y * width + x') ≠ AREA_BLOCKED)))
      (fun x b => FindNearestUnitStep area locX locY width y x b)
      searchWidth.toNat searchX b ?_ ?_
    · rcases hrow with h | ⟨h1, h2, h3⟩
      · exact Or.inl h
      · refine Or.inr ⟨h1, fun y' x' a1 a2 a3 a4 => ?_⟩
        by_cases hy' : y' = y
        · subst hy'
          exact h3 x' a3 (by omega)
        · exact h2 y' x' a1 (by omega) a3 a4
    · intro x b hx0' hx1' hb
      unfold FindNearestUnitStep
      simp only
      by_cases hfl : area (y * width + x) ≠ 0 ∧ area (y * width + x) ≠ AREA_BLOCKED
      · rcases hb with h | ⟨h1, h2, h3⟩
        · left
          split_ifs
          · exact hfl.1
          · exact h
        · left
          have hd := hdist x y hx0' (by omega) hy0' (by omega)
          rw [if_pos ⟨hfl.1, hfl.2, Or.inl (by rw [h1]; exact hd)⟩]
          exact hfl.1
      · have hne : ¬ (area (y * width + x) ≠ 0 ∧ area (y * width + x) ≠ AREA_BLOCKED ∧
            (max (Int.natAbs (x - locX) : Int) (Int.natAbs (y - locY) : Int) < b.bestDistance ∨
              (max (Int.natAbs (x - locX) : Int) (Int.natAbs (y - locY) : Int) = b.bestDistance ∧
                min (Int.natAbs (x - locX) : Int) (Int.natAbs (y - locY) : Int)
                  < b.bestDistance2))) :=
          fun h => hfl ⟨h.1, h.2.1⟩
        rw [if_neg hne]
        rcases hb with h | ⟨h1, h2, h3⟩
        · exact Or.inl h
        · refine Or.inr ⟨h1, h2, fun x' a1 a2 => ?_⟩
          by_cases hx' : x' = x
          · subst hx'
            exact hfl
          · exact h3 x' a1 (by omega)
    · rcases hb with h | ⟨h1, h2⟩
      · exact Or.inl h
      · exact Or.inr ⟨h1, h2, fun x' a1 a2 => by omega⟩
  · exact Or.inr ⟨rfl, fun y' x' a1 a2 => by omega⟩

/-! ### Cells, rings and the footprint rectangle -/

/-- The column and the row of a flat index. -/
theorem flat_coords {width x y : Int} (hx0 : 0 ≤ x) (hx1 : x < width) :
    (y * width + x) % width = x ∧ (y * width + x) / width = y := by
  constructor
  · rw [Int.add_comm, Int.add_mul_emod_self]
    exact Int.emod_eq_of_lt hx0 hx1
  · rw [Int.add_comm, Int.add_mul_ediv_right _ _ (by omega : width ≠ 0),
      Int.ediv_eq_zero_of_lt hx0 hx1]
    ring

/-- A cell of the buffer lies in the footprint rectangle exactly when its ring is
below the outline ring. -/
theorem rect_iff_ring {width height R0x R0y R0Width R0Height ringCount : Int}
    (v : ValidRings width height R0x R0y R0Width R0Height ringCount)
    (outlineRing : Int) (k : Int) (hk0 : 0 ≤ k) (hk1 : k < width * height) :
    (R0x - (outlineRing - 1) ≤ k % width ∧
      k % width < R0x - (outlineRing - 1) + (R0Width + 2 * (outlineRing - 1)) ∧
      R0y - (outlineRing - 1) ≤ k / width ∧
      k / width < R0y - (outlineRing - 1) + (R0Height + 2 * (outlineRing - 1))) ↔
    cellRing width height R0x k < outlineRing := by
  have hw : 0 < width := by have := v.hwidth; have := v.hW; have := v.hN; omega
  have hx := Int.emod_nonneg k (by omega : width ≠ 0)
  have hx1 := Int.emod_lt_of_pos k hw
  have hy : 0 ≤ k / width := Int.ediv_nonneg hk0 (by omega)
  have hy1 : k / width < height := by
    apply Int.ediv_lt_of_lt_mul hw
    rw [mul_comm]; exact hk1
  have h1 := v.hx
  have h2 := v.hy
  have h3 := v.hwidth
  have h4 := v.hheight
  unfold cellRing ringOf
  generalize k % width = x at *
  generalize k / width = y at *
  omega

/-- The flat index of a ring cell: it is a cell of the buffer, with the column
and row of the cell, and its ring is the ring walked. -/
theorem ring_cell_flat {width height R0x R0y R0Width R0Height ringCount : Int}
    (v : ValidRings width height R0x R0y R0Width R0Height ringCount)
    (R I : Int) (hR0 : 0 ≤ R) (hR1 : R < ringCount) (hI0 : 0 ≤ I)
    (hI1 : I < RingLength R0Width R0Height R) :
    (0 ≤ (RingIndexToXY R0x R0y R0Width R0Height R I).2 * width +
        (RingIndexToXY R0x R0y R0Width R0Height R I).1 ∧
      (RingIndexToXY R0x R0y R0Width R0Height R I).2 * width +
        (RingIndexToXY R0x R0y R0Width R0Height R I).1 < width * height) ∧
    cellRing width height R0x ((RingIndexToXY R0x R0y R0Width R0Height R I).2 * width +
      (RingIndexToXY R0x R0y R0Width R0Height R I).1) = R :=
  ⟨idx_bounds (ring_in_area v R I hR0 hR1 hI0).1 (ring_in_area v R I hR0 hR1 hI0).2.1
      (ring_in_area v R I hR0 hR1 hI0).2.2.1 (ring_in_area v R I hR0 hR1 hI0).2.2.2,
    cellRing_ring v R I hR0 hR1 hI0 hI1⟩

/-- Every cell of the buffer is the cell at a valid position of its ring. -/
theorem cell_is_ring_cell {width height R0x R0y R0Width R0Height ringCount : Int}
    (v : ValidRings width height R0x R0y R0Width R0Height ringCount)
    (k : Int) (hk0 : 0 ≤ k) (hk1 : k < width * height) :
    ∃ I, 0 ≤ I ∧ I < RingLength R0Width R0Height (cellRing width height R0x k) ∧
      (RingIndexToXY R0x R0y R0Width R0Height (cellRing width height R0x k) I).2 * width +
        (RingIndexToXY R0x R0y R0Width R0Height (cellRing width height R0x k) I).1 = k := by
  have hw : 0 < width := by have := v.hwidth; have := v.hW; have := v.hN; omega
  have hx := Int.emod_nonneg k (by omega : width ≠ 0)
  have hx1 := Int.emod_lt_of_pos k hw
  have hy : 0 ≤ k / width := Int.ediv_nonneg hk0 (by omega)
  have hy1 : k / width < height := by
    apply Int.ediv_lt_of_lt_mul hw
    rw [mul_comm]; exact hk1
  obtain ⟨a1, a2, a3, a4, a5⟩ := ringOf_spec v (k % width) (k / width) hx hx1 hy hy1
  refine ⟨ringPos R0x R0y R0Width R0Height (ringOf width height R0x (k % width) (k / width))
    (k % width) (k / width), a3, a4, ?_⟩
  unfold cellRing
  rw [a5]
  simp only
  rw [mul_comm]
  exact Int.ediv_add_emod k width

/-- A cell of the footprint rectangle is a cell of the buffer. -/
theorem rect_cell_flat {width height R0x R0y R0Width R0Height ringCount : Int}
    (v : ValidRings width height R0x R0y R0Width R0Height ringCount)
    (outlineRing : Int) (ho1 : outlineRing ≤ ringCount) (x y : Int)
    (hx0 : R0x - (outlineRing - 1) ≤ x)
    (hx1 : x < R0x - (outlineRing - 1) + (R0Width + 2 * (outlineRing - 1)))
    (hy0 : R0y - (outlineRing - 1) ≤ y)
    (hy1 : y < R0y - (outlineRing - 1) + (R0Height + 2 * (outlineRing - 1))) :
    (0 ≤ y * width + x ∧ y * width + x < width * height) ∧
    (y * width + x) % width = x ∧ (y * width + x) / width = y ∧
    cellRing width height R0x (y * width + x) < outlineRing := by
  have h1 := v.hx
  have h2 := v.hy
  have h3 := v.hwidth
  have h4 := v.hheight
  have hb := @idx_bounds width height x y (by omega) (by omega) (by omega) (by omega)
  have hc := @flat_coords width x y (by omega) (by omega)
  refine ⟨hb, hc.1, hc.2, ?_⟩
  apply (rect_iff_ring v outlineRing _ hb.1 hb.2).mp
  rw [hc.1, hc.2]
  exact ⟨hx0, hx1, hy0, hy1⟩

/-! ### How a write changes the counts -/

/-- A write to a cell of the buffer changes the count of handles in a rectangle by
what the cell counted before and what it counts after. -/
theorem rectHandleCount_write (area : Area) (width height x0 y0 w h A : Int) (v : Nat)
    (hA0 : 0 ≤ A) (hA1 : A < width * height) :
    rectHandleCount (area.write A v) width height x0 y0 w h
      = rectHandleCount area width height x0 y0 w h
        - (if (area A ≠ 0 ∧ area A ≠ AREA_BLOCKED) ∧
            (x0 ≤ A % width ∧ A % width < x0 + w ∧ y0 ≤ A / width ∧ A / width < y0 + h)
          then (1 : Int) else 0)
        + (if (v ≠ 0 ∧ v ≠ AREA_BLOCKED) ∧
            (x0 ≤ A % width ∧ A % width < x0 + w ∧ y0 ≤ A / width ∧ A / width < y0 + h)
          then (1 : Int) else 0) :=
  sum_write area (width * height).toNat A v
    (fun k x => if (x ≠ 0 ∧ x ≠ AREA_BLOCKED) ∧
      (x0 ≤ k % width ∧ k % width < x0 + w ∧ y0 ≤ k / width ∧ k / width < y0 + h)
      then (1 : Int) else 0) hA0 (by omega)

/-- A write to a cell of the buffer changes the count of handles in a range of
rings by what the cell counted before and what it counts after. -/
theorem ringHandleCount_write (area : Area) (width height R0x lo hi A : Int) (v : Nat)
    (hA0 : 0 ≤ A) (hA1 : A < width * height) :
    ringHandleCount (area.write A v) width height R0x lo hi
      = ringHandleCount area width height R0x lo hi
        - (if (area A ≠ 0 ∧ area A ≠ AREA_BLOCKED) ∧
            (lo ≤ cellRing width height R0x A ∧ cellRing width height R0x A < hi)
          then (1 : Int) else 0)
        + (if (v ≠ 0 ∧ v ≠ AREA_BLOCKED) ∧
            (lo ≤ cellRing width height R0x A ∧ cellRing width height R0x A < hi)
          then (1 : Int) else 0) :=
  sum_write area (width * height).toNat A v
    (fun k x => if (x ≠ 0 ∧ x ≠ AREA_BLOCKED) ∧
      (lo ≤ cellRing width height R0x k ∧ cellRing width height R0x k < hi)
      then (1 : Int) else 0) hA0 (by omega)

/-- A write to a cell of the buffer changes the count of free cells of a ring by
what the cell counted before and what it counts after. -/
theorem ringFreeCount_write (area : Area) (width height R0x R A : Int) (v : Nat)
    (hA0 : 0 ≤ A) (hA1 : A < width * height) :
    ringFreeCount (area.write A v) width height R0x R
      = ringFreeCount area width height R0x R
        - (if area A = 0 ∧ cellRing width height R0x A = R then (1 : Int) else 0)
        + (if v = 0 ∧ cellRing width height R0x A = R then (1 : Int) else 0) :=
  sum_write area (width * height).toNat A v
    (fun k x => if x = 0 ∧ cellRing width height R0x k = R then (1 : Int) else 0) hA0 (by omega)

/-- A positive count of handles in a rectangle yields a cell of the rectangle that
holds one. -/
theorem rectHandleCount_pos (area : Area) (width height x0 y0 w h : Int)
    (hpos : 0 < rectHandleCount area width height x0 y0 w h) :
    ∃ x y, x0 ≤ x ∧ x < x0 + w ∧ y0 ≤ y ∧ y < y0 + h ∧
      area (y * width + x) ≠ 0 ∧ area (y * width + x) ≠ AREA_BLOCKED := by
  unfold rectHandleCount at hpos
  obtain ⟨k, _, hk⟩ := Finset.exists_ne_zero_of_sum_ne_zero (ne_of_gt hpos)
  by_cases hc : (area (k : Int) ≠ 0 ∧ area (k : Int) ≠ AREA_BLOCKED) ∧
      (x0 ≤ (k : Int) % width ∧ (k : Int) % width < x0 + w ∧
        y0 ≤ (k : Int) / width ∧ (k : Int) / width < y0 + h)
  · have e : (k : Int) / width * width + (k : Int) % width = (k : Int) := by
      rw [mul_comm]
      exact Int.ediv_add_emod _ _
    exact ⟨(k : Int) % width, (k : Int) / width, hc.2.1, hc.2.2.1, hc.2.2.2.1, hc.2.2.2.2,
      by rw [e]; exact hc.1.1, by rw [e]; exact hc.1.2⟩
  · rw [if_neg hc] at hk
    exact absurd rfl hk

/-- The count of handles in a rectangle is not negative. -/
theorem rectHandleCount_nonneg (area : Area) (width height x0 y0 w h : Int) :
    0 ≤ rectHandleCount area width height x0 y0 w h := by
  unfold rectHandleCount
  apply Finset.sum_nonneg
  intro k _
  split_ifs <;> decide

/-- The count of free cells of a ring is not negative. -/
theorem ringFreeCount_nonneg (area : Area) (width height R0x R : Int) :
    0 ≤ ringFreeCount area width height R0x R := by
  unfold ringFreeCount
  apply Finset.sum_nonneg
  intro k _
  split_ifs <;> decide

/-- The count of handles in a range of rings is not negative. -/
theorem ringHandleCount_nonneg (area : Area) (width height R0x lo hi : Int) :
    0 ≤ ringHandleCount area width height R0x lo hi := by
  unfold ringHandleCount
  apply Finset.sum_nonneg
  intro k _
  split_ifs <;> decide

/-- A ring without a cell that holds 0 has a free count of 0. -/
theorem ringFreeCount_zero {width height R0x R0y R0Width R0Height ringCount : Int}
    (v : ValidRings width height R0x R0y R0Width R0Height ringCount) (area : Area) (R : Int)
    (hfull : ∀ I, 0 ≤ I → I < RingLength R0Width R0Height R →
      area ((RingIndexToXY R0x R0y R0Width R0Height R I).2 * width +
        (RingIndexToXY R0x R0y R0Width R0Height R I).1) ≠ 0) :
    ringFreeCount area width height R0x R = 0 := by
  unfold ringFreeCount
  apply Finset.sum_eq_zero
  intro k hk
  have hk1 : (k : Int) < width * height := by
    have := Finset.mem_range.mp hk
    omega
  rw [if_neg]
  rintro ⟨hz, hr⟩
  obtain ⟨I, hI0, hI1, hI⟩ := cell_is_ring_cell v (k : Int) (by omega) hk1
  rw [hr] at hI1 hI
  exact hfull I hI0 hI1 (by rw [hI]; exact hz)

/-! ### `FillOutline` and the occupancy count -/

/-- One pass of the body of the loop of `FillOutline`, entered with the count in
sync and positive: the call of `FindNearestUnit` (made when the outline cell holds
0) returns a movable handle, the count stays in sync and drops with the number of
outline cells that hold 0, the visited cell does not hold 0 afterwards and no
other outline cell is cleared. -/
theorem FillOutlineCell_count {width height R0x R0y R0Width R0Height ringCount : Int}
    (v : ValidRings width height R0x R0y R0Width R0Height ringCount)
    (outlineRing : Int) (ho0 : 1 ≤ outlineRing) (ho1 : outlineRing < ringCount)
    (hwmax : width ≤ INT_MAX) (hhmax : height ≤ INT_MAX)
    (startIndex i : Int) (hs : 0 ≤ startIndex) (hi : 0 ≤ i) (s : FillState)
    (hsync : s.occupationCount = rectHandleCount s.area width height
      (R0x - (outlineRing - 1)) (R0y - (outlineRing - 1))
      (R0Width + 2 * (outlineRing - 1)) (R0Height + 2 * (outlineRing - 1)))
    (hpos : s.occupationCount > 0) :
    (s.area ((RingIndexToXY R0x R0y R0Width R0Height outlineRing
          (cmod (startIndex + i) (RingLength R0Width R0Height outlineRing))).2 * width +
        (RingIndexToXY R0x R0y R0Width R0Height outlineRing
          (cmod (startIndex + i) (RingLength R0Width R0Height outlineRing))).1) = 0 →
      (FindNearestUnit s.area
          (RingIndexToXY R0x R0y R0Width R0Height outlineRing
            (cmod (startIndex + i) (RingLength R0Width R0Height outlineRing))).1
          (RingIndexToXY R0x R0y R0Width R0Height outlineRing
            (cmod (startIndex + i) (RingLength R0Width R0Height outlineRing))).2
          (R0x - (outlineRing - 1)) (R0y - (outlineRing - 1))
          (R0Width + 2 * (outlineRing - 1)) (R0Height + 2 * (outlineRing - 1))
          width height).1 ≠ 0 ∧
        (FindNearestUnit s.area
          (RingIndexToXY R0x R0y R0Width R0Height outlineRing
            (cmod (startIndex + i) (RingLength R0Width R0Height outlineRing))).1
          (RingIndexToXY R0x R0y R0Width R0Height outlineRing
            (cmod (startIndex + i) (RingLength R0Width R0Height outlineRing))).2
          (R0x - (outlineRing - 1)) (R0y - (outlineRing - 1))
          (R0Width + 2 * (outlineRing - 1)) (R0Height + 2 * (outlineRing - 1))
          width height).1 ≠ AREA_BLOCKED) ∧
    (FillOutlineCell width height R0x R0y R0Width R0Height outlineRing
        (R0x - (outlineRing - 1)) (R0y - (outlineRing - 1))
        (R0Width + 2 * (outlineRing - 1)) (R0Height + 2 * (outlineRing - 1))
        (RingLength R0Width R0Height outlineRing) startIndex i s).occupationCount
      = rectHandleCount
        (FillOutlineCell width height R0x R0y R0Width R0Height outlineRing
          (R0x - (outlineRing - 1)) (R0y - (outlineRing - 1))
          (R0Width + 2 * (outlineRing - 1)) (R0Height + 2 * (outlineRing - 1))
          (RingLength R0Width R0Height outlineRing) startIndex i s).area width height
        (R0x - (outlineRing - 1)) (R0y - (outlineRing - 1))
        (R0Width + 2 * (outlineRing - 1)) (R0Height + 2 * (outlineRing - 1)) ∧
    (FillOutlineCell width height R0x R0y R0Width R0Height outlineRing
        (R0x - (outlineRing - 1)) (R0y - (outlineRing - 1))
        (R0Width + 2 * (outlineRing - 1)) (R0Height + 2 * (outlineRing - 1))
        (RingLength R0Width R0Height outlineRing) startIndex i s).occupationCount
      - ringFreeCount
        (FillOutlineCell width height R0x R0y R0Width R0Height outlineRing
          (R0x - (outlineRing - 1)) (R0y - (outlineRing - 1))
          (R0Width + 2 * (outlineRing - 1)) (R0Height + 2 * (outlineRing - 1))
          (RingLength R0Width R0Height outlineRing) startIndex i s).area width height R0x
        outlineRing
      = s.occupationCount - ringFreeCount s.area width height R0x outlineRing ∧
    s.occupationCount - 1 ≤
      (FillOutlineCell width height R0x R0y R0Width R0Height outlineRing
        (R0x - (outlineRing - 1)) (R0y - (outlineRing - 1))
        (R0Width + 2 * (outlineRing - 1)) (R0Height + 2 * (outlineRing - 1))
        (RingLength R0Width R0Height outlineRing) startIndex i s).occupationCount ∧
    (FillOutlineCell width height R0x R0y R0Width R0Height outlineRing
        (R0x - (outlineRing - 1)) (R0y - (outlineRing - 1))
        (R0Width + 2 * (outlineRing - 1)) (R0Height + 2 * (outlineRing - 1))
        (RingLength R0Width R0Height outlineRing) startIndex i s).occupationCount
      ≤ s.occupationCount ∧
    (FillOutlineCell width height R0x R0y R0Width R0Height outlineRing
        (R0x - (outlineRing - 1)) (R0y - (outlineRing - 1))
        (R0Width + 2 * (outlineRing - 1)) (R0Height + 2 * (outlineRing - 1))
        (RingLength R0Width R0Height outlineRing) startIndex i s).area
      ((RingIndexToXY R0x R0y R0Width R0Height outlineRing
          (cmod (startIndex + i) (RingLength R0Width R0Height outlineRing))).2 * width +
        (RingIndexToXY R0x R0y R0Width R0Height outlineRing
          (cmod (startIndex + i) (RingLength R0Width R0Height outlineRing))).1) ≠ 0 ∧
    (∀ I, 0 ≤ I → I < RingLength R0Width R0Height outlineRing →
      s.area ((RingIndexToXY R0x R0y R0Width R0Height outlineRing I).2 * width +
        (RingIndexToXY R0x R0y R0Width R0Height outlineRing I).1) ≠ 0 →
      (FillOutlineCell width height R0x R0y R0Width R0Height outlineRing
        (R0x - (outlineRing - 1)) (R0y - (outlineRing - 1))
        (R0Width + 2 * (outlineRing - 1)) (R0Height + 2 * (outlineRing - 1))
        (RingLength R0Width R0Height outlineRing) startIndex i s).area
        ((RingIndexToXY R0x R0y R0Width R0Height outlineRing I).2 * width +
          (RingIndexToXY R0x R0y R0Width R0Height outlineRing I).1) ≠ 0) := by
  have hlen := (RingLength_pos R0Width R0Height outlineRing v.hW v.hH (by omega)).1
  have hidx := cmod_range (startIndex + i) (RingLength R0Width R0Height outlineRing)
    (by omega) (by omega)
  have hxy := ring_in_area v outlineRing
    (cmod (startIndex + i) (RingLength R0Width R0Height outlineRing)) (by omega) ho1 hidx.1
  have hP := ring_cell_flat v outlineRing
    (cmod (startIndex + i) (RingLength R0Width R0Height outlineRing)) (by omega) ho1 hidx.1 hidx.2
  generalize hp : RingIndexToXY R0x R0y R0Width R0Height outlineRing
    (cmod (startIndex + i) (RingLength R0Width R0Height outlineRing)) = p at *
  have hPrect : ¬ (R0x - (outlineRing - 1) ≤ (p.2 * width + p.1) % width ∧
      (p.2 * width + p.1) % width
        < R0x - (outlineRing - 1) + (R0Width + 2 * (outlineRing - 1)) ∧
      R0y - (outlineRing - 1) ≤ (p.2 * width + p.1) / width ∧
      (p.2 * width + p.1) / width
        < R0y - (outlineRing - 1) + (R0Height + 2 * (outlineRing - 1))) := by
    rw [rect_iff_ring v outlineRing _ hP.1.1 hP.1.2, hP.2]
    omega
  by_cases hz : s.area (p.2 * width + p.1) = 0
  · obtain ⟨x, y, hx0, hx1, hy0, hy1, hm0, hm1⟩ := rectHandleCount_pos s.area width height _ _ _ _
      (by rw [← hsync]; exact hpos)
    have h1 := v.hx
    have h2 := v.hy
    have h3 := v.hwidth
    have h4 := v.hheight
    have hINT : INT_MAX = 2147483647 := by decide
    have hne := FindNearestUnit_finds s.area p.1 p.2 (R0x - (outlineRing - 1))
      (R0y - (outlineRing - 1)) (R0Width + 2 * (outlineRing - 1))
      (R0Height + 2 * (outlineRing - 1)) width height
      (by intro x y a1 a2 a3 a4; omega) x y hx0 hx1 hy0 hy1 ⟨hm0, hm1⟩
    rcases FindNearestUnit_spec s.area p.1 p.2 (R0x - (outlineRing - 1))
      (R0y - (outlineRing - 1)) (R0Width + 2 * (outlineRing - 1))
      (R0Height + 2 * (outlineRing - 1)) width height with h0 | ⟨u0, u1, ux0, ux1, uy0, uy1, uv⟩
    · exact absurd h0 hne
    generalize hu : FindNearestUnit s.area p.1 p.2 (R0x - (outlineRing - 1))
      (R0y - (outlineRing - 1)) (R0Width + 2 * (outlineRing - 1))
      (R0Height + 2 * (outlineRing - 1)) width height = u at *
    have hU := rect_cell_flat v outlineRing (by omega) u.2.1 u.2.2 ux0 ux1 uy0 uy1
    have hUP : u.2.2 * width + u.2.1 ≠ p.2 * width + p.1 := by
      intro e
      rw [e, hP.2] at hU
      omega
    have hstep : FillOutlineCell width height R0x R0y R0Width R0Height outlineRing
        (R0x - (outlineRing - 1)) (R0y - (outlineRing - 1))
        (R0Width + 2 * (outlineRing - 1)) (R0Height + 2 * (outlineRing - 1))
        (RingLength R0Width R0Height outlineRing) startIndex i s
        = { s with
            area := (s.area.write (p.2 * width + p.1) u.1).write (u.2.2 * width + u.2.1) 0
            occupationCount := s.occupationCount - 1 } := by
      unfold FillOutlineCell
      simp only [hp]
      rw [if_pos hz, hu, if_pos hne]
    rw [hstep]
    simp only
    refine ⟨fun _ => ⟨u0, u1⟩, ?_, ?_, by omega, by omega, ?_, ?_⟩
    · rw [rectHandleCount_write _ _ _ _ _ _ _ _ _ hU.1.1 hU.1.2,
        rectHandleCount_write _ _ _ _ _ _ _ _ _ hP.1.1 hP.1.2,
        Area_write_other _ _ _ _ hUP, uv, if_neg (fun h => hPrect h.2),
        if_neg (fun h => hPrect h.2), hU.2.1, hU.2.2.1,
        if_pos ⟨⟨u0, u1⟩, ux0, ux1, uy0, uy1⟩, if_neg (fun h => h.1.1 rfl)]
      omega
    · rw [ringFreeCount_write _ _ _ _ _ _ _ hU.1.1 hU.1.2,
        ringFreeCount_write _ _ _ _ _ _ _ hP.1.1 hP.1.2,
        if_pos ⟨hz, hP.2⟩, if_neg (fun h => u0 h.1),
        if_neg (fun h => by have := hU.2.2.2; omega),
        if_neg (fun h => by have := hU.2.2.2; omega)]
      omega
    · rw [Area_write_other _ _ _ _ (Ne.symm hUP), Area_write_same]
      exact u0
    · intro I hI0 hI1 hI
      have hIc := ring_cell_flat v outlineRing I (by omega) ho1 hI0 hI1
      rw [Area_write_other _ _ _ _ (by
        intro e
        rw [e] at hIc
        have := hU.2.2.2
        omega)]
      by_cases hIP : (RingIndexToXY R0x R0y R0Width R0Height outlineRing I).2 * width +
          (RingIndexToXY R0x R0y R0Width R0Height outlineRing I).1 = p.2 * width + p.1
      · rw [hIP, Area_write_same]
        exact u0
      · rw [Area_write_other _ _ _ _ hIP]
        exact hI
  · have hstep : FillOutlineCell width height R0x R0y R0Width R0Height outlineRing
        (R0x - (outlineRing - 1)) (R0y - (outlineRing - 1))
        (R0Width + 2 * (outlineRing - 1)) (R0Height + 2 * (outlineRing - 1))
        (RingLength R0Width R0Height outlineRing) startIndex i s = s := by
      unfold FillOutlineCell
      simp only [hp]
      rw [if_neg hz]
    rw [hstep]
    exact ⟨fun h => absurd h hz, hsync, rfl, by omega, le_refl _, hz, fun I _ _ h => h⟩

/-- The result of `forLoopWhile` is the state of the last loop head it passes:
there the counter has reached the bound or the guard fails. -/
theorem forLoopWhile_visits {σ : Type} (guard : σ → Bool) (body : Int → σ → σ) (hi lo : Int)
    (s0 : σ) :
    ∀ (n : Nat) (i : Int) (s : σ), LoopVisits guard body hi lo s0 i s → i + n = hi →
      ∃ j, i ≤ j ∧ j ≤ hi ∧ LoopVisits guard body hi lo s0 j (forLoopWhile guard body n i s) ∧
        (j = hi ∨ guard (forLoopWhile guard body n i s) = false) := by
  intro n
  induction n with
  | zero =>
    intro i s hv hn
    exact ⟨i, le_refl _, by omega, hv, Or.inl (by omega)⟩
  | succ n ih =>
    intro i s hv hn
    unfold forLoopWhile
    by_cases hg : guard s = true
    · rw [if_pos hg]
      obtain ⟨j, h1, h2, h3, h4⟩ := ih (i + 1) (body i s)
        (LoopVisits.step i s hv (by push_cast at hn; omega) hg) (by push_cast at hn; omega)
      exact ⟨j, by omega, h2, h3, h4⟩
    · rw [if_neg hg]
      exact ⟨i, le_refl _, by omega, hv, Or.inr (by simpa using hg)⟩

/-- What holds at every loop head of `FillOutline` when the count is in sync on
entry: the count is in sync, between 0 and the count on entry, it has dropped by
the number of outline cells filled, and the outline cells visited do not hold
0. -/
theorem FillOutline_heads {width height R0x R0y R0Width R0Height ringCount : Int}
    (v : ValidRings width height R0x R0y R0Width R0Height ringCount)
    (outlineRing : Int) (ho0 : 1 ≤ outlineRing) (ho1 : outlineRing < ringCount)
    (hwmax : width ≤ INT_MAX) (hhmax : height ≤ INT_MAX)
    (startIndex : Int) (hs : 0 ≤ startIndex) (s0 : FillState)
    (hsync : s0.occupationCount = rectHandleCount s0.area width height
      (R0x - (outlineRing - 1)) (R0y - (outlineRing - 1))
      (R0Width + 2 * (outlineRing - 1)) (R0Height + 2 * (outlineRing - 1)))
    (i : Int) (s : FillState)
    (hv : LoopVisits (fun s : FillState => decide (s.occupationCount > 0))
      (FillOutlineCell width height R0x R0y R0Width R0Height outlineRing
        (R0x - (outlineRing - 1)) (R0y - (outlineRing - 1))
        (R0Width + 2 * (outlineRing - 1)) (R0Height + 2 * (outlineRing - 1))
        (RingLength R0Width R0Height outlineRing) startIndex)
      (RingLength R0Width R0Height outlineRing) 0 s0 i s) :
    0 ≤ i ∧
    s.occupationCount = rectHandleCount s.area width height
      (R0x - (outlineRing - 1)) (R0y - (outlineRing - 1))
      (R0Width + 2 * (outlineRing - 1)) (R0Height + 2 * (outlineRing - 1)) ∧
    s.occupationCount ≤ s0.occupationCount ∧
    s.occupationCount - ringFreeCount s.area width height R0x outlineRing
      = s0.occupationCount - ringFreeCount s0.area width height R0x outlineRing ∧
    (∀ m, 0 ≤ m → m < i →
      s.area ((RingIndexToXY R0x R0y R0Width R0Height outlineRing
          (cmod (startIndex + m) (RingLength R0Width R0Height outlineRing))).2 * width +
        (RingIndexToXY R0x R0y R0Width R0Height outlineRing
          (cmod (startIndex + m) (RingLength R0Width R0Height outlineRing))).1) ≠ 0) := by
  induction hv with
  | start => exact ⟨le_refl _, hsync, le_refl _, rfl, fun m h1 h2 => by omega⟩
  | step i s _ hlt hg ih =>
    obtain ⟨hi0, h1, h2, h3, h4⟩ := ih
    have hpos : s.occupationCount > 0 := by simpa using hg
    obtain ⟨_, c2, c3, c4, c5, c6, c7⟩ := FillOutlineCell_count v outlineRing ho0 ho1 hwmax hhmax
      startIndex i hs hi0 s h1 hpos
    have hlen := (RingLength_pos R0Width R0Height outlineRing v.hW v.hH (by omega)).1
    refine ⟨by omega, c2, by omega, by omega, fun m hm0 hm1 => ?_⟩
    by_cases hmi : m = i
    · subst hmi
      exact c6
    · have hidx := cmod_range (startIndex + m) (RingLength R0Width R0Height outlineRing)
        (by omega) (by omega)
      exact c7 _ hidx.1 hidx.2 (h4 m hm0 (by omega))

/-- What `FillOutline` returns when the count is in sync on entry: the count is in
sync on exit and lies between 0 and the count on entry; it has dropped by the
number of outline cells that were filled; and when it is positive, the loop has
visited every outline cell and none of them holds 0. -/
theorem FillOutline_count {width height R0x R0y R0Width R0Height ringCount : Int}
    (v : ValidRings width height R0x R0y R0Width R0Height ringCount)
    (outlineRing : Int) (ho0 : 1 ≤ outlineRing) (ho1 : outlineRing < ringCount)
    (hwmax : width ≤ INT_MAX) (hhmax : height ≤ INT_MAX)
    (area : Area) (rnd : RandSource) (occupationCount : Int)
    (hsync : occupationCount = rectHandleCount area width height
      (R0x - (outlineRing - 1)) (R0y - (outlineRing - 1))
      (R0Width + 2 * (outlineRing - 1)) (R0Height + 2 * (outlineRing - 1))) :
    (FillOutline area rnd occupationCount width height R0x R0y R0Width R0Height outlineRing).1
      = rectHandleCount
        (FillOutline area rnd occupationCount width height R0x R0y R0Width R0Height
          outlineRing).2.1 width height
        (R0x - (outlineRing - 1)) (R0y - (outlineRing - 1))
        (R0Width + 2 * (outlineRing - 1)) (R0Height + 2 * (outlineRing - 1)) ∧
    (FillOutline area rnd occupationCount width height R0x R0y R0Width R0Height outlineRing).1
      ≤ occupationCount ∧
    (FillOutline area rnd occupationCount width height R0x R0y R0Width R0Height outlineRing).1
      = max 0 (occupationCount - ringFreeCount area width height R0x outlineRing) ∧
    ((FillOutline area rnd occupationCount width height R0x R0y R0Width R0Height outlineRing).1
        > 0 →
      ∀ I, 0 ≤ I → I < RingLength R0Width R0Height outlineRing →
        (FillOutline area rnd occupationCount width height R0x R0y R0Width R0Height
          outlineRing).2.1
          ((RingIndexToXY R0x R0y R0Width R0Height outlineRing I).2 * width +
            (RingIndexToXY R0x R0y R0Width R0Height outlineRing I).1) ≠ 0) := by
  have hlen := (RingLength_pos R0Width R0Height outlineRing v.hW v.hH (by omega)).1
  have hr := random_range rnd (RingLength R0Width R0Height outlineRing) (by omega)
  obtain ⟨j, hj0, hj1, hv, hend⟩ := forLoopWhile_visits
    (fun s : FillState => decide (s.occupationCount > 0))
    (FillOutlineCell width height R0x R0y R0Width R0Height outlineRing
      (R0x - (outlineRing - 1)) (R0y - (outlineRing - 1))
      (R0Width + 2 * (outlineRing - 1)) (R0Height + 2 * (outlineRing - 1))
      (RingLength R0Width R0Height outlineRing)
      (rnd.random (RingLength R0Width R0Height outlineRing)))
    (RingLength R0Width R0Height outlineRing) 0
    { area := area, rnd := rnd.next, occupationCount := occupationCount }
    (RingLength R0Width R0Height outlineRing).toNat 0
    { area := area, rnd := rnd.next, occupationCount := occupationCount }
    LoopVisits.start (by omega)
  obtain ⟨_, h1, h2, h3, h4⟩ := FillOutline_heads v outlineRing ho0 ho1 hwmax hhmax
    (rnd.random (RingLength R0Width R0Height outlineRing)) hr.1
    { area := area, rnd := rnd.next, occupationCount := occupationCount } hsync j _ hv
  unfold FillOutline
  simp only
  generalize forLoopWhile (fun s : FillState => decide (s.occupationCount > 0))
    (FillOutlineCell width height R0x R0y R0Width R0Height outlineRing
      (R0x - (outlineRing - 1)) (R0y - (outlineRing - 1))
      (R0Width + 2 * (outlineRing - 1)) (R0Height + 2 * (outlineRing - 1))
      (RingLength R0Width R0Height outlineRing)
      (rnd.random (RingLength R0Width R0Height outlineRing)))
    (RingLength R0Width R0Height outlineRing).toNat 0
    { area := area, rnd := rnd.next, occupationCount := occupationCount } = t at *
  simp only at h2 h3
  have hnn := rectHandleCount_nonneg t.area width height
    (R0x - (outlineRing - 1)) (R0y - (outlineRing - 1))
    (R0Width + 2 * (outlineRing - 1)) (R0Height + 2 * (outlineRing - 1))
  have hfull : j = RingLength R0Width R0Height outlineRing →
      ∀ I, 0 ≤ I → I < RingLength R0Width R0Height outlineRing →
        t.area ((RingIndexToXY R0x R0y R0Width R0Height outlineRing I).2 * width +
          (RingIndexToXY R0x R0y R0Width R0Height outlineRing I).1) ≠ 0 := by
    intro hj I hI0 hI1
    obtain ⟨m, hm0, hm1, hm⟩ := scan_covers
      (rnd.random (RingLength R0Width R0Height outlineRing))
      (RingLength R0Width R0Height outlineRing) I hr.1 hI0 hI1
    have := h4 m hm0 (by omega)
    rw [hm] at this
    exact this
  have hfree := ringFreeCount_nonneg t.area width height R0x outlineRing
  refine ⟨h1, h2, ?_, ?_⟩
  · rcases hend with hj | hg
    · have hz := ringFreeCount_zero v t.area outlineRing (hfull hj)
      omega
    · have hle : ¬ (t.occupationCount > 0) := by simpa using hg
      omega
  · intro hpos
    rcases hend with hj | hg
    · exact hfull hj
    · have hle : ¬ (t.occupationCount > 0) := by simpa using hg
      exact absurd hpos hle

/-! ### `PushQueues` and the occupancy count -/

/-- What the loop of `PushQueues` does when it is entered with the count in sync:
the count is in sync when it returns and has not grown; the buffer is reached by
as many paired steps as the count has dropped; the number of handles in ring
`outlineRing + 1` has grown by that drop; and an outline ring without a cell that
holds 0 stays so. -/
theorem PushQueuesLoop_count {width height R0x R0y R0Width R0Height ringCount : Int}
    (v : ValidRings width height R0x R0y R0Width R0Height ringCount)
    (outlineRing : Int) (ho0 : 1 ≤ outlineRing) (ho1 : outlineRing + 1 < ringCount)
    (hwmax : width ≤ INT_MAX) (hhmax : height ≤ INT_MAX)
    (startIndex : Int) (hs : 0 ≤ startIndex) :
    ∀ (fuel : Nat) (i : Int) (s t : FillState), 0 ≤ i →
      PushQueuesLoop width height R0x R0y R0Width R0Height outlineRing
        (R0x - (outlineRing - 1)) (R0y - (outlineRing - 1))
        (R0Width + 2 * (outlineRing - 1)) (R0Height + 2 * (outlineRing - 1))
        (RingLength R0Width R0Height outlineRing) startIndex fuel i s = some t →
      s.occupationCount = rectHandleCount s.area width height
        (R0x - (outlineRing - 1)) (R0y - (outlineRing - 1))
        (R0Width + 2 * (outlineRing - 1)) (R0Height + 2 * (outlineRing - 1)) →
      t.occupationCount = rectHandleCount t.area width height
        (R0x - (outlineRing - 1)) (R0y - (outlineRing - 1))
        (R0Width + 2 * (outlineRing - 1)) (R0Height + 2 * (outlineRing - 1)) ∧
      t.occupationCount ≤ s.occupationCount ∧
      QueueSteps width R0x R0y R0Width R0Height outlineRing
        (s.occupationCount - t.occupationCount).toNat s.area t.area ∧
      ringHandleCount t.area width height R0x (outlineRing + 1) (outlineRing + 2)
          - ringHandleCount s.area width height R0x (outlineRing + 1) (outlineRing + 2)
        = s.occupationCount - t.occupationCount ∧
      ((∀ I, 0 ≤ I → I < RingLength R0Width R0Height outlineRing →
          s.area ((RingIndexToXY R0x R0y R0Width R0Height outlineRing I).2 * width +
            (RingIndexToXY R0x R0y R0Width R0Height outlineRing I).1) ≠ 0) →
        ∀ I, 0 ≤ I → I < RingLength R0Width R0Height outlineRing →
          t.area ((RingIndexToXY R0x R0y R0Width R0Height outlineRing I).2 * width +
            (RingIndexToXY R0x R0y R0Width R0Height outlineRing I).1) ≠ 0) := by
  have hlen := (RingLength_pos R0Width R0Height outlineRing v.hW v.hH (by omega)).1
  intro fuel
  induction fuel with
  | zero =>
    intro i s t hi h hsync
    unfold PushQueuesLoop at h
    split_ifs at h
    simp only [Option.some.injEq] at h
    subst h
    exact ⟨hsync, le_refl _, by simp [QueueSteps], by ring, fun h => h⟩
  | succ fuel ih =>
    intro i s t hi h hsync
    unfold PushQueuesLoop at h
    by_cases hg : i < RingLength R0Width R0Height outlineRing ∧ s.occupationCount > 0
    · rw [if_pos hg] at h
      simp only at h
      have hidx := cmod_range (startIndex + i) (RingLength R0Width R0Height outlineRing)
        (by omega) (by omega)
      have hP := ring_cell_flat v outlineRing
        (cmod (startIndex + i) (RingLength R0Width R0Height outlineRing)) (by omega) (by omega)
        hidx.1 hidx.2
      generalize hidxe : cmod (startIndex + i) (RingLength R0Width R0Height outlineRing)
        = idx at *
      by_cases hmov : s.area ((RingIndexToXY R0x R0y R0Width R0Height outlineRing idx).2 * width +
            (RingIndexToXY R0x R0y R0Width R0Height outlineRing idx).1) ≠ 0 ∧
          s.area ((RingIndexToXY R0x R0y R0Width R0Height outlineRing idx).2 * width +
            (RingIndexToXY R0x R0y R0Width R0Height outlineRing idx).1) ≠ AREA_BLOCKED
      · rw [if_pos hmov] at h
        by_cases hfound : (FindPushedSpot s.area s.rnd 1 width height R0x R0y R0Width R0Height
            outlineRing idx).1 ≠ -1
        · rw [if_pos hfound] at h
          rcases FindPushedSpot_spec s.area s.rnd 1 width height R0x R0y R0Width R0Height
            outlineRing idx v.hW v.hH (by omega) hidx.1 hidx.2 (by omega) (by decide)
            with hq | ⟨hq0, hq1, hqz⟩
          · exact absurd hq hfound
          generalize hre : FindPushedSpot s.area s.rnd 1 width height R0x R0y R0Width R0Height
            outlineRing idx = r at *
          have hQ := ring_cell_flat v (outlineRing + 1) r.1 (by omega) ho1 hq0 hq1
          generalize hpe : RingIndexToXY R0x R0y R0Width R0Height outlineRing idx = p at *
          generalize hqe : RingIndexToXY R0x R0y R0Width R0Height (outlineRing + 1) r.1 = q at *
          have hPQ : p.2 * width + p.1 ≠ q.2 * width + q.1 := by
            intro e
            rw [e, hQ.2] at hP
            omega
          have hPrect : ¬ (R0x - (outlineRing - 1) ≤ (p.2 * width + p.1) % width ∧
              (p.2 * width + p.1) % width
                < R0x - (outlineRing - 1) + (R0Width + 2 * (outlineRing - 1)) ∧
              R0y - (outlineRing - 1) ≤ (p.2 * width + p.1) / width ∧
              (p.2 * width + p.1) / width
                < R0y - (outlineRing - 1) + (R0Height + 2 * (outlineRing - 1))) := by
            rw [rect_iff_ring v outlineRing _ hP.1.1 hP.1.2, hP.2]
            omega
          have hQrect : ¬ (R0x - (outlineRing - 1) ≤ (q.2 * width + q.1) % width ∧
              (q.2 * width + q.1) % width
                < R0x - (outlineRing - 1) + (R0Width + 2 * (outlineRing - 1)) ∧
              R0y - (outlineRing - 1) ≤ (q.2 * width + q.1) / width ∧
              (q.2 * width + q.1) / width
                < R0y - (outlineRing - 1) + (R0Height + 2 * (outlineRing - 1))) := by
            rw [rect_iff_ring v outlineRing _ hQ.1.1 hQ.1.2, hQ.2]
            omega
          have hrect1 : rectHandleCount
              ((s.area.write (q.2 * width + q.1) (s.area (p.2 * width + p.1))).write
                (p.2 * width + p.1) 0) width height
              (R0x - (outlineRing - 1)) (R0y - (outlineRing - 1))
              (R0Width + 2 * (outlineRing - 1)) (R0Height + 2 * (outlineRing - 1))
              = s.occupationCount := by
            rw [rectHandleCount_write _ _ _ _ _ _ _ _ _ hP.1.1 hP.1.2,
              rectHandleCount_write _ _ _ _ _ _ _ _ _ hQ.1.1 hQ.1.2]
            simp only [hPrect, hQrect, and_false, if_false, sub_zero, add_zero]
            exact hsync.symm
          generalize harea1 : (s.area.write (q.2 * width + q.1)
            (s.area (p.2 * width + p.1))).write (p.2 * width + p.1) 0 = area1 at *
          obtain ⟨x, y, hx0, hx1, hy0, hy1, hm0, hm1⟩ := rectHandleCount_pos area1 width height
            _ _ _ _ (by rw [hrect1]; exact hg.2)
          have hxy := ring_in_area v outlineRing idx (by omega) (by omega) hidx.1
          rw [hpe] at hxy
          have h1 := v.hx
          have h2 := v.hy
          have h3 := v.hwidth
          have h4 := v.hheight
          have hINT : INT_MAX = 2147483647 := by decide
          have hne := FindNearestUnit_finds area1 p.1 p.2 (R0x - (outlineRing - 1))
            (R0y - (outlineRing - 1)) (R0Width + 2 * (outlineRing - 1))
            (R0Height + 2 * (outlineRing - 1)) width height
            (by intro x y a1 a2 a3 a4; omega) x y hx0 hx1 hy0 hy1 ⟨hm0, hm1⟩
          rcases FindNearestUnit_spec area1 p.1 p.2 (R0x - (outlineRing - 1))
            (R0y - (outlineRing - 1)) (R0Width + 2 * (outlineRing - 1))
            (R0Height + 2 * (outlineRing - 1)) width height
            with h0 | ⟨u0, u1, ux0, ux1, uy0, uy1, uv⟩
          · exact absurd h0 hne
          rw [if_pos hne] at h
          generalize hu : FindNearestUnit area1 p.1 p.2 (R0x - (outlineRing - 1))
            (R0y - (outlineRing - 1)) (R0Width + 2 * (outlineRing - 1))
            (R0Height + 2 * (outlineRing - 1)) width height = u at *
          have hU := rect_cell_flat v outlineRing (by omega) u.2.1 u.2.2 ux0 ux1 uy0 uy1
          have hUP : u.2.2 * width + u.2.1 ≠ p.2 * width + p.1 := by
            intro e
            rw [e, hP.2] at hU
            omega
          have hUQ : u.2.2 * width + u.2.1 ≠ q.2 * width + q.1 := by
            intro e
            rw [e, hQ.2] at hU
            omega
          have hUv : s.area (u.2.2 * width + u.2.1) = u.1 := by
            rw [← uv, ← harea1, Area_write_other _ _ _ _ hUP, Area_write_other _ _ _ _ hUQ]
          have hsync2 : s.occupationCount - 1 = rectHandleCount
              ((area1.write (p.2 * width + p.1) u.1).write (u.2.2 * width + u.2.1) 0)
              width height (R0x - (outlineRing - 1)) (R0y - (outlineRing - 1))
              (R0Width + 2 * (outlineRing - 1)) (R0Height + 2 * (outlineRing - 1)) := by
            rw [rectHandleCount_write _ _ _ _ _ _ _ _ _ hU.1.1 hU.1.2,
              rectHandleCount_write _ _ _ _ _ _ _ _ _ hP.1.1 hP.1.2,
              Area_write_other _ _ _ _ hUP, uv, if_neg (fun h => hPrect h.2),
              if_neg (fun h => hPrect h.2), hU.2.1, hU.2.2.1,
              if_pos ⟨⟨u0, u1⟩, ux0, ux1, uy0, uy1⟩, if_neg (fun h => h.1.1 rfl), hrect1]
            ring
          have hrest := ih (i - 1 + 1) _ t (by omega) h hsync2
          obtain ⟨r1, r2, r3, r4, r5⟩ := hrest
          simp only at r2 r3 r4 r5
          refine ⟨r1, by omega, ?_, ?_, ?_⟩
          · have e : (s.occupationCount - t.occupationCount).toNat
                = (s.occupationCount - 1 - t.occupationCount).toNat + 1 := by omega
            rw [e]
            refine ⟨_, ⟨idx, r.1, u.2.1, u.2.2, hidx, ⟨hq0, hq1⟩, ⟨ux0, ux1, uy0, uy1⟩, ?_, ?_, ?_,
              ?_⟩, r3⟩
            · rw [hpe]; exact hmov
            · rw [hqe]; exact hqz
            · rw [hUv]; exact ⟨u0, u1⟩
            · rw [hpe, hqe, hUv, harea1]
          · have hring : ringHandleCount
                ((area1.write (p.2 * width + p.1) u.1).write (u.2.2 * width + u.2.1) 0)
                width height R0x (outlineRing + 1) (outlineRing + 2)
                = ringHandleCount s.area width height R0x (outlineRing + 1) (outlineRing + 2)
                  + 1 := by
              have hUring : ¬ (outlineRing + 1 ≤ cellRing width height R0x
                    (u.2.2 * width + u.2.1) ∧
                  cellRing width height R0x (u.2.2 * width + u.2.1) < outlineRing + 2) := by
                have := hU.2.2.2
                omega
              have hPring : ¬ (outlineRing + 1 ≤ cellRing width height R0x (p.2 * width + p.1) ∧
                  cellRing width height R0x (p.2 * width + p.1) < outlineRing + 2) := by
                have := hP.2
                omega
              have hQring : (outlineRing + 1 ≤ cellRing width height R0x (q.2 * width + q.1) ∧
                  cellRing width height R0x (q.2 * width + q.1) < outlineRing + 2) := by
                have := hQ.2
                omega
              rw [ringHandleCount_write _ _ _ _ _ _ _ _ hU.1.1 hU.1.2,
                ringHandleCount_write _ _ _ _ _ _ _ _ hP.1.1 hP.1.2, ← harea1,
                ringHandleCount_write _ _ _ _ _ _ _ _ hP.1.1 hP.1.2,
                ringHandleCount_write _ _ _ _ _ _ _ _ hQ.1.1 hQ.1.2]
              simp only [hUring, hPring, hQring, and_false, and_true, if_false, hqz, hmov,
                ne_eq, not_true_eq_false, not_false_eq_true, and_self, false_and, if_true,
                sub_zero, add_zero]
            rw [hring] at r4
            omega
          · intro hfull I hI0 hI1
            apply r5 _ I hI0 hI1
            intro J hJ0 hJ1
            have hJc := ring_cell_flat v outlineRing J (by omega) (by omega) hJ0 hJ1
            rw [Area_write_other _ _ _ _ (by
              intro e
              rw [e] at hJc
              have := hU.2.2.2
              omega)]
            by_cases hJP : (RingIndexToXY R0x R0y R0Width R0Height outlineRing J).2 * width +
                (RingIndexToXY R0x R0y R0Width R0Height outlineRing J).1 = p.2 * width + p.1
            · rw [hJP, Area_write_same]
              exact u0
            · rw [Area_write_other _ _ _ _ hJP, ← harea1, Area_write_other _ _ _ _ hJP,
                Area_write_other _ _ _ _ (by
                  intro e
                  rw [e, hQ.2] at hJc
                  omega)]
              exact hfull J hJ0 hJ1
        · rw [if_neg hfound] at h
          have hrest := ih (i + 1) _ t (by omega) h hsync
          exact hrest
      · rw [if_neg hmov] at h
        exact ih (i + 1) _ t (by omega) h hsync
    · rw [if_neg hg] at h
      simp only [Option.some.injEq] at h
      subst h
      exact ⟨hsync, le_refl _, by simp [QueueSteps], by ring, fun h => h⟩

/-- What `PushQueues` does when it is entered with the count in sync. -/
theorem PushQueues_count {width height R0x R0y R0Width R0Height ringCount : Int}
    (v : ValidRings width height R0x R0y R0Width R0Height ringCount)
    (outlineRing : Int) (ho0 : 1 ≤ outlineRing) (ho1 : outlineRing + 1 < ringCount)
    (hwmax : width ≤ INT_MAX) (hhmax : height ≤ INT_MAX)
    (area : Area) (rnd : RandSource) (occupationCount : Int)
    (hsync : occupationCount = rectHandleCount area width height
      (R0x - (outlineRing - 1)) (R0y - (outlineRing - 1))
      (R0Width + 2 * (outlineRing - 1)) (R0Height + 2 * (outlineRing - 1))) :
    ∃ r, PushQueues area rnd occupationCount width height R0x R0y R0Width R0Height outlineRing
        = some r ∧
      r.1 = rectHandleCount r.2.1 width height
        (R0x - (outlineRing - 1)) (R0y - (outlineRing - 1))
        (R0Width + 2 * (outlineRing - 1)) (R0Height + 2 * (outlineRing - 1)) ∧
      r.1 ≤ occupationCount ∧
      QueueSteps width R0x R0y R0Width R0Height outlineRing (occupationCount - r.1).toNat
        area r.2.1 ∧
      ringHandleCount r.2.1 width height R0x (outlineRing + 1) (outlineRing + 2)
          - ringHandleCount area width height R0x (outlineRing + 1) (outlineRing + 2)
        = occupationCount - r.1 ∧
      ((∀ I, 0 ≤ I → I < RingLength R0Width R0Height outlineRing →
          area ((RingIndexToXY R0x R0y R0Width R0Height outlineRing I).2 * width +
            (RingIndexToXY R0x R0y R0Width R0Height outlineRing I).1) ≠ 0) →
        ∀ I, 0 ≤ I → I < RingLength R0Width R0Height outlineRing →
          r.2.1 ((RingIndexToXY R0x R0y R0Width R0Height outlineRing I).2 * width +
            (RingIndexToXY R0x R0y R0Width R0Height outlineRing I).1) ≠ 0) := by
  have hlen := (RingLength_pos R0Width R0Height outlineRing v.hW v.hH (by omega)).1
  have hr := random_range rnd (RingLength R0Width R0Height outlineRing) (by omega)
  obtain ⟨t, ht⟩ := PushQueuesLoop_returns width height R0x R0y R0Width R0Height outlineRing
    (R0x - (outlineRing - 1)) (R0y - (outlineRing - 1))
    (R0Width + 2 * (outlineRing - 1)) (R0Height + 2 * (outlineRing - 1))
    (RingLength R0Width R0Height outlineRing)
    (rnd.random (RingLength R0Width R0Height outlineRing))
    ((RingLength R0Width R0Height outlineRing).toNat + occupationCount.toNat) 0
    { area := area, rnd := rnd.next, occupationCount := occupationCount }
    (by simp only [sub_zero]; exact le_refl _)
  have hc := PushQueuesLoop_count v outlineRing ho0 ho1 hwmax hhmax
    (rnd.random (RingLength R0Width R0Height outlineRing)) hr.1 _ 0 _ t (le_refl _) ht hsync
  refine ⟨(t.occupationCount, t.area, t.rnd), ?_, hc⟩
  unfold PushQueues
  simp only
  rw [ht]
  rfl

/-- C24: for a valid ring decomposition with the outline ring inside it and a
buffer of at most INT_MAX columns and rows: if on entry occupationCount equals
the number of movable handles inside the footprint rectangle, then for every
random source FillOutline returns max(0, occupationCount - F), where F is the
number of outline-ring cells that hold 0; at every loop head from which the body
runs on an outline cell that holds 0, FindNearestUnit returns a handle that is
neither 0 nor AREA_BLOCKED; and when the returned value is positive no cell of
the outline ring holds 0 on exit. -/
theorem fill_outline_returns_surplus {width height R0x R0y R0Width R0Height ringCount : Int}
    (v : ValidRings width height R0x R0y R0Width R0Height ringCount)
    (outlineRing : Int) (ho0 : 1 ≤ outlineRing) (ho1 : outlineRing < ringCount)
    (hwmax : width ≤ INT_MAX) (hhmax : height ≤ INT_MAX)
    (area : Area) (rnd : RandSource) (occupationCount : Int)
    (hsync : occupationCount = rectHandleCount area width height
      (R0x - (outlineRing - 1)) (R0y - (outlineRing - 1))
      (R0Width + 2 * (outlineRing - 1)) (R0Height + 2 * (outlineRing - 1))) :
    (FillOutline area rnd occupationCount width height R0x R0y R0Width R0Height outlineRing).1
      = max 0 (occupationCount - ringFreeCount area width height R0x outlineRing) ∧
    (∀ (i : Int) (s : FillState),
      LoopVisits (fun s : FillState => decide (s.occupationCount > 0))
        (FillOutlineCell width height R0x R0y R0Width R0Height outlineRing
          (R0x - (outlineRing - 1)) (R0y - (outlineRing - 1))
          (R0Width + 2 * (outlineRing - 1)) (R0Height + 2 * (outlineRing - 1))
          (RingLength R0Width R0Height outlineRing)
          (rnd.random (RingLength R0Width R0Height outlineRing)))
        (RingLength R0Width R0Height outlineRing) 0
        { area := area, rnd := rnd.next, occupationCount := occupationCount } i s →
      i < RingLength R0Width R0Height outlineRing → s.occupationCount > 0 →
      s.area ((RingIndexToXY R0x R0y R0Width R0Height outlineRing
          (cmod (rnd.random (RingLength R0Width R0Height outlineRing) + i)
            (RingLength R0Width R0Height outlineRing))).2 * width +
        (RingIndexToXY R0x R0y R0Width R0Height outlineRing
          (cmod (rnd.random (RingLength R0Width R0Height outlineRing) + i)
            (RingLength R0Width R0Height outlineRing))).1) = 0 →
      (FindNearestUnit s.area
          (RingIndexToXY R0x R0y R0Width R0Height outlineRing
            (cmod (rnd.random (RingLength R0Width R0Height outlineRing) + i)
              (RingLength R0Width R0Height outlineRing))).1
          (RingIndexToXY R0x R0y R0Width R0Height outlineRing
            (cmod (rnd.random (RingLength R0Width R0Height outlineRing) + i)
              (RingLength R0Width R0Height outlineRing))).2
          (R0x - (outlineRing - 1)) (R0y - (outlineRing - 1))
          (R0Width + 2 * (outlineRing - 1)) (R0Height + 2 * (outlineRing - 1))
          width height).1 ≠ 0 ∧
        (FindNearestUnit s.area
          (RingIndexToXY R0x R0y R0Width R0Height outlineRing
            (cmod (rnd.random (RingLength R0Width R0Height outlineRing) + i)
              (RingLength R0Width R0Height outlineRing))).1
          (RingIndexToXY R0x R0y R0Width R0Height outlineRing
            (cmod (rnd.random (RingLength R0Width R0Height outlineRing) + i)
              (RingLength R0Width R0Height outlineRing))).2
          (R0x - (outlineRing - 1)) (R0y - (outlineRing - 1))
          (R0Width + 2 * (outlineRing - 1)) (R0Height + 2 * (outlineRing - 1))
          width height).1 ≠ AREA_BLOCKED) ∧
    ((FillOutline area rnd occupationCount width height R0x R0y R0Width R0Height outlineRing).1
        > 0 →
      ∀ I, 0 ≤ I → I < RingLength R0Width R0Height outlineRing →
        (FillOutline area rnd occupationCount width height R0x R0y R0Width R0Height
          outlineRing).2.1
          ((RingIndexToXY R0x R0y R0Width R0Height outlineRing I).2 * width +
            (RingIndexToXY R0x R0y R0Width R0Height outlineRing I).1) ≠ 0) := by
  have hc := FillOutline_count v outlineRing ho0 ho1 hwmax hhmax area rnd occupationCount hsync
  have hlen := (RingLength_pos R0Width R0Height outlineRing v.hW v.hH (by omega)).1
  have hr := random_range rnd (RingLength R0Width R0Height outlineRing) (by omega)
  refine ⟨hc.2.2.1, ?_, hc.2.2.2⟩
  intro i s hv _ hpos hz
  have hh := FillOutline_heads v outlineRing ho0 ho1 hwmax hhmax
    (rnd.random (RingLength R0Width R0Height outlineRing)) hr.1
    { area := area, rnd := rnd.next, occupationCount := occupationCount } hsync i s hv
  exact (FillOutlineCell_count v outlineRing ho0 ho1 hwmax hhmax
    (rnd.random (RingLength R0Width R0Height outlineRing)) i hr.1 hh.1 s hh.2.1 hpos).1 hz

/-- C25: for a valid ring decomposition with ring `outlineRing + 1` inside it and a
buffer of at most INT_MAX columns and rows: if the occupationCount passed in
equals the number of movable handles inside the footprint rectangle, then the
value FillOutline returns, and the value PushQueues returns (it always returns),
equals the number of movable handles inside the footprint rectangle of the buffer
on exit, is not negative and does not exceed the value passed in. -/
theorem stages_keep_count_in_sync {width height R0x R0y R0Width R0Height ringCount : Int}
    (v : ValidRings width height R0x R0y R0Width R0Height ringCount)
    (outlineRing : Int) (ho0 : 1 ≤ outlineRing) (ho1 : outlineRing + 1 < ringCount)
    (hwmax : width ≤ INT_MAX) (hhmax : height ≤ INT_MAX)
    (area : Area) (rnd : RandSource) (occupationCount : Int)
    (hsync : occupationCount = rectHandleCount area width height
      (R0x - (outlineRing - 1)) (R0y - (outlineRing - 1))
      (R0Width + 2 * (outlineRing - 1)) (R0Height + 2 * (outlineRing - 1))) :
    ((FillOutline area rnd occupationCount width height R0x R0y R0Width R0Height outlineRing).1
        = rectHandleCount
          (FillOutline area rnd occupationCount width height R0x R0y R0Width R0Height
            outlineRing).2.1 width height
          (R0x - (outlineRing - 1)) (R0y - (outlineRing - 1))
          (R0Width + 2 * (outlineRing - 1)) (R0Height + 2 * (outlineRing - 1)) ∧
      0 ≤ (FillOutline area rnd occupationCount width height R0x R0y R0Width R0Height
        outlineRing).1 ∧
      (FillOutline area rnd occupationCount width height R0x R0y R0Width R0Height outlineRing).1
        ≤ occupationCount) ∧
    (∃ r, PushQueues area rnd occupationCount width height R0x R0y R0Width R0Height outlineRing
        = some r ∧
      r.1 = rectHandleCount r.2.1 width height
        (R0x - (outlineRing - 1)) (R0y - (outlineRing - 1))
        (R0Width + 2 * (outlineRing - 1)) (R0Height + 2 * (outlineRing - 1)) ∧
      0 ≤ r.1 ∧ r.1 ≤ occupationCount) := by
  have hf := FillOutline_count v outlineRing ho0 (by omega) hwmax hhmax area rnd occupationCount
    hsync
  obtain ⟨r, hr, h1, h2, _⟩ := PushQueues_count v outlineRing ho0 ho1 hwmax hhmax area rnd
    occupationCount hsync
  refine ⟨⟨hf.1, ?_, hf.2.1⟩, r, hr, h1, ?_, h2⟩
  · rw [hf.1]
    exact rectHandleCount_nonneg _ _ _ _ _ _ _
  · rw [h1]
    exact rectHandleCount_nonneg _ _ _ _ _ _ _

/-- C26: for a valid ring decomposition with ring `outlineRing + 1` inside it and a
buffer of at most INT_MAX columns and rows: if on entry to PushQueues no cell of
the outline ring holds 0 and occupationCount equals the number of movable handles
in the footprint rectangle, then PushQueues returns, on exit no cell of the
outline ring holds 0, the buffer on exit is reached by paired steps (the handle of
an outline cell goes to a cell of ring outlineRing+1 that holds 0 and the handle of
a footprint cell takes its place), one for each unit by which the count has
dropped, and the number of handles in ring outlineRing+1 has grown by exactly that
drop. -/
theorem queue_pushes_are_paired {width height R0x R0y R0Width R0Height ringCount : Int}
    (v : ValidRings width height R0x R0y R0Width R0Height ringCount)
    (outlineRing : Int) (ho0 : 1 ≤ outlineRing) (ho1 : outlineRing + 1 < ringCount)
    (hwmax : width ≤ INT_MAX) (hhmax : height ≤ INT_MAX)
    (area : Area) (rnd : RandSource) (occupationCount : Int)
    (hsync : occupationCount = rectHandleCount area width height
      (R0x - (outlineRing - 1)) (R0y - (outlineRing - 1))
      (R0Width + 2 * (outlineRing - 1)) (R0Height + 2 * (outlineRing - 1)))
    (hfull : ∀ I, 0 ≤ I → I < RingLength R0Width R0Height outlineRing →
      area ((RingIndexToXY R0x R0y R0Width R0Height outlineRing I).2 * width +
        (RingIndexToXY R0x R0y R0Width R0Height outlineRing I).1) ≠ 0) :
    ∃ r, PushQueues area rnd occupationCount width height R0x R0y R0Width R0Height outlineRing
        = some r ∧
      (∀ I, 0 ≤ I → I < RingLength R0Width R0Height outlineRing →
        r.2.1 ((RingIndexToXY R0x R0y R0Width R0Height outlineRing I).2 * width +
          (RingIndexToXY R0x R0y R0Width R0Height outlineRing I).1) ≠ 0) ∧
      r.1 ≤ occupationCount ∧
      QueueSteps width R0x R0y R0Width R0Height outlineRing (occupationCount - r.1).toNat
        area r.2.1 ∧
      ringHandleCount r.2.1 width height R0x (outlineRing + 1) (outlineRing + 2)
          - ringHandleCount area width height R0x (outlineRing + 1) (outlineRing + 2)
        = occupationCount - r.1 := by
  obtain ⟨r, hr, _, h2, h3, h4, h5⟩ := PushQueues_count v outlineRing ho0 ho1 hwmax hhmax area
    rnd occupationCount hsync
  exact ⟨r, hr, h5 hfull, h2, h3, h4⟩

/-- The ring decomposition of a 5 x 5 buffer around a 1 x 1 centre. -/
theorem validRings_five : ValidRings 5 5 2 2 1 1 3 :=
  ⟨by decide, by decide, by decide, by decide, by decide, by decide, by decide, by decide⟩

/-- Witness for C24: a single handle in the 1 x 1 footprint of a 5 x 5 buffer
whose outline ring is free. -/
theorem fill_outline_returns_surplus_witness :
    (1 : Int) = rectHandleCount loneHandleArea 5 5 (2 - (1 - 1)) (2 - (1 - 1))
      (1 + 2 * (1 - 1)) (1 + 2 * (1 - 1)) ∧
    (FillOutline loneHandleArea (fun _ => 0) 1 5 5 2 2 1 1 1).1
      = max 0 (1 - ringFreeCount loneHandleArea 5 5 2 1) :=
  ⟨by decide,
    (fill_outline_returns_surplus validRings_five 1 (by decide) (by decide) (by decide)
      (by decide) loneHandleArea (fun _ => 0) 1 (by decide)).1⟩

/-- Witness for C25: the crowded 5 x 5 buffer, with one handle in the 1 x 1
footprint. -/
theorem stages_keep_count_in_sync_witness :
    (1 : Int) = rectHandleCount crowdedArea 5 5 (2 - (1 - 1)) (2 - (1 - 1))
      (1 + 2 * (1 - 1)) (1 + 2 * (1 - 1)) ∧
    ∃ r, PushQueues crowdedArea (fun _ => 0) 1 5 5 2 2 1 1 1 = some r ∧
      r.1 = rectHandleCount r.2.1 5 5 (2 - (1 - 1)) (2 - (1 - 1))
        (1 + 2 * (1 - 1)) (1 + 2 * (1 - 1)) ∧
      0 ≤ r.1 ∧ r.1 ≤ 1 :=
  ⟨by decide,
    (stages_keep_count_in_sync validRings_five 1 (by decide) (by decide) (by decide)
      (by decide) crowdedArea (fun _ => 0) 1 (by decide)).2⟩

/-- Witness for C26: the crowded 5 x 5 buffer, whose outline ring is full while
the border ring is free. -/
theorem queue_pushes_are_paired_witness :
    (∀ I : Int, 0 ≤ I → I < RingLength 1 1 1 →
      crowdedArea ((RingIndexToXY 2 2 1 1 1 I).2 * 5 + (RingIndexToXY 2 2 1 1 1 I).1) ≠ 0) ∧
    ∃ r, PushQueues crowdedArea (fun _ => 0) 1 5 5 2 2 1 1 1 = some r ∧
      (∀ I, 0 ≤ I → I < RingLength 1 1 1 →
        r.2.1 ((RingIndexToXY 2 2 1 1 1 I).2 * 5 + (RingIndexToXY 2 2 1 1 1 I).1) ≠ 0) ∧
      r.1 ≤ 1 ∧
      QueueSteps 5 2 2 1 1 1 (1 - r.1).toNat crowdedArea r.2.1 ∧
      ringHandleCount r.2.1 5 5 2 (1 + 1) (1 + 2) - ringHandleCount crowdedArea 5 5 2 (1 + 1) (1 + 2)
        = 1 - r.1 := by
  have hfull : ∀ I : Int, 0 ≤ I → I < RingLength 1 1 1 →
      crowdedArea ((RingIndexToXY 2 2 1 1 1 I).2 * 5 + (RingIndexToXY 2 2 1 1 1 I).1) ≠ 0 := by
    intro I h0 h1
    have h8 : RingLength 1 1 1 = 8 := by decide
    rw [h8] at h1
    interval_cases I <;> decide
  exact ⟨hfull,
    queue_pushes_are_paired validRings_five 1 (by decide) (by decide) (by decide) (by decide)
      crowdedArea (fun _ => 0) 1 (by decide) hfull⟩

/-! ### Whether `FindPushedSpot` fails does not depend on the random source -/

/-- A search that returns -1 has found every cell it probed taken. -/
theorem SearchFreeSpotLoop_fail (area : Area)
    (width R0x R0y R0Width R0Height R Index ringLength D : Int)
    (hlen : 0 < ringLength) (hI : 0 ≤ Index) (hD : D ≤ ringLength) :
    ∀ (n : Nat) (i direction : Int), (direction = 1 ∨ direction = -1) → 0 ≤ i → i + n ≤ 2 * D →
      SearchFreeSpotLoop area width R0x R0y R0Width R0Height R Index ringLength n i direction
        = -1 →
      ∀ t : Nat, t < n →
        area ((RingIndexToXY R0x R0y R0Width R0Height R
            (cmod (ringLength + Index + (if t % 2 = 0 then direction else -direction) *
              (cdiv (i + t) 2 + cmod (i + t) 2)) ringLength)).2 * width +
          (RingIndexToXY R0x R0y R0Width R0Height R
            (cmod (ringLength + Index + (if t % 2 = 0 then direction else -direction) *
              (cdiv (i + t) 2 + cmod (i + t) 2)) ringLength)).1) ≠ 0 := by
  intro n
  induction n with
  | zero => intro i direction _ _ _ _ t ht; omega
  | succ n ih =>
    intro i direction hdir hi0 hin hfail t ht
    have hp := probe_in_ring ringLength Index i direction D hlen hI hdir hi0
      (by push_cast at hin; omega) hD
    unfold SearchFreeSpotLoop at hfail
    simp only at hfail
    by_cases hz : area ((RingIndexToXY R0x R0y R0Width R0Height R
        (cmod (ringLength + Index + direction * (cdiv i 2 + cmod i 2)) ringLength)).2 * width +
        (RingIndexToXY R0x R0y R0Width R0Height R
        (cmod (ringLength + Index + direction * (cdiv i 2 + cmod i 2)) ringLength)).1) = 0
    · rw [if_pos hz] at hfail
      omega
    · rw [if_neg hz] at hfail
      cases t with
      | zero =>
        simp only [Nat.zero_mod, if_true, Nat.cast_zero, add_zero]
        exact hz
      | succ t' =>
        have hrec := ih (i + 1) (-direction) (by omega) (by omega) (by push_cast at hin; omega)
          hfail t' (by omega)
        have e1 : (i + 1 + (t' : Int)) = i + ((t' + 1 : Nat) : Int) := by push_cast; ring
        rw [e1] at hrec
        by_cases hpar : t' % 2 = 0
        · have hpar' : ¬ ((t' + 1) % 2 = 0) := by omega
          rw [if_pos hpar] at hrec
          rw [if_neg hpar']
          exact hrec
        · have hpar' : (t' + 1) % 2 = 0 := by omega
          rw [if_neg hpar, neg_neg] at hrec
          rw [if_pos hpar']
          exact hrec

/-- In a ring of length 8 a search with distance 4 probes every cell: if it
returns -1, no cell of the ring holds 0. -/
theorem SearchFreeSpotAtIndex_circle (area : Area)
    (width height R0x R0y R0Width R0Height R s : Int)
    (hlen : RingLength R0Width R0Height R = 8) (hs0 : 0 ≤ s) (hs1 : s < 8)
    (hfail : SearchFreeSpotAtIndex area 4 width height R0x R0y R0Width R0Height R s = -1) :
    ∀ k, 0 ≤ k → k < 8 →
      area ((RingIndexToXY R0x R0y R0Width R0Height R k).2 * width +
        (RingIndexToXY R0x R0y R0Width R0Height R k).1) ≠ 0 := by
  unfold SearchFreeSpotAtIndex at hfail
  simp only [hlen] at hfail
  have h8 : (2 * (4 : Int)).toNat = 8 := by decide
  rw [h8] at hfail
  have hall := SearchFreeSpotLoop_fail area width R0x R0y R0Width R0Height R s 8 4 (by omega) hs0
    (by omega) 8 0 1 (Or.inl rfl) (le_refl _) (by norm_num) hfail
  intro k hk0 hk1
  obtain ⟨t, ht, hk⟩ : ∃ t : Nat, t < 8 ∧
      cmod (8 + s + (if t % 2 = 0 then (1 : Int) else -1) * (cdiv (0 + (t : Int)) 2 +
        cmod (0 + (t : Int)) 2)) 8 = k := by
    interval_cases s <;> interval_cases k <;> decide
  have := hall t ht
  rw [hk] at this
  exact this

/-- If `FindPushedSpot` with MAX_MOVE = 3 fails for one random source, it fails for
every random source. -/
theorem FindPushedSpot_fail_indep (area : Area) (rnd rnd2 : RandSource)
    (width height R0x R0y R0Width R0Height R Index : Int)
    (hW : 1 ≤ R0Width) (hH : 1 ≤ R0Height) (hR : 0 ≤ R)
    (hI0 : 0 ≤ Index) (hI1 : Index < RingLength R0Width R0Height R)
    (hfail : (FindPushedSpot area rnd 3 width height R0x R0y R0Width R0Height R Index).1 = -1) :
    (FindPushedSpot area rnd2 3 width height R0x R0y R0Width R0Height R Index).1 = -1 := by
  by_cases hdeg : R = 0 ∧ (R0Width = 1 ∨ R0Height = 1)
  · obtain ⟨hR0, hstrip⟩ := hdeg
    subst hR0
    by_cases hpt : R0Width = 1 ∧ R0Height = 1
    · obtain ⟨h1, h2⟩ := hpt
      subst h1 h2
      have hlen : RingLength 1 1 (0 + 1) = 8 := by decide
      have hd : cdiv (RingLength 1 1 (0 + 1) - 1) 2 +
          boolToInt (decide (cmod (RingLength 1 1 (0 + 1) - 1) 2 = 1)) = 4 := by decide
      have hr := random_range rnd (RingLength 1 1 (0 + 1)) (by omega)
      have hr2 := random_range rnd2 (RingLength 1 1 (0 + 1)) (by omega)
      unfold FindPushedSpot at hfail ⊢
      dsimp only at hfail ⊢
      rw [if_pos ⟨rfl, Or.inl rfl⟩, if_pos ⟨rfl, rfl⟩, hd] at hfail ⊢
      have hall := SearchFreeSpotAtIndex_circle area width height R0x R0y 1 1 (0 + 1) _ hlen hr.1
        (by omega) hfail
      exact (SearchFreeSpotAtIndex_spec area 4 width height R0x R0y 1 1 (0 + 1) _ hr2.1
        (by omega) (by omega)).2 (fun k hk0 hk1 => hall k hk0 (by omega))
    · have hlen0 : RingLength R0Width R0Height 0 = max R0Width R0Height := by
        unfold RingLength
        rw [if_neg (by omega)]
      have hlen1 : RingLength R0Width R0Height 1 = 2 * R0Width + 2 * R0Height + 4 := by
        unfold RingLength
        rw [if_pos (by omega)]
        ring
      by_cases hend : Index = 0 ∨ Index = RingLength R0Width R0Height 0 - 1
      · unfold FindPushedSpot at hfail ⊢
        dsimp only at hfail ⊢
        rw [if_pos ⟨rfl, hstrip⟩, if_neg hpt, if_pos hend] at hfail ⊢
        exact hfail
      · have hI0' : 0 < Index := by omega
        have hI1' : Index < RingLength R0Width R0Height 0 - 1 := by omega
        have hspec : ∀ k : Int, 0 ≤ k →
            SearchFreeSpotAtIndex area 3 width height R0x R0y R0Width R0Height 1 k = -1 ∨
              0 ≤ SearchFreeSpotAtIndex area 3 width height R0x R0y R0Width R0Height 1 k := by
          intro k hk
          rcases (SearchFreeSpotAtIndex_spec area 3 width height R0x R0y R0Width
            R0Height 1 k hk (by omega) (by omega)).1 with h | h
          · exact Or.inl h
          · exact Or.inr h.1
        have ha := hspec (if R0Width > 1 then 1 + Index
          else RingLength R0Width R0Height 1 - 1 - Index) (by split_ifs <;> omega)
        have hb := hspec (if R0Width > 1 then 1 + R0Width + 3 + (R0Width - 1 - Index)
          else 3 + Index) (by rw [hlen0] at hI1'; split_ifs <;> omega)
        have h1 := FindPushedSpot_interior area 3 width height R0x R0y R0Width R0Height Index
          hW hH hstrip hI0' hI1' rnd _ _ rfl rfl
        have h2 := FindPushedSpot_interior area 3 width height R0x R0y R0Width R0Height Index
          hW hH hstrip hI0' hI1' rnd2 _ _ rfl rfl
        generalize SearchFreeSpotAtIndex area 3 width height R0x R0y R0Width R0Height 1
          (if R0Width > 1 then 1 + Index else RingLength R0Width R0Height 1 - 1 - Index)
          = A at *
        generalize SearchFreeSpotAtIndex area 3 width height R0x R0y R0Width R0Height 1
          (if R0Width > 1 then 1 + R0Width + 3 + (R0Width - 1 - Index) else 3 + Index)
          = B at *
        rw [hfail] at h1
        rcases h1 with h1 | h1 <;> rcases h2 with h2 | h2 <;> rw [h2] <;>
          split_ifs at h1 ⊢ <;> omega
  · unfold FindPushedSpot at hfail ⊢
    dsimp only at hfail ⊢
    rw [if_neg hdeg] at hfail ⊢
    exact hfail

/-! ### `PushRings` and the handles left in the footprint -/

/-- One pass of the body of the cell loop of `PushRings` at the cell `A` of ring R:
only `A` and a cell of ring R+1 can change; the count goes up by one exactly when
`A` holds a movable handle afterwards; the ring stays marked empty only if `A`
holds no movable handle afterwards; and if nothing has been pushed, the buffer is
as before and a handle in `A` cannot be pushed, whatever the random source. -/
theorem PushRingsCell_step {width height R0x R0y R0Width R0Height ringCount : Int}
    (v : ValidRings width height R0x R0y R0Width R0Height ringCount)
    (R startIndex i : Int) (hR0 : 0 ≤ R) (hR1 : R + 1 < ringCount)
    (hs : 0 ≤ startIndex) (hi : 0 ≤ i) (s : PushState) :
    (PushRingsCell 3 width height R0x R0y R0Width R0Height R (RingLength R0Width R0Height R)
        startIndex i s).emptyRing = s.emptyRing ∧
    (∀ k, k ≠ (RingIndexToXY R0x R0y R0Width R0Height R
          (cmod (startIndex + i) (RingLength R0Width R0Height R))).2 * width +
        (RingIndexToXY R0x R0y R0Width R0Height R
          (cmod (startIndex + i) (RingLength R0Width R0Height R))).1 →
      cellRing width height R0x k ≠ R + 1 →
      (PushRingsCell 3 width height R0x R0y R0Width R0Height R (RingLength R0Width R0Height R)
        startIndex i s).area k = s.area k) ∧
    (PushRingsCell 3 width height R0x R0y R0Width R0Height R (RingLength R0Width R0Height R)
        startIndex i s).occupationCount
      = s.occupationCount +
        (if (PushRingsCell 3 width height R0x R0y R0Width R0Height R
              (RingLength R0Width R0Height R) startIndex i s).area
              ((RingIndexToXY R0x R0y R0Width R0Height R
                (cmod (startIndex + i) (RingLength R0Width R0Height R))).2 * width +
              (RingIndexToXY R0x R0y R0Width R0Height R
                (cmod (startIndex + i) (RingLength R0Width R0Height R))).1) ≠ 0 ∧
            (PushRingsCell 3 width height R0x R0y R0Width R0Height R
              (RingLength R0Width R0Height R) startIndex i s).area
              ((RingIndexToXY R0x R0y R0Width R0Height R
                (cmod (startIndex + i) (RingLength R0Width R0Height R))).2 * width +
              (RingIndexToXY R0x R0y R0Width R0Height R
                (cmod (startIndex + i) (RingLength R0Width R0Height R))).1) ≠ AREA_BLOCKED
          then 1 else 0) ∧
    ((PushRingsCell 3 width height R0x R0y R0Width R0Height R (RingLength R0Width R0Height R)
        startIndex i s).empty = true →
      s.empty = true ∧
      ¬ ((PushRingsCell 3 width height R0x R0y R0Width R0Height R
            (RingLength R0Width R0Height R) startIndex i s).area
            ((RingIndexToXY R0x R0y R0Width R0Height R
              (cmod (startIndex + i) (RingLength R0Width R0Height R))).2 * width +
            (RingIndexToXY R0x R0y R0Width R0Height R
              (cmod (startIndex + i) (RingLength R0Width R0Height R))).1) ≠ 0 ∧
          (PushRingsCell 3 width height R0x R0y R0Width R0Height R
            (RingLength R0Width R0Height R) startIndex i s).area
            ((RingIndexToXY R0x R0y R0Width R0Height R
              (cmod (startIndex + i) (RingLength R0Width R0Height R))).2 * width +
            (RingIndexToXY R0x R0y R0Width R0Height R
              (cmod (startIndex + i) (RingLength R0Width R0Height R))).1) ≠ AREA_BLOCKED)) ∧
    ((PushRingsCell 3 width height R0x R0y R0Width R0Height R (RingLength R0Width R0Height R)
        startIndex i s).pushed = false →
      s.pushed = false ∧
      (PushRingsCell 3 width height R0x R0y R0Width R0Height R (RingLength R0Width R0Height R)
        startIndex i s).area = s.area ∧
      ((s.area ((RingIndexToXY R0x R0y R0Width R0Height R
              (cmod (startIndex + i) (RingLength R0Width R0Height R))).2 * width +
            (RingIndexToXY R0x R0y R0Width R0Height R
              (cmod (startIndex + i) (RingLength R0Width R0Height R))).1) ≠ 0 ∧
          s.area ((RingIndexToXY R0x R0y R0Width R0Height R
              (cmod (startIndex + i) (RingLength R0Width R0Height R))).2 * width +
            (RingIndexToXY R0x R0y R0Width R0Height R
              (cmod (startIndex + i) (RingLength R0Width R0Height R))).1) ≠ AREA_BLOCKED) →
        ∀ rnd2 : RandSource,
          (FindPushedSpot s.area rnd2 3 width height R0x R0y R0Width R0Height R
            (cmod (startIndex + i) (RingLength R0Width R0Height R))).1 = -1)) := by
  have hlen := (RingLength_pos R0Width R0Height R v.hW v.hH hR0).1
  have hidx := cmod_range (startIndex + i) (RingLength R0Width R0Height R) (by omega) (by omega)
  generalize hidxe : cmod (startIndex + i) (RingLength R0Width R0Height R) = idx at *
  have hP := ring_cell_flat v R idx hR0 (by omega) hidx.1 hidx.2
  generalize hpe : RingIndexToXY R0x R0y R0Width R0Height R idx = p at *
  by_cases hmov : s.area (p.2 * width + p.1) ≠ AREA_BLOCKED ∧ s.area (p.2 * width + p.1) ≠ 0
  · by_cases hfound : (FindPushedSpot s.area s.rnd 3 width height R0x R0y R0Width R0Height R
        idx).1 ≠ -1
    · rcases FindPushedSpot_spec s.area s.rnd 3 width height R0x R0y R0Width R0Height R idx
        v.hW v.hH hR0 hidx.1 hidx.2 (by omega) (by omega) with hq | ⟨hq0, hq1, hqz⟩
      · exact absurd hq hfound
      have hQ := ring_cell_flat v (R + 1) _ (by omega) hR1 hq0 hq1
      have hstep : PushRingsCell 3 width height R0x R0y R0Width R0Height R
          (RingLength R0Width R0Height R) startIndex i s
          = { s with
              area := (s.area.write
                ((RingIndexToXY R0x R0y R0Width R0Height (R + 1)
                  (FindPushedSpot s.area s.rnd 3 width height R0x R0y R0Width R0Height R
                    idx).1).2 * width +
                (RingIndexToXY R0x R0y R0Width R0Height (R + 1)
                  (FindPushedSpot s.area s.rnd 3 width height R0x R0y R0Width R0Height R
                    idx).1).1) (s.area (p.2 * width + p.1))).write (p.2 * width + p.1) 0
              rnd := (FindPushedSpot s.area s.rnd 3 width height R0x R0y R0Width R0Height R
                idx).2
              pushed := true } := by
        unfold PushRingsCell
        simp only [hidxe, hpe]
        rw [if_pos hmov, if_pos hfound]
      rw [hstep]
      dsimp only
      refine ⟨rfl, ?_, ?_, ?_, ?_⟩
      · intro k hkA hkR
        rw [Area_write_other _ _ _ _ hkA, Area_write_other _ _ _ _ (by
          intro e
          rw [e, hQ.2] at hkR
          exact hkR rfl)]
      · simp [Area_write_same]
      · intro he
        refine ⟨he, ?_⟩
        rw [Area_write_same]
        exact fun h => h.1 rfl
      · intro h
        exact absurd h (by decide)
    · have hfail : (FindPushedSpot s.area s.rnd 3 width height R0x R0y R0Width R0Height R
          idx).1 = -1 := by
        by_contra h
        exact hfound h
      have hstep : PushRingsCell 3 width height R0x R0y R0Width R0Height R
          (RingLength R0Width R0Height R) startIndex i s
          = { s with
              rnd := (FindPushedSpot s.area s.rnd 3 width height R0x R0y R0Width R0Height R
                idx).2
              empty := false
              occupationCount := s.occupationCount + 1 } := by
        unfold PushRingsCell
        simp only [hidxe, hpe]
        rw [if_pos hmov, if_neg hfound]
      rw [hstep]
      dsimp only
      refine ⟨rfl, fun _ _ _ => rfl, ?_, ?_, ?_⟩
      · rw [if_pos ⟨hmov.2, hmov.1⟩]
      · intro h
        exact absurd h (by decide)
      · intro hp
        exact ⟨hp, rfl, fun _ rnd2 => FindPushedSpot_fail_indep s.area s.rnd rnd2 width height
          R0x R0y R0Width R0Height R idx v.hW v.hH hR0 hidx.1 hidx.2 hfail⟩
  · have hstep : PushRingsCell 3 width height R0x R0y R0Width R0Height R
        (RingLength R0Width R0Height R) startIndex i s = s := by
      unfold PushRingsCell
      simp only [hidxe, hpe]
      rw [if_neg hmov]
    rw [hstep]
    refine ⟨rfl, fun _ _ _ => rfl, ?_, ?_, ?_⟩
    · rw [if_neg (fun h => hmov ⟨h.2, h.1⟩)]
      ring
    · intro he
      exact ⟨he, fun h => hmov ⟨h.2, h.1⟩⟩
    · intro hp
      exact ⟨hp, rfl, fun h => absurd ⟨h.2, h.1⟩ hmov⟩

/-- A scan of a ring visits no position twice. -/
theorem scan_inj (startIndex len m m2 : Int) (hs : 0 ≤ startIndex)
    (hm0 : 0 ≤ m) (hm1 : m < len) (hm20 : 0 ≤ m2) (hm21 : m2 < len)
    (h : cmod (startIndex + m) len = cmod (startIndex + m2) len) : m = m2 := by
  rw [cmod_of_nonneg (by omega) (by omega), cmod_of_nonneg (by omega) (by omega)] at h
  have hd : len ∣ (startIndex + m) - (startIndex + m2) :=
    Int.dvd_of_emod_eq_zero (Int.emod_eq_emod_iff_emod_sub_eq_zero.mp h)
  have e : (startIndex + m) - (startIndex + m2) = m - m2 := by ring
  rw [e] at hd
  have := Int.eq_zero_of_abs_lt_dvd hd (by rw [abs_lt]; constructor <;> omega)
  omega

/-- The scan of ring R by the cell loop of `PushRings`: cells outside rings R and
R+1 keep their value; the count goes up by the number of movable handles that
ring R holds afterwards; the ring stays marked empty only if the count did not
move; and if nothing has been pushed, the buffer is as before and no handle of
ring R can be pushed, whatever the random source. -/
theorem PushRingsScan_count {width height R0x R0y R0Width R0Height ringCount : Int}
    (v : ValidRings width height R0x R0y R0Width R0Height ringCount)
    (R startIndex : Int) (hR0 : 0 ≤ R) (hR1 : R + 1 < ringCount)
    (hs : 0 ≤ startIndex) (s0 : PushState) :
    (forLoop (PushRingsCell 3 width height R0x R0y R0Width R0Height R
        (RingLength R0Width R0Height R) startIndex)
        (RingLength R0Width R0Height R).toNat 0 s0).emptyRing = s0.emptyRing ∧
    (∀ k, cellRing width height R0x k ≠ R → cellRing width height R0x k ≠ R + 1 →
      (forLoop (PushRingsCell 3 width height R0x R0y R0Width R0Height R
        (RingLength R0Width R0Height R) startIndex)
        (RingLength R0Width R0Height R).toNat 0 s0).area k = s0.area k) ∧
    (forLoop (PushRingsCell 3 width height R0x R0y R0Width R0Height R
        (RingLength R0Width R0Height R) startIndex)
        (RingLength R0Width R0Height R).toNat 0 s0).occupationCount
      = s0.occupationCount + ringHandleCount
        (forLoop (PushRingsCell 3 width height R0x R0y R0Width R0Height R
          (RingLength R0Width R0Height R) startIndex)
          (RingLength R0Width R0Height R).toNat 0 s0).area width height R0x R (R + 1) ∧
    ((forLoop (PushRingsCell 3 width height R0x R0y R0Width R0Height R
        (RingLength R0Width R0Height R) startIndex)
        (RingLength R0Width R0Height R).toNat 0 s0).empty = true →
      s0.empty = true ∧
      (forLoop (PushRingsCell 3 width height R0x R0y R0Width R0Height R
        (RingLength R0Width R0Height R) startIndex)
        (RingLength R0Width R0Height R).toNat 0 s0).occupationCount = s0.occupationCount) ∧
    ((forLoop (PushRingsCell 3 width height R0x R0y R0Width R0Height R
        (RingLength R0Width R0Height R) startIndex)
        (RingLength R0Width R0Height R).toNat 0 s0).pushed = false →
      s0.pushed = false ∧
      (forLoop (PushRingsCell 3 width height R0x R0y R0Width R0Height R
        (RingLength R0Width R0Height R) startIndex)
        (RingLength R0Width R0Height R).toNat 0 s0).area = s0.area ∧
      ∀ Index, 0 ≤ Index → Index < RingLength R0Width R0Height R →
        (s0.area ((RingIndexToXY R0x R0y R0Width R0Height R Index).2 * width +
            (RingIndexToXY R0x R0y R0Width R0Height R Index).1) ≠ 0 ∧
          s0.area ((RingIndexToXY R0x R0y R0Width R0Height R Index).2 * width +
            (RingIndexToXY R0x R0y R0Width R0Height R Index).1) ≠ AREA_BLOCKED) →
        ∀ rnd2 : RandSource,
          (FindPushedSpot s0.area rnd2 3 width height R0x R0y R0Width R0Height R Index).1
            = -1) := by
  classical
  have hlen := (RingLength_pos R0Width R0Height R v.hW v.hH hR0).1
  have hn : 0 ≤ width * height :=
    mul_nonneg (by have := v.hwidth; have := v.hW; have := v.hN; omega)
      (by have := v.hheight; have := v.hH; have := v.hN; omega)
  have hinv := forLoop_inv
    (fun (i : Int) (s : PushState) =>
      s.emptyRing = s0.emptyRing ∧
      (∀ k, cellRing width height R0x k ≠ R → cellRing width height R0x k ≠ R + 1 →
        s.area k = s0.area k) ∧
      s.occupationCount = s0.occupationCount +
        ∑ k in Finset.range (width * height).toNat,
          (if (s.area (k : Int) ≠ 0 ∧ s.area (k : Int) ≠ AREA_BLOCKED) ∧
              (∃ m, 0 ≤ m ∧ m < i ∧
                (RingIndexToXY R0x R0y R0Width R0Height R
                    (cmod (startIndex + m) (RingLength R0Width R0Height R))).2 * width +
                  (RingIndexToXY R0x R0y R0Width R0Height R
                    (cmod (startIndex + m) (RingLength R0Width R0Height R))).1 = (k : Int))
            then (1 : Int) else 0) ∧
      (s.empty = true → s0.empty = true ∧ s.occupationCount = s0.occupationCount) ∧
      (s.pushed = false → s0.pushed = false ∧ s.area = s0.area ∧
        ∀ m, 0 ≤ m → m < i →
          (s0.area ((RingIndexToXY R0x R0y R0Width R0Height R
                (cmod (startIndex + m) (RingLength R0Width R0Height R))).2 * width +
              (RingIndexToXY R0x R0y R0Width R0Height R
                (cmod (startIndex + m) (RingLength R0Width R0Height R))).1) ≠ 0 ∧
            s0.area ((RingIndexToXY R0x R0y R0Width R0Height R
                (cmod (startIndex + m) (RingLength R0Width R0Height R))).2 * width +
              (RingIndexToXY R0x R0y R0Width R0Height R
                (cmod (startIndex + m) (RingLength R0Width R0Height R))).1) ≠ AREA_BLOCKED) →
          ∀ rnd2 : RandSource,
            (FindPushedSpot s0.area rnd2 3 width height R0x R0y R0Width R0Height R
              (cmod (startIndex + m) (RingLength R0Width R0Height R))).1 = -1))
    (PushRingsCell 3 width height R0x R0y R0Width R0Height R
      (RingLength R0Width R0Height R) startIndex)
    (RingLength R0Width R0Height R).toNat 0 s0 ?_ ?_
  · have hend : (0 : Int) + ((RingLength R0Width R0Height R).toNat : Int)
        = RingLength R0Width R0Height R := by omega
    rw [hend] at hinv
    generalize forLoop (PushRingsCell 3 width height R0x R0y R0Width R0Height R
      (RingLength R0Width R0Height R) startIndex)
      (RingLength R0Width R0Height R).toNat 0 s0 = t at *
    obtain ⟨h1, h2, h3, h4, h5⟩ := hinv
    refine ⟨h1, h2, ?_, h4, fun hp => ⟨(h5 hp).1, (h5 hp).2.1, fun Index hI0 hI1 hm rnd2 => ?_⟩⟩
    · rw [h3]
      congr 1
      unfold ringHandleCount
      apply Finset.sum_congr rfl
      intro k hk
      have hk1 : (k : Int) < width * height := by
        have := Finset.mem_range.mp hk
        omega
      have hiff : (∃ m, 0 ≤ m ∧ m < RingLength R0Width R0Height R ∧
          (RingIndexToXY R0x R0y R0Width R0Height R
              (cmod (startIndex + m) (RingLength R0Width R0Height R))).2 * width +
            (RingIndexToXY R0x R0y R0Width R0Height R
              (cmod (startIndex + m) (RingLength R0Width R0Height R))).1 = (k : Int)) ↔
          (R ≤ cellRing width height R0x (k : Int) ∧
            cellRing width height R0x (k : Int) < R + 1) := by
        constructor
        · rintro ⟨m, hm0, hm1, hm⟩
          have hidx := cmod_range (startIndex + m) (RingLength R0Width R0Height R) (by omega)
            (by omega)
          have := (ring_cell_flat v R _ hR0 (by omega) hidx.1 hidx.2).2
          rw [hm] at this
          omega
        · intro hr
          have hr' : cellRing width height R0x (k : Int) = R := by omega
          obtain ⟨I, hI0, hI1, hI⟩ := cell_is_ring_cell v (k : Int) (by omega) hk1
          rw [hr'] at hI1 hI
          obtain ⟨m, hm0, hm1, hm⟩ := scan_covers startIndex (RingLength R0Width R0Height R) I hs
            hI0 hI1
          exact ⟨m, hm0, hm1, by rw [hm]; exact hI⟩
      by_cases hc : (R ≤ cellRing width height R0x (k : Int) ∧
          cellRing width height R0x (k : Int) < R + 1)
      · by_cases hmv : t.area (k : Int) ≠ 0 ∧ t.area (k : Int) ≠ AREA_BLOCKED
        · rw [if_pos ⟨hmv, hiff.mpr hc⟩, if_pos ⟨hmv, hc⟩]
        · rw [if_neg (fun h => hmv h.1), if_neg (fun h => hmv h.1)]
      · rw [if_neg (fun h => hc (hiff.mp h.2)), if_neg (fun h => hc h.2)]
    · obtain ⟨m, hm0, hm1, hmc⟩ := scan_covers startIndex (RingLength R0Width R0Height R) Index
        hs hI0 hI1
      have := (h5 hp).2.2 m hm0 hm1
      rw [hmc] at this
      exact this hm rnd2
  · intro i s hi0 hi1 hI
    obtain ⟨h1, h2, h3, h4, h5⟩ := hI
    have hi1' : i < RingLength R0Width R0Height R := by omega
    obtain ⟨c1, c2, c3, c4, c5⟩ := PushRingsCell_step v R startIndex i hR0 hR1 hs hi0 s
    have hidx := cmod_range (startIndex + i) (RingLength R0Width R0Height R) (by omega) (by omega)
    have hA := ring_cell_flat v R _ hR0 (by omega) hidx.1 hidx.2
    generalize PushRingsCell 3 width height R0x R0y R0Width R0Height R
      (RingLength R0Width R0Height R) startIndex i s = s2 at *
    have hAe : ∀ m, 0 ≤ m → m < i →
        (RingIndexToXY R0x R0y R0Width R0Height R
            (cmod (startIndex + m) (RingLength R0Width R0Height R))).2 * width +
          (RingIndexToXY R0x R0y R0Width R0Height R
            (cmod (startIndex + m) (RingLength R0Width R0Height R))).1
        ≠ (RingIndexToXY R0x R0y R0Width R0Height R
            (cmod (startIndex + i) (RingLength R0Width R0Height R))).2 * width +
          (RingIndexToXY R0x R0y R0Width R0Height R
            (cmod (startIndex + i) (RingLength R0Width R0Height R))).1 := by
      intro m hm0 hm1 e
      have hidxm := cmod_range (startIndex + m) (RingLength R0Width R0Height R) (by omega)
        (by omega)
      have := (ringCell_inj v R _ R _ hR0 (by omega) hR0 (by omega) hidxm.1 hidxm.2 hidx.1 hidx.2
        e).2
      have := scan_inj startIndex (RingLength R0Width R0Height R) m i hs hm0 (by omega) hi0 hi1'
        this
      omega
    generalize hAdef : (RingIndexToXY R0x R0y R0Width R0Height R
        (cmod (startIndex + i) (RingLength R0Width R0Height R))).2 * width +
      (RingIndexToXY R0x R0y R0Width R0Height R
        (cmod (startIndex + i) (RingLength R0Width R0Height R))).1 = A at *
    refine ⟨by rw [c1, h1], ?_, ?_, ?_, ?_⟩
    · intro k hk1 hk2
      rw [c2 k (by intro e; rw [e] at hk1; exact hk1 hA.2) hk2]
      exact h2 k hk1 hk2
    · obtain ⟨a, ha⟩ : ∃ a : Nat, A = (a : Int) := ⟨A.toNat, by omega⟩
      have hamem : a ∈ Finset.range (width * height).toNat :=
        Finset.mem_range.mpr (by omega)
      have hterm : ∀ k ∈ Finset.range (width * height).toNat,
          (if (s2.area (k : Int) ≠ 0 ∧ s2.area (k : Int) ≠ AREA_BLOCKED) ∧
              (∃ m, 0 ≤ m ∧ m < i + 1 ∧
                (RingIndexToXY R0x R0y R0Width R0Height R
                    (cmod (startIndex + m) (RingLength R0Width R0Height R))).2 * width +
                  (RingIndexToXY R0x R0y R0Width R0Height R
                    (cmod (startIndex + m) (RingLength R0Width R0Height R))).1 = (k : Int))
            then (1 : Int) else 0)
          = (if (s.area (k : Int) ≠ 0 ∧ s.area (k : Int) ≠ AREA_BLOCKED) ∧
              (∃ m, 0 ≤ m ∧ m < i ∧
                (RingIndexToXY R0x R0y R0Width R0Height R
                    (cmod (startIndex + m) (RingLength R0Width R0Height R))).2 * width +
                  (RingIndexToXY R0x R0y R0Width R0Height R
                    (cmod (startIndex + m) (RingLength R0Width R0Height R))).1 = (k : Int))
            then (1 : Int) else 0)
            + (if k = a then
                (if s2.area A ≠ 0 ∧ s2.area A ≠ AREA_BLOCKED then (1 : Int) else 0) else 0) := by
        intro k _
        by_cases hka : k = a
        · subst hka
          rw [if_pos rfl, ← ha]
          have hnv : ¬ ((s.area A ≠ 0 ∧ s.area A ≠ AREA_BLOCKED) ∧
              (∃ m, 0 ≤ m ∧ m < i ∧
                (RingIndexToXY R0x R0y R0Width R0Height R
                    (cmod (startIndex + m) (RingLength R0Width R0Height R))).2 * width +
                  (RingIndexToXY R0x R0y R0Width R0Height R
                    (cmod (startIndex + m) (RingLength R0Width R0Height R))).1 = A)) := by
            rintro ⟨_, m, hm0, hm1, hm⟩
            exact hAe m hm0 hm1 hm
          rw [if_neg hnv, zero_add]
          by_cases hmv : s2.area A ≠ 0 ∧ s2.area A ≠ AREA_BLOCKED
          · rw [if_pos hmv, if_pos ⟨hmv, i, hi0, by omega, hAdef⟩]
          · rw [if_neg hmv, if_neg (fun h => hmv h.1)]
        · rw [if_neg hka, add_zero]
          have hkA : (k : Int) ≠ A := by rw [ha]; omega
          by_cases hvis : ∃ m, 0 ≤ m ∧ m < i ∧
              (RingIndexToXY R0x R0y R0Width R0Height R
                  (cmod (startIndex + m) (RingLength R0Width R0Height R))).2 * width +
                (RingIndexToXY R0x R0y R0Width R0Height R
                  (cmod (startIndex + m) (RingLength R0Width R0Height R))).1 = (k : Int)
          · obtain ⟨m, hm0, hm1, hm⟩ := hvis
            have hidxm := cmod_range (startIndex + m) (RingLength R0Width R0Height R) (by omega)
              (by omega)
            have hring := (ring_cell_flat v R _ hR0 (by omega) hidxm.1 hidxm.2).2
            rw [hm] at hring
            have hsame := c2 (k : Int) hkA (by omega)
            by_cases hmv : s.area (k : Int) ≠ 0 ∧ s.area (k : Int) ≠ AREA_BLOCKED
            · rw [if_pos ⟨by rw [hsame]; exact hmv, m, hm0, by omega, hm⟩,
                if_pos ⟨hmv, m, hm0, hm1, hm⟩]
            · rw [if_neg (fun h => hmv (by rw [← hsame]; exact h.1)),
                if_neg (fun h => hmv h.1)]
          · have hvis2 : ¬ ∃ m, 0 ≤ m ∧ m < i + 1 ∧
                (RingIndexToXY R0x R0y R0Width R0Height R
                    (cmod (startIndex + m) (RingLength R0Width R0Height R))).2 * width +
                  (RingIndexToXY R0x R0y R0Width R0Height R
                    (cmod (startIndex + m) (RingLength R0Width R0Height R))).1 = (k : Int) := by
              rintro ⟨m, hm0, hm1, hm⟩
              by_cases hmi : m = i
              · subst hmi
                rw [hAdef] at hm
                exact hkA hm.symm
              · exact hvis ⟨m, hm0, by omega, hm⟩
            rw [if_neg (fun h => hvis2 h.2), if_neg (fun h => hvis h.2)]
      rw [Finset.sum_congr rfl hterm, Finset.sum_add_distrib, Finset.sum_ite_eq' _ _ _,
        if_pos hamem, c3, h3]
      ring
    · intro he
      obtain ⟨he0, hnm⟩ := c4 he
      rw [if_neg hnm] at c3
      have := h4 he0
      exact ⟨this.1, by omega⟩
    · intro hp
      obtain ⟨hp0, harea, hstuck⟩ := c5 hp
      obtain ⟨g1, g2, g3⟩ := h5 hp0
      refine ⟨g1, by rw [harea, g2], fun m hm0 hm1 hmv rnd2 => ?_⟩
      by_cases hmi : m = i
      · subst hmi
        rw [hAdef] at hmv
        rw [← g2] at hmv ⊢
        exact hstuck hmv rnd2
      · exact g3 m hm0 (by omega) hmv rnd2
  · refine ⟨rfl, fun _ _ _ => rfl, ?_, fun h => ⟨h, rfl⟩, fun h => ⟨h, rfl, fun m h0 h1 => by omega⟩⟩
    rw [Finset.sum_eq_zero]
    · ring
    · intro k _
      rw [if_neg]
      rintro ⟨_, m, h0, h1, _⟩
      omega

/-- Buffers that agree on the cells of the rings `lo .. hi - 1` have the same
count of handles there. -/
theorem ringHandleCount_congr (a b : Area) (width height R0x lo hi : Int)
    (h : ∀ k : Int, 0 ≤ k → k < width * height → lo ≤ cellRing width height R0x k →
      cellRing width height R0x k < hi → a k = b k) :
    ringHandleCount a width height R0x lo hi = ringHandleCount b width height R0x lo hi := by
  unfold ringHandleCount
  apply Finset.sum_congr rfl
  intro k hk
  have hk1 : (k : Int) < width * height := by
    have := Finset.mem_range.mp hk
    omega
  by_cases hc : lo ≤ cellRing width height R0x (k : Int) ∧ cellRing width height R0x (k : Int) < hi
  · rw [h (k : Int) (by omega) hk1 hc.1 hc.2]
  · rw [if_neg (fun h => hc h.2), if_neg (fun h => hc h.2)]

/-- The count of handles over a range of rings splits at any ring in between. -/
theorem ringHandleCount_add (a : Area) (width height R0x lo mid hi : Int)
    (h1 : lo ≤ mid) (h2 : mid ≤ hi) :
    ringHandleCount a width height R0x lo mid + ringHandleCount a width height R0x mid hi
      = ringHandleCount a width height R0x lo hi := by
  unfold ringHandleCount
  rw [← Finset.sum_add_distrib]
  apply Finset.sum_congr rfl
  intro k _
  by_cases hm : a (k : Int) ≠ 0 ∧ a (k : Int) ≠ AREA_BLOCKED
  · by_cases hA : lo ≤ cellRing width height R0x (k : Int) ∧
        cellRing width height R0x (k : Int) < mid
    · rw [if_pos ⟨hm, hA⟩, if_neg (fun h => by omega), if_pos ⟨hm, by omega⟩]
      rfl
    · by_cases hB : mid ≤ cellRing width height R0x (k : Int) ∧
          cellRing width height R0x (k : Int) < hi
      · rw [if_neg (fun h => hA h.2), if_pos ⟨hm, hB⟩, if_pos ⟨hm, by omega⟩]
        rfl
      · rw [if_neg (fun h => hA h.2), if_neg (fun h => hB h.2), if_neg (fun h => by omega)]
        rfl
  · rw [if_neg (fun h => hm h.1), if_neg (fun h => hm h.1), if_neg (fun h => hm h.1)]
    rfl

/-- The count of handles over a range of rings is 0 exactly when no cell of these
rings holds a movable handle. -/
theorem ringHandleCount_eq_zero (a : Area) (width height R0x lo hi : Int)
    (hn : 0 ≤ width * height) :
    ringHandleCount a width height R0x lo hi = 0 ↔
      ∀ k : Int, 0 ≤ k → k < width * height → lo ≤ cellRing width height R0x k →
        cellRing width height R0x k < hi → ¬ (a k ≠ 0 ∧ a k ≠ AREA_BLOCKED) := by
  unfold ringHandleCount
  rw [Finset.sum_eq_zero_iff_of_nonneg (fun k _ => by split_ifs <;> decide)]
  constructor
  · intro h k hk0 hk1 hlo hhi hm
    have := h k.toNat (Finset.mem_range.mpr (by omega))
    rw [Int.toNat_of_nonneg hk0, if_pos ⟨hm, hlo, hhi⟩] at this
    exact absurd this (by decide)
  · intro h k hk
    have hk1 : (k : Int) < width * height := by
      have := Finset.mem_range.mp hk
      omega
    rw [if_neg]
    rintro ⟨hm, hlo, hhi⟩
    exact h (k : Int) (by omega) hk1 hlo hhi hm

/-- The body of the ring loop of `PushRings` at ring R: cells outside rings R and
R+1 keep their value; the count goes up by the number of movable handles that
ring R holds afterwards; `emptyRing` stays or moves on to R, the latter only from
R - 1 and when ring R holds no movable handle afterwards; and if nothing has been
pushed, the buffer is as before and no handle of ring R can be pushed. -/
theorem PushRingsRing_count {width height R0x R0y R0Width R0Height ringCount : Int}
    (v : ValidRings width height R0x R0y R0Width R0Height ringCount)
    (R : Int) (hR0 : 0 ≤ R) (hR1 : R + 1 < ringCount) (s : PushState) :
    (∀ k, cellRing width height R0x k ≠ R → cellRing width height R0x k ≠ R + 1 →
      (PushRingsRing 3 width height R0x R0y R0Width R0Height R s).area k = s.area k) ∧
    (PushRingsRing 3 width height R0x R0y R0Width R0Height R s).occupationCount
      = s.occupationCount + ringHandleCount
        (PushRingsRing 3 width height R0x R0y R0Width R0Height R s).area width height R0x R
        (R + 1) ∧
    ((PushRingsRing 3 width height R0x R0y R0Width R0Height R s).emptyRing = s.emptyRing ∨
      ((PushRingsRing 3 width height R0x R0y R0Width R0Height R s).emptyRing = R ∧
        s.emptyRing = R - 1 ∧
        ringHandleCount (PushRingsRing 3 width height R0x R0y R0Width R0Height R s).area
          width height R0x R (R + 1) = 0)) ∧
    ((PushRingsRing 3 width height R0x R0y R0Width R0Height R s).pushed = false →
      s.pushed = false ∧
      (PushRingsRing 3 width height R0x R0y R0Width R0Height R s).area = s.area ∧
      ∀ Index, 0 ≤ Index → Index < RingLength R0Width R0Height R →
        (s.area ((RingIndexToXY R0x R0y R0Width R0Height R Index).2 * width +
            (RingIndexToXY R0x R0y R0Width R0Height R Index).1) ≠ 0 ∧
          s.area ((RingIndexToXY R0x R0y R0Width R0Height R Index).2 * width +
            (RingIndexToXY R0x R0y R0Width R0Height R Index).1) ≠ AREA_BLOCKED) →
        ∀ rnd2 : RandSource,
          (FindPushedSpot s.area rnd2 3 width height R0x R0y R0Width R0Height R Index).1
            = -1) := by
  have hlen := (RingLength_pos R0Width R0Height R v.hW v.hH hR0).1
  have hr := random_range s.rnd (RingLength R0Width R0Height R) (by omega)
  obtain ⟨c1, c2, c3, c4, c5⟩ := PushRingsScan_count v R
    (s.rnd.random (RingLength R0Width R0Height R)) hR0 hR1 hr.1
    { s with rnd := s.rnd.next, empty := true }
  unfold PushRingsRing
  dsimp only at c1 c2 c3 c4 c5 ⊢
  generalize forLoop (PushRingsCell 3 width height R0x R0y R0Width R0Height R
    (RingLength R0Width R0Height R) (s.rnd.random (RingLength R0Width R0Height R)))
    (RingLength R0Width R0Height R).toNat 0
    { area := s.area, rnd := s.rnd.next, emptyRing := s.emptyRing,
      occupationCount := s.occupationCount, pushed := s.pushed, empty := true } = s1 at *
  by_cases hc : s1.empty = true ∧ s1.emptyRing = R - 1
  · rw [if_pos hc]
    dsimp only
    refine ⟨c2, c3, Or.inr ⟨rfl, by rw [← c1]; exact hc.2, ?_⟩, c5⟩
    have := (c4 hc.1).2
    omega
  · rw [if_neg hc]
    exact ⟨c2, c3, Or.inl c1, c5⟩

/-- One cycle of `PushRings`, entered when the rings up to `emptyRing` hold no
movable handle: the count it leaves is the number of movable handles in the rings
below the outline ring; `emptyRing` has not gone down and the rings up to it hold
no movable handle; and if nothing was pushed, the buffer is as before and no
handle in a ring below the outline ring can be pushed, whatever the random
source. -/
theorem PushRingsCycle_count {width height R0x R0y R0Width R0Height ringCount : Int}
    (v : ValidRings width height R0x R0y R0Width R0Height ringCount)
    (outlineRing emptyRing : Int) (ho : outlineRing < ringCount) (he : -1 ≤ emptyRing)
    (area : Area) (rnd : RandSource)
    (hpre : ∀ k : Int, 0 ≤ k → k < width * height → cellRing width height R0x k ≤ emptyRing →
      ¬ (area k ≠ 0 ∧ area k ≠ AREA_BLOCKED)) :
    (PushRingsCycle area rnd 3 width height R0x R0y R0Width R0Height outlineRing
        emptyRing).occupationCount
      = ringHandleCount
        (PushRingsCycle area rnd 3 width height R0x R0y R0Width R0Height outlineRing
          emptyRing).area width height R0x 0 outlineRing ∧
    emptyRing ≤ (PushRingsCycle area rnd 3 width height R0x R0y R0Width R0Height outlineRing
        emptyRing).emptyRing ∧
    (∀ k : Int, 0 ≤ k → k < width * height →
      cellRing width height R0x k ≤
        (PushRingsCycle area rnd 3 width height R0x R0y R0Width R0Height outlineRing
          emptyRing).emptyRing →
      ¬ ((PushRingsCycle area rnd 3 width height R0x R0y R0Width R0Height outlineRing
            emptyRing).area k ≠ 0 ∧
          (PushRingsCycle area rnd 3 width height R0x R0y R0Width R0Height outlineRing
            emptyRing).area k ≠ AREA_BLOCKED)) ∧
    ((PushRingsCycle area rnd 3 width height R0x R0y R0Width R0Height outlineRing
        emptyRing).pushed = false →
      (PushRingsCycle area rnd 3 width height R0x R0y R0Width R0Height outlineRing
        emptyRing).area = area ∧
      ∀ R Index, 0 ≤ R → R < outlineRing → 0 ≤ Index → Index < RingLength R0Width R0Height R →
        (area ((RingIndexToXY R0x R0y R0Width R0Height R Index).2 * width +
            (RingIndexToXY R0x R0y R0Width R0Height R Index).1) ≠ 0 ∧
          area ((RingIndexToXY R0x R0y R0Width R0Height R Index).2 * width +
            (RingIndexToXY R0x R0y R0Width R0Height R Index).1) ≠ AREA_BLOCKED) →
        ∀ rnd2 : RandSource,
          (FindPushedSpot area rnd2 3 width height R0x R0y R0Width R0Height R Index).1
            = -1) := by
  have hn : 0 ≤ width * height :=
    mul_nonneg (by have := v.hwidth; have := v.hW; have := v.hN; omega)
      (by have := v.hheight; have := v.hH; have := v.hN; omega)
  have hinv := forLoop_inv
    (fun (R : Int) (s : PushState) =>
      s.occupationCount = ringHandleCount s.area width height R0x (emptyRing + 1) R ∧
      (emptyRing ≤ s.emptyRing ∧ s.emptyRing < R) ∧
      (∀ k : Int, 0 ≤ k → k < width * height → cellRing width height R0x k ≤ s.emptyRing →
        ¬ (s.area k ≠ 0 ∧ s.area k ≠ AREA_BLOCKED)) ∧
      (s.pushed = false → s.area = area ∧
        ∀ R2 Index, emptyRing + 1 ≤ R2 → R2 < R → 0 ≤ Index →
          Index < RingLength R0Width R0Height R2 →
          (area ((RingIndexToXY R0x R0y R0Width R0Height R2 Index).2 * width +
              (RingIndexToXY R0x R0y R0Width R0Height R2 Index).1) ≠ 0 ∧
            area ((RingIndexToXY R0x R0y R0Width R0Height R2 Index).2 * width +
              (RingIndexToXY R0x R0y R0Width R0Height R2 Index).1) ≠ AREA_BLOCKED) →
          ∀ rnd2 : RandSource,
            (FindPushedSpot area rnd2 3 width height R0x R0y R0Width R0Height R2 Index).1
              = -1))
    (PushRingsRing 3 width height R0x R0y R0Width R0Height)
    (outlineRing - (emptyRing + 1)).toNat (emptyRing + 1)
    { area := area, rnd := rnd, emptyRing := emptyRing, occupationCount := 0,
      pushed := false, empty := true } ?_ ?_
  · unfold PushRingsCycle
    generalize forLoop (PushRingsRing 3 width height R0x R0y R0Width R0Height)
      (outlineRing - (emptyRing + 1)).toNat (emptyRing + 1)
      { area := area, rnd := rnd, emptyRing := emptyRing, occupationCount := 0,
        pushed := false, empty := true } = t at *
    obtain ⟨h1, h2, h3, h4⟩ := hinv
    have hlow : ringHandleCount t.area width height R0x 0 (emptyRing + 1) = 0 :=
      (ringHandleCount_eq_zero t.area width height R0x 0 (emptyRing + 1) hn).mpr
        (fun k hk0 hk1 _ hhi => h3 k hk0 hk1 (by omega))
    refine ⟨?_, h2.1, h3, fun hp => ⟨(h4 hp).1, fun R Index hR0 hR1 hI0 hI1 hm rnd2 => ?_⟩⟩
    · by_cases hcase : emptyRing + 1 ≤ outlineRing
      · have hend : emptyRing + 1 + ((outlineRing - (emptyRing + 1)).toNat : Int)
            = outlineRing := by omega
        rw [hend] at h1
        rw [← ringHandleCount_add t.area width height R0x 0 (emptyRing + 1) outlineRing
          (by omega) hcase, hlow, h1]
        ring
      · have hend : emptyRing + 1 + ((outlineRing - (emptyRing + 1)).toNat : Int)
            = emptyRing + 1 := by omega
        rw [hend] at h1
        rw [h1, (ringHandleCount_eq_zero t.area width height R0x (emptyRing + 1)
          (emptyRing + 1) hn).mpr (fun k _ _ a b => by omega)]
        symm
        exact (ringHandleCount_eq_zero t.area width height R0x 0 outlineRing hn).mpr
          (fun k hk0 hk1 _ hhi => h3 k hk0 hk1 (by omega))
    · by_cases hRe : R ≤ emptyRing
      · have hc := ring_cell_flat v R Index hR0 (by omega) hI0 hI1
        exact absurd hm (hpre _ hc.1.1 hc.1.2 (by rw [hc.2]; exact hRe))
      · exact (h4 hp).2 R Index (by omega) (by omega) hI0 hI1 hm rnd2
  · intro R s hRlo hRhi hI
    obtain ⟨h1, h2, h3, h4⟩ := hI
    have hR0 : 0 ≤ R := by omega
    have hRo : R < outlineRing := by omega
    obtain ⟨r1, r2, r3, r4⟩ := PushRingsRing_count v R hR0 (by omega) s
    generalize PushRingsRing 3 width height R0x R0y R0Width R0Height R s = s2 at *
    have hsame : ringHandleCount s2.area width height R0x (emptyRing + 1) R
        = ringHandleCount s.area width height R0x (emptyRing + 1) R :=
      ringHandleCount_congr _ _ _ _ _ _ _
        (fun k _ _ _ hhi => r1 k (by omega) (by omega))
    refine ⟨?_, ?_, ?_, ?_⟩
    · rw [← ringHandleCount_add s2.area width height R0x (emptyRing + 1) R (R + 1) hRlo
        (by omega), hsame, r2, h1]
    · rcases r3 with e | ⟨e, _, _⟩ <;> rw [e] <;> omega
    · intro k hk0 hk1 hkr
      rcases r3 with e | ⟨e, e0, ez⟩
      · rw [e] at hkr
        rw [r1 k (by omega) (by omega)]
        exact h3 k hk0 hk1 hkr
      · rw [e] at hkr
        by_cases hkR : cellRing width height R0x k = R
        · exact (ringHandleCount_eq_zero s2.area width height R0x R (R + 1) hn).mp ez k hk0 hk1
            (by omega) (by omega)
        · rw [r1 k hkR (by omega)]
          exact h3 k hk0 hk1 (by omega)
    · intro hp
      obtain ⟨p0, p1, p2⟩ := r4 hp
      obtain ⟨g1, g2⟩ := h4 p0
      refine ⟨by rw [p1, g1], fun R2 Index a1 a2 a3 a4 hm rnd2 => ?_⟩
      by_cases hR2 : R2 = R
      · subst hR2
        rw [← g1] at hm ⊢
        exact p2 Index a3 a4 hm rnd2
      · exact g2 R2 Index a1 (by omega) a3 a4 hm rnd2
  · refine ⟨?_, ⟨le_refl _, by dsimp only; omega⟩, hpre,
      fun _ => ⟨rfl, fun R2 Index a1 a2 => by omega⟩⟩
    dsimp only
    symm
    exact (ringHandleCount_eq_zero area width height R0x (emptyRing + 1) (emptyRing + 1) hn).mpr
      (fun k _ _ a b => by omega)

/-- What the loop of `PushRings` returns when it is entered with no movable handle
in the rings up to `emptyRing`: the number of movable handles in the rings below
the outline ring of the buffer it leaves, and, when that number is positive, a
buffer in which no handle of these rings can be pushed. -/
theorem PushRingsLoop_count {width height R0x R0y R0Width R0Height ringCount : Int}
    (v : ValidRings width height R0x R0y R0Width R0Height ringCount)
    (outlineRing : Int) (ho : outlineRing < ringCount) :
    ∀ (fuel : Nat) (area : Area) (rnd : RandSource) (emptyRing : Int)
      (r : Int × Area × RandSource), -1 ≤ emptyRing →
      (∀ k : Int, 0 ≤ k → k < width * height → cellRing width height R0x k ≤ emptyRing →
        ¬ (area k ≠ 0 ∧ area k ≠ AREA_BLOCKED)) →
      PushRingsLoop 3 width height R0x R0y R0Width R0Height outlineRing fuel area rnd emptyRing
        = some r →
      r.1 = ringHandleCount r.2.1 width height R0x 0 outlineRing ∧
      (r.1 > 0 →
        ∀ R Index, 0 ≤ R → R < outlineRing → 0 ≤ Index →
          Index < RingLength R0Width R0Height R →
          (r.2.1 ((RingIndexToXY R0x R0y R0Width R0Height R Index).2 * width +
              (RingIndexToXY R0x R0y R0Width R0Height R Index).1) ≠ 0 ∧
            r.2.1 ((RingIndexToXY R0x R0y R0Width R0Height R Index).2 * width +
              (RingIndexToXY R0x R0y R0Width R0Height R Index).1) ≠ AREA_BLOCKED) →
          ∀ rnd2 : RandSource,
            (FindPushedSpot r.2.1 rnd2 3 width height R0x R0y R0Width R0Height R Index).1
              = -1) := by
  have hn : 0 ≤ width * height :=
    mul_nonneg (by have := v.hwidth; have := v.hW; have := v.hN; omega)
      (by have := v.hheight; have := v.hH; have := v.hN; omega)
  intro fuel
  induction fuel with
  | zero =>
    intro area rnd emptyRing r _ _ h
    simp [PushRingsLoop] at h
  | succ fuel ih =>
    intro area rnd emptyRing r he hpre h
    obtain ⟨c1, c2, c3, c4⟩ := PushRingsCycle_count v outlineRing emptyRing ho he area rnd hpre
    unfold PushRingsLoop at h
    dsimp only at h
    generalize PushRingsCycle area rnd 3 width height R0x R0y R0Width R0Height outlineRing
      emptyRing = s at *
    by_cases hcont : s.emptyRing + 1 < outlineRing ∧ s.pushed = true
    · rw [if_pos hcont] at h
      exact ih s.area s.rnd s.emptyRing r (by omega) c3 h
    · rw [if_neg hcont] at h
      simp only [Option.some.injEq] at h
      subst h
      dsimp only
      refine ⟨c1, fun hpos R Index hR0 hR1 hI0 hI1 hm rnd2 => ?_⟩
      have hlt : s.emptyRing + 1 < outlineRing := by
        by_contra hge
        have hz := (ringHandleCount_eq_zero s.area width height R0x 0 outlineRing hn).mpr
          (fun k hk0 hk1 _ hhi => c3 k hk0 hk1 (by omega))
        omega
      have hp : s.pushed = false := by
        cases hps : s.pushed with
        | false => rfl
        | true => exact absurd ⟨hlt, hps⟩ hcont
      obtain ⟨g1, g2⟩ := c4 hp
      rw [g1] at hm ⊢
      exact g2 R Index hR0 hR1 hI0 hI1 hm rnd2

/-- C22: for every buffer, every valid ring decomposition with the outline ring
inside it and every random source, PushRings returns (`width * height *
ringCount + 1` cycles are enough), and the value it returns is the number of cells
in rings 0 .. outlineRing-1 that hold a movable handle in the buffer as PushRings
leaves it. -/
theorem push_rings_returns_footprint_count
    {width height R0x R0y R0Width R0Height ringCount : Int}
    (v : ValidRings width height R0x R0y R0Width R0Height ringCount)
    (outlineRing : Int) (ho : outlineRing < ringCount) (area : Area) (rnd : RandSource) :
    (∃ r, ∀ fuel, (width * height * ringCount).toNat + 1 ≤ fuel →
      PushRings fuel area rnd width height R0x R0y R0Width R0Height outlineRing = some r) ∧
    (∀ (fuel : Nat) (r : Int × Area × RandSource),
      PushRings fuel area rnd width height R0x R0y R0Width R0Height outlineRing = some r →
      r.1 = ringHandleCount r.2.1 width height R0x 0 outlineRing) := by
  refine ⟨PushRings_returns v outlineRing ho area rnd, fun fuel r h => ?_⟩
  have hcr : ∀ k : Int, 0 ≤ k → k < width * height → cellRing width height R0x k ≤ -1 →
      ¬ (area k ≠ 0 ∧ area k ≠ AREA_BLOCKED) := by
    intro k hk0 hk1 hk
    have := (cellRing_range v k hk0 hk1).1
    omega
  exact (PushRingsLoop_count v outlineRing ho fuel area rnd (-1) r (le_refl _) hcr h).1

/-- Witness for C22: the packed 5 x 5 buffer with a 1 x 1 footprint. -/
theorem push_rings_returns_footprint_count_witness :
    (1 : Int) < 3 ∧
    ∃ r, ∀ fuel, ((5 : Int) * 5 * 3).toNat + 1 ≤ fuel →
      PushRings fuel packedArea (fun _ => 0) 5 5 2 2 1 1 1 = some r :=
  ⟨by decide, (push_rings_returns_footprint_count validRings_five 1 (by decide) packedArea
    (fun _ => 0)).1⟩

/-- C23: for a valid ring decomposition with the outline ring inside it: whenever
PushRings returns a value n > 0, every movable handle that the buffer it leaves
holds in a ring R < outlineRing at position Index cannot be pushed:
FindPushedSpot with MAX_MOVE = 3 returns -1 there for every random source. -/
theorem positive_count_means_fixed_point
    {width height R0x R0y R0Width R0Height ringCount : Int}
    (v : ValidRings width height R0x R0y R0Width R0Height ringCount)
    (outlineRing : Int) (ho : outlineRing < ringCount) (area : Area) (rnd : RandSource)
    (fuel : Nat) (r : Int × Area × RandSource)
    (h : PushRings fuel area rnd width height R0x R0y R0Width R0Height outlineRing = some r)
    (hpos : r.1 > 0) :
    ∀ R Index, 0 ≤ R → R < outlineRing → 0 ≤ Index → Index < RingLength R0Width R0Height R →
      (r.2.1 ((RingIndexToXY R0x R0y R0Width R0Height R Index).2 * width +
          (RingIndexToXY R0x R0y R0Width R0Height R Index).1) ≠ 0 ∧
        r.2.1 ((RingIndexToXY R0x R0y R0Width R0Height R Index).2 * width +
          (RingIndexToXY R0x R0y R0Width R0Height R Index).1) ≠ AREA_BLOCKED) →
      ∀ rnd2 : RandSource,
        (FindPushedSpot r.2.1 rnd2 3 width height R0x R0y R0Width R0Height R Index).1 = -1 := by
  have hcr : ∀ k : Int, 0 ≤ k → k < width * height → cellRing width height R0x k ≤ -1 →
      ¬ (area k ≠ 0 ∧ area k ≠ AREA_BLOCKED) := by
    intro k hk0 hk1 hk
    have := (cellRing_range v k hk0 hk1).1
    omega
  exact (PushRingsLoop_count v outlineRing ho fuel area rnd (-1) r (le_refl _) hcr h).2 hpos

/-- Witness for C23: on the packed 5 x 5 buffer PushRings returns 1. -/
theorem positive_count_means_fixed_point_witness :
    ∃ r, PushRings 76 packedArea (fun _ => 0) 5 5 2 2 1 1 1 = some r ∧ r.1 > 0 ∧
      ∀ R Index, 0 ≤ R → R < 1 → 0 ≤ Index → Index < RingLength 1 1 R →
        (r.2.1 ((RingIndexToXY 2 2 1 1 R Index).2 * 5 + (RingIndexToXY 2 2 1 1 R Index).1) ≠ 0 ∧
          r.2.1 ((RingIndexToXY 2 2 1 1 R Index).2 * 5 + (RingIndexToXY 2 2 1 1 R Index).1)
            ≠ AREA_BLOCKED) →
        ∀ rnd2 : RandSource, (FindPushedSpot r.2.1 rnd2 3 5 5 2 2 1 1 R Index).1 = -1 := by
  have hcount : (PushRings 76 packedArea (fun _ => 0) 5 5 2 2 1 1 1).map Prod.fst = some 1 := by
    decide
  cases h : PushRings 76 packedArea (fun _ => 0) 5 5 2 2 1 1 1 with
  | none => rw [h] at hcount; exact absurd hcount (by decide)
  | some r =>
    rw [h] at hcount
    have h1 : r.1 = 1 := by simpa using hcount
    exact ⟨r, rfl, by omega,
      positive_count_means_fixed_point validRings_five 1 (by decide) packedArea (fun _ => 0) 76 r
        h (by omega)⟩

/-! ### The geometry of an accepted call -/

/-- C36: for every buildWidth >= 1 and buildHeight >= 1 the geometry computed by
VacateIdleOfNation has ringCount >= 3 and outlineRing = ringCount - 2 >= 1 (so
`outlineRing > 0 && ringCount > 0` holds), R0Width >= 1 and R0Height >= 1 with
min(R0Width, R0Height) equal to 1 or 2, R0Width + 2*(ringCount-1) = width and
R0Height + 2*(ringCount-1) = height; every cell of ring ringCount - 1 lies on
the border of the scan region (its column is 0 or width - 1 or its row is 0 or
height - 1, within the scan region), and every border cell of the scan region is
a cell of that ring. -/
theorem geometry_is_sound (buildxLoc buildyLoc buildWidth buildHeight : Int)
    (hw : 1 ≤ buildWidth) (hh : 1 ≤ buildHeight) :
    3 ≤ (geometry buildxLoc buildyLoc buildWidth buildHeight).ringCount ∧
    (geometry buildxLoc buildyLoc buildWidth buildHeight).outlineRing
      = (geometry buildxLoc buildyLoc buildWidth buildHeight).ringCount - 2 ∧
    1 ≤ (geometry buildxLoc buildyLoc buildWidth buildHeight).outlineRing ∧
    ((geometry buildxLoc buildyLoc buildWidth buildHeight).outlineRing > 0 ∧
      (geometry buildxLoc buildyLoc buildWidth buildHeight).ringCount > 0) ∧
    1 ≤ (geometry buildxLoc buildyLoc buildWidth buildHeight).R0Width ∧
    1 ≤ (geometry buildxLoc buildyLoc buildWidth buildHeight).R0Height ∧
    (min (geometry buildxLoc buildyLoc buildWidth buildHeight).R0Width
        (geometry buildxLoc buildyLoc buildWidth buildHeight).R0Height = 1 ∨
      min (geometry buildxLoc buildyLoc buildWidth buildHeight).R0Width
        (geometry buildxLoc buildyLoc buildWidth buildHeight).R0Height = 2) ∧
    (geometry buildxLoc buildyLoc buildWidth buildHeight).R0Width +
        2 * ((geometry buildxLoc buildyLoc buildWidth buildHeight).ringCount - 1)
      = (geometry buildxLoc buildyLoc buildWidth buildHeight).width ∧
    (geometry buildxLoc buildyLoc buildWidth buildHeight).R0Height +
        2 * ((geometry buildxLoc buildyLoc buildWidth buildHeight).ringCount - 1)
      = (geometry buildxLoc buildyLoc buildWidth buildHeight).height ∧
    (∀ Index, 0 ≤ Index →
      Index < RingLength (geometry buildxLoc buildyLoc buildWidth buildHeight).R0Width
        (geometry buildxLoc buildyLoc buildWidth buildHeight).R0Height
        ((geometry buildxLoc buildyLoc buildWidth buildHeight).ringCount - 1) →
      (0 ≤ (RingIndexToXY (geometry buildxLoc buildyLoc buildWidth buildHeight).R0x
            (geometry buildxLoc buildyLoc buildWidth buildHeight).R0y
            (geometry buildxLoc buildyLoc buildWidth buildHeight).R0Width
            (geometry buildxLoc buildyLoc buildWidth buildHeight).R0Height
            ((geometry buildxLoc buildyLoc buildWidth buildHeight).ringCount - 1) Index).1 ∧
        (RingIndexToXY (geometry buildxLoc buildyLoc buildWidth buildHeight).R0x
            (geometry buildxLoc buildyLoc buildWidth buildHeight).R0y
            (geometry buildxLoc buildyLoc buildWidth buildHeight).R0Width
            (geometry buildxLoc buildyLoc buildWidth buildHeight).R0Height
            ((geometry buildxLoc buildyLoc buildWidth buildHeight).ringCount - 1) Index).1
          < (geometry buildxLoc buildyLoc buildWidth buildHeight).width ∧
        0 ≤ (RingIndexToXY (geometry buildxLoc buildyLoc buildWidth buildHeight).R0x
            (geometry buildxLoc buildyLoc buildWidth buildHeight).R0y
            (geometry buildxLoc buildyLoc buildWidth buildHeight).R0Width
            (geometry buildxLoc buildyLoc buildWidth buildHeight).R0Height
            ((geometry buildxLoc buildyLoc buildWidth buildHeight).ringCount - 1) Index).2 ∧
        (RingIndexToXY (geometry buildxLoc buildyLoc buildWidth buildHeight).R0x
            (geometry buildxLoc buildyLoc buildWidth buildHeight).R0y
            (geometry buildxLoc buildyLoc buildWidth buildHeight).R0Width
            (geometry buildxLoc buildyLoc buildWidth buildHeight).R0Height
            ((geometry buildxLoc buildyLoc buildWidth buildHeight).ringCount - 1) Index).2
          < (geometry buildxLoc buildyLoc buildWidth buildHeight).height) ∧
      ((RingIndexToXY (geometry buildxLoc buildyLoc buildWidth buildHeight).R0x
            (geometry buildxLoc buildyLoc buildWidth buildHeight).R0y
            (geometry buildxLoc buildyLoc buildWidth buildHeight).R0Width
            (geometry buildxLoc buildyLoc buildWidth buildHeight).R0Height
            ((geometry buildxLoc buildyLoc buildWidth buildHeight).ringCount - 1) Index).1 = 0 ∨
        (RingIndexToXY (geometry buildxLoc buildyLoc buildWidth buildHeight).R0x
            (geometry buildxLoc buildyLoc buildWidth buildHeight).R0y
            (geometry buildxLoc buildyLoc buildWidth buildHeight).R0Width
            (geometry buildxLoc buildyLoc buildWidth buildHeight).R0Height
            ((geometry buildxLoc buildyLoc buildWidth buildHeight).ringCount - 1) Index).1
          = (geometry buildxLoc buildyLoc buildWidth buildHeight).width - 1 ∨
        (RingIndexToXY (geometry buildxLoc buildyLoc buildWidth buildHeight).R0x
            (geometry buildxLoc buildyLoc buildWidth buildHeight).R0y
            (geometry buildxLoc buildyLoc buildWidth buildHeight).R0Width
            (geometry buildxLoc buildyLoc buildWidth buildHeight).R0Height
            ((geometry buildxLoc buildyLoc buildWidth buildHeight).ringCount - 1) Index).2 = 0 ∨
        (RingIndexToXY (geometry buildxLoc buildyLoc buildWidth buildHeight).R0x
            (geometry buildxLoc buildyLoc buildWidth buildHeight).R0y
            (geometry buildxLoc buildyLoc buildWidth buildHeight).R0Width
            (geometry buildxLoc buildyLoc buildWidth buildHeight).R0Height
            ((geometry buildxLoc buildyLoc buildWidth buildHeight).ringCount - 1) Index).2
          = (geometry buildxLoc buildyLoc buildWidth buildHeight).height - 1)) ∧
    (∀ x y : Int, 0 ≤ x → x < (geometry buildxLoc buildyLoc buildWidth buildHeight).width →
      0 ≤ y → y < (geometry buildxLoc buildyLoc buildWidth buildHeight).height →
      (x = 0 ∨ x = (geometry buildxLoc buildyLoc buildWidth buildHeight).width - 1 ∨ y = 0 ∨
        y = (geometry buildxLoc buildyLoc buildWidth buildHeight).height - 1) →
      ∃ Index, 0 ≤ Index ∧
        Index < RingLength (geometry buildxLoc buildyLoc buildWidth buildHeight).R0Width
          (geometry buildxLoc buildyLoc buildWidth buildHeight).R0Height
          ((geometry buildxLoc buildyLoc buildWidth buildHeight).ringCount - 1) ∧
        RingIndexToXY (geometry buildxLoc buildyLoc buildWidth buildHeight).R0x
          (geometry buildxLoc buildyLoc buildWidth buildHeight).R0y
          (geometry buildxLoc buildyLoc buildWidth buildHeight).R0Width
          (geometry buildxLoc buildyLoc buildWidth buildHeight).R0Height
          ((geometry buildxLoc buildyLoc buildWidth buildHeight).ringCount - 1) Index = (x, y)) := by
  have v := geometry_valid buildxLoc buildyLoc buildWidth buildHeight hw hh
  have ho := geometry_outlineRing buildxLoc buildyLoc buildWidth buildHeight hw hh
  generalize geometry buildxLoc buildyLoc buildWidth buildHeight = g at *
  have h1 := v.hW
  have h2 := v.hH
  have h3 := v.hmin
  have h4 := v.hx
  have h5 := v.hy
  have h6 := v.hN
  have h7 := v.hwidth
  have h8 := v.hheight
  refine ⟨by omega, ho.1, ho.2, ⟨by omega, by omega⟩, h1, h2, by omega, by omega, by omega, ?_,
    ?_⟩
  · intro Index hI0 hI1
    have ha := ring_in_area v (g.ringCount - 1) Index (by omega) (by omega) hI0
    have hb := ring_on_border g.R0x g.R0y g.R0Width g.R0Height (g.ringCount - 1) Index h1 h2
      (by omega) hI0 hI1
    refine ⟨ha, ?_⟩
    omega
  · intro x y hx0 hx1 hy0 hy1 hb
    have := ringPos_spec g.R0x g.R0y g.R0Width g.R0Height (g.ringCount - 1) x y h1 h2 (by omega)
      (by omega) (by omega) (by omega) (by omega) (by omega)
    exact ⟨_, this⟩

/-- Witness for C36: the 2 x 3 footprint at `(10, 10)`. -/
theorem geometry_is_sound_witness :
    ((1 : Int) ≤ 2 ∧ (1 : Int) ≤ 3) ∧
    3 ≤ (geometry 10 10 2 3).ringCount ∧
    (geometry 10 10 2 3).outlineRing = (geometry 10 10 2 3).ringCount - 2 :=
  ⟨⟨by decide, by decide⟩, (geometry_is_sound 10 10 2 3 (by decide) (by decide)).1,
    (geometry_is_sound 10 10 2 3 (by decide) (by decide)).2.1⟩

/-! ### The single point -/

/-- C31: when the starting ring is a single point (R = 0, R0Width = R0Height = 1),
for every buffer, random source, maxSearchDistance and Index: ring 1 has 8 cells;
FindPushedSpot returns -1 exactly when none of them holds 0; and otherwise it
returns the position of a cell of ring 1 that holds 0. -/
theorem single_point_searches_whole_ring (area : Area) (rnd : RandSource)
    (maxSearchDistance width height R0x R0y Index : Int) :
    RingLength 1 1 1 = 8 ∧
    ((FindPushedSpot area rnd maxSearchDistance width height R0x R0y 1 1 0 Index).1 = -1 ↔
      ∀ k, 0 ≤ k → k < 8 →
        area ((RingIndexToXY R0x R0y 1 1 1 k).2 * width + (RingIndexToXY R0x R0y 1 1 1 k).1)
          ≠ 0) ∧
    ((FindPushedSpot area rnd maxSearchDistance width height R0x R0y 1 1 0 Index).1 ≠ -1 →
      0 ≤ (FindPushedSpot area rnd maxSearchDistance width height R0x R0y 1 1 0 Index).1 ∧
      (FindPushedSpot area rnd maxSearchDistance width height R0x R0y 1 1 0 Index).1 < 8 ∧
      area ((RingIndexToXY R0x R0y 1 1 1
            (FindPushedSpot area rnd maxSearchDistance width height R0x R0y 1 1 0 Index).1).2
          * width +
        (RingIndexToXY R0x R0y 1 1 1
            (FindPushedSpot area rnd maxSearchDistance width height R0x R0y 1 1 0 Index).1).1)
        = 0) := by
  have hlen : RingLength 1 1 1 = 8 := by decide
  have hd : cdiv (RingLength 1 1 (0 + 1) - 1) 2 +
      boolToInt (decide (cmod (RingLength 1 1 (0 + 1) - 1) 2 = 1)) = 4 := by decide
  have hr := random_range rnd (RingLength 1 1 (0 + 1)) (by decide)
  have hfps : (FindPushedSpot area rnd maxSearchDistance width height R0x R0y 1 1 0 Index).1
      = SearchFreeSpotAtIndex area 4 width height R0x R0y 1 1 1
          (rnd.random (RingLength 1 1 (0 + 1))) := by
    unfold FindPushedSpot
    dsimp only
    rw [if_pos ⟨rfl, Or.inl rfl⟩, if_pos ⟨rfl, rfl⟩, hd]
    rfl
  rw [hfps]
  have h8 : RingLength 1 1 (0 + 1) = 8 := by decide
  generalize rnd.random (RingLength 1 1 (0 + 1)) = s0 at *
  rw [h8] at hr
  have hspec := SearchFreeSpotAtIndex_spec area 4 width height R0x R0y 1 1 1 s0 hr.1
    (by rw [hlen]; decide) (by rw [hlen]; decide)
  rw [hlen] at hspec
  refine ⟨hlen, ⟨fun hfail => SearchFreeSpotAtIndex_circle area width height R0x R0y 1 1 1 s0
    hlen hr.1 hr.2 hfail, hspec.2⟩, fun hne => ?_⟩
  rcases hspec.1 with h | h
  · exact absurd h hne
  · exact h

/-! ### The nearest unit is the first of the nearest -/

/-- The body of the inner loop of `FindNearestUnit`, with the distances named. -/
theorem FindNearestUnitStep_eq (area : Area) (locX locY width y x : Int) (b : Nearest) :
    FindNearestUnitStep area locX locY width y x b =
      if area (y * width + x) ≠ 0 ∧ area (y * width + x) ≠ AREA_BLOCKED ∧
          (nearDistance locX locY x y < b.bestDistance ∨
            (nearDistance locX locY x y = b.bestDistance ∧
              nearDistance2 locX locY x y < b.bestDistance2)) then
        { bestUnit := area (y * width + x), bestDistance := nearDistance locX locY x y,
          bestDistance2 := nearDistance2 locX locY x y, unitX := x, unitY := y }
      else b := rfl

/-- One cell of the scan keeps the invariant of the running best. -/
theorem FindNearestUnitStep_inv (area : Area)
    (locX locY searchX searchY searchWidth searchHeight width y x : Int) (b : Nearest)
    (hx0 : searchX ≤ x) (hx1 : x < searchX + searchWidth)
    (hy0 : searchY ≤ y) (hy1 : y < searchY + searchHeight)
    (hd : nearDistance locX locY x y < INT_MAX)
    (hb : nearestInvariant area locX locY searchX searchY searchWidth searchHeight width y x b) :
    nearestInvariant area locX locY searchX searchY searchWidth searchHeight width y (x + 1)
      (FindNearestUnitStep area locX locY width y x b) := by
  rw [FindNearestUnitStep_eq]
  have hsplit : ∀ x' y', scannedBefore searchX searchY searchWidth searchHeight y (x + 1) x' y' →
      scannedBefore searchX searchY searchWidth searchHeight y x x' y' ∨ (x' = x ∧ y' = y) := by
    intro x' y' h
    unfold scannedBefore at h ⊢
    omega
  have hmono : ∀ x' y', scannedBefore searchX searchY searchWidth searchHeight y x x' y' →
      scannedBefore searchX searchY searchWidth searchHeight y (x + 1) x' y' := by
    intro x' y' h
    unfold scannedBefore at h ⊢
    omega
  have hself : scannedBefore searchX searchY searchWidth searchHeight y (x + 1) x y := by
    unfold scannedBefore
    omega
  by_cases hc : area (y * width + x) ≠ 0 ∧ area (y * width + x) ≠ AREA_BLOCKED ∧
      (nearDistance locX locY x y < b.bestDistance ∨
        (nearDistance locX locY x y = b.bestDistance ∧
          nearDistance2 locX locY x y < b.bestDistance2))
  · rw [if_pos hc]
    right
    refine ⟨hc.1, hc.2.1, hself, rfl, rfl, rfl, ?_⟩
    intro x' y' hs hm
    dsimp only
    rcases hsplit x' y' hs with hold | ⟨rfl, rfl⟩
    · rcases hb with ⟨_, _, _, _, hnone⟩ | ⟨_, _, _, _, hbd, hbd2, hbest⟩
      · exact absurd hm (hnone x' y' hold)
      · have hn := hbest x' y' hold hm
        unfold nearerOrFirst at hn ⊢
        rw [← hbd, ← hbd2] at hn
        omega
    · unfold nearerOrFirst
      omega
  · rw [if_neg hc]
    rcases hb with ⟨h1, h2, h3, h4, hnone⟩ | ⟨h1, h2, h3, h4, hbd, hbd2, hbest⟩
    · left
      refine ⟨h1, h2, h3, h4, ?_⟩
      intro x' y' hs hm
      rcases hsplit x' y' hs with hold | ⟨rfl, rfl⟩
      · exact hnone x' y' hold hm
      · exact hc ⟨hm.1, hm.2, Or.inl (by rw [h2]; exact hd)⟩
    · right
      refine ⟨h1, h2, hmono _ _ h3, h4, hbd, hbd2, ?_⟩
      intro x' y' hs hm
      rcases hsplit x' y' hs with hold | ⟨rfl, rfl⟩
      · exact hbest x' y' hold hm
      · have hnot : ¬ (nearDistance locX locY x' y' < b.bestDistance ∨
            (nearDistance locX locY x' y' = b.bestDistance ∧
              nearDistance2 locX locY x' y' < b.bestDistance2)) :=
          fun h => hc ⟨hm.1, hm.2, h⟩
        unfold scannedBefore at h3
        unfold nearerOrFirst
        rw [← hbd, ← hbd2]
        omega

/-- The invariant of the running best holds when `FindNearestUnit` has scanned the
whole search rectangle. -/
theorem FindNearestUnit_inv (area : Area)
    (locX locY searchX searchY searchWidth searchHeight width : Int)
    (hdist : ∀ x y, searchX ≤ x → x < searchX + searchWidth → searchY ≤ y →
      y < searchY + searchHeight →
      max (Int.natAbs (x - locX) : Int) (Int.natAbs (y - locY) : Int) < INT_MAX) :
    nearestInvariant area locX locY searchX searchY searchWidth searchHeight width
      (searchY + searchHeight.toNat) searchX
      (forLoop (fun y b =>
          forLoop (fun x b => FindNearestUnitStep area locX locY width y x b)
            searchWidth.toNat searchX b)
        searchHeight.toNat searchY
        { bestUnit := 0, bestDistance := INT_MAX, bestDistance2 := INT_MAX, unitX := 0,
          unitY := 0 }) := by
  apply forLoop_inv
    (fun (y : Int) (b : Nearest) =>
      nearestInvariant area locX locY searchX searchY searchWidth searchHeight width y searchX b)
  · intro y b hy0 hy1 hb
    have hy1' : y < searchY + searchHeight := by omega
    have hrow := forLoop_inv
      (fun (x : Int) (b : Nearest) =>
        nearestInvariant area locX locY searchX searchY searchWidth searchHeight width y x b)
      (fun x b => FindNearestUnitStep area locX locY width y x b)
      searchWidth.toNat searchX b
      (fun x b hx0 hx1 hb =>
        FindNearestUnitStep_inv area locX locY searchX searchY searchWidth searchHeight width
          y x b hx0 (by omega) hy0 hy1' (hdist x y hx0 (by omega) hy0 hy1') hb)
      hb
    have hiff : ∀ x' y', scannedBefore searchX searchY searchWidth searchHeight y
        (searchX + searchWidth.toNat) x' y' ↔
        scannedBefore searchX searchY searchWidth searchHeight (y + 1) searchX x' y' := by
      intro x' y'
      unfold scannedBefore
      omega
    dsimp only at hrow ⊢
    generalize forLoop (fun x b => FindNearestUnitStep area locX locY width y x b)
      searchWidth.toNat searchX b = b1 at *
    unfold nearestInvariant at hrow ⊢
    rcases hrow with ⟨h1, h2, h3, h4, hnone⟩ | ⟨h1, h2, h3, h4, hbd, hbd2, hbest⟩
    · exact Or.inl ⟨h1, h2, h3, h4, fun x' y' hs => hnone x' y' ((hiff x' y').mpr hs)⟩
    · exact Or.inr ⟨h1, h2, (hiff _ _).mp h3, h4, hbd, hbd2,
        fun x' y' hs => hbest x' y' ((hiff x' y').mpr hs)⟩
  · left
    refine ⟨rfl, rfl, rfl, rfl, ?_⟩
    intro x y hs
    unfold scannedBefore at hs
    omega

/-- The secondary distance is 0 exactly on the row and the column of the target. -/
theorem nearDistance2_eq_zero (locX locY x y : Int) :
    nearDistance2 locX locY x y = 0 ↔ (x = locX ∨ y = locY) := by
  unfold nearDistance2
  omega

/-- C32: what `FindNearestUnit` returns, for a search rectangle all of whose cells
are closer than INT_MAX to `(locX, locY)`.  It returns 0 exactly if no cell of the
rectangle holds a movable handle (and then it leaves the out-parameters alone).
Otherwise `(unitX, unitY)` is a cell of the rectangle holding the returned handle,
which is movable; for every cell of the rectangle with a movable handle the pair
`(max(|dx|,|dy|), min(|dx|,|dy|))` of the returned cell is lexicographically smaller,
or equal with the returned cell not later in row-major order; and if some movable
cell at the same Chebyshev distance as the returned one lies in a straight line
(dx = 0 or dy = 0), so does the returned cell. -/
theorem nearest_unit_is_first_of_nearest (area : Area)
    (locX locY searchX searchY searchWidth searchHeight width height : Int)
    (hdist : ∀ x y, searchX ≤ x → x < searchX + searchWidth → searchY ≤ y →
      y < searchY + searchHeight →
      max (Int.natAbs (x - locX) : Int) (Int.natAbs (y - locY) : Int) < INT_MAX) :
    ((FindNearestUnit area locX locY searchX searchY searchWidth searchHeight width height).1
        = 0 ↔
      ∀ x y, searchX ≤ x → x < searchX + searchWidth → searchY ≤ y →
        y < searchY + searchHeight →
        ¬ (area (y * width + x) ≠ 0 ∧ area (y * width + x) ≠ AREA_BLOCKED)) ∧
    ((FindNearestUnit area locX locY searchX searchY searchWidth searchHeight width height).1
        = 0 →
      (FindNearestUnit area locX locY searchX searchY searchWidth searchHeight width height).2
        = (0, 0)) ∧
    ((FindNearestUnit area locX locY searchX searchY searchWidth searchHeight width height).1
        ≠ 0 →
      searchX ≤ (FindNearestUnit area locX locY searchX searchY searchWidth searchHeight width
        height).2.1 ∧
      (FindNearestUnit area locX locY searchX searchY searchWidth searchHeight width height).2.1
        < searchX + searchWidth ∧
      searchY ≤ (FindNearestUnit area locX locY searchX searchY searchWidth searchHeight width
        height).2.2 ∧
      (FindNearestUnit area locX locY searchX searchY searchWidth searchHeight width height).2.2
        < searchY + searchHeight ∧
      area ((FindNearestUnit area locX locY searchX searchY searchWidth searchHeight width
          height).2.2 * width +
        (FindNearestUnit area locX locY searchX searchY searchWidth searchHeight width height).2.1)
        = (FindNearestUnit area locX locY searchX searchY searchWidth searchHeight width
          height).1 ∧
      (FindNearestUnit area locX locY searchX searchY searchWidth searchHeight width height).1
        ≠ AREA_BLOCKED ∧
      (∀ x y, searchX ≤ x → x < searchX + searchWidth → searchY ≤ y →
        y < searchY + searchHeight →
        area (y * width + x) ≠ 0 ∧ area (y * width + x) ≠ AREA_BLOCKED →
        nearerOrFirst locX locY
          (FindNearestUnit area locX locY searchX searchY searchWidth searchHeight width
            height).2.1
          (FindNearestUnit area locX locY searchX searchY searchWidth searchHeight width
            height).2.2 x y) ∧
      (∀ x y, searchX ≤ x → x < searchX + searchWidth → searchY ≤ y →
        y < searchY + searchHeight →
        area (y * width + x) ≠ 0 ∧ area (y * width + x) ≠ AREA_BLOCKED →
        nearDistance locX locY x y = nearDistance locX locY
          (FindNearestUnit area locX locY searchX searchY searchWidth searchHeight width
            height).2.1
          (FindNearestUnit area locX locY searchX searchY searchWidth searchHeight width
            height).2.2 →
        (x = locX ∨ y = locY) →
        ((FindNearestUnit area locX locY searchX searchY searchWidth searchHeight width
            height).2.1 = locX ∨
          (FindNearestUnit area locX locY searchX searchY searchWidth searchHeight width
            height).2.2 = locY))) := by
  have hinv := FindNearestUnit_inv area locX locY searchX searchY searchWidth searchHeight
    width hdist
  have hrect : ∀ x y, searchX ≤ x → x < searchX + searchWidth → searchY ≤ y →
      y < searchY + searchHeight →
      scannedBefore searchX searchY searchWidth searchHeight (searchY + searchHeight.toNat)
        searchX x y := by
    intro x y a1 a2 a3 a4
    unfold scannedBefore
    omega
  unfold FindNearestUnit
  dsimp only
  generalize forLoop (fun y b =>
      forLoop (fun x b => FindNearestUnitStep area locX locY width y x b)
        searchWidth.toNat searchX b)
    searchHeight.toNat searchY
    { bestUnit := 0, bestDistance := INT_MAX, bestDistance2 := INT_MAX, unitX := 0,
      unitY := 0 } = b at *
  unfold nearestInvariant at hinv
  rcases hinv with ⟨h1, _, h3, h4, hnone⟩ | ⟨h1, h2, h3, h4, _, _, hbest⟩
  · refine ⟨⟨fun _ x y a1 a2 a3 a4 => hnone x y (hrect x y a1 a2 a3 a4), fun _ => h1⟩, ?_, ?_⟩
    · intro _
      rw [h3, h4]
    · intro h
      exact absurd h1 h
  · have hs := h3
    unfold scannedBefore at hs
    refine ⟨⟨fun h => absurd h h1, ?_⟩, fun h => absurd h h1, ?_⟩
    · intro hno
      exfalso
      apply hno b.unitX b.unitY hs.1 hs.2.1 hs.2.2.1 hs.2.2.2.1
      rw [h4]
      exact ⟨h1, h2⟩
    · intro _
      refine ⟨hs.1, hs.2.1, hs.2.2.1, hs.2.2.2.1, h4, h2, ?_, ?_⟩
      · intro x y a1 a2 a3 a4 hm
        exact hbest x y (hrect x y a1 a2 a3 a4) hm
      · intro x y a1 a2 a3 a4 hm hd hline
        have hn := hbest x y (hrect x y a1 a2 a3 a4) hm
        have hz := (nearDistance2_eq_zero locX locY x y).mpr hline
        apply (nearDistance2_eq_zero locX locY b.unitX b.unitY).mp
        have hnn : 0 ≤ nearDistance2 locX locY b.unitX b.unitY := by
          unfold nearDistance2
          omega
        unfold nearerOrFirst at hn
        omega

/-- Witness for C32: the 3 x 3 inner rectangle of the crowded 5 x 5 buffer, searched
from the border cell `(0, 2)`. -/
theorem nearest_unit_is_first_of_nearest_witness :
    (∀ x y : Int, 1 ≤ x → x < 1 + 3 → 1 ≤ y → y < 1 + 3 →
      max (Int.natAbs (x - 0) : Int) (Int.natAbs (y - 2) : Int) < INT_MAX) ∧
    (((FindNearestUnit crowdedArea 0 2 1 1 3 3 5 5).1
        = 0 ↔
      ∀ x y, 1 ≤ x → x < 1 + 3 → 1 ≤ y →
        y < 1 + 3 →
        ¬ (crowdedArea (y * 5 + x) ≠ 0 ∧ crowdedArea (y * 5 + x) ≠ AREA_BLOCKED)) ∧
    ((FindNearestUnit crowdedArea 0 2 1 1 3 3 5 5).1
        = 0 →
      (FindNearestUnit crowdedArea 0 2 1 1 3 3 5 5).2
        = (0, 0)) ∧
    ((FindNearestUnit crowdedArea 0 2 1 1 3 3 5 5).1
        ≠ 0 →
      1 ≤ (FindNearestUnit crowdedArea 0 2 1 1 3 3 5 5).2.1 ∧
      (FindNearestUnit crowdedArea 0 2 1 1 3 3 5 5).2.1
        < 1 + 3 ∧
      1 ≤ (FindNearestUnit crowdedArea 0 2 1 1 3 3 5 5).2.2 ∧
      (FindNearestUnit crowdedArea 0 2 1 1 3 3 5 5).2.2
        < 1 + 3 ∧
      crowdedArea ((FindNearestUnit crowdedArea 0 2 1 1 3 3 5 5).2.2 * 5 +
        (FindNearestUnit crowdedArea 0 2 1 1 3 3 5 5).2.1)
        = (FindNearestUnit crowdedArea 0 2 1 1 3 3 5 5).1 ∧
      (FindNearestUnit crowdedArea 0 2 1 1 3 3 5 5).1
        ≠ AREA_BLOCKED ∧
      (∀ x y, 1 ≤ x → x < 1 + 3 → 1 ≤ y →
        y < 1 + 3 →
        crowdedArea (y * 5 + x) ≠ 0 ∧ crowdedArea (y * 5 + x) ≠ AREA_BLOCKED →
        nearerOrFirst 0 2
          (FindNearestUnit crowdedArea 0 2 1 1 3 3 5 5).2.1
          (FindNearestUnit crowdedArea 0 2 1 1 3 3 5 5).2.2 x y) ∧
      (∀ x y, 1 ≤ x → x < 1 + 3 → 1 ≤ y →
        y < 1 + 3 →
        crowdedArea (y * 5 + x) ≠ 0 ∧ crowdedArea (y * 5 + x) ≠ AREA_BLOCKED →
        nearDistance 0 2 x y = nearDistance 0 2
          (FindNearestUnit crowdedArea 0 2 1 1 3 3 5 5).2.1
          (FindNearestUnit crowdedArea 0 2 1 1 3 3 5 5).2.2 →
        (x = 0 ∨ y = 2) →
        ((FindNearestUnit crowdedArea 0 2 1 1 3 3 5 5).2.1 = 0 ∨
          (FindNearestUnit crowdedArea 0 2 1 1 3 3 5 5).2.2 = 2)))) :=
  have hINT : INT_MAX = 2147483647 := by decide
  ⟨fun x y a1 a2 a3 a4 => by omega,
    nearest_unit_is_first_of_nearest crowdedArea 0 2 1 1 3 3 5 5
      (fun x y a1 a2 a3 a4 => by omega)⟩

/-! ### The desperation cursor and the assertion of `FindNearestUnit` -/

/-- C33 as stated fails: FindNextNonblockedInRing on ring 1 (8 cells) around the
1 x 1 centre of a 5 x 5 buffer whose only handle sits at position 0 of the ring,
with prevSearchIndex = 0: position 1 holds 0, so it is not blocked, but the scan
passes over it and over every other free cell and returns position 0, the cell
with the handle; and on a buffer that holds 0 everywhere, where no cell is
blocked, it returns -1. -/
theorem next_nonblocked_skips_free_cells :
    (outlineHandleArea ((RingIndexToXY 2 2 1 1 1 (0 + 1)).2 * 5 +
        (RingIndexToXY 2 2 1 1 1 (0 + 1)).1) = 0 ∧
      outlineHandleArea ((RingIndexToXY 2 2 1 1 1 (0 + 1)).2 * 5 +
        (RingIndexToXY 2 2 1 1 1 (0 + 1)).1) ≠ AREA_BLOCKED) ∧
    FindNextNonblockedInRing outlineHandleArea 5 5 2 2 1 1 1 0 = 0 ∧
    FindNextNonblockedInRing (fun _ => 0) 5 5 2 2 1 1 1 0 = -1 := by
  decide

/-- What the scan loop of `FindNextNonblockedInRing` returns when it starts at the
counter `i` with `n` iterations left: -1 if none of the cells it looks at holds a
movable handle, else the position of the first one that does. -/
theorem FindNextNonblockedLoop_first (area : Area)
    (width R0x R0y R0Width R0Height R prevSearchIndex ringLength : Int)
    (hlen : 0 < ringLength) (hprev : 0 ≤ prevSearchIndex) :
    ∀ (n : Nat) (i : Int), 0 ≤ i →
      (FindNextNonblockedLoop area width R0x R0y R0Width R0Height R prevSearchIndex ringLength
          n i = -1 ∧
        ∀ i2, i ≤ i2 → i2 < i + n →
          ¬ (area ((RingIndexToXY R0x R0y R0Width R0Height R
                (cmod (prevSearchIndex + 1 + i2) ringLength)).2 * width +
              (RingIndexToXY R0x R0y R0Width R0Height R
                (cmod (prevSearchIndex + 1 + i2) ringLength)).1) ≠ 0 ∧
            area ((RingIndexToXY R0x R0y R0Width R0Height R
                (cmod (prevSearchIndex + 1 + i2) ringLength)).2 * width +
              (RingIndexToXY R0x R0y R0Width R0Height R
                (cmod (prevSearchIndex + 1 + i2) ringLength)).1) ≠ AREA_BLOCKED)) ∨
      ∃ i0, i ≤ i0 ∧ i0 < i + n ∧
        FindNextNonblockedLoop area width R0x R0y R0Width R0Height R prevSearchIndex ringLength
          n i = cmod (prevSearchIndex + 1 + i0) ringLength ∧
        (area ((RingIndexToXY R0x R0y R0Width R0Height R
              (cmod (prevSearchIndex + 1 + i0) ringLength)).2 * width +
            (RingIndexToXY R0x R0y R0Width R0Height R
              (cmod (prevSearchIndex + 1 + i0) ringLength)).1) ≠ 0 ∧
          area ((RingIndexToXY R0x R0y R0Width R0Height R
              (cmod (prevSearchIndex + 1 + i0) ringLength)).2 * width +
            (RingIndexToXY R0x R0y R0Width R0Height R
              (cmod (prevSearchIndex + 1 + i0) ringLength)).1) ≠ AREA_BLOCKED) ∧
        ∀ i2, i ≤ i2 → i2 < i0 →
          ¬ (area ((RingIndexToXY R0x R0y R0Width R0Height R
                (cmod (prevSearchIndex + 1 + i2) ringLength)).2 * width +
              (RingIndexToXY R0x R0y R0Width R0Height R
                (cmod (prevSearchIndex + 1 + i2) ringLength)).1) ≠ 0 ∧
            area ((RingIndexToXY R0x R0y R0Width R0Height R
                (cmod (prevSearchIndex + 1 + i2) ringLength)).2 * width +
              (RingIndexToXY R0x R0y R0Width R0Height R
                (cmod (prevSearchIndex + 1 + i2) ringLength)).1) ≠ AREA_BLOCKED) := by
  intro n
  induction n with
  | zero =>
    intro i _
    left
    refine ⟨rfl, ?_⟩
    intro i2 h1 h2
    exact absurd h2 (by push_cast; omega)
  | succ n ih =>
    intro i hi
    unfold FindNextNonblockedLoop
    dsimp only
    by_cases hm : area ((RingIndexToXY R0x R0y R0Width R0Height R
          (cmod (prevSearchIndex + 1 + i) ringLength)).2 * width +
        (RingIndexToXY R0x R0y R0Width R0Height R
          (cmod (prevSearchIndex + 1 + i) ringLength)).1) ≠ 0 ∧
      area ((RingIndexToXY R0x R0y R0Width R0Height R
          (cmod (prevSearchIndex + 1 + i) ringLength)).2 * width +
        (RingIndexToXY R0x R0y R0Width R0Height R
          (cmod (prevSearchIndex + 1 + i) ringLength)).1) ≠ AREA_BLOCKED
    · rw [if_pos hm]
      right
      exact ⟨i, le_refl _, by push_cast; omega, rfl, hm, fun i2 h1 h2 => absurd h2 (by omega)⟩
    · rw [if_neg hm]
      rcases ih (i + 1) (by omega) with ⟨h1, h2⟩ | ⟨i0, h1, h2, h3, h4, h5⟩
      · left
        refine ⟨h1, ?_⟩
        intro i2 a1 a2
        by_cases he : i2 = i
        · rw [he]; exact hm
        · exact h2 i2 (by omega) (by push_cast at a2 ⊢; omega)
      · right
        refine ⟨i0, by omega, by push_cast at h2 ⊢; omega, h3, h4, ?_⟩
        intro i2 a1 a2
        by_cases he : i2 = i
        · rw [he]; exact hm
        · exact h5 i2 (by omega) a2

/-- C33, as the code behaves: for a ring of positive length and a previous index that
is not negative, FindNextNonblockedInRing returns the first ring index, scanning
forward cyclically from prevSearchIndex+1 over the whole ring, whose cell holds a
movable handle (a value that is neither 0 nor AREA_BLOCKED: free cells are passed
over like blocked ones), and it returns -1 if and only if no cell of the ring holds
a movable handle. -/
theorem next_nonblocked_finds_next_movable (area : Area)
    (width height R0x R0y R0Width R0Height R prevSearchIndex : Int)
    (hlen : 0 < RingLength R0Width R0Height R) (hprev : 0 ≤ prevSearchIndex) :
    (FindNextNonblockedInRing area width height R0x R0y R0Width R0Height R prevSearchIndex = -1 ↔
      ∀ k, 0 ≤ k → k < RingLength R0Width R0Height R →
        ¬ (area ((RingIndexToXY R0x R0y R0Width R0Height R k).2 * width +
              (RingIndexToXY R0x R0y R0Width R0Height R k).1) ≠ 0 ∧
          area ((RingIndexToXY R0x R0y R0Width R0Height R k).2 * width +
              (RingIndexToXY R0x R0y R0Width R0Height R k).1) ≠ AREA_BLOCKED)) ∧
    (FindNextNonblockedInRing area width height R0x R0y R0Width R0Height R prevSearchIndex ≠ -1 →
      ∃ i, 0 ≤ i ∧ i < RingLength R0Width R0Height R ∧
        FindNextNonblockedInRing area width height R0x R0y R0Width R0Height R prevSearchIndex
          = (prevSearchIndex + 1 + i) % RingLength R0Width R0Height R ∧
        (area ((RingIndexToXY R0x R0y R0Width R0Height R
              ((prevSearchIndex + 1 + i) % RingLength R0Width R0Height R)).2 * width +
            (RingIndexToXY R0x R0y R0Width R0Height R
              ((prevSearchIndex + 1 + i) % RingLength R0Width R0Height R)).1) ≠ 0 ∧
          area ((RingIndexToXY R0x R0y R0Width R0Height R
              ((prevSearchIndex + 1 + i) % RingLength R0Width R0Height R)).2 * width +
            (RingIndexToXY R0x R0y R0Width R0Height R
              ((prevSearchIndex + 1 + i) % RingLength R0Width R0Height R)).1) ≠ AREA_BLOCKED) ∧
        ∀ i2, 0 ≤ i2 → i2 < i →
          ¬ (area ((RingIndexToXY R0x R0y R0Width R0Height R
                ((prevSearchIndex + 1 + i2) % RingLength R0Width R0Height R)).2 * width +
              (RingIndexToXY R0x R0y R0Width R0Height R
                ((prevSearchIndex + 1 + i2) % RingLength R0Width R0Height R)).1) ≠ 0 ∧
            area ((RingIndexToXY R0x R0y R0Width R0Height R
                ((prevSearchIndex + 1 + i2) % RingLength R0Width R0Height R)).2 * width +
              (RingIndexToXY R0x R0y R0Width R0Height R
                ((prevSearchIndex + 1 + i2) % RingLength R0Width R0Height R)).1)
              ≠ AREA_BLOCKED)) := by
  have hcm : ∀ i, 0 ≤ i → cmod (prevSearchIndex + 1 + i) (RingLength R0Width R0Height R)
      = (prevSearchIndex + 1 + i) % RingLength R0Width R0Height R :=
    fun i hi => cmod_of_nonneg (by omega) (by omega)
  have hloop := FindNextNonblockedLoop_first area width R0x R0y R0Width R0Height R
    prevSearchIndex (RingLength R0Width R0Height R) hlen hprev
    (RingLength R0Width R0Height R).toNat 0 (le_refl _)
  have hn : (0 : Int) + ((RingLength R0Width R0Height R).toNat : Int)
      = RingLength R0Width R0Height R := by
    rw [Int.toNat_of_nonneg (by omega)]; ring
  rw [hn] at hloop
  unfold FindNextNonblockedInRing
  dsimp only
  rcases hloop with ⟨h1, h2⟩ | ⟨i0, h1, h2, h3, h4, h5⟩
  · rw [h1]
    refine ⟨⟨fun _ => ?_, fun _ => rfl⟩, fun h => absurd rfl h⟩
    intro k hk0 hk1
    obtain ⟨j, hj0, hj1, hj⟩ := scan_covers (prevSearchIndex + 1)
      (RingLength R0Width R0Height R) k (by omega) hk0 hk1
    have := h2 j hj0 hj1
    rw [hj] at this
    exact this
  · have hr := cmod_range (prevSearchIndex + 1 + i0) (RingLength R0Width R0Height R)
      (by omega) hlen
    rw [h3]
    refine ⟨⟨fun h => ?_, fun h => ?_⟩, fun _ => ?_⟩
    · omega
    · exact absurd h4 (h _ hr.1 hr.2)
    · refine ⟨i0, h1, h2, hcm i0 h1, ?_, ?_⟩
      · rw [← hcm i0 h1]; exact h4
      · intro i2 a1 a2
        rw [← hcm i2 a1]
        exact h5 i2 a1 a2

/-- Witness for C33 as amended: ring 1 around the 1 x 1 centre of the 5 x 5 buffer
whose only handle sits at position 0 of the ring, scanned from position 1 on. -/
theorem next_nonblocked_finds_next_movable_witness :
    (0 : Int) < RingLength 1 1 1 ∧ (0 : Int) ≤ 0 ∧
    FindNextNonblockedInRing outlineHandleArea 5 5 2 2 1 1 1 0 = 0 ∧
    (FindNextNonblockedInRing outlineHandleArea 5 5 2 2 1 1 1 0 = -1 ↔
      ∀ k, 0 ≤ k → k < RingLength 1 1 1 →
        ¬ (outlineHandleArea ((RingIndexToXY 2 2 1 1 1 k).2 * 5 +
              (RingIndexToXY 2 2 1 1 1 k).1) ≠ 0 ∧
          outlineHandleArea ((RingIndexToXY 2 2 1 1 1 k).2 * 5 +
              (RingIndexToXY 2 2 1 1 1 k).1) ≠ AREA_BLOCKED)) :=
  ⟨by decide, by decide, by decide,
    (next_nonblocked_finds_next_movable outlineHandleArea 5 5 2 2 1 1 1 0 (by decide)
      (by decide)).1⟩

/-- C38: an accepted call for the 4 x 2 footprint at `(10, 10)` in
`wideFootprintWorld`, with the random source that always draws 9.  The scan area
is 8 x 6 and the outline ring is ring 1 with 16 cells.  The unit in the footprint
cannot be pushed (the cells above it are not accessible), so PushRings returns 1
and FillOutline runs with a count of 1 and the random start 9: at its first loop
head the outline cell at position 9, the cell `(5, 4)` below the footprint, holds
0, so FindNearestUnit is called for it with the footprint `(2, 2)`, 4 wide and 2
high, as search rectangle, and the body fills the cell with the unit.  The cell is
outside the footprint, but the assertion as written compares its row with
`searchY + searchWidth = 6` and fails.  The call itself completes. -/
theorem nearest_unit_assertion_fails_below_wide_footprint :
    (badArguments wideFootprintWorld 10 10 4 2 1 1 = false ∧
      geometry 10 10 4 2 = Geometry.mk 8 8 8 6 3 4 2 2 2 1) ∧
    (CreateAreaSchematic (fun _ => 0) wideFootprintWorld 1 8 8 8 6 1 1 10 10 4 2).map Prod.fst
      = some 1 ∧
    ((PushRings 5 wideSchematic (fun _ => 9) 8 6 2 2 4 2 1).map Prod.fst = some 1 ∧
      widePushed.1 = 1) ∧
    (RingLength 4 2 1 = 16 ∧ RandSource.random widePushed.2.2 (RingLength 4 2 1) = 9 ∧
      RingIndexToXY 2 2 4 2 1 (cmod (RandSource.random widePushed.2.2 (RingLength 4 2 1) + 0)
        (RingLength 4 2 1)) = (5, 4)) ∧
    widePushed.2.1 (4 * 8 + 5) = 0 ∧
    (FillOutlineCell 8 6 2 2 4 2 1 (2 - (1 - 1)) (2 - (1 - 1)) (4 + 2 * (1 - 1))
        (2 + 2 * (1 - 1)) (RingLength 4 2 1) (RandSource.random widePushed.2.2 (RingLength 4 2 1))
        0 { area := widePushed.2.1, rnd := RandSource.next widePushed.2.2,
            occupationCount := widePushed.1 }).area (4 * 8 + 5) = 2 ∧
    ¬ (2 - (1 - 1) ≤ (5 : Int) ∧ (5 : Int) < 2 - (1 - 1) + (4 + 2 * (1 - 1)) ∧
      2 - (1 - 1) ≤ (4 : Int) ∧ (4 : Int) < 2 - (1 - 1) + (2 + 2 * (1 - 1))) ∧
    FindNearestUnitAssert 5 4 (2 - (1 - 1)) (2 - (1 - 1)) (4 + 2 * (1 - 1)) (2 + 2 * (1 - 1))
      = false ∧
    (VacateIdleOfNation roomyArea wideFootprintWorld none (fun _ => 9) 5 10 10 4 2 1 1).toOption.map
        Outcome.exit = some (Exit.completed 0) := by
  refine ⟨by decide, by decide, by decide, by decide, by decide, by decide, by decide, by decide,
    by decide⟩

/-! ### The schematic is rebuilt from scratch -/

/-- C34: for the same map, unit registry and arguments, and a scan region of
width >= 0, CreateAreaSchematic started on two buffers either fails on both or
returns on both, with the same count and the same value in each of the first
`width * height` cells: every cell of the scan region is overwritten with a value
that does not depend on the buffer. -/
theorem schematic_forgets_prior_buffer (w : World)
    (mobileType xLoc yLoc width height nation_recno builder_recno
      buildX buildY buildWidth buildHeight : Int) (a a2 : Area) (hw : 0 ≤ width) :
    (CreateAreaSchematic a w mobileType xLoc yLoc width height nation_recno builder_recno
        buildX buildY buildWidth buildHeight).map Prod.fst =
      (CreateAreaSchematic a2 w mobileType xLoc yLoc width height nation_recno builder_recno
        buildX buildY buildWidth buildHeight).map Prod.fst ∧
    ∀ r r2,
      CreateAreaSchematic a w mobileType xLoc yLoc width height nation_recno builder_recno
        buildX buildY buildWidth buildHeight = some r →
      CreateAreaSchematic a2 w mobileType xLoc yLoc width height nation_recno builder_recno
        buildX buildY buildWidth buildHeight = some r2 →
      r.1 = r2.1 ∧ ∀ k, 0 ≤ k → k < width * height → r.2 k = r2.2 k := by
  have hcount := CreateAreaSchematic_count a a2 w mobileType xLoc yLoc width height nation_recno
    builder_recno buildX buildY buildWidth buildHeight
  refine ⟨hcount, fun r r2 hr hr2 => ?_⟩
  rw [hr, hr2] at hcount
  simp only [Option.map_some', Option.some.injEq] at hcount
  refine ⟨hcount, fun k hk0 hk1 => ?_⟩
  have hwpos : 0 < width := by
    by_contra hneg
    have h0 : width = 0 := by omega
    rw [h0, zero_mul] at hk1
    omega
  have hx0 := Int.emod_nonneg k (by omega : width ≠ 0)
  have hx1 := Int.emod_lt_of_pos k hwpos
  have hy0 : 0 ≤ k / width := Int.ediv_nonneg hk0 (by omega)
  have hy1 : k / width < height := by
    apply Int.ediv_lt_of_lt_mul hwpos
    rw [mul_comm]; exact hk1
  have e : k = k / width * width + k % width := by
    rw [mul_comm]
    exact (Int.ediv_add_emod k width).symm
  have s1 := ((CreateAreaSchematic_spec w mobileType xLoc yLoc width height nation_recno
    builder_recno buildX buildY buildWidth buildHeight a).2 r hr).1 (k / width) (k % width)
    hy0 hy1 hx0 hx1
  have s2 := ((CreateAreaSchematic_spec w mobileType xLoc yLoc width height nation_recno
    builder_recno buildX buildY buildWidth buildHeight a2).2 r2 hr2).1 (k / width) (k % width)
    hy0 hy1 hx0 hx1
  rw [e, s1.2, s2.2]

/-- Witness for C34: the schematic of the 1 x 1 footprint `(10, 10)` in
`loneUnitWorld`, built over the packed buffer and over the buffer that holds 0. -/
theorem schematic_forgets_prior_buffer_witness :
    (0 : Int) ≤ 5 ∧
    (CreateAreaSchematic packedArea loneUnitWorld 1 8 8 5 5 1 1 10 10 1 1).map Prod.fst =
      (CreateAreaSchematic (fun _ => 0) loneUnitWorld 1 8 8 5 5 1 1 10 10 1 1).map Prod.fst :=
  ⟨by decide,
    (schematic_forgets_prior_buffer loneUnitWorld 1 8 8 5 5 1 1 10 10 1 1 packedArea (fun _ => 0)
      (by decide)).1⟩

/-! ### Every call of RingIndexToXY is in order -/

/-- A call for a valid position of one of the rings is in order. -/
theorem ringCallOk_of {width height R0x R0y R0Width R0Height ringCount : Int}
    (v : ValidRings width height R0x R0y R0Width R0Height ringCount)
    (R Index : Int) (hR : 0 ≤ R) (hR1 : R < ringCount) (hI0 : 0 ≤ Index)
    (hI1 : Index < RingLength R0Width R0Height R) :
    ringCallOk width height R0x R0y R0Width R0Height ringCount R Index = true := by
  unfold ringCallOk RingIndexToXYAssert
  simp only [Bool.and_eq_true, decide_eq_true_eq]
  exact ⟨⟨⟨hI0, hI1⟩, by omega⟩, ring_in_area v R Index hR hR1 hI0⟩

/-- A check that holds in every state kept by an invariant of the body holds at every
iteration of the loop. -/
theorem forLoopAll_of {σ : Type} (P : σ → Prop) (ok : Int → σ → Bool) (body : Int → σ → σ) :
    ∀ (n : Nat) (lo : Int) (s : σ),
      (∀ i s, lo ≤ i → i < lo + n → P s → ok i s = true ∧ P (body i s)) →
      P s → forLoopAll ok body n lo s = true := by
  intro n
  induction n with
  | zero => intro lo s _ _; rfl
  | succ n ih =>
    intro lo s hstep h0
    unfold forLoopAll
    have h1 := hstep lo s (le_refl _) (by push_cast; omega) h0
    rw [Bool.and_eq_true]
    refine ⟨h1.1, ih (lo + 1) (body lo s) ?_ h1.2⟩
    intro i t hi0 hi1 ht
    exact hstep i t (by omega) (by push_cast; omega) ht

/-- A check that holds at every index from `lo` on holds at every iteration of the
guarded loop. -/
theorem forLoopWhileAll_of {σ : Type} (guard : σ → Bool) (ok : Int → σ → Bool)
    (body : Int → σ → σ) :
    ∀ (n : Nat) (lo : Int) (s : σ),
      (∀ i s, lo ≤ i → i < lo + n → ok i s = true) →
      forLoopWhileAll guard ok body n lo s = true := by
  intro n
  induction n with
  | zero => intro lo s _; rfl
  | succ n ih =>
    intro lo s hstep
    unfold forLoopWhileAll
    split_ifs
    · rw [Bool.and_eq_true]
      refine ⟨hstep lo s (le_refl _) (by push_cast; omega), ih (lo + 1) (body lo s) ?_⟩
      intro i t hi0 hi1
      exact hstep i t (by omega) (by push_cast; omega)
    · rfl

/-- The probes of `SearchFreeSpotAtIndex` are in order as long as the loop counter
stays below twice the ring length. -/
theorem SearchFreeSpotLoopOk_of {width height R0x R0y R0Width R0Height ringCount : Int}
    (v : ValidRings width height R0x R0y R0Width R0Height ringCount) (area : Area)
    (R Index : Int) (hR : 0 ≤ R) (hR1 : R < ringCount) (hI : 0 ≤ Index) :
    ∀ (n : Nat) (i direction : Int), (direction = 1 ∨ direction = -1) → 0 ≤ i →
      i + n ≤ 2 * RingLength R0Width R0Height R →
      SearchFreeSpotLoopOk area width height R0x R0y R0Width R0Height ringCount R Index
        (RingLength R0Width R0Height R) n i direction = true := by
  have hlen := (RingLength_pos R0Width R0Height R v.hW v.hH hR).1
  intro n
  induction n with
  | zero => intro i direction _ _ _; rfl
  | succ n ih =>
    intro i direction hdir hi0 hin
    unfold SearchFreeSpotLoopOk
    dsimp only
    have hp := probe_in_ring (RingLength R0Width R0Height R) Index i direction
      (RingLength R0Width R0Height R) (by omega) hI hdir hi0 (by push_cast at hin; omega)
      (le_refl _)
    have hs : 0 ≤ RingLength R0Width R0Height R + Index + direction * (cdiv i 2 + cmod i 2) := by
      rw [cdiv_of_nonneg hi0 (by omega), cmod_of_nonneg hi0 (by omega)]
      push_cast at hin
      rcases hdir with h | h <;> subst h <;> omega
    rw [Bool.and_eq_true, Bool.and_eq_true]
    refine ⟨⟨by simpa using hs, ringCallOk_of v R _ hR hR1 hp.1 hp.2⟩, ?_⟩
    split_ifs
    · rfl
    · exact ih (i + 1) (-direction) (by omega) (by omega) (by push_cast at hin ⊢; omega)

/-- The probes of `SearchFreeSpotAtIndex` are in order when the search distance is at
most the ring length and the start index is not negative. -/
theorem SearchFreeSpotAtIndexOk_of {width height R0x R0y R0Width R0Height ringCount : Int}
    (v : ValidRings width height R0x R0y R0Width R0Height ringCount) (area : Area)
    (maxSearchDistance R Index : Int) (hR : 0 ≤ R) (hR1 : R < ringCount) (hI : 0 ≤ Index)
    (hD : maxSearchDistance ≤ RingLength R0Width R0Height R) :
    SearchFreeSpotAtIndexOk area maxSearchDistance width height R0x R0y R0Width R0Height
      ringCount R Index = true := by
  have hlen := (RingLength_pos R0Width R0Height R v.hW v.hH hR).1
  unfold SearchFreeSpotAtIndexOk
  exact SearchFreeSpotLoopOk_of v area R Index hR hR1 hI _ 0 1 (Or.inl rfl) (le_refl _)
    (by omega)

/-- The searches of `FindPushedSpot` for a valid position of a ring below the last
one are in order. -/
theorem FindPushedSpotOk_of {width height R0x R0y R0Width R0Height ringCount : Int}
    (v : ValidRings width height R0x R0y R0Width R0Height ringCount) (area : Area)
    (rnd : RandSource) (maxSearchDistance R Index : Int) (hR : 0 ≤ R)
    (hR1 : R + 1 < ringCount) (hI0 : 0 ≤ Index) (hI1 : Index < RingLength R0Width R0Height R)
    (hmsd : 1 ≤ maxSearchDistance) (hmsd2 : maxSearchDistance ≤ 6) :
    FindPushedSpotOk area rnd maxSearchDistance width height R0x R0y R0Width R0Height
      ringCount R Index = true := by
  have hW := v.hW
  have hH := v.hH
  have hn8 := (RingLength_pos R0Width R0Height R hW hH hR).2
  have h : ∀ d idx, 0 ≤ idx → d ≤ 8 →
      SearchFreeSpotAtIndexOk area d width height R0x R0y R0Width R0Height ringCount (R + 1)
        idx = true := by
    intro d idx hidx hd
    exact SearchFreeSpotAtIndexOk_of v area d (R + 1) idx (by omega) hR1 hidx (by omega)
  unfold FindPushedSpotOk
  dsimp only
  by_cases hdeg : R = 0 ∧ (R0Width = 1 ∨ R0Height = 1)
  · rw [if_pos hdeg]
    obtain ⟨hR0, hstrip⟩ := hdeg
    subst hR0
    by_cases hpt : R0Width = 1 ∧ R0Height = 1
    · rw [if_pos hpt]
      obtain ⟨h1, h2⟩ := hpt
      subst h1 h2
      have hr := random_range rnd (RingLength 1 1 (0 + 1)) (by omega)
      have hd : cdiv (RingLength 1 1 (0 + 1) - 1) 2 +
          boolToInt (decide (cmod (RingLength 1 1 (0 + 1) - 1) 2 = 1)) = 4 := by decide
      rw [hd]
      exact h 4 _ hr.1 (by omega)
    · rw [if_neg hpt]
      have hlen0 : RingLength R0Width R0Height 0 = max R0Width R0Height := by
        unfold RingLength
        rw [if_neg (by omega)]
      have hlen1 : RingLength R0Width R0Height (0 + 1) = 2 * R0Width + 2 * R0Height + 4 := by
        unfold RingLength
        rw [if_pos (by omega)]
        ring
      rw [hlen0] at hI1
      by_cases hend : Index = 0 ∨ Index = RingLength R0Width R0Height 0 - 1
      · rw [if_pos hend]
        apply h
        · split_ifs <;> omega
        · omega
      · rw [if_neg hend]
        rw [hlen0] at hend
        have hr := random_range rnd 2 (by omega)
        rw [Bool.and_eq_true]
        constructor
        · apply h
          · split_ifs <;> omega
          · omega
        · split_ifs
          all_goals first
            | rfl
            | (apply h
               all_goals omega)
  · rw [if_neg hdeg]
    apply h
    · unfold boolToInt; split_ifs <;> simp only [decide_eq_true_eq] at * <;> omega
    · unfold boolToInt; split_ifs <;> omega

/-- The probes of `FindNextNonblockedInRing` are in order when the previous index is
not negative. -/
theorem FindNextNonblockedInRingOk_of {width height R0x R0y R0Width R0Height ringCount : Int}
    (v : ValidRings width height R0x R0y R0Width R0Height ringCount) (area : Area)
    (R prevSearchIndex : Int) (hR : 0 ≤ R) (hR1 : R < ringCount) (hprev : 0 ≤ prevSearchIndex) :
    FindNextNonblockedInRingOk area width height R0x R0y R0Width R0Height ringCount R
      prevSearchIndex = true := by
  have hlen := (RingLength_pos R0Width R0Height R v.hW v.hH hR).1
  unfold FindNextNonblockedInRingOk
  dsimp only
  have key : ∀ (n : Nat) (i : Int), 0 ≤ i →
      FindNextNonblockedLoopOk area width height R0x R0y R0Width R0Height ringCount R
        prevSearchIndex (RingLength R0Width R0Height R) n i = true := by
    intro n
    induction n with
    | zero => intro i _; rfl
    | succ n ih =>
      intro i hi
      unfold FindNextNonblockedLoopOk
      dsimp only
      have hc := cmod_range (prevSearchIndex + 1 + i) (RingLength R0Width R0Height R)
        (by omega) (by omega)
      rw [Bool.and_eq_true]
      refine ⟨ringCallOk_of v R _ hR hR1 hc.1 hc.2, ?_⟩
      split_ifs
      · rfl
      · exact ih (i + 1) (by omega)
  exact key _ 0 (le_refl _)

/-- The calls of one iteration of the inner loop of `PushRings` are in order, for a
ring inside the outline ring. -/
theorem PushRingsCellOk_of {width height R0x R0y R0Width R0Height ringCount : Int}
    (v : ValidRings width height R0x R0y R0Width R0Height ringCount)
    (R startIndex i : Int) (hR : 0 ≤ R) (hR1 : R + 1 < ringCount) (hs : 0 ≤ startIndex)
    (hi : 0 ≤ i) (s : PushState) :
    PushRingsCellOk 3 width height R0x R0y R0Width R0Height ringCount R
      (RingLength R0Width R0Height R) startIndex i s = true := by
  have hlen := (RingLength_pos R0Width R0Height R v.hW v.hH hR).1
  have hc := cmod_range (startIndex + i) (RingLength R0Width R0Height R) (by omega) (by omega)
  unfold PushRingsCellOk
  dsimp only
  rw [Bool.and_eq_true]
  refine ⟨ringCallOk_of v R _ hR (by omega) hc.1 hc.2, ?_⟩
  split_ifs with hflag hfound
  · rw [Bool.and_eq_true]
    refine ⟨FindPushedSpotOk_of v s.area s.rnd 3 R _ hR hR1 hc.1 hc.2 (by omega) (by omega), ?_⟩
    rcases FindPushedSpot_spec s.area s.rnd 3 width height R0x R0y R0Width R0Height R _
      v.hW v.hH hR hc.1 hc.2 (by omega) (by omega) with hnone | ⟨h0, h1, _⟩
    · exact absurd hnone hfound
    · exact ringCallOk_of v (R + 1) _ (by omega) hR1 h0 h1
  · rw [Bool.and_eq_true]
    exact ⟨FindPushedSpotOk_of v s.area s.rnd 3 R _ hR hR1 hc.1 hc.2 (by omega) (by omega), rfl⟩
  · rfl

/-- The calls made while `PushRings` scans a ring inside the outline ring are in
order. -/
theorem PushRingsRingOk_of {width height R0x R0y R0Width R0Height ringCount : Int}
    (v : ValidRings width height R0x R0y R0Width R0Height ringCount)
    (R : Int) (hR : 0 ≤ R) (hR1 : R + 1 < ringCount) (s : PushState) :
    PushRingsRingOk 3 width height R0x R0y R0Width R0Height ringCount R s = true := by
  have hlen := (RingLength_pos R0Width R0Height R v.hW v.hH hR).1
  unfold PushRingsRingOk
  dsimp only
  apply forLoopAll_of (fun _ => True)
  · intro i t hi0 _ _
    exact ⟨PushRingsCellOk_of v R _ i hR hR1
      (random_range s.rnd (RingLength R0Width R0Height R) (by omega)).1 hi0 t, trivial⟩
  · trivial

/-- The calls of one cycle of `PushRings` are in order. -/
theorem PushRingsCycleOk_of {width height R0x R0y R0Width R0Height ringCount : Int}
    (v : ValidRings width height R0x R0y R0Width R0Height ringCount)
    (outlineRing emptyRing : Int) (ho : outlineRing < ringCount) (he : -1 ≤ emptyRing)
    (area : Area) (rnd : RandSource) :
    PushRingsCycleOk area rnd 3 width height R0x R0y R0Width R0Height ringCount outlineRing
      emptyRing = true := by
  unfold PushRingsCycleOk
  apply forLoopAll_of (fun _ => True)
  · intro R t hR0 hR1 _
    exact ⟨PushRingsRingOk_of v R (by omega) (by omega) t, trivial⟩
  · trivial

/-- The calls of all the cycles of `PushRings` are in order. -/
theorem PushRingsLoopOk_of {width height R0x R0y R0Width R0Height ringCount : Int}
    (v : ValidRings width height R0x R0y R0Width R0Height ringCount)
    (outlineRing : Int) (ho : outlineRing < ringCount) :
    ∀ (fuel : Nat) (area : Area) (rnd : RandSource) (emptyRing : Int), -1 ≤ emptyRing →
      PushRingsLoopOk 3 width height R0x R0y R0Width R0Height ringCount outlineRing fuel area
        rnd emptyRing = true := by
  intro fuel
  induction fuel with
  | zero => intro area rnd emptyRing _; rfl
  | succ n ih =>
    intro area rnd emptyRing he
    unfold PushRingsLoopOk
    dsimp only
    rw [Bool.and_eq_true]
    refine ⟨PushRingsCycleOk_of v outlineRing emptyRing ho he area rnd, ?_⟩
    split_ifs
    · exact ih _ _ _ (PushRingsCycle_emptyRing width height R0x R0y R0Width R0Height
        outlineRing emptyRing he area rnd)
    · rfl

/-- The calls of `FillOutline` are in order. -/
theorem FillOutlineOk_of {width height R0x R0y R0Width R0Height ringCount : Int}
    (v : ValidRings width height R0x R0y R0Width R0Height ringCount)
    (outlineRing : Int) (ho0 : 0 ≤ outlineRing) (ho : outlineRing < ringCount)
    (area : Area) (rnd : RandSource) (occupationCount : Int) :
    FillOutlineOk area rnd occupationCount width height R0x R0y R0Width R0Height ringCount
      outlineRing = true := by
  have hlen := (RingLength_pos R0Width R0Height outlineRing v.hW v.hH ho0).1
  have hr := random_range rnd (RingLength R0Width R0Height outlineRing) (by omega)
  unfold FillOutlineOk
  dsimp only
  apply forLoopWhileAll_of
  intro i s hi0 _
  unfold FillOutlineCellOk
  dsimp only
  have hc := cmod_range (rnd.random (RingLength R0Width R0Height outlineRing) + i)
    (RingLength R0Width R0Height outlineRing) (by omega) (by omega)
  exact ringCallOk_of v outlineRing _ ho0 ho hc.1 hc.2

/-- The calls of the loop of `PushQueues` are in order. -/
theorem PushQueuesLoopOk_of {width height R0x R0y R0Width R0Height ringCount : Int}
    (v : ValidRings width height R0x R0y R0Width R0Height ringCount)
    (outlineRing : Int) (ho0 : 0 ≤ outlineRing) (ho : outlineRing + 1 < ringCount)
    (buildX buildY buildWidth buildHeight startIndex : Int) (hs : 0 ≤ startIndex) :
    ∀ (fuel : Nat) (i : Int) (s : FillState), 0 ≤ i →
      PushQueuesLoopOk width height R0x R0y R0Width R0Height ringCount outlineRing
        buildX buildY buildWidth buildHeight (RingLength R0Width R0Height outlineRing)
        startIndex fuel i s = true := by
  have hlen := (RingLength_pos R0Width R0Height outlineRing v.hW v.hH ho0).1
  intro fuel
  induction fuel with
  | zero =>
    intro i s _
    unfold PushQueuesLoopOk
    split_ifs <;> rfl
  | succ n ih =>
    intro i s hi
    have hc := cmod_range (startIndex + i) (RingLength R0Width R0Height outlineRing)
      (by omega) (by omega)
    have hpush := FindPushedSpotOk_of v s.area s.rnd 1 outlineRing
      (cmod (startIndex + i) (RingLength R0Width R0Height outlineRing)) ho0 ho hc.1 hc.2
      (by omega) (by omega)
    unfold PushQueuesLoopOk
    dsimp only
    split_ifs with hguard hflag hfound hunit
    · rw [Bool.and_eq_true, Bool.and_eq_true, Bool.and_eq_true]
      refine ⟨ringCallOk_of v outlineRing _ ho0 (by omega) hc.1 hc.2, hpush, ?_,
        ih _ _ (by omega)⟩
      rcases FindPushedSpot_spec s.area s.rnd 1 width height R0x R0y R0Width R0Height
        outlineRing _ v.hW v.hH ho0 hc.1 hc.2 (by omega) (by omega) with hnone | ⟨h0, h1, _⟩
      · exact absurd hnone hfound
      · exact ringCallOk_of v (outlineRing + 1) _ (by omega) ho h0 h1
    · rw [Bool.and_eq_true, Bool.and_eq_true, Bool.and_eq_true]
      refine ⟨ringCallOk_of v outlineRing _ ho0 (by omega) hc.1 hc.2, hpush, ?_,
        ih _ _ (by omega)⟩
      rcases FindPushedSpot_spec s.area s.rnd 1 width height R0x R0y R0Width R0Height
        outlineRing _ v.hW v.hH ho0 hc.1 hc.2 (by omega) (by omega) with hnone | ⟨h0, h1, _⟩
      · exact absurd hnone hfound
      · exact ringCallOk_of v (outlineRing + 1) _ (by omega) ho h0 h1
    · rw [Bool.and_eq_true, Bool.and_eq_true]
      exact ⟨ringCallOk_of v outlineRing _ ho0 (by omega) hc.1 hc.2, hpush, ih _ _ (by omega)⟩
    · rw [Bool.and_eq_true]
      exact ⟨ringCallOk_of v outlineRing _ ho0 (by omega) hc.1 hc.2, ih _ _ (by omega)⟩
    · rfl

/-- The calls of one iteration of the inner loop of `MoveAccordingToSchematic` are in
order when the desperation cursor is -1 or a valid position of the outline ring. -/
theorem MoveAccordingToSchematicCellOk_of {width height R0x R0y R0Width R0Height
    ringCount : Int} (v : ValidRings width height R0x R0y R0Width R0Height ringCount)
    (area : Area) (w : World) (xLoc yLoc buildX buildY buildWith buildHeight outlineRing : Int)
    (ho0 : 0 ≤ outlineRing) (ho : outlineRing < ringCount) (j i : Int) (s : MoveState)
    (hs : s.desperationMoveIndex = -1 ∨
      (0 ≤ s.desperationMoveIndex ∧
        s.desperationMoveIndex < RingLength R0Width R0Height outlineRing)) :
    MoveAccordingToSchematicCellOk area w width height xLoc yLoc buildX buildY buildWith
      buildHeight R0x R0y R0Width R0Height ringCount outlineRing
      (RingLength R0Width R0Height outlineRing) j i s = true := by
  have hlen := (RingLength_pos R0Width R0Height outlineRing v.hW v.hH ho0).1
  have hr := random_range s.rnd (RingLength R0Width R0Height outlineRing) (by omega)
  unfold MoveAccordingToSchematicCellOk
  dsimp only
  by_cases hflag : area (j * width + i) ≠ 0 ∧ area (j * width + i) ≠ AREA_BLOCKED
  · rw [if_pos hflag]
    cases hu : w.unit_array (flagToInt (area (j * width + i))) with
    | none => rfl
    | some unit =>
      dsimp only
      by_cases hin : xLoc + i ≥ buildX ∧ xLoc + i < buildX + buildWith ∧ yLoc + j ≥ buildY ∧
          yLoc + j < buildY + buildHeight
      · rw [if_pos hin, Bool.and_eq_true]
        by_cases hd : s.desperationMoveIndex ≠ -1
        · have hd0 : 0 ≤ s.desperationMoveIndex := by omega
          rw [if_pos hd, if_pos hd]
          refine ⟨FindNextNonblockedInRingOk_of v area outlineRing _ ho0 ho hd0, ?_⟩
          rcases FindNextNonblockedInRing_range area width height R0x R0y R0Width R0Height
            outlineRing s.desperationMoveIndex (by omega) hd0 with hnone | ⟨h0, h1⟩
          · rw [hnone]
            exact ringCallOk_of v outlineRing _ ho0 ho hr.1 hr.2
          · rw [if_pos (by omega)]
            exact ringCallOk_of v outlineRing _ ho0 ho h0 h1
        · rw [if_neg hd, if_neg hd, if_neg hd]
          exact ⟨rfl, ringCallOk_of v outlineRing _ ho0 ho hr.1 hr.2⟩
      · rw [if_neg hin]
  · rw [if_neg hflag]

/-- The calls of `MoveAccordingToSchematic` are in order. -/
theorem MoveAccordingToSchematicOk_of {width height R0x R0y R0Width R0Height ringCount : Int}
    (v : ValidRings width height R0x R0y R0Width R0Height ringCount)
    (area : Area) (w : World) (rnd : RandSource)
    (xLoc yLoc buildX buildY buildWith buildHeight outlineRing : Int)
    (ho0 : 0 ≤ outlineRing) (ho : outlineRing < ringCount) :
    MoveAccordingToSchematicOk area w rnd width height xLoc yLoc buildX buildY buildWith
      buildHeight R0x R0y R0Width R0Height ringCount outlineRing = true := by
  have hlen := (RingLength_pos R0Width R0Height outlineRing v.hW v.hH ho0).1
  have hr := random_range rnd (RingLength R0Width R0Height outlineRing) (by omega)
  unfold MoveAccordingToSchematicOk
  dsimp only
  apply forLoopAll_of (fun s : MoveState => s.desperationMoveIndex = -1 ∨
    (0 ≤ s.desperationMoveIndex ∧
      s.desperationMoveIndex < RingLength R0Width R0Height outlineRing))
  · intro j s _ _ hs
    constructor
    · apply forLoopAll_of (fun s : MoveState => s.desperationMoveIndex = -1 ∨
        (0 ≤ s.desperationMoveIndex ∧
          s.desperationMoveIndex < RingLength R0Width R0Height outlineRing))
      · intro i t _ _ ht
        exact ⟨MoveAccordingToSchematicCellOk_of v area w xLoc yLoc buildX buildY buildWith
            buildHeight outlineRing ho0 ho j i t ht,
          (MoveAccordingToSchematicCell_keeps area w width height xLoc yLoc buildX buildY
            buildWith buildHeight R0x R0y R0Width R0Height outlineRing (by omega) j i t ht).1⟩
      · exact hs
    · apply forLoop_inv' (fun s : MoveState => s.desperationMoveIndex = -1 ∨
        (0 ≤ s.desperationMoveIndex ∧
          s.desperationMoveIndex < RingLength R0Width R0Height outlineRing))
      · intro i t _ _ ht
        exact (MoveAccordingToSchematicCell_keeps area w width height xLoc yLoc buildX buildY
          buildWith buildHeight R0x R0y R0Width R0Height outlineRing (by omega) j i t ht).1
      · exact hs
  · exact Or.inr hr


/-- C35: for every accepted footprint (buildWidth >= 1 and buildHeight >= 1), its
geometry, and every buffer, random source, count, fuel and world, all calls of
`RingIndexToXY` made by `PushRings`, `FillOutline`, `PushQueues` and
`MoveAccordingToSchematic`, and by `FindPushedSpot`, `SearchFreeSpotAtIndex` and
`FindNextNonblockedInRing` on their behalf, are in order: the index passed satisfies
`0 <= Index < RingLength(R)` (the entry assertion of `RingIndexToXY`), `R` is at most
`ringCount - 1`, the cell obtained has `0 <= x < width` and `0 <= y < height`, and
the operand of the modulus in `SearchFreeSpotAtIndex` is not negative.  The last three
parts state the same for the three helpers called on their own with the arguments
the stages give them: a valid position of a ring below the last one and a search
distance of 1 to 6 for `FindPushedSpot`, a start index that is not negative and a
search distance of at most the ring length for `SearchFreeSpotAtIndex`, a previous
index that is not negative for `FindNextNonblockedInRing`. -/
theorem ring_calls_are_in_order (buildxLoc buildyLoc buildWidth buildHeight : Int)
    (hw : 1 ≤ buildWidth) (hh : 1 ≤ buildHeight) (w : World) (area : Area) (rnd : RandSource)
    (fuel : Nat) (occupationCount : Int) :
    PushRingsOk fuel area rnd (geometry buildxLoc buildyLoc buildWidth buildHeight).width (geometry buildxLoc buildyLoc buildWidth buildHeight).height
        (geometry buildxLoc buildyLoc buildWidth buildHeight).R0x (geometry buildxLoc buildyLoc buildWidth buildHeight).R0y (geometry buildxLoc buildyLoc buildWidth buildHeight).R0Width
        (geometry buildxLoc buildyLoc buildWidth buildHeight).R0Height (geometry buildxLoc buildyLoc buildWidth buildHeight).ringCount
        (geometry buildxLoc buildyLoc buildWidth buildHeight).outlineRing = true ∧
    FillOutlineOk area rnd occupationCount (geometry buildxLoc buildyLoc buildWidth buildHeight).width (geometry buildxLoc buildyLoc buildWidth buildHeight).height
        (geometry buildxLoc buildyLoc buildWidth buildHeight).R0x (geometry buildxLoc buildyLoc buildWidth buildHeight).R0y (geometry buildxLoc buildyLoc buildWidth buildHeight).R0Width
        (geometry buildxLoc buildyLoc buildWidth buildHeight).R0Height (geometry buildxLoc buildyLoc buildWidth buildHeight).ringCount
        (geometry buildxLoc buildyLoc buildWidth buildHeight).outlineRing = true ∧
    PushQueuesOk area rnd occupationCount (geometry buildxLoc buildyLoc buildWidth buildHeight).width (geometry buildxLoc buildyLoc buildWidth buildHeight).height
        (geometry buildxLoc buildyLoc buildWidth buildHeight).R0x (geometry buildxLoc buildyLoc buildWidth buildHeight).R0y (geometry buildxLoc buildyLoc buildWidth buildHeight).R0Width
        (geometry buildxLoc buildyLoc buildWidth buildHeight).R0Height (geometry buildxLoc buildyLoc buildWidth buildHeight).ringCount
        (geometry buildxLoc buildyLoc buildWidth buildHeight).outlineRing = true ∧
    MoveAccordingToSchematicOk area w rnd (geometry buildxLoc buildyLoc buildWidth buildHeight).width (geometry buildxLoc buildyLoc buildWidth buildHeight).height
        (geometry buildxLoc buildyLoc buildWidth buildHeight).xLoc (geometry buildxLoc buildyLoc buildWidth buildHeight).yLoc buildxLoc buildyLoc buildWidth buildHeight
        (geometry buildxLoc buildyLoc buildWidth buildHeight).R0x (geometry buildxLoc buildyLoc buildWidth buildHeight).R0y (geometry buildxLoc buildyLoc buildWidth buildHeight).R0Width
        (geometry buildxLoc buildyLoc buildWidth buildHeight).R0Height (geometry buildxLoc buildyLoc buildWidth buildHeight).ringCount
        (geometry buildxLoc buildyLoc buildWidth buildHeight).outlineRing = true ∧
    (∀ maxSearchDistance R Index : Int, 0 ≤ R → R + 1 < (geometry buildxLoc buildyLoc buildWidth buildHeight).ringCount → 0 ≤ Index →
      Index < RingLength (geometry buildxLoc buildyLoc buildWidth buildHeight).R0Width (geometry buildxLoc buildyLoc buildWidth buildHeight).R0Height R →
      1 ≤ maxSearchDistance → maxSearchDistance ≤ 6 →
      FindPushedSpotOk area rnd maxSearchDistance (geometry buildxLoc buildyLoc buildWidth buildHeight).width (geometry buildxLoc buildyLoc buildWidth buildHeight).height
        (geometry buildxLoc buildyLoc buildWidth buildHeight).R0x (geometry buildxLoc buildyLoc buildWidth buildHeight).R0y (geometry buildxLoc buildyLoc buildWidth buildHeight).R0Width
        (geometry buildxLoc buildyLoc buildWidth buildHeight).R0Height (geometry buildxLoc buildyLoc buildWidth buildHeight).ringCount R Index = true) ∧
    (∀ maxSearchDistance R Index : Int, 0 ≤ R → R < (geometry buildxLoc buildyLoc buildWidth buildHeight).ringCount → 0 ≤ Index →
      maxSearchDistance ≤ RingLength (geometry buildxLoc buildyLoc buildWidth buildHeight).R0Width (geometry buildxLoc buildyLoc buildWidth buildHeight).R0Height R →
      SearchFreeSpotAtIndexOk area maxSearchDistance (geometry buildxLoc buildyLoc buildWidth buildHeight).width (geometry buildxLoc buildyLoc buildWidth buildHeight).height
        (geometry buildxLoc buildyLoc buildWidth buildHeight).R0x (geometry buildxLoc buildyLoc buildWidth buildHeight).R0y (geometry buildxLoc buildyLoc buildWidth buildHeight).R0Width
        (geometry buildxLoc buildyLoc buildWidth buildHeight).R0Height (geometry buildxLoc buildyLoc buildWidth buildHeight).ringCount R Index = true) ∧
    (∀ R prevSearchIndex : Int, 0 ≤ R → R < (geometry buildxLoc buildyLoc buildWidth buildHeight).ringCount → 0 ≤ prevSearchIndex →
      FindNextNonblockedInRingOk area (geometry buildxLoc buildyLoc buildWidth buildHeight).width (geometry buildxLoc buildyLoc buildWidth buildHeight).height
        (geometry buildxLoc buildyLoc buildWidth buildHeight).R0x (geometry buildxLoc buildyLoc buildWidth buildHeight).R0y (geometry buildxLoc buildyLoc buildWidth buildHeight).R0Width
        (geometry buildxLoc buildyLoc buildWidth buildHeight).R0Height (geometry buildxLoc buildyLoc buildWidth buildHeight).ringCount R prevSearchIndex = true) := by
  have v := geometry_valid buildxLoc buildyLoc buildWidth buildHeight hw hh
  obtain ⟨ho1, ho2⟩ := geometry_outlineRing buildxLoc buildyLoc buildWidth buildHeight hw hh
  have hlen := (RingLength_pos (geometry buildxLoc buildyLoc buildWidth buildHeight).R0Width
    (geometry buildxLoc buildyLoc buildWidth buildHeight).R0Height
    (geometry buildxLoc buildyLoc buildWidth buildHeight).outlineRing v.hW v.hH (by omega)).1
  refine ⟨?_, ?_, ?_, ?_, ?_, ?_, ?_⟩
  · unfold PushRingsOk
    exact PushRingsLoopOk_of v _ (by omega) fuel area rnd (-1) (le_refl _)
  · exact FillOutlineOk_of v _ (by omega) (by omega) area rnd occupationCount
  · unfold PushQueuesOk
    dsimp only
    exact PushQueuesLoopOk_of v _ (by omega) (by omega) _ _ _ _ _
      (random_range rnd _ (by omega)).1 _ 0 _ (le_refl _)
  · exact MoveAccordingToSchematicOk_of v area w rnd _ _ _ _ _ _ _ (by omega) (by omega)
  · intro maxSearchDistance R Index h1 h2 h3 h4 h5 h6
    exact FindPushedSpotOk_of v area rnd maxSearchDistance R Index h1 h2 h3 h4 h5 h6
  · intro maxSearchDistance R Index h1 h2 h3 h4
    exact SearchFreeSpotAtIndexOk_of v area maxSearchDistance R Index h1 h2 h3 h4
  · intro R prevSearchIndex h1 h2 h3
    exact FindNextNonblockedInRingOk_of v area R prevSearchIndex h1 h2 h3

/-- Witness for C35: the 1 x 1 footprint at `(10, 10)` with the packed buffer. -/
theorem ring_calls_are_in_order_witness :
    (1 : Int) ≤ 1 ∧ (1 : Int) ≤ 1 ∧
    (PushRingsOk 5 packedArea (fun _ => 0) (geometry 10 10 1 1).width (geometry 10 10 1 1).height
        (geometry 10 10 1 1).R0x (geometry 10 10 1 1).R0y (geometry 10 10 1 1).R0Width
        (geometry 10 10 1 1).R0Height (geometry 10 10 1 1).ringCount
        (geometry 10 10 1 1).outlineRing = true ∧
    FillOutlineOk packedArea (fun _ => 0) 1 (geometry 10 10 1 1).width (geometry 10 10 1 1).height
        (geometry 10 10 1 1).R0x (geometry 10 10 1 1).R0y (geometry 10 10 1 1).R0Width
        (geometry 10 10 1 1).R0Height (geometry 10 10 1 1).ringCount
        (geometry 10 10 1 1).outlineRing = true ∧
    PushQueuesOk packedArea (fun _ => 0) 1 (geometry 10 10 1 1).width (geometry 10 10 1 1).height
        (geometry 10 10 1 1).R0x (geometry 10 10 1 1).R0y (geometry 10 10 1 1).R0Width
        (geometry 10 10 1 1).R0Height (geometry 10 10 1 1).ringCount
        (geometry 10 10 1 1).outlineRing = true ∧
    MoveAccordingToSchematicOk packedArea loneUnitWorld (fun _ => 0) (geometry 10 10 1 1).width (geometry 10 10 1 1).height
        (geometry 10 10 1 1).xLoc (geometry 10 10 1 1).yLoc 10 10 1 1
        (geometry 10 10 1 1).R0x (geometry 10 10 1 1).R0y (geometry 10 10 1 1).R0Width
        (geometry 10 10 1 1).R0Height (geometry 10 10 1 1).ringCount
        (geometry 10 10 1 1).outlineRing = true ∧
    (∀ maxSearchDistance R Index : Int, 0 ≤ R → R + 1 < (geometry 10 10 1 1).ringCount → 0 ≤ Index →
      Index < RingLength (geometry 10 10 1 1).R0Width (geometry 10 10 1 1).R0Height R →
      1 ≤ maxSearchDistance → maxSearchDistance ≤ 6 →
      FindPushedSpotOk packedArea (fun _ => 0) maxSearchDistance (geometry 10 10 1 1).width (geometry 10 10 1 1).height
        (geometry 10 10 1 1).R0x (geometry 10 10 1 1).R0y (geometry 10 10 1 1).R0Width
        (geometry 10 10 1 1).R0Height (geometry 10 10 1 1).ringCount R Index = true) ∧
    (∀ maxSearchDistance R Index : Int, 0 ≤ R → R < (geometry 10 10 1 1).ringCount → 0 ≤ Index →
      maxSearchDistance ≤ RingLength (geometry 10 10 1 1).R0Width (geometry 10 10 1 1).R0Height R →
      SearchFreeSpotAtIndexOk packedArea maxSearchDistance (geometry 10 10 1 1).width (geometry 10 10 1 1).height
        (geometry 10 10 1 1).R0x (geometry 10 10 1 1).R0y (geometry 10 10 1 1).R0Width
        (geometry 10 10 1 1).R0Height (geometry 10 10 1 1).ringCount R Index = true) ∧
    (∀ R prevSearchIndex : Int, 0 ≤ R → R < (geometry 10 10 1 1).ringCount → 0 ≤ prevSearchIndex →
      FindNextNonblockedInRingOk packedArea (geometry 10 10 1 1).width (geometry 10 10 1 1).height
        (geometry 10 10 1 1).R0x (geometry 10 10 1 1).R0y (geometry 10 10 1 1).R0Width
        (geometry 10 10 1 1).R0Height (geometry 10 10 1 1).ringCount R prevSearchIndex = true)) :=
  ⟨by decide, by decide,
    ring_calls_are_in_order 10 10 1 1 (by decide) (by decide) loneUnitWorld packedArea
      (fun _ => 0) 5 1⟩

/-- The checks are not trivial: position 8 of a ring of length 8, ring 3 of three rings
and a search distance of 9 in a full ring of length 8 are each found to be out of
order. -/
theorem ring_call_checks_can_fail :
    ringCallOk 5 5 2 2 1 1 3 1 8 = false ∧ ringCallOk 5 5 2 2 1 1 3 3 0 = false ∧
    ringCallOk 5 5 2 2 1 1 3 1 7 = true ∧
    SearchFreeSpotAtIndexOk (fun _ => 1) 9 5 5 2 2 1 1 3 1 0 = false ∧
    SearchFreeSpotAtIndexOk (fun _ => 1) 8 5 5 2 2 1 1 3 1 0 = true := by
  refine ⟨by decide, by decide, by decide, by decide, by decide⟩

/-! ### The closing assertion of PushRings -/

/-- One cell of a ring scan leaves `emptyRing` alone, and either leaves the count and
the `empty` flag alone as well or counts one unit more and clears the flag. -/
theorem PushRingsCell_tally (MAX_MOVE width height R0x R0y R0Width R0Height R ringLength
    startIndex i : Int) (s : PushState) :
    (PushRingsCell MAX_MOVE width height R0x R0y R0Width R0Height R ringLength startIndex i
        s).emptyRing = s.emptyRing ∧
      (((PushRingsCell MAX_MOVE width height R0x R0y R0Width R0Height R ringLength startIndex i
          s).occupationCount = s.occupationCount ∧
        (PushRingsCell MAX_MOVE width height R0x R0y R0Width R0Height R ringLength startIndex i
          s).empty = s.empty) ∨
      ((PushRingsCell MAX_MOVE width height R0x R0y R0Width R0Height R ringLength startIndex i
          s).occupationCount = s.occupationCount + 1 ∧
        (PushRingsCell MAX_MOVE width height R0x R0y R0Width R0Height R ringLength startIndex i
          s).empty = false)) := by
  unfold PushRingsCell
  dsimp only
  split_ifs
  · exact ⟨rfl, Or.inl ⟨rfl, rfl⟩⟩
  · exact ⟨rfl, Or.inr ⟨rfl, rfl⟩⟩
  · exact ⟨rfl, Or.inl ⟨rfl, rfl⟩⟩

/-- One ring of a cycle: when the ring before `R` was the last empty one exactly if the
count is zero, the same holds for `R` afterwards. -/
theorem PushRingsRing_tally (MAX_MOVE width height R0x R0y R0Width R0Height R : Int)
    (s : PushState) (h0 : 0 ≤ s.occupationCount) (hle : s.emptyRing ≤ R - 1)
    (hiff : s.emptyRing = R - 1 ↔ s.occupationCount = 0) :
    0 ≤ (PushRingsRing MAX_MOVE width height R0x R0y R0Width R0Height R s).occupationCount ∧
      (PushRingsRing MAX_MOVE width height R0x R0y R0Width R0Height R s).emptyRing ≤ R ∧
      ((PushRingsRing MAX_MOVE width height R0x R0y R0Width R0Height R s).emptyRing = R ↔
        (PushRingsRing MAX_MOVE width height R0x R0y R0Width R0Height R s).occupationCount
          = 0) := by
  have hscan := forLoop_inv'
    (fun t : PushState => t.emptyRing = s.emptyRing ∧ s.occupationCount ≤ t.occupationCount ∧
      (t.empty = true ↔ t.occupationCount = s.occupationCount))
    (PushRingsCell MAX_MOVE width height R0x R0y R0Width R0Height R
      (RingLength R0Width R0Height R) (s.rnd.random (RingLength R0Width R0Height R)))
    (RingLength R0Width R0Height R).toNat 0
    { s with rnd := s.rnd.next, empty := true }
    (by
      intro i t _ _ ht
      obtain ⟨ht1, ht2, ht3⟩ := ht
      have hc := PushRingsCell_tally MAX_MOVE width height R0x R0y R0Width R0Height R
        (RingLength R0Width R0Height R) (s.rnd.random (RingLength R0Width R0Height R)) i t
      obtain ⟨hc1, hc2⟩ := hc
      rcases hc2 with ⟨ho, he⟩ | ⟨ho, he⟩
      · refine ⟨by rw [hc1, ht1], by rw [ho]; exact ht2, ?_⟩
        rw [he, ho]; exact ht3
      · refine ⟨by rw [hc1, ht1], by rw [ho]; omega, ?_⟩
        rw [he, ho]
        constructor
        · intro h; exact absurd h (by decide)
        · intro h; omega)
    ⟨rfl, le_refl _, by simp⟩
  obtain ⟨h1, h2, h3⟩ := hscan
  unfold PushRingsRing
  dsimp only
  generalize forLoop (PushRingsCell MAX_MOVE width height R0x R0y R0Width R0Height R
      (RingLength R0Width R0Height R) (s.rnd.random (RingLength R0Width R0Height R)))
      (RingLength R0Width R0Height R).toNat 0
      { s with rnd := s.rnd.next, empty := true } = s1 at *
  by_cases hc : s1.empty = true ∧ s1.emptyRing = R - 1
  · rw [if_pos hc]
    dsimp only
    have : s1.occupationCount = s.occupationCount := h3.mp hc.1
    have : s.occupationCount = 0 := hiff.mp (by rw [← h1]; exact hc.2)
    refine ⟨by omega, le_refl _, ?_⟩
    constructor
    · intro _; omega
    · intro _; trivial
  · rw [if_neg hc]
    refine ⟨by omega, by omega, ?_⟩
    constructor
    · intro h; omega
    · intro h
      exfalso
      apply hc
      have hs0 : s.occupationCount = 0 := by omega
      exact ⟨h3.mpr (by omega), by rw [h1]; exact hiff.mpr hs0⟩

/-- At the end of a cycle the count is zero exactly if every ring inside the outline
ring is empty: the two sides of the closing assertion agree. -/
theorem PushRingsCycle_tally (area : Area) (rnd : RandSource)
    (MAX_MOVE width height R0x R0y R0Width R0Height outlineRing emptyRing : Int) :
    0 ≤ (PushRingsCycle area rnd MAX_MOVE width height R0x R0y R0Width R0Height outlineRing
        emptyRing).occupationCount ∧
      ((PushRingsCycle area rnd MAX_MOVE width height R0x R0y R0Width R0Height outlineRing
        emptyRing).occupationCount = 0 ↔
      (PushRingsCycle area rnd MAX_MOVE width height R0x R0y R0Width R0Height outlineRing
        emptyRing).emptyRing + 1 ≥ outlineRing) := by
  have hinv := forLoop_inv
    (fun R (t : PushState) => 0 ≤ t.occupationCount ∧ t.emptyRing ≤ R - 1 ∧
      (t.emptyRing = R - 1 ↔ t.occupationCount = 0))
    (PushRingsRing MAX_MOVE width height R0x R0y R0Width R0Height)
    (outlineRing - (emptyRing + 1)).toNat (emptyRing + 1)
    { area := area, rnd := rnd, emptyRing := emptyRing, occupationCount := 0,
      pushed := false, empty := true }
    (by
      intro R t _ _ ht
      obtain ⟨ht1, ht2, ht3⟩ := ht
      have hr := PushRingsRing_tally MAX_MOVE width height R0x R0y R0Width R0Height R t
        ht1 ht2 ht3
      obtain ⟨hr1, hr2, hr3⟩ := hr
      refine ⟨hr1, by omega, ?_⟩
      rw [show R + 1 - 1 = R by ring]
      exact hr3)
    ⟨le_refl _, by dsimp only; omega, by dsimp only; constructor <;> intro _ <;> [rfl; omega]⟩
  by_cases hc : emptyRing + 1 ≤ outlineRing
  · unfold PushRingsCycle
    generalize forLoop (PushRingsRing MAX_MOVE width height R0x R0y R0Width R0Height)
      (outlineRing - (emptyRing + 1)).toNat (emptyRing + 1)
      { area := area, rnd := rnd, emptyRing := emptyRing, occupationCount := 0,
        pushed := false, empty := true } = t at *
    obtain ⟨h1, h2, h3⟩ := hinv
    refine ⟨h1, ?_⟩
    have hn : ((outlineRing - (emptyRing + 1)).toNat : Int) = outlineRing - (emptyRing + 1) :=
      Int.toNat_of_nonneg (by omega)
    rw [hn] at h2 h3
    constructor
    · intro h; have := h3.mpr h; omega
    · intro h; exact h3.mp (by omega)
  · have hn : (outlineRing - (emptyRing + 1)).toNat = 0 := by omega
    unfold PushRingsCycle
    rw [hn]
    simp only [forLoop]
    refine ⟨le_refl _, ?_⟩
    constructor
    · intro _; omega
    · intro _; trivial

/-- The result of `PushRings` is read off the variables at the end of its loop. -/
theorem PushRingsLoop_exit (MAX_MOVE width height R0x R0y R0Width R0Height outlineRing : Int) :
    ∀ (fuel : Nat) (area : Area) (rnd : RandSource) (emptyRing : Int),
      PushRingsLoop MAX_MOVE width height R0x R0y R0Width R0Height outlineRing fuel area rnd
          emptyRing =
        (PushRingsLoopExit MAX_MOVE width height R0x R0y R0Width R0Height outlineRing fuel area
          rnd emptyRing).map (fun s => (s.occupationCount, s.area, s.rnd)) := by
  intro fuel
  induction fuel with
  | zero => intro area rnd emptyRing; rfl
  | succ n ih =>
    intro area rnd emptyRing
    unfold PushRingsLoop PushRingsLoopExit
    dsimp only
    split_ifs
    · exact ih _ _ _
    · rfl

/-- Whenever the loop of `PushRings` ends, the two sides of its closing assertion
agree. -/
theorem PushRingsLoopExit_tally (MAX_MOVE width height R0x R0y R0Width R0Height
    outlineRing : Int) :
    ∀ (fuel : Nat) (area : Area) (rnd : RandSource) (emptyRing : Int) (s : PushState),
      PushRingsLoopExit MAX_MOVE width height R0x R0y R0Width R0Height outlineRing fuel area
          rnd emptyRing = some s →
        0 ≤ s.occupationCount ∧ (s.occupationCount = 0 ↔ s.emptyRing + 1 ≥ outlineRing) := by
  intro fuel
  induction fuel with
  | zero => intro area rnd emptyRing s h; simp [PushRingsLoopExit] at h
  | succ n ih =>
    intro area rnd emptyRing s h
    unfold PushRingsLoopExit at h
    dsimp only at h
    split_ifs at h
    · exact ih _ _ _ s h
    · have hs := Option.some.inj h
      rw [← hs]
      exact PushRingsCycle_tally area rnd MAX_MOVE width height R0x R0y R0Width R0Height
        outlineRing emptyRing

/-- C37: the closing assertion of `PushRings`,
`(occupationCount == 0) == (emptyRing+1 >= outlineRing)`, holds whenever the pushing
loop ends.  For the rings of an accepted footprint and every buffer and random source
the loop ends (with the fuel `width * height * ringCount + 1` or more): the variables
at its end exist, `PushRings` returns the count among them, and the assertion
evaluates to true on them.  And for any fuel, any parameters and any exit state the
assertion is true: the count is not negative, and it is zero exactly if
`emptyRing + 1 >= outlineRing`. -/
theorem push_rings_closing_assertion_holds {width height R0x R0y R0Width R0Height
    ringCount : Int} (v : ValidRings width height R0x R0y R0Width R0Height ringCount)
    (outlineRing : Int) (ho : outlineRing < ringCount) (area : Area) (rnd : RandSource) :
    (∀ fuel, (width * height * ringCount).toNat + 1 ≤ fuel →
      ∃ s, PushRingsLoopExit 3 width height R0x R0y R0Width R0Height outlineRing fuel area rnd
            (-1) = some s ∧
        PushRings fuel area rnd width height R0x R0y R0Width R0Height outlineRing =
          some (s.occupationCount, s.area, s.rnd) ∧
        PushRingsClosingAssert s outlineRing = true) ∧
    (∀ fuel s, PushRingsLoopExit 3 width height R0x R0y R0Width R0Height outlineRing fuel area
        rnd (-1) = some s →
      PushRingsClosingAssert s outlineRing = true ∧ 0 ≤ s.occupationCount ∧
        (s.occupationCount = 0 ↔ s.emptyRing + 1 ≥ outlineRing)) := by
  have hall : ∀ fuel s, PushRingsLoopExit 3 width height R0x R0y R0Width R0Height outlineRing
      fuel area rnd (-1) = some s →
      PushRingsClosingAssert s outlineRing = true ∧ 0 ≤ s.occupationCount ∧
        (s.occupationCount = 0 ↔ s.emptyRing + 1 ≥ outlineRing) := by
    intro fuel s hs
    have ht := PushRingsLoopExit_tally 3 width height R0x R0y R0Width R0Height outlineRing
      fuel area rnd (-1) s hs
    refine ⟨?_, ht.1, ht.2⟩
    unfold PushRingsClosingAssert
    rw [beq_iff_eq, decide_eq_decide]
    exact ht.2
  refine ⟨?_, hall⟩
  intro fuel hfuel
  obtain ⟨r, hr⟩ := PushRings_returns v outlineRing ho area rnd
  have hr2 := hr fuel hfuel
  have hmap := PushRingsLoop_exit 3 width height R0x R0y R0Width R0Height outlineRing fuel
    area rnd (-1)
  unfold PushRings at hr2 ⊢
  rw [hmap] at hr2 ⊢
  cases hx : PushRingsLoopExit 3 width height R0x R0y R0Width R0Height outlineRing fuel area
      rnd (-1) with
  | none => rw [hx] at hr2; simp at hr2
  | some s =>
    exact ⟨s, rfl, rfl, (hall fuel s hx).1⟩

/-- Witness for C37: the rings of a 1x1 footprint, starting from the packed buffer. -/
theorem push_rings_closing_assertion_holds_witness :
    ValidRings 5 5 2 2 1 1 3 ∧ (1 : Int) < 3 ∧
    ((∀ fuel, ((5 : Int) * 5 * 3).toNat + 1 ≤ fuel →
      ∃ s, PushRingsLoopExit 3 5 5 2 2 1 1 1 fuel packedArea (fun _ => 0) (-1) = some s ∧
        PushRings fuel packedArea (fun _ => 0) 5 5 2 2 1 1 1 =
          some (s.occupationCount, s.area, s.rnd) ∧
        PushRingsClosingAssert s 1 = true) ∧
    (∀ fuel s, PushRingsLoopExit 3 5 5 2 2 1 1 1 fuel packedArea (fun _ => 0) (-1) = some s →
      PushRingsClosingAssert s 1 = true ∧ 0 ≤ s.occupationCount ∧
        (s.occupationCount = 0 ↔ s.emptyRing + 1 ≥ 1))) :=
  ⟨validRings_five, by decide,
    push_rings_closing_assertion_holds validRings_five 1 (by decide) packedArea (fun _ => 0)⟩

/-! ### The one target of a unit left inside -/

end VacateArea

end SevenKingdoms
